import Mathlib

/-!
# QCOW2 iSCSI target: a verification development

A shallow embedding of the QCOW2 engine of `arms/qcow2target` (package `qcow2`)
and theorems about it.  Go's fixed-width unsigned integers are natural numbers
reduced modulo `2 ^ 32` or `2 ^ 64` wherever the Go arithmetic can wrap; a Go
runtime panic (integer division by zero) is the outcome `Outcome.crash`.

Part I holds the definitions, Part II the lemmas and theorems.
-/

namespace Qcow2

/-! ## Part I: definitions -/

/-! ### Outcomes of Go calls -/

/-- The errors the package returns, one constructor per error value or message. -/
inductive Err where
  | ioFailure
  | invalidMagic
  | invalidVersion
  | backingFileZeroOffsetNameLengthNotZero
  | backingFileNameNonZeroOffsetZeroLength
  | backingFileNameTooLong
  | invalidClusterBits
  | virtualDiskSizeTooLarge
  | unsupportedCryptMethod
  | l1TableTooLarge
  | l1TableOffsetBeyondVirtualSize
  | noReferenceCountTableClusters
  | snapshotsUnsupported
  | compressionNotSupported
  | externalDataFileNotSupported
  | extendedL2EntriesNotSupported
  | rawExternalDataNotSupported
  | bitmapExtensionsNotSupported
  | invalidReferenceCountOrder
  | invalidHeaderLength
  | offsetIsNotAClusterBoundary
  | tooManyReferenceCountTableClusters
  | referenceCountTableTooLarge
  | tooManyL2Clusters
  | backingFilePathTooLong
  | headerWrite
  | writeAttemptToReadOnlyDisk
  | attemptToSyncReadOnlyFile
  | attemptToTruncateReadOnlyFile
  | readOnlyImageBrokenReferenceCounts
  | addressBeyondVirtualSize
  | wrongNewClusterAddress
  | initialDataTooSmall
  | compressedClustersNotSupported
  | invalidClusterSize
  | recursionDepthExceeded
  | invalidReferenceCountTableSize
  | invalidReferenceCountOffset
  | wrongReferenceCountIndex
  | notEnoughSpaceForReferenceCounts
  | emptyList
  | brokenList
  | inconsistentCache
  | zeroAddressWhileFlushing
  | sumOverflow
  | unexpectedCommandSerialNumber
  | pending
  | garbledHeader
  | transitAndContinue
  | unknownNegotiationKey
  | rejectedStage
  | noTargetFound
  | invalidRequest
  | noSession
  | handlePoolExhausted
  | callbackFailed
  | modePageNotFound
  | backingStoreFailure
  | needPointerCluster
  deriving DecidableEq, Repr

/-- What a Go call produces: a value, a returned error, or a runtime panic. -/
inductive Outcome (α : Type) where
  | ok (a : α)
  | error (e : Err)
  | crash
  deriving DecidableEq, Repr

/-- Sequencing of Go calls: an error or a panic ends the computation. -/
def Outcome.bind {α β : Type} (x : Outcome α) (f : α → Outcome β) : Outcome β :=
  match x with
  | .ok a => f a
  | .error e => .error e
  | .crash => .crash

instance : Monad Outcome where
  pure := Outcome.ok
  bind := Outcome.bind

/-- The value was produced. -/
def Outcome.isOk {α : Type} : Outcome α → Bool
  | .ok _ => true
  | _ => false

/-- An error was returned to the caller (no panic, no value). -/
def Outcome.isError {α : Type} : Outcome α → Bool
  | .error _ => true
  | _ => false

/-- The header validation failures ("format errors" of the image). -/
def Err.isFormat : Err → Bool
  | .invalidMagic | .invalidVersion | .backingFileZeroOffsetNameLengthNotZero
  | .backingFileNameNonZeroOffsetZeroLength | .backingFileNameTooLong
  | .invalidClusterBits | .virtualDiskSizeTooLarge | .unsupportedCryptMethod
  | .l1TableTooLarge | .l1TableOffsetBeyondVirtualSize | .noReferenceCountTableClusters
  | .snapshotsUnsupported | .compressionNotSupported | .externalDataFileNotSupported
  | .extendedL2EntriesNotSupported | .rawExternalDataNotSupported
  | .bitmapExtensionsNotSupported | .invalidReferenceCountOrder | .invalidHeaderLength
  | .offsetIsNotAClusterBoundary | .tooManyReferenceCountTableClusters
  | .referenceCountTableTooLarge | .tooManyL2Clusters => true
  | _ => false

/-! ### Machine integers -/

/-- Reduction to `uint32`. -/
def wrap32 (n : Nat) : Nat := n % 4294967296

/-- Reduction to `uint64`. -/
def wrap64 (n : Nat) : Nat := n % 18446744073709551616

/-- Subtraction in `uint64`, of operands below `2 ^ 64`: it wraps around below zero. -/
def sub64 (a b : Nat) : Nat := if b ≤ a then a - b else a + 18446744073709551616 - b

/-- Subtraction in `uint32`, of operands below `2 ^ 32`: it wraps around below zero. -/
def sub32 (a b : Nat) : Nat := if b ≤ a then a - b else a + 4294967296 - b

/-- The `divRoundUp[uint64]` of `util.go`: `(dividend + divisor - 1) / divisor` in `uint64`;
the division panics on a zero divisor. -/
def divRoundUp64 (dividend divisor : Nat) : Outcome Nat :=
  if divisor = 0 then .crash
  else .ok (wrap64 (dividend + divisor - 1) / divisor)

/-- The `divRoundUp[uint32]` of `util.go`. -/
def divRoundUp32 (dividend divisor : Nat) : Outcome Nat :=
  if divisor = 0 then .crash
  else .ok (wrap32 (dividend + divisor - 1) / divisor)

/-- The `getClusterSize` of `util.go`: `uint64(1 << clusterBits)`, zero for a shift of 64 or more. -/
def getClusterSize (clusterBits : Nat) : Nat := wrap64 (2 ^ clusterBits)

/-! ### Bytes and big-endian codecs -/

/-- One byte. -/
abbrev Byte := Fin 256

/-- The low byte of a number. -/
def lowByte (n : Nat) : Byte := ⟨n % 256, Nat.mod_lt _ (by decide)⟩

/-- The `uint16ToByte` of `util.go`. -/
def uint16ToByte (v : Nat) : List Byte := [lowByte (v / 256), lowByte v]

/-- The `uint32ToByte` of `util.go`. -/
def uint32ToByte (v : Nat) : List Byte :=
  [lowByte (v / 16777216), lowByte (v / 65536), lowByte (v / 256), lowByte v]

/-- The `uint64ToByte` of `util.go`. -/
def uint64ToByte (v : Nat) : List Byte :=
  [lowByte (v / 72057594037927936), lowByte (v / 281474976710656),
   lowByte (v / 1099511627776), lowByte (v / 4294967296),
   lowByte (v / 16777216), lowByte (v / 65536), lowByte (v / 256), lowByte v]

/-- Big-endian value of a byte string (`binary.BigEndian`). -/
def beValue (bs : List Byte) : Nat := bs.foldl (fun acc b => acc * 256 + b.val) 0

/-! ### Files -/

/-- A file: its length and its bytes.  Only the bytes below `size` are ever consulted
(`File.get`), so a hole left by a write past the end reads as zeros. -/
structure File where
  size : Nat
  data : Nat → Byte

/-- The byte at position `p`, zero at and past the end. -/
def File.get (f : File) (p : Nat) : Byte := if p < f.size then f.data p else 0

/-- A newly created file. -/
def File.empty : File := { size := 0, data := fun _ => 0 }

/-- The file with the given content. -/
def File.ofList (bs : List Byte) : File := { size := bs.length, data := fun p => bs.getD p 0 }

/-- The `n` bytes from position `pos`. -/
def File.bytes (f : File) (pos n : Nat) : List Byte := (List.range n).map fun i => f.get (pos + i)

/-- A positional write (`pwrite`): the file grows when the data ends past its end, the hole
reads as zeros; writing nothing changes nothing. -/
def File.write (f : File) (pos : Nat) (bs : List Byte) : File :=
  if bs.length = 0 then f
  else
    { size := max f.size (pos + bs.length)
      data := fun p => if pos ≤ p ∧ p < pos + bs.length then bs.getD (p - pos) 0 else f.get p }

/-- The `Truncate` of `os.File`: cut or extend (with zeros) to `n` bytes. -/
def File.truncate (f : File) (n : Nat) : File := { size := n, data := fun p => f.get p }

/-- A `Read` of exactly `n > 0` bytes at the position `pos` of the descriptor
(`binary.Read`, `io.ReadFull`): fails when fewer bytes are left. -/
def readFull (f : File) (pos n : Nat) : Outcome (List Byte × Nat) :=
  if pos + n ≤ f.size then .ok (f.bytes pos n, pos + n) else .error .ioFailure

/-- The `binary.Read` of a big-endian `uint8`. -/
def binaryRead8 (f : File) (pos : Nat) : Outcome (Nat × Nat) :=
  (readFull f pos 1).bind fun r => .ok (beValue r.1, r.2)

/-- The `binary.Read` of a big-endian `uint16`. -/
def binaryRead16 (f : File) (pos : Nat) : Outcome (Nat × Nat) :=
  (readFull f pos 2).bind fun r => .ok (beValue r.1, r.2)

/-- The `binary.Read` of a big-endian `uint32`. -/
def binaryRead32 (f : File) (pos : Nat) : Outcome (Nat × Nat) :=
  (readFull f pos 4).bind fun r => .ok (beValue r.1, r.2)

/-- The `binary.Read` of a big-endian `uint64`. -/
def binaryRead64 (f : File) (pos : Nat) : Outcome (Nat × Nat) :=
  (readFull f pos 8).bind fun r => .ok (beValue r.1, r.2)

/-- The `Seek(offset, 0)` of `os.File` with `offset = int64(u)`: a negative offset is refused. -/
def seekStart (u : Nat) : Outcome Nat :=
  if u < 9223372036854775808 then .ok u else .error .ioFailure

/-! ### The image header (`qcow2header.go`) -/

/-- The constant `QcowMagic`. -/
def QcowMagic : Nat := 0x514649fb

/-- The constant `maxBackingFileNameSize`. -/
def maxBackingFileNameSize : Nat := 1023

/-- The constant `MinClusterBits`. -/
def MinClusterBits : Nat := 9

/-- The constant `DefaultClusterBits`. -/
def DefaultClusterBits : Nat := 16

/-- The constant `MaxClusterBits`. -/
def MaxClusterBits : Nat := 30

/-- The constant `L1TableMaxSize` (32 Mi). -/
def L1TableMaxSize : Nat := 32 * 1024 * 1024

/-- The constant `ClusterAddressSize`. -/
def ClusterAddressSize : Nat := 8

/-- The constant `DefaultRefcountOrder`. -/
def DefaultRefcountOrder : Nat := 4

/-- The constant `V3BareHeaderSize`. -/
def V3BareHeaderSize : Nat := 104

/-- The constant `EmptyHeaderExtensionAreaSize`. -/
def EmptyHeaderExtensionAreaSize : Nat := 8

/-- Bit 0 of the incompatible features. -/
def incompatibleFeaturesDirtyBit : Nat := 1

/-- Bit 1 of the incompatible features. -/
def incompatibleFeaturesCorruptBit : Nat := 2

/-- Bit 2 of the incompatible features. -/
def incompatibleFeaturesExternalDataFileBit : Nat := 4

/-- Bit 3 of the incompatible features. -/
def incompatibleFeaturesCompressionTypeBit : Nat := 8

/-- Bit 4 of the incompatible features. -/
def incompatibleFeaturesExtendedL2EntriesBit : Nat := 16

/-- Bit 0 of the compatible features. -/
def compatibleFeaturesLazyRefcounts : Nat := 1

/-- Bit 0 of the auto-clear features. -/
def autoClearFeaturesBitmapsExtension : Nat := 1

/-- Bit 1 of the auto-clear features. -/
def autoClearFeaturesRawExternalData : Nat := 2

/-- The struct `ImageHeader`: the stored fields, then the derived ones. -/
structure ImageHeader where
  magic : Nat
  versionNumber : Nat
  backingFileOffset : Nat
  backingFileSize : Nat
  clusterBits : Nat
  virtualDiskSizeBytes : Nat
  cryptMethod : Nat
  l1Size : Nat
  l1TableOffset : Nat
  refCountTableOffset : Nat
  refCountTableClusters : Nat
  nbSnapshots : Nat
  snapshotOffset : Nat
  incompatibleFeatures : Nat
  compatibleFeatures : Nat
  autoClearFeatures : Nat
  refCountOrder : Nat
  Length : Nat
  compressionType : Nat
  clusterSize : Nat
  imageCorrupt : Bool
  imageRefCountDirty : Bool
  lazyRefcounts : Bool
  backingFilePath : Option (List Byte)
  numClusters : Nat
  l2Size : Nat
  numL2Clusters : Nat
  l1Clusters : Nat
  refCountClustersNumberComputed : Nat
  deriving DecidableEq, Repr

/-- The method `diskSizeLimitForCluster`, evaluated left to right in `uint64`. -/
def ImageHeader.diskSizeLimitForCluster (header : ImageHeader) : Nat :=
  wrap64 (wrap64 (L1TableMaxSize * header.clusterSize) * header.clusterSize)
    / ClusterAddressSize / ClusterAddressSize

/-- A Go `error` result: `ok ()` is `nil`. -/
abbrev Check := Except Err Unit

/-- The method `validateMagic`. -/
def ImageHeader.validateMagic (header : ImageHeader) : Check :=
  if header.magic ≠ QcowMagic then .error .invalidMagic else .ok ()

/-- The method `validateVersionNumber`. -/
def ImageHeader.validateVersionNumber (header : ImageHeader) : Check :=
  if header.versionNumber ≠ 3 then .error .invalidVersion else .ok ()

/-- The method `validateBackingFileSizeOffset`. -/
def ImageHeader.validateBackingFileSizeOffset (header : ImageHeader) : Check :=
  if header.backingFileOffset = 0 ∧ header.backingFileSize > 0 then
    .error .backingFileZeroOffsetNameLengthNotZero
  else if header.backingFileSize = 0 ∧ header.backingFileOffset > 0 then
    .error .backingFileNameNonZeroOffsetZeroLength
  else if header.backingFileSize > maxBackingFileNameSize then
    .error .backingFileNameTooLong
  else .ok ()

/-- The method `validateClusterBits`. -/
def ImageHeader.validateClusterBits (header : ImageHeader) : Check :=
  if header.clusterBits < MinClusterBits ∨ header.clusterBits > MaxClusterBits then
    .error .invalidClusterBits
  else .ok ()

/-- The method `validateVirtualDiskSize`. -/
def ImageHeader.validateVirtualDiskSize (header : ImageHeader) : Check :=
  if header.virtualDiskSizeBytes > header.diskSizeLimitForCluster then
    .error .virtualDiskSizeTooLarge
  else .ok ()

/-- The method `validateCryptMethod`. -/
def ImageHeader.validateCryptMethod (header : ImageHeader) : Check :=
  if header.cryptMethod ≠ 0 then .error .unsupportedCryptMethod else .ok ()

/-- The method `validateL1TableSize`. -/
def ImageHeader.validateL1TableSize (header : ImageHeader) : Check :=
  if header.l1Size > L1TableMaxSize then .error .l1TableTooLarge else .ok ()

/-- The method `validateL1TableOffset`. -/
def ImageHeader.validateL1TableOffset (header : ImageHeader) : Check :=
  if header.l1TableOffset > header.virtualDiskSizeBytes then
    .error .l1TableOffsetBeyondVirtualSize
  else .ok ()

/-- The method `validateRefCountTableClusters`. -/
def ImageHeader.validateRefCountTableClusters (header : ImageHeader) : Check :=
  if header.refCountTableClusters = 0 then .error .noReferenceCountTableClusters else .ok ()

/-- The method `validateNbSnapshots`. -/
def ImageHeader.validateNbSnapshots (header : ImageHeader) : Check :=
  if header.nbSnapshots ≠ 0 then .error .snapshotsUnsupported else .ok ()

/-- The method `validateIncompatibleFeatures` (pointer receiver): it raises the corrupt and
dirty flags of the header it is called on, and returns that header with the verdict. -/
def ImageHeader.validateIncompatibleFeatures (header : ImageHeader) : ImageHeader × Check :=
  let h1 := if header.incompatibleFeatures &&& incompatibleFeaturesCorruptBit ≠ 0 then
      { header with imageCorrupt := true } else header
  let h2 := if h1.incompatibleFeatures &&& incompatibleFeaturesDirtyBit ≠ 0 then
      { h1 with imageRefCountDirty := true } else h1
  if h2.incompatibleFeatures &&& incompatibleFeaturesCompressionTypeBit ≠ 0 then
    (h2, .error .compressionNotSupported)
  else if h2.incompatibleFeatures &&& incompatibleFeaturesExternalDataFileBit ≠ 0 then
    (h2, .error .externalDataFileNotSupported)
  else if h2.incompatibleFeatures &&& incompatibleFeaturesExtendedL2EntriesBit ≠ 0 then
    (h2, .error .extendedL2EntriesNotSupported)
  else (h2, .ok ())

/-- The method `validateAutoClearFeatures`. -/
def ImageHeader.validateAutoClearFeatures (header : ImageHeader) : Check :=
  if header.autoClearFeatures &&& autoClearFeaturesRawExternalData ≠ 0 then
    .error .rawExternalDataNotSupported
  else if header.autoClearFeatures &&& autoClearFeaturesBitmapsExtension ≠ 0 then
    .error .bitmapExtensionsNotSupported
  else .ok ()

/-- The method `validateRefCountOrder`. -/
def ImageHeader.validateRefCountOrder (header : ImageHeader) : Check :=
  if header.refCountOrder ≠ 4 then .error .invalidReferenceCountOrder else .ok ()

/-- The method `validateHeaderLength`. -/
def ImageHeader.validateHeaderLength (header : ImageHeader) : Check :=
  if header.Length < V3BareHeaderSize then .error .invalidHeaderLength else .ok ()

/-- The `offsetIsClusterBoundary` of `util.go`: `offset & (clusterSize - 1) != 0` is an error. -/
def offsetIsClusterBoundary (offset clusterSize : Nat) : Check :=
  if offset &&& sub64 clusterSize 1 ≠ 0 then
    .error .offsetIsNotAClusterBoundary
  else .ok ()

/-- The method `checkOffsetsForClusterBoundaries`. -/
def ImageHeader.checkOffsetsForClusterBoundaries (header : ImageHeader) : Check := do
  offsetIsClusterBoundary header.l1TableOffset header.clusterSize
  offsetIsClusterBoundary header.snapshotOffset header.clusterSize
  offsetIsClusterBoundary header.refCountTableOffset header.clusterSize

/-- The `maxRefCountClusters` of `qcow2header.go`, in `uint32`. -/
def maxRefCountClusters (numClusters numL2Clusters l1Clusters clusterSize : Nat) : Outcome Nat := do
  let refcountBytes := wrap32 (2 ^ DefaultRefcountOrder) / 8
  let headerClusters := 1
  let numberOfClusters := wrap32 (wrap32 (wrap32 (numClusters + numL2Clusters) + l1Clusters)
    + headerClusters)
  let refCountClustersForData ← divRoundUp32 (wrap32 (numberOfClusters * refcountBytes)) clusterSize
  let refCountClustersForRefCounts ←
    divRoundUp32 (wrap32 (refCountClustersForData * refcountBytes)) clusterSize
  pure (wrap32 (refCountClustersForData + refCountClustersForRefCounts))

/-- The `findRefcountTableClustersNumber` of `qcow2header.go`. -/
def findRefcountTableClustersNumber (numClusters numL2Clusters l1Clusters clusterSize : Nat) :
    Outcome Nat := do
  let maxClusters ← maxRefCountClusters numClusters numL2Clusters l1Clusters clusterSize
  let uint64Size := 8
  divRoundUp32 (wrap32 (maxClusters * uint64Size)) clusterSize

/-- The method `preComputeTableSizes`: the derived sizes, in the order the Go code computes
them; a zero divisor panics. -/
def ImageHeader.preComputeTableSizes (header : ImageHeader) : Outcome ImageHeader := do
  let numClusters ← divRoundUp64 header.virtualDiskSizeBytes header.clusterSize
  let h1 := { header with numClusters := wrap32 numClusters }
  let h2 := { h1 with l2Size := wrap32 (h1.clusterSize / 8) }
  let numL2Clusters ← divRoundUp32 h2.numClusters h2.l2Size
  let h3 := { h2 with numL2Clusters := numL2Clusters }
  let l1Clusters ← divRoundUp32 h3.numL2Clusters (wrap32 h3.clusterSize)
  let h4 := { h3 with l1Clusters := l1Clusters }
  let computed ← findRefcountTableClustersNumber h4.numClusters h4.numL2Clusters h4.l1Clusters
    (wrap32 h4.clusterSize)
  pure { h4 with refCountClustersNumberComputed := computed }

/-- The method `refcountTableSizeSanityCheck`. -/
def ImageHeader.refcountTableSizeSanityCheck (header : ImageHeader) : Check :=
  if header.refCountTableClusters > wrap32 (2 * header.refCountClustersNumberComputed) then
    .error .tooManyReferenceCountTableClusters
  else if wrap32 (header.l1Clusters + header.refCountClustersNumberComputed) > L1TableMaxSize then
    .error .referenceCountTableTooLarge
  else .ok ()

/-- The method `validateNumberOfL2Clusters`. -/
def ImageHeader.validateNumberOfL2Clusters (header : ImageHeader) : Check :=
  if header.numL2Clusters > L1TableMaxSize then .error .tooManyL2Clusters else .ok ()

/-- The method `validate` (value receiver): the checks in the order of the source.  The flags
that `validateIncompatibleFeatures` raises are raised on the copy `validate` works on and
are dropped with it. -/
def ImageHeader.validate (header : ImageHeader) : Check := do
  header.validateMagic
  header.validateVersionNumber
  header.validateBackingFileSizeOffset
  header.validateClusterBits
  header.validateVirtualDiskSize
  header.validateCryptMethod
  header.validateL1TableSize
  header.validateL1TableOffset
  header.validateRefCountTableClusters
  header.validateNbSnapshots
  let (header, verdict) := header.validateIncompatibleFeatures
  verdict
  header.validateAutoClearFeatures
  header.validateRefCountOrder
  header.validateHeaderLength
  header.checkOffsetsForClusterBoundaries
  header.validateNumberOfL2Clusters
  header.refcountTableSizeSanityCheck

/-- A Go `error` result as an outcome. -/
def Outcome.ofCheck (c : Check) : Outcome Unit :=
  match c with
  | .ok () => .ok ()
  | .error e => .error e

/-- The method `toByte`. -/
def ImageHeader.toByte (header : ImageHeader) : List Byte :=
  let bytes := uint32ToByte header.magic
    ++ uint32ToByte header.versionNumber
    ++ uint64ToByte header.backingFileOffset
    ++ uint32ToByte header.backingFileSize
    ++ uint32ToByte header.clusterBits
    ++ uint64ToByte header.virtualDiskSizeBytes
    ++ uint32ToByte header.cryptMethod
    ++ uint32ToByte header.l1Size
    ++ uint64ToByte header.l1TableOffset
    ++ uint64ToByte header.refCountTableOffset
    ++ uint32ToByte header.refCountTableClusters
    ++ uint32ToByte header.nbSnapshots
    ++ uint64ToByte header.snapshotOffset
    ++ uint64ToByte header.incompatibleFeatures
    ++ uint64ToByte header.compatibleFeatures
    ++ uint64ToByte header.autoClearFeatures
    ++ uint32ToByte header.refCountOrder
    ++ uint32ToByte header.Length
  if header.Length = 104 then bytes
  else bytes ++ [lowByte header.compressionType, 0, 0, 0, 0, 0, 0, 0]

/-- The block of `imageHeaderFromFile` that reads the compression type: one byte after the
104 bare header bytes, present only when the header is longer. -/
def readCompressionType (file : File) (pos headerLength : Nat) : Outcome Nat :=
  if headerLength > V3BareHeaderSize then (binaryRead8 file pos).bind fun r => .ok r.1
  else .ok 0

/-- The block of `imageHeaderFromFile` that reads the backing-file path: `backingFileSize`
bytes at `backingFileOffset`, when both are non-zero. -/
def readBackingFilePath (file : File) (backingFileOffset backingFileSize : Nat) :
    Outcome (Option (List Byte)) :=
  if backingFileOffset ≠ 0 ∧ backingFileSize ≠ 0 then
    (seekStart backingFileOffset).bind fun pos =>
      (readFull file pos backingFileSize).bind fun r => .ok (some r.1)
  else .ok none

/-- The first part of `imageHeaderFromFile`: the sequential reads of the stored fields and of
the backing-file path, and the struct literal built from them (derived sizes still zero). -/
def readHeaderFields (file : File) : Outcome ImageHeader := do
  let pos ← seekStart 0
  let (magic, pos) ← binaryRead32 file pos
  let (versionNumber, pos) ← binaryRead32 file pos
  let (backingFileOffset, pos) ← binaryRead64 file pos
  let (backingFileSize, pos) ← binaryRead32 file pos
  let (clusterBits, pos) ← binaryRead32 file pos
  let (virtualDiskSizeBytes, pos) ← binaryRead64 file pos
  let (cryptMethod, pos) ← binaryRead32 file pos
  let (l1Size, pos) ← binaryRead32 file pos
  let (l1TableOffset, pos) ← binaryRead64 file pos
  let (refCountTableOffset, pos) ← binaryRead64 file pos
  let (refCountTableClusters, pos) ← binaryRead32 file pos
  let (nbSnapshots, pos) ← binaryRead32 file pos
  let (snapshotOffset, pos) ← binaryRead64 file pos
  let (incompatibleFeatures, pos) ← binaryRead64 file pos
  let (compatibleFeatures, pos) ← binaryRead64 file pos
  let (autoClearFeatures, pos) ← binaryRead64 file pos
  let (refCountOrder, pos) ← binaryRead32 file pos
  let (headerLength, pos) ← binaryRead32 file pos
  let compressionType ← readCompressionType file pos headerLength
  let backingFilePath ← readBackingFilePath file backingFileOffset backingFileSize
  pure {
    magic := magic
    versionNumber := versionNumber
    backingFileOffset := backingFileOffset
    backingFileSize := backingFileSize
    clusterBits := clusterBits
    virtualDiskSizeBytes := virtualDiskSizeBytes
    cryptMethod := cryptMethod
    l1Size := l1Size
    l1TableOffset := l1TableOffset
    refCountTableOffset := refCountTableOffset
    refCountTableClusters := refCountTableClusters
    nbSnapshots := nbSnapshots
    snapshotOffset := snapshotOffset
    incompatibleFeatures := incompatibleFeatures
    compatibleFeatures := compatibleFeatures
    autoClearFeatures := autoClearFeatures
    refCountOrder := refCountOrder
    Length := headerLength
    compressionType := compressionType
    clusterSize := getClusterSize clusterBits
    imageCorrupt := false
    imageRefCountDirty := false
    lazyRefcounts := false
    backingFilePath := backingFilePath
    numClusters := 0
    l2Size := 0
    numL2Clusters := 0
    l1Clusters := 0
    refCountClustersNumberComputed := 0 }

/-- The function `imageHeaderFromFile`: read the fields, pre-compute the table sizes, then
validate. -/
def imageHeaderFromFile (file : File) : Outcome ImageHeader := do
  let header ← readHeaderFields file
  let header ← header.preComputeTableSizes
  Outcome.ofCheck header.validate
  pure header

/-- The function `createHeaderForSizeAndPath`. -/
def createHeaderForSizeAndPath (size : Nat) (backingFilePath : Option (List Byte)) :
    Outcome ImageHeader := do
  let clusterSize := getClusterSize DefaultClusterBits
  let l2Size := wrap32 (clusterSize / 8)
  let numClusters := wrap32 (← divRoundUp64 size clusterSize)
  let numL2Clusters ← divRoundUp32 numClusters l2Size
  let l1Clusters ← divRoundUp32 numL2Clusters (wrap32 clusterSize)
  let maxLength := sub32 (sub32 (wrap32 clusterSize) V3BareHeaderSize)
    EmptyHeaderExtensionAreaSize
  let (backingFileOffset, backingFileSize) ←
    match backingFilePath with
    | some path =>
      if wrap32 path.length > maxLength then Outcome.error Err.backingFilePathTooLong
      else pure (wrap64 (wrap32 (V3BareHeaderSize + EmptyHeaderExtensionAreaSize)),
        wrap32 path.length)
    | none => pure (0, 0)
  let refCountTableClusters ←
    findRefcountTableClustersNumber numClusters numL2Clusters l1Clusters (wrap32 clusterSize)
  let header : ImageHeader := {
    magic := QcowMagic
    versionNumber := 3
    backingFileOffset := backingFileOffset
    backingFileSize := backingFileSize
    clusterBits := DefaultClusterBits
    virtualDiskSizeBytes := size
    cryptMethod := 0
    l1Size := numL2Clusters
    l1TableOffset := clusterSize
    refCountTableOffset := wrap64 (clusterSize * wrap32 (l1Clusters + 1))
    refCountTableClusters := refCountTableClusters
    nbSnapshots := 0
    snapshotOffset := 0
    incompatibleFeatures := 0
    compatibleFeatures := 0
    autoClearFeatures := 0
    refCountOrder := DefaultRefcountOrder
    Length := V3BareHeaderSize
    compressionType := 0
    clusterSize := clusterSize
    imageCorrupt := false
    imageRefCountDirty := false
    lazyRefcounts := false
    backingFilePath := backingFilePath
    numClusters := 0
    l2Size := 0
    numL2Clusters := 0
    l1Clusters := 0
    refCountClustersNumberComputed := 0 }
  if size > header.diskSizeLimitForCluster then Outcome.error Err.virtualDiskSizeTooLarge
  else
    let header := if header.compatibleFeatures &&& compatibleFeaturesLazyRefcounts ≠ 0 then
        { header with lazyRefcounts := true } else header
    header.preComputeTableSizes

/-- The offset `refCountBlocksSize + refCountTableOffset - 2` (in `uint64`) to which
`writeToFile` seeks before it writes its last byte, with
`refCountBlocksSize = uint64(refCountTableClusters) * clusterSize`. -/
def ImageHeader.lengthMarkOffset (header : ImageHeader) : Nat :=
  let refCountBlocksSize := wrap64 (header.refCountTableClusters * header.clusterSize)
  sub64 (wrap64 (refCountBlocksSize + header.refCountTableOffset)) 2

/-- The method `writeToFile` on a descriptor positioned anywhere: header bytes at offset 0, the
empty header-extension area, the backing-file path, then one zero byte at
`lengthMarkOffset` to set the file length. -/
def ImageHeader.writeToFile (header : ImageHeader) (file : File) : Outcome File :=
  let headerBytes := header.toByte
  -- Seek(0, 0), then Write(headerBytes)
  let file := file.write 0 headerBytes
  -- Write of the empty header-extension area, right after the header bytes
  let file := file.write headerBytes.length [0, 0, 0, 0, 0, 0, 0, 0]
  -- Write of the backing-file path, right after the extension area
  let file :=
    match header.backingFilePath with
    | some path => file.write (headerBytes.length + 8) path
    | none => file
  -- Seek to the length mark (an error for a negative `int64`), then Write of one zero byte
  match seekStart header.lengthMarkOffset with
  | .ok pos => .ok (file.write pos [0])
  | _ => .error .headerWrite

/-- The struct literal of `imageHeaderFromFile` over the big-endian fields of a file at their
offsets, given the compression type and the backing-file path that were read. -/
def storedHeader (file : File) (compressionType : Nat) (path : Option (List Byte)) :
    ImageHeader := {
  magic := beValue (file.bytes 0 4)
  versionNumber := beValue (file.bytes 4 4)
  backingFileOffset := beValue (file.bytes 8 8)
  backingFileSize := beValue (file.bytes 16 4)
  clusterBits := beValue (file.bytes 20 4)
  virtualDiskSizeBytes := beValue (file.bytes 24 8)
  cryptMethod := beValue (file.bytes 32 4)
  l1Size := beValue (file.bytes 36 4)
  l1TableOffset := beValue (file.bytes 40 8)
  refCountTableOffset := beValue (file.bytes 48 8)
  refCountTableClusters := beValue (file.bytes 56 4)
  nbSnapshots := beValue (file.bytes 60 4)
  snapshotOffset := beValue (file.bytes 64 8)
  incompatibleFeatures := beValue (file.bytes 72 8)
  compatibleFeatures := beValue (file.bytes 80 8)
  autoClearFeatures := beValue (file.bytes 88 8)
  refCountOrder := beValue (file.bytes 96 4)
  Length := beValue (file.bytes 100 4)
  compressionType := compressionType
  clusterSize := getClusterSize (beValue (file.bytes 20 4))
  imageCorrupt := false
  imageRefCountDirty := false
  lazyRefcounts := false
  backingFilePath := path
  numClusters := 0
  l2Size := 0
  numL2Clusters := 0
  l1Clusters := 0
  refCountClustersNumberComputed := 0 }

/-- The 104-byte header `validHeader` of `qcow2header_test.go`, with the low byte of
`cluster_bits`, of the incompatible features and of the auto-clear features as parameters
(the test has `0x0c`, `0x00` and `0x00`). -/
def testHeaderBytes (clusterBits incompatibleLow autoClearLow : Byte) : List Byte := [
  0x51, 0x46, 0x49, 0xfb, 0x00, 0x00, 0x00, 0x03,
  0x00, 0x00, 0x00, 0x00, 0x00, 0x00, 0x00, 0x00,
  0x00, 0x00, 0x00, 0x00, 0x00, 0x00, 0x00, clusterBits,
  0x00, 0x00, 0x00, 0x20, 0x00, 0x00, 0x00, 0x00,
  0x00, 0x00, 0x00, 0x00, 0x00, 0x00, 0x00, 0x00,
  0x00, 0x00, 0x00, 0x00, 0x00, 0x02, 0x00, 0x00,
  0x00, 0x00, 0x00, 0x00, 0x00, 0x01, 0x00, 0x00,
  0x00, 0x00, 0x00, 0x01, 0x00, 0x00, 0x00, 0x00,
  0x00, 0x00, 0x00, 0x00, 0x00, 0x04, 0x00, 0x00,
  0x00, 0x00, 0x00, 0x00, 0x00, 0x00, 0x00, incompatibleLow,
  0x00, 0x00, 0x00, 0x00, 0x00, 0x00, 0x00, 0x00,
  0x00, 0x00, 0x00, 0x00, 0x00, 0x00, 0x00, autoClearLow,
  0x00, 0x00, 0x00, 0x04, 0x00, 0x00, 0x00, 0x68]

/-- The header `validHeader` of `qcow2header_test.go`. -/
def validHeader : List Byte := testHeaderBytes 0x0c 0x00 0x00

/-- The verdict of a call: its outcome with the value forgotten. -/
def Outcome.verdict {α : Type} (x : Outcome α) : Outcome Unit := x.bind fun _ => .ok ()

/-- The five derived sizes that `preComputeTableSizes` stores, as a function of the virtual
size and the cluster size: `numClusters`, `l2Size`, `numL2Clusters`, `l1Clusters` and
`refCountClustersNumberComputed`. -/
def derivedSizes (virtualSize clusterSize : Nat) : Outcome (Nat × Nat × Nat × Nat × Nat) := do
  let numClusters ← divRoundUp64 virtualSize clusterSize
  let numClusters := wrap32 numClusters
  let l2Size := wrap32 (clusterSize / 8)
  let numL2Clusters ← divRoundUp32 numClusters l2Size
  let l1Clusters ← divRoundUp32 numL2Clusters (wrap32 clusterSize)
  let computed ← findRefcountTableClustersNumber numClusters numL2Clusters l1Clusters
    (wrap32 clusterSize)
  pure (numClusters, l2Size, numL2Clusters, l1Clusters, computed)

/-- The header with its five derived sizes replaced. -/
def ImageHeader.setDerived (h : ImageHeader) (d : Nat × Nat × Nat × Nat × Nat) : ImageHeader :=
  { h with numClusters := d.1, l2Size := d.2.1, numL2Clusters := d.2.2.1,
           l1Clusters := d.2.2.2.1, refCountClustersNumberComputed := d.2.2.2.2 }

/-- The stored fields of `validHeader`, written out. -/
def validHeaderFields : ImageHeader := {
  magic := 1363560955, versionNumber := 3, backingFileOffset := 0, backingFileSize := 0,
  clusterBits := 12, virtualDiskSizeBytes := 137438953472, cryptMethod := 0, l1Size := 0,
  l1TableOffset := 131072, refCountTableOffset := 65536, refCountTableClusters := 1,
  nbSnapshots := 0, snapshotOffset := 262144, incompatibleFeatures := 0,
  compatibleFeatures := 0, autoClearFeatures := 0, refCountOrder := 4, Length := 104,
  compressionType := 0, clusterSize := 4096, imageCorrupt := false,
  imageRefCountDirty := false, lazyRefcounts := false, backingFilePath := none,
  numClusters := 0, l2Size := 0, numL2Clusters := 0, l1Clusters := 0,
  refCountClustersNumberComputed := 0 }

/-- A header in the form in which `imageHeaderFromFile` and `createHeaderForSizeAndPath` build
it and `writeToFile` lays it out: the fields that `validate` leaves unconstrained fit their
Go types, the compression type is zero in a 104-byte header, the cluster size, the derived
sizes and the flags are the ones parsing computes from the stored fields, and the backing-file
path, when there is one, has `backingFileSize > 0` bytes and sits right after the header
bytes and the empty extension area, below the byte that sets the file length. -/
def ImageHeader.Canonical (h : ImageHeader) : Prop :=
  h.refCountTableOffset < 18446744073709551616
  ∧ h.refCountTableClusters < 4294967296
  ∧ h.snapshotOffset < 18446744073709551616
  ∧ h.incompatibleFeatures < 18446744073709551616
  ∧ h.compatibleFeatures < 18446744073709551616
  ∧ h.autoClearFeatures < 18446744073709551616
  ∧ h.Length < 4294967296
  ∧ h.compressionType < 256
  ∧ (h.Length = 104 → h.compressionType = 0)
  ∧ h.clusterSize = getClusterSize h.clusterBits
  ∧ h.imageCorrupt = false ∧ h.imageRefCountDirty = false ∧ h.lazyRefcounts = false
  ∧ h.preComputeTableSizes = .ok h
  ∧ (match h.backingFilePath with
     | none => h.backingFileOffset = 0 ∨ h.backingFileSize = 0
     | some path => path.length = h.backingFileSize ∧ h.backingFileSize ≠ 0
         ∧ h.backingFileOffset = h.toByte.length + 8
         ∧ h.toByte.length + 8 + path.length ≤ h.lengthMarkOffset)

/-- The header that `createHeaderForSizeAndPath` returns for 10 MiB and no backing file. -/
def createdHeader10MiB : ImageHeader := {
  magic := 1363560955, versionNumber := 3, backingFileOffset := 0, backingFileSize := 0,
  clusterBits := 16, virtualDiskSizeBytes := 10485760, cryptMethod := 0, l1Size := 1,
  l1TableOffset := 65536, refCountTableOffset := 131072, refCountTableClusters := 1,
  nbSnapshots := 0, snapshotOffset := 0, incompatibleFeatures := 0,
  compatibleFeatures := 0, autoClearFeatures := 0, refCountOrder := 4, Length := 104,
  compressionType := 0, clusterSize := 65536, imageCorrupt := false,
  imageRefCountDirty := false, lazyRefcounts := false, backingFilePath := none,
  numClusters := 160, l2Size := 8192, numL2Clusters := 1, l1Clusters := 1,
  refCountClustersNumberComputed := 1 }

/-- A 10 MiB header whose backing-file path `abc` is recorded at file offset 200, as an image
with header extensions has it. -/
def pathAt200Header : ImageHeader :=
  { createdHeader10MiB with
    backingFileOffset := 200, backingFileSize := 3, backingFilePath := some [97, 98, 99] }

/-! ### Open files and the raw image file (`qcow_raw_file.go`) -/

/-- An `*os.File`: the file and the access mode of the descriptor, writable for `os.Create`
and `os.OpenFile(O_RDWR)`, not writable for `os.Open`. -/
structure OsFile where
  content : File
  writable : Bool

/-- The `WriteAt` of `os.File`, with `off = int64(offset)`: a negative offset is refused,
nothing is written for empty data, and a descriptor that is not writable refuses the write. -/
def OsFile.WriteAt (file : OsFile) (bytes : List Byte) (offset : Nat) : Outcome Unit × File :=
  if offset ≥ 9223372036854775808 then (.error .ioFailure, file.content)
  else if bytes.length = 0 then (.ok (), file.content)
  else if file.writable then (.ok (), file.content.write offset bytes)
  else (.error .ioFailure, file.content)

/-- A `Seek(int64(offset), 0)` followed by a `Write` on `os.File`: the seek fails on a
negative offset and the write on a descriptor that is not writable. -/
def OsFile.seekWrite (file : OsFile) (offset : Nat) (bytes : List Byte) : Outcome Unit × File :=
  if offset ≥ 9223372036854775808 then (.error .ioFailure, file.content)
  else if file.writable then (.ok (), file.content.write offset bytes)
  else (.error .ioFailure, file.content)

/-- The `Truncate` of `os.File`, with `size = int64(n)`. -/
def OsFile.Truncate (file : OsFile) (n : Nat) : Outcome Unit × File :=
  if n ≥ 9223372036854775808 then (.error .ioFailure, file.content)
  else if file.writable then (.ok (), file.content.truncate n)
  else (.error .ioFailure, file.content)

/-- The `ReadAt` of `os.File` into a buffer of `n` bytes, with `off = int64(offset)`: an
error (`io.EOF`) when fewer than `n` bytes are there. -/
def OsFile.ReadAt (file : OsFile) (n offset : Nat) : Outcome (List Byte) :=
  if offset ≥ 9223372036854775808 then .error .ioFailure
  else if n = 0 then .ok []
  else if offset + n ≤ file.content.size then .ok (file.content.bytes offset n)
  else .error .ioFailure

/-- The type `QcowRawFile`. -/
structure QcowRawFile where
  file : OsFile
  clusterSize : Nat
  clusterMask : Nat
  readOnly : Bool

/-- The `bits.OnesCount` of a 64-bit word. -/
def onesCount (n : Nat) : Nat := ((List.range 64).filter fun i => n.testBit i).length

/-- The function `qcowRawFileFromFile`. -/
def qcowRawFileFromFile (file : OsFile) (clusterSize : Nat) (readOnly : Bool) :
    Outcome QcowRawFile :=
  if onesCount clusterSize ≠ 1 then .error .invalidClusterSize
  else .ok { file := file, clusterSize := clusterSize, clusterMask := sub64 clusterSize 1,
             readOnly := readOnly }

/-- The errors that report a write attempt on a read-only raw file. -/
def Err.isReadOnly : Err → Bool
  | .writeAttemptToReadOnlyDisk | .attemptToSyncReadOnlyFile
  | .attemptToTruncateReadOnlyFile => true
  | _ => false

/-- The method `QcowRawFile.size`. -/
def QcowRawFile.size (rawFile : QcowRawFile) : Nat := rawFile.file.content.size

/-- The method `QcowRawFile.ReadAt`, into a buffer of `n` bytes. -/
def QcowRawFile.ReadAt (rawFile : QcowRawFile) (n offset : Nat) : Outcome (List Byte) :=
  rawFile.file.ReadAt n offset

/-- The method `QcowRawFile.readUint16At`. -/
def QcowRawFile.readUint16At (rawFile : QcowRawFile) (offset : Nat) : Outcome Nat :=
  (rawFile.file.ReadAt 2 offset).bind fun bs => .ok (beValue bs)

/-- The method `QcowRawFile.readUint64At`. -/
def QcowRawFile.readUint64At (rawFile : QcowRawFile) (offset : Nat) : Outcome Nat :=
  (rawFile.file.ReadAt 8 offset).bind fun bs => .ok (beValue bs)

/-- The loop of `readPointerTable`: `count` sequential `binary.Read`s of a `uint64`, each
masked. -/
def readPointerLoop (file : File) (mask : Nat) : Nat → Nat → Outcome (List Nat)
  | _, 0 => .ok []
  | pos, count + 1 =>
    (binaryRead64 file pos).bind fun r =>
      (readPointerLoop file mask r.2 count).bind fun rest => .ok ((r.1 &&& mask) :: rest)

/-- The method `QcowRawFile.readPointerTable`; a zero mask stands for no mask. -/
def QcowRawFile.readPointerTable (rawFile : QcowRawFile) (offset count mask : Nat) :
    Outcome (List Nat) :=
  (seekStart offset).bind fun pos =>
    readPointerLoop rawFile.file.content (if mask = 0 then 18446744073709551615 else mask)
      pos count

/-- The method `QcowRawFile.readPointerCluster`. -/
def QcowRawFile.readPointerCluster (rawFile : QcowRawFile) (offset mask : Nat) :
    Outcome (List Nat) :=
  rawFile.readPointerTable offset (rawFile.clusterSize / 8) mask

/-- The loop of `readRefCountBlock`: `count` sequential `binary.Read`s of a `uint16`. -/
def readRefcountLoop (file : File) : Nat → Nat → Outcome (List Nat)
  | _, 0 => .ok []
  | pos, count + 1 =>
    (binaryRead16 file pos).bind fun r =>
      (readRefcountLoop file r.2 count).bind fun rest => .ok (r.1 :: rest)

/-- The method `QcowRawFile.readRefCountBlock`. -/
def QcowRawFile.readRefCountBlock (rawFile : QcowRawFile) (offset : Nat) : Outcome (List Nat) :=
  (seekStart offset).bind fun pos =>
    readRefcountLoop rawFile.file.content pos (rawFile.clusterSize / 2)

/-- The method `QcowRawFile.clusterOffset`. -/
def QcowRawFile.clusterOffset (rawFile : QcowRawFile) (address : Nat) : Nat :=
  address &&& rawFile.clusterMask

/-- The method `QcowRawFile.limitRangeCluster`. -/
def QcowRawFile.limitRangeCluster (rawFile : QcowRawFile) (address count : Nat) : Nat :=
  let offset := rawFile.clusterOffset address
  let limit := sub64 rawFile.clusterSize offset
  if count < limit then count else limit

/-- The method `QcowRawFile.sync`; the `Sync` of the descriptor changes no byte. -/
def QcowRawFile.sync (rawFile : QcowRawFile) : Outcome Unit × File :=
  if rawFile.readOnly then (.error .attemptToSyncReadOnlyFile, rawFile.file.content)
  else (.ok (), rawFile.file.content)

/-- The method `QcowRawFile.WriteAt`. -/
def QcowRawFile.WriteAt (rawFile : QcowRawFile) (bytes : List Byte) (offset : Nat) :
    Outcome Unit × File :=
  if rawFile.readOnly then (.error .writeAttemptToReadOnlyDisk, rawFile.file.content)
  else rawFile.file.WriteAt bytes offset

/-- The method `QcowRawFile.writeUint64At`. -/
def QcowRawFile.writeUint64At (rawFile : QcowRawFile) (value offset : Nat) : Outcome Unit × File :=
  if rawFile.readOnly then (.error .writeAttemptToReadOnlyDisk, rawFile.file.content)
  else rawFile.file.WriteAt (uint64ToByte value) offset

/-- The method `QcowRawFile.writeUint16At`. -/
def QcowRawFile.writeUint16At (rawFile : QcowRawFile) (value offset : Nat) : Outcome Unit × File :=
  if rawFile.readOnly then (.error .writeAttemptToReadOnlyDisk, rawFile.file.content)
  else rawFile.file.WriteAt (uint16ToByte value) offset

/-- The method `QcowRawFile.writeHeader`; on a descriptor that is not writable the first
`Write` of `writeToFile` fails. -/
def QcowRawFile.writeHeader (rawFile : QcowRawFile) (header : ImageHeader) : Outcome Unit × File :=
  if rawFile.readOnly then (.error .writeAttemptToReadOnlyDisk, rawFile.file.content)
  else if rawFile.file.writable then
    match header.writeToFile rawFile.file.content with
    | .ok file => (.ok (), file)
    | .error e => (.error e, rawFile.file.content)
    | .crash => (.crash, rawFile.file.content)
  else (.error .headerWrite, rawFile.file.content)

/-- The bytes `writePointerTable` builds: every non-zero entry is ORed with the flags. -/
def pointerTableBytes (table : List Nat) (nonZeroFlags : Nat) : List Byte :=
  table.flatMap fun value =>
    if value = 0 then uint64ToByte value else uint64ToByte (value ||| nonZeroFlags)

/-- The method `QcowRawFile.writePointerTable`. -/
def QcowRawFile.writePointerTable (rawFile : QcowRawFile) (offset : Nat) (table : List Nat)
    (nonZeroFlags : Nat) : Outcome Unit × File :=
  if rawFile.readOnly then (.error .writeAttemptToReadOnlyDisk, rawFile.file.content)
  else rawFile.file.seekWrite offset (pointerTableBytes table nonZeroFlags)

/-- The method `QcowRawFile.writeRefcountBlock`. -/
def QcowRawFile.writeRefcountBlock (rawFile : QcowRawFile) (offset : Nat) (table : List Nat) :
    Outcome Unit × File :=
  if rawFile.readOnly then (.error .writeAttemptToReadOnlyDisk, rawFile.file.content)
  else rawFile.file.seekWrite offset (table.flatMap uint16ToByte)

/-- The method `QcowRawFile.allocateClusterAtFileEnd`: the result and the file after. -/
def QcowRawFile.allocateClusterAtFileEnd (rawFile : QcowRawFile) (maxValidClusterOffset : Nat) :
    Outcome Nat × File :=
  if rawFile.readOnly then (.error .attemptToTruncateReadOnlyFile, rawFile.file.content)
  else
    let fileEnd := rawFile.file.content.size
    let newClusterAddress :=
      sub64 (wrap64 (fileEnd + rawFile.clusterSize)) 1
        &&& (18446744073709551615 ^^^ rawFile.clusterMask)
    if newClusterAddress > maxValidClusterOffset then
      (.error .wrongNewClusterAddress, rawFile.file.content)
    else
      match rawFile.file.Truncate (wrap64 (newClusterAddress + rawFile.clusterSize)) with
      | (.ok _, file) => (.ok newClusterAddress, file)
      | (.error e, file) => (.error e, file)
      | (.crash, file) => (.crash, file)

/-- The method `QcowRawFile.zeroCluster`. -/
def QcowRawFile.zeroCluster (rawFile : QcowRawFile) (address : Nat) : Outcome Unit × File :=
  rawFile.file.seekWrite address (List.replicate rawFile.clusterSize 0)

/-- The method `QcowRawFile.writeCluster`. -/
def QcowRawFile.writeCluster (rawFile : QcowRawFile) (address : Nat) (initialData : List Byte) :
    Outcome Unit × File :=
  if rawFile.readOnly then (.error .writeAttemptToReadOnlyDisk, rawFile.file.content)
  else if initialData.length < rawFile.clusterSize then
    (.error .initialDataTooSmall, rawFile.file.content)
  else rawFile.file.WriteAt initialData address


/-! ### The linked list (`linked_list.go`) -/

/-- The type `linkedListCell`; a pointer to a cell is its number in allocation order, `none`
is `nil`. -/
structure linkedListCell (T : Type) where
  value : T
  next : Option Nat
  previous : Option Nat

/-- The type `linkedList`, together with the cells allocated so far (`cells p` is the cell
the pointer `p` points to, `allocated` the number of cells created by `newCell`). -/
structure linkedList (T : Type) where
  cells : Nat → Option (linkedListCell T)
  allocated : Nat
  head : Option Nat
  size : Nat
  tail : Option Nat

/-- The function `newLinkedList`. -/
def newLinkedList (T : Type) : linkedList T :=
  { cells := fun _ => none, allocated := 0, head := none, size := 0, tail := none }

/-- Storing a cell through a pointer. -/
def linkedList.store {T : Type} (list : linkedList T) (p : Nat) (cell : linkedListCell T) :
    linkedList T :=
  { list with cells := Function.update list.cells p (some cell) }

/-- The method `addRear`: the pointer to the new cell and the list after.  Dereferencing
`nil` or a pointer to no cell panics. -/
def linkedList.addRear {T : Type} (list : linkedList T) (element : T) :
    Outcome Nat × linkedList T :=
  let cell := list.allocated
  let list := { list.store cell { value := element, next := none, previous := none } with
    allocated := list.allocated + 1 }
  match list.tail with
  | none => (.ok cell, { list with head := some cell, tail := some cell, size := 1 })
  | some tail =>
    match list.cells tail with
    | none => (.crash, list)
    | some tailCell =>
      -- list.tail.setNext(cell)
      let list := list.store tail { tailCell with next := some cell }
      match list.cells cell with
      | none => (.crash, list)
      | some newCell =>
        let list := list.store cell { newCell with previous := some tail }
        (.ok cell, { list with tail := some cell, size := list.size + 1 })

/-- The method `removeFront`. -/
def linkedList.removeFront {T : Type} (list : linkedList T) : Outcome T × linkedList T :=
  if list.size = 0 then (.error .emptyList, list)
  else
    match list.head.bind list.cells with
    | none => (.crash, list)
    | some headCell =>
      if list.size = 1 then
        (.ok headCell.value, { list with tail := none, head := none, size := 0 })
      else
        let list := { list with head := headCell.next }
        match list.head with
        | none => (.crash, list)
        | some newHead =>
          match list.cells newHead with
          | none => (.crash, list)
          | some newHeadCell =>
            let list := list.store newHead { newHeadCell with previous := none }
            (.ok headCell.value, { list with size := list.size - 1 })

/-- The first half of the relinking in `removeByPointer`: the predecessor, or the head of
the list, now leads to the successor. -/
def linkedList.bypassNext {T : Type} (list : linkedList T) (cell : linkedListCell T) :
    Option (linkedList T) :=
  match cell.previous with
  | some previous =>
    match list.cells previous with
    | none => none
    | some previousCell => some (list.store previous { previousCell with next := cell.next })
  | none => some { list with head := cell.next }

/-- The second half of the relinking in `removeByPointer`: the successor, or the tail of
the list, now leads back to the predecessor. -/
def linkedList.bypassPrevious {T : Type} (list : linkedList T) (cell : linkedListCell T) :
    Option (linkedList T) :=
  match cell.next with
  | some next =>
    match list.cells next with
    | none => none
    | some nextCell => some (list.store next { nextCell with previous := cell.previous })
  | none => some { list with tail := cell.previous }

/-- The method `removeByPointer`, on a non-nil pointer. -/
def linkedList.removeByPointer {T : Type} (list : linkedList T) (pointer : Nat) :
    Outcome T × linkedList T :=
  if list.size = 0 then (.error .emptyList, list)
  else
    match list.cells pointer with
    | none => (.crash, list)
    | some cell =>
      if cell.next = none ∧ cell.previous = none ∧ list.size ≠ 1 then (.error .brokenList, list)
      else
        match list.bypassNext cell with
        | none => (.crash, list)
        | some list =>
          match list.cells pointer with
          | none => (.crash, list)
          | some cell =>
            match list.bypassPrevious cell with
            | none => (.crash, list)
            | some list =>
              match list.cells pointer with
              | none => (.crash, list)
              | some cell => (.ok cell.value, { list with size := list.size - 1 })

/-- The loop of `content` and the assignment after it, with `fuel` slots of `result` still
free: every visited cell fills a slot, filling a slot when none is free panics (index out
of range), and the slots never filled keep the zero value. -/
def linkedList.contentFrom {T : Type} (list : linkedList T) (zero : T) :
    Nat → Nat → List T → Outcome (List T)
  | 0, _, _ => .crash
  | fuel + 1, item, result =>
    match list.cells item with
    | none => .crash
    | some cell =>
      match cell.next with
      | some next => linkedList.contentFrom list zero fuel next (result ++ [cell.value])
      | none =>
        match list.tail.bind list.cells with
        | none => .crash
        | some tailCell => .ok (result ++ [tailCell.value] ++ List.replicate fuel zero)

/-- The method `content`; `zero` is the zero value of `T`. -/
def linkedList.content {T : Type} (list : linkedList T) (zero : T) : Outcome (List T) :=
  if list.size = 0 then .ok []
  else
    match list.head with
    | none => .crash
    | some head => list.contentFrom zero list.size head []

/-! ### The FIFO sequence the linked list is compared with -/

/-- An operation on the list. -/
inductive ListOp (T : Type) where
  | addRear (element : T)
  | removeFront
  | removeByPointer (pointer : Nat)

/-- What an operation returns: the new cell, the removed element, or an error. -/
inductive ListReply (T : Type) where
  | cell (pointer : Nat)
  | element (value : T)
  | failed
  | panicked
  deriving DecidableEq, Repr

/-- The operation of the linked list for a `ListOp`. -/
def linkedList.apply {T : Type} (list : linkedList T) : ListOp T → ListReply T × linkedList T
  | .addRear element =>
    match list.addRear element with
    | (.ok pointer, list) => (.cell pointer, list)
    | (.error _, list) => (.failed, list)
    | (.crash, list) => (.panicked, list)
  | .removeFront =>
    match list.removeFront with
    | (.ok value, list) => (.element value, list)
    | (.error _, list) => (.failed, list)
    | (.crash, list) => (.panicked, list)
  | .removeByPointer pointer =>
    match list.removeByPointer pointer with
    | (.ok value, list) => (.element value, list)
    | (.error _, list) => (.failed, list)
    | (.crash, list) => (.panicked, list)

/-- A run of operations on the linked list: the replies in order and the list after. -/
def linkedList.run {T : Type} (list : linkedList T) :
    List (ListOp T) → List (ListReply T) × linkedList T
  | [] => ([], list)
  | op :: ops =>
    let r := list.apply op
    let rest := linkedList.run r.2 ops
    (r.1 :: rest.1, rest.2)

/-- The abstract FIFO sequence: the elements in order, each with the cell that holds it,
and the number of cells created so far. -/
structure Fifo (T : Type) where
  items : List (Nat × T)
  created : Nat

/-- The abstract operations: `addRear` appends, `removeFront` drops and returns the first
element, `removeByPointer` deletes and returns the element of that cell; removing from the
empty sequence fails and changes nothing. -/
def Fifo.apply {T : Type} (fifo : Fifo T) : ListOp T → ListReply T × Fifo T
  | .addRear element =>
    (.cell fifo.created,
      { items := fifo.items ++ [(fifo.created, element)], created := fifo.created + 1 })
  | .removeFront =>
    match fifo.items with
    | [] => (.failed, fifo)
    | (_, value) :: rest => (.element value, { fifo with items := rest })
  | .removeByPointer pointer =>
    match fifo.items.find? fun item => item.1 = pointer with
    | none => (.failed, fifo)
    | some (_, value) =>
      (.element value, { fifo with items := fifo.items.filter fun item => item.1 ≠ pointer })

/-- A run of operations on the abstract sequence. -/
def Fifo.run {T : Type} (fifo : Fifo T) : List (ListOp T) → List (ListReply T) × Fifo T
  | [] => ([], fifo)
  | op :: ops =>
    let r := fifo.apply op
    let rest := Fifo.run r.2 ops
    (r.1 :: rest.1, rest.2)

/-- The operations are used as the list allows: `removeByPointer` only on a cell that is in
the list at that moment, or on the empty list. -/
def Fifo.Admits {T : Type} (fifo : Fifo T) : List (ListOp T) → Prop
  | [] => True
  | op :: ops =>
    (match op with
      | .removeByPointer pointer =>
        fifo.items = [] ∨ pointer ∈ fifo.items.map Prod.fst
      | _ => True) ∧ Fifo.Admits (fifo.apply op).2 ops

/-! ### The representation of a FIFO sequence by linked cells -/

/-- The first cell of a segment, or what follows the segment when it is empty. -/
def firstId {T : Type} (items : List (Nat × T)) (after : Option Nat) : Option Nat :=
  match items with
  | [] => after
  | (q, _) :: _ => some q

/-- The last cell of a segment, or what precedes the segment when it is empty. -/
def lastId {T : Type} (prev : Option Nat) : List (Nat × T) → Option Nat
  | [] => prev
  | (q, _) :: rest => lastId (some q) rest

/-- The cells of `items` are linked in this order, between `prev` and `after`. -/
def Seg {T : Type} (cells : Nat → Option (linkedListCell T)) :
    Option Nat → List (Nat × T) → Option Nat → Prop
  | _, [], _ => True
  | prev, (p, x) :: rest, after =>
    cells p = some { value := x, next := firstId rest after, previous := prev }
      ∧ Seg cells (some p) rest after

/-- The linked list `list` represents the abstract sequence `fifo`. -/
structure linkedList.Rep {T : Type} (list : linkedList T) (fifo : Fifo T) : Prop where
  allocated : list.allocated = fifo.created
  size : list.size = fifo.items.length
  head : list.head = firstId fifo.items none
  tail : list.tail = lastId none fifo.items
  nodup : (fifo.items.map Prod.fst).Nodup
  fresh : ∀ p ∈ fifo.items.map Prod.fst, p < fifo.created
  seg : Seg list.cells none fifo.items none


/-! ### The LRU cache (`lru_cache.go`) -/

/-- The type `VectorCache`. -/
structure VectorCache (P : Type) where
  data : List P
  dirty : Bool
  deriving DecidableEq, Repr

/-- The function `newVectorCache`; `zero` is the zero value of `P`. -/
def newVectorCache {P : Type} (count : Nat) (zero : P) : VectorCache P :=
  { data := List.replicate count zero, dirty := true }

/-- The function `vectorCacheFromArray`. -/
def vectorCacheFromArray {P : Type} (vec : List P) : VectorCache P :=
  { data := vec, dirty := false }

/-- The method `VectorCache.get`; an index out of range panics. -/
def VectorCache.get {P : Type} (cache : VectorCache P) (index : Nat) : Outcome P :=
  match cache.data.get? index with
  | some value => .ok value
  | none => .crash

/-- The method `VectorCache.set`; an index out of range panics. -/
def VectorCache.set {P : Type} (cache : VectorCache P) (index : Nat) (value : P) :
    Outcome (VectorCache P) :=
  if index < cache.data.length then .ok { data := cache.data.set index value, dirty := true }
  else .crash

/-- The method `VectorCache.getValues`. -/
def VectorCache.getValues {P : Type} (cache : VectorCache P) : List P := cache.data

/-- The method `VectorCache.markClean`. -/
def VectorCache.markClean {P : Type} (cache : VectorCache P) : VectorCache P :=
  { cache with dirty := false }

/-- The method `VectorCache.len`. -/
def VectorCache.len {P : Type} (cache : VectorCache P) : Nat := cache.data.length

/-- The type `cacheMapEntry`: the cached vector and the cell of the key in the queue. -/
structure cacheMapEntry (P : Type) where
  data : VectorCache P
  linkedListPointer : Nat

/-- The type `LruCacheMap`.  The Go map `store` is kept as a list of its key-value pairs
with no key twice. -/
structure LruCacheMap (T P : Type) where
  capacity : Nat
  store : List (T × cacheMapEntry P)
  queue : linkedList T

/-- The map read `store[key]`. -/
def mapLookup {T E : Type} [DecidableEq T] (store : List (T × E)) (key : T) : Option E :=
  (store.find? fun item => item.1 = key).map Prod.snd

/-- The map `delete(store, key)`. -/
def mapDelete {T E : Type} [DecidableEq T] (store : List (T × E)) (key : T) : List (T × E) :=
  store.filter fun item => item.1 ≠ key

/-- The map assignment `store[key] = entry`. -/
def mapAssign {T E : Type} [DecidableEq T] (store : List (T × E)) (key : T) (entry : E) :
    List (T × E) :=
  mapDelete store key ++ [(key, entry)]

/-- The function `newCacheMap`. -/
def newCacheMap (T P : Type) (capacity : Nat) : LruCacheMap T P :=
  { capacity := capacity, store := [], queue := newLinkedList T }

/-- The method `containsKey`. -/
def LruCacheMap.containsKey {T P : Type} [DecidableEq T] (cacheMap : LruCacheMap T P) (key : T) :
    Bool :=
  (mapLookup cacheMap.store key).isSome

/-- The method `LruCacheMap.get`: the vector of the key, if any, and the cache after.  The
error of `removeByPointer` is dropped and the zero value `zero` of `T` used in its place. -/
def LruCacheMap.get {T P : Type} [DecidableEq T] (cacheMap : LruCacheMap T P) (zero : T)
    (key : T) : Outcome (Option (VectorCache P)) × LruCacheMap T P :=
  match mapLookup cacheMap.store key with
  | none => (.ok none, cacheMap)
  | some value =>
    match cacheMap.queue.removeByPointer value.linkedListPointer with
    | (.crash, queue) => (.crash, { cacheMap with queue := queue })
    | (removed, queue) =>
      let index := match removed with
        | .ok index => index
        | _ => zero
      match queue.addRear index with
      | (.ok pointer, queue) =>
        (.ok (some value.data),
          { cacheMap with
            queue := queue
            store := mapAssign cacheMap.store key
              { data := value.data, linkedListPointer := pointer } })
      | (.error e, queue) => (.error e, { cacheMap with queue := queue })
      | (.crash, queue) => (.crash, { cacheMap with queue := queue })

/-- The method `LruCacheMap.set`. -/
def LruCacheMap.set {T P : Type} [DecidableEq T] (cacheMap : LruCacheMap T P) (key : T)
    (value : VectorCache P) : Outcome Unit × LruCacheMap T P :=
  let relinked : Outcome Unit × linkedList T :=
    match mapLookup cacheMap.store key with
    | some previousValue =>
      match cacheMap.queue.removeByPointer previousValue.linkedListPointer with
      | (.ok _, queue) => (.ok (), queue)
      | (.error e, queue) => (.error e, queue)
      | (.crash, queue) => (.crash, queue)
    | none => (.ok (), cacheMap.queue)
  match relinked with
  | (.ok _, queue) =>
    match queue.addRear key with
    | (.ok listCellPointer, queue) =>
      (.ok (),
        { cacheMap with
          queue := queue
          store := mapAssign cacheMap.store key
            { data := value, linkedListPointer := listCellPointer } })
    | (.error e, queue) => (.error e, { cacheMap with queue := queue })
    | (.crash, queue) => (.crash, { cacheMap with queue := queue })
  | (.error e, queue) => (.error e, { cacheMap with queue := queue })
  | (.crash, queue) => (.crash, { cacheMap with queue := queue })

/-- The method `LruCacheMap.insert`.  The callback acts on a state `σ` of its own (the file
it writes to); the result is what `insert` returns, the cache after and that state after. -/
def LruCacheMap.insert {T P σ : Type} [DecidableEq T] (cacheMap : LruCacheMap T P) (index : T)
    (block : VectorCache P) (writeCallback : T → VectorCache P → σ → Outcome Unit × σ)
    (s : σ) : Outcome Unit × LruCacheMap T P × σ :=
  let evicting : Outcome Unit × LruCacheMap T P × σ :=
    if cacheMap.store.length = cacheMap.capacity then
      match cacheMap.queue.removeFront with
      | (.error e, queue) => (.error e, { cacheMap with queue := queue }, s)
      | (.crash, queue) => (.crash, { cacheMap with queue := queue }, s)
      | (.ok toEvict, queue) =>
        let cacheMap := { cacheMap with queue := queue }
        match mapLookup cacheMap.store toEvict with
        | none => (.error .inconsistentCache, cacheMap, s)
        | some evicted =>
          let cacheMap := { cacheMap with store := mapDelete cacheMap.store toEvict }
          if evicted.data.dirty then
            match writeCallback toEvict evicted.data s with
            | (.ok _, s) => (.ok (), cacheMap, s)
            | (.error e, s) => (.error e, cacheMap, s)
            | (.crash, s) => (.crash, cacheMap, s)
          else (.ok (), cacheMap, s)
    else (.ok (), cacheMap, s)
  match evicting with
  | (.ok _, cacheMap, s) =>
    let r := cacheMap.set index block
    (r.1, r.2, s)
  | failed => failed

/-- The method `LruCacheMap.remove`. -/
def LruCacheMap.remove {T P : Type} [DecidableEq T] (cacheMap : LruCacheMap T P) (key : T) :
    Outcome Unit × LruCacheMap T P :=
  match mapLookup cacheMap.store key with
  | some value =>
    match cacheMap.queue.removeByPointer value.linkedListPointer with
    | (.ok _, queue) =>
      (.ok (), { cacheMap with queue := queue, store := mapDelete cacheMap.store key })
    | (.error e, queue) => (.error e, { cacheMap with queue := queue })
    | (.crash, queue) => (.crash, { cacheMap with queue := queue })
  | none => (.ok (), cacheMap)

/-! ### The LRU map the cache is compared with -/

/-- An operation on the cache. -/
inductive LruOp (T P : Type) where
  | get (key : T)
  | set (key : T) (value : VectorCache P)
  | insert (key : T) (value : VectorCache P)
  | remove (key : T)

/-- What an operation returns. -/
inductive LruReply (P : Type) where
  | found (value : VectorCache P)
  | missing
  | done
  | failed (e : Err)
  | panicked

/-- A callback that records the key and the vector it is called with and returns `nil`. -/
def recordWrite {T P : Type} (key : T) (value : VectorCache P) (log : List (T × VectorCache P)) :
    Outcome Unit × List (T × VectorCache P) :=
  (.ok (), log ++ [(key, value)])

/-- The reply for a returned error value. -/
def LruReply.ofOutcome {P : Type} : Outcome Unit → LruReply P
  | .ok _ => .done
  | .error e => .failed e
  | .crash => .panicked

/-- The operation of the cache for an `LruOp`, with `recordWrite` as eviction callback: the
reply, the cache after and the record of the callback after. -/
def LruCacheMap.apply {T P : Type} [DecidableEq T] (zero : T)
    (state : LruCacheMap T P × List (T × VectorCache P)) :
    LruOp T P → LruReply P × LruCacheMap T P × List (T × VectorCache P)
  | .get key =>
    match state.1.get zero key with
    | (.ok (some value), cacheMap) => (.found value, cacheMap, state.2)
    | (.ok none, cacheMap) => (.missing, cacheMap, state.2)
    | (.error e, cacheMap) => (.failed e, cacheMap, state.2)
    | (.crash, cacheMap) => (.panicked, cacheMap, state.2)
  | .set key value =>
    let r := state.1.set key value
    (.ofOutcome r.1, r.2, state.2)
  | .insert key value =>
    let r := state.1.insert key value recordWrite state.2
    (.ofOutcome r.1, r.2)
  | .remove key =>
    let r := state.1.remove key
    (.ofOutcome r.1, r.2, state.2)

/-- A run of operations on the cache. -/
def LruCacheMap.run {T P : Type} [DecidableEq T] (zero : T)
    (state : LruCacheMap T P × List (T × VectorCache P)) :
    List (LruOp T P) → List (LruReply P) × LruCacheMap T P × List (T × VectorCache P)
  | [] => ([], state)
  | op :: ops =>
    let r := LruCacheMap.apply zero state op
    let rest := LruCacheMap.run zero r.2 ops
    (r.1 :: rest.1, rest.2)

/-- The abstract LRU map: its entries from the least to the most recently used, and the
record of the evicted dirty entries. -/
structure LruSpec (T P : Type) where
  capacity : Nat
  entries : List (T × VectorCache P)
  written : List (T × VectorCache P)

/-- Making `key -> value` the most recently used entry. -/
def LruSpec.touch {T P : Type} [DecidableEq T] (spec : LruSpec T P) (key : T)
    (value : VectorCache P) : LruSpec T P :=
  { spec with entries := (spec.entries.filter fun item => item.1 ≠ key) ++ [(key, value)] }

/-- The abstract operations.  `get` of a key that is held makes it the most recently used;
`set` and `insert` hold `key -> value` as the most recently used entry afterwards; `insert`
into a map that holds exactly `capacity` entries first removes the least recently used one,
recording it when it is dirty; `remove` deletes the key. -/
def LruSpec.apply {T P : Type} [DecidableEq T] (spec : LruSpec T P) :
    LruOp T P → LruReply P × LruSpec T P
  | .get key =>
    match spec.entries.find? fun item => item.1 = key with
    | some (_, value) => (.found value, spec.touch key value)
    | none => (.missing, spec)
  | .set key value => (.done, spec.touch key value)
  | .insert key value =>
    if spec.entries.length = spec.capacity then
      match spec.entries with
      | [] => (.done, spec.touch key value)
      | (lruKey, lruValue) :: rest =>
        (.done, LruSpec.touch
          { spec with
            entries := rest
            written := if lruValue.dirty then spec.written ++ [(lruKey, lruValue)]
              else spec.written }
          key value)
    else (.done, spec.touch key value)
  | .remove key =>
    (.done, { spec with entries := spec.entries.filter fun item => item.1 ≠ key })

/-- A run of operations on the abstract map. -/
def LruSpec.run {T P : Type} [DecidableEq T] (spec : LruSpec T P) :
    List (LruOp T P) → List (LruReply P) × LruSpec T P
  | [] => ([], spec)
  | op :: ops =>
    let r := spec.apply op
    let rest := LruSpec.run r.2 ops
    (r.1 :: rest.1, rest.2)

/-- The cache holds the entries `held` (cell in the queue, key, vector), from the least to
the most recently used, and `created` cells were made so far. -/
structure LruCacheMap.Holds {T P : Type} (cacheMap : LruCacheMap T P)
    (held : List (Nat × T × VectorCache P)) (created : Nat) : Prop where
  queue : cacheMap.queue.Rep
    { items := held.map fun item => (item.1, item.2.1), created := created }
  store : cacheMap.store = held.map fun item =>
    (item.2.1, { data := item.2.2, linkedListPointer := item.1 })
  nodup : (held.map fun item => item.2.1).Nodup

/-- The entries after `key -> value` became the most recently used one, in the cell
`created`. -/
def heldTouch {T P : Type} [DecidableEq T] (held : List (Nat × T × VectorCache P))
    (created : Nat) (key : T) (value : VectorCache P) : List (Nat × T × VectorCache P) :=
  (held.filter fun item => item.2.1 ≠ key) ++ [(created, key, value)]


/-- The cache and the record of its callback represent the abstract LRU map. -/
def LruCacheMap.Refines {T P : Type}
    (state : LruCacheMap T P × List (T × VectorCache P)) (spec : LruSpec T P) : Prop :=
  ∃ held created, state.1.Holds held created
    ∧ spec.entries = held.map (fun item => (item.2.1, item.2.2))
    ∧ state.2 = spec.written ∧ state.1.capacity = spec.capacity

/-! ### The iSCSI task queue (`task_queue.go`) and its handler (`iscsid.go`) -/

/-- An `iscsiTask`, with the fields of the task and of its command that the task queue and
its handler read or write: the tag, `iscsiCommand.CmdSN`, `iscsiCommand.Immediate` and the
task-management result. -/
structure iscsiTask where
  tag : Nat
  CmdSN : Nat
  Immediate : Bool
  result : Nat
  deriving DecidableEq, Repr

/-- The type `taskQueue`: a slice of tasks. -/
abbrev taskQueue := List iscsiTask

/-- The method `taskQueue.Len`. -/
def taskQueue.Len (tq : taskQueue) : Nat := tq.length

/-- The method `taskQueue.Less`; an index out of range panics. -/
def taskQueue.Less (tq : taskQueue) (i j : Nat) : Outcome Bool :=
  match tq.get? i, tq.get? j with
  | some a, some b => .ok (decide (a.CmdSN > b.CmdSN))
  | _, _ => .crash

/-- The method `taskQueue.Push`: `append`. -/
def taskQueue.Push (tq : taskQueue) (x : iscsiTask) : taskQueue := tq ++ [x]

/-- The method `taskQueue.Pop`: the last element and the slice without it; it panics on an
empty slice. -/
def taskQueue.Pop (tq : taskQueue) : Outcome (iscsiTask × taskQueue) :=
  match tq.getLast? with
  | some item => .ok (item, tq.dropLast)
  | none => .crash

/-- The method `taskQueue.GetByTag`. -/
def taskQueue.GetByTag (tq : taskQueue) (tag : Nat) : Option iscsiTask :=
  tq.find? fun t => t.tag = tag

/-- The method `taskQueue.RemoveByTag`: the first task with the tag, removed from the
slice. -/
def taskQueue.RemoveByTag (tq : taskQueue) (tag : Nat) : Option iscsiTask × taskQueue :=
  match tq.find? fun t => t.tag = tag with
  | some t => (some t, tq.eraseP fun t => t.tag = tag)
  | none => (none, tq)

/-- The part of an `ISCSISession` that command ordering uses, with the tasks that were
handed to `iscsiExecTask`, in the order of the calls. -/
structure CommandWindow where
  ExpCmdSN : Nat
  PendingTasks : taskQueue
  executed : List iscsiTask
  deriving DecidableEq, Repr

/-- The loop of `iscsiTaskQueueHandler` at its label `retry`; `fuel` bounds the passes,
each of which takes one task off the queue. -/
def iscsiTaskQueueHandler.retry :
    Nat → Nat → iscsiTask → CommandWindow → Outcome Unit × CommandWindow
  | 0, _, _, session => (.crash, session)
  | fuel + 1, cmdsn, task, session =>
    let cmdsn := wrap32 (cmdsn + 1)
    let session := { session with ExpCmdSN := cmdsn, executed := session.executed ++ [task] }
    if taskQueue.Len session.PendingTasks = 0 then (.ok (), session)
    else
      match taskQueue.Pop session.PendingTasks with
      | .ok (task, rest) =>
        if task.CmdSN ≠ cmdsn then
          (.ok (), { session with PendingTasks := taskQueue.Push rest task })
        else iscsiTaskQueueHandler.retry fuel cmdsn task { session with PendingTasks := rest }
      | .error e => (.error e, session)
      | .crash => (.crash, session)

/-- The method `iscsiTaskQueueHandler`; `iscsiExecTask` is recorded in `executed`. -/
def iscsiTaskQueueHandler (session : CommandWindow) (task : iscsiTask) :
    Outcome Unit × CommandWindow :=
  if task.Immediate then (.ok (), { session with executed := session.executed ++ [task] })
  else if task.CmdSN = session.ExpCmdSN then
    iscsiTaskQueueHandler.retry (session.PendingTasks.length + 1) task.CmdSN task session
  else if task.CmdSN < session.ExpCmdSN then (.error .unexpectedCommandSerialNumber, session)
  else (.error .pending, { session with PendingTasks := taskQueue.Push session.PendingTasks task })

/-- The arrival of commands at `iscsiTaskQueueHandler`, one after the other. -/
def arrivals (session : CommandWindow) : List iscsiTask → CommandWindow
  | [] => session
  | task :: rest => arrivals (iscsiTaskQueueHandler session task).2 rest

/-- A non-immediate command with the given CmdSN (and the same tag). -/
def commandWithSN (sn : Nat) : iscsiTask :=
  { tag := sn, CmdSN := sn, Immediate := false, result := 0 }

/-- The `switch cmd.TaskFunc` of `iscsiExecTask` for a task-management request: the task
with its `result` and the pending queue after.  The cases of ABORT TASK SET (2) and LOGICAL
UNIT RESET (5) are empty. -/
def iscsiExecTask.taskManagement (TaskFunc ReferencedTaskTag : Nat) (task : iscsiTask)
    (pending : taskQueue) : iscsiTask × taskQueue :=
  if TaskFunc = 1 then
    match taskQueue.RemoveByTag pending ReferencedTaskTag with
    | (none, pending) => ({ task with result := 0x01 }, pending)
    | (some _, pending) => ({ task with result := 0x00 }, pending)
  else if TaskFunc = 2 then (task, pending)
  else if TaskFunc = 5 then (task, pending)
  else if TaskFunc = 3 ∨ TaskFunc = 4 ∨ TaskFunc = 6 ∨ TaskFunc = 7 ∨ TaskFunc = 8 then
    ({ task with result := 0x05 }, pending)
  else ({ task with result := 0xff }, pending)

/-! ### Target session identifying handles (`iscsid.go`) -/

/-- The map `TargetSessionIdentifierHandlePool` of a new driver: the keys 0 and 65535. -/
def newHandlePool : Nat → Bool := fun i => i = 0 || i = 65535

/-- The loop of `AllocTSIH` from `i` on, with `remaining` values of `i` left below 0xffff:
the first handle that is not in the pool. -/
def AllocTSIH.loop (pool : Nat → Bool) : Nat → Nat → Option Nat
  | 0, _ => none
  | remaining + 1, i => if pool i then AllocTSIH.loop pool remaining (i + 1) else some i

/-- The method `AllocTSIH`: the handle returned (0 when the loop finds none) and the pool
after. -/
def AllocTSIH (pool : Nat → Bool) : Nat × (Nat → Bool) :=
  match AllocTSIH.loop pool 65535 0 with
  | some i => (i, Function.update pool i true)
  | none => (0, pool)

/-- The method `ReleaseTSIH`: `delete` from the map. -/
def ReleaseTSIH (pool : Nat → Bool) (tsih : Nat) : Nat → Bool := Function.update pool tsih false

/-- A call of `AllocTSIH` or `ReleaseTSIH`. -/
inductive HandleOp where
  | alloc
  | release (tsih : Nat)
  deriving DecidableEq, Repr

/-- A run of calls on the pool: the handles the `AllocTSIH` calls returned, in order. -/
def runHandles (pool : Nat → Bool) : List HandleOp → List Nat
  | [] => []
  | .alloc :: ops => (AllocTSIH pool).1 :: runHandles (AllocTSIH pool).2 ops
  | .release tsih :: ops => runHandles (ReleaseTSIH pool tsih) ops

/-- The abstract allocator on the set of allocated handles: the smallest handle in
1..0xFFFE that is not allocated, 0 when all are. -/
def smallestFree (allocated : List Nat) : Nat :=
  ((List.range' 1 65534).find? fun i => i ∉ allocated).getD 0

/-- The abstract run: the allocated set changes with every successful allocation and every
release. -/
def specHandles (allocated : List Nat) : List HandleOp → List Nat
  | [] => []
  | .alloc :: ops =>
    smallestFree allocated ::
      specHandles (if smallestFree allocated = 0 then allocated
        else smallestFree allocated :: allocated) ops
  | .release tsih :: ops => specHandles (allocated.filter fun i => i ≠ tsih) ops

/-- Every release is of a handle that is allocated at that moment. -/
def releasesAllocated (allocated : List Nat) : List HandleOp → Prop
  | [] => True
  | .alloc :: ops =>
    releasesAllocated (if smallestFree allocated = 0 then allocated
      else smallestFree allocated :: allocated) ops
  | .release tsih :: ops =>
    tsih ∈ allocated ∧ releasesAllocated (allocated.filter fun i => i ≠ tsih) ops


/-- The pool holds 0, 65535 and the allocated handles, which lie in 1..0xFFFE. -/
def PoolHolds (pool : Nat → Bool) (allocated : List Nat) : Prop :=
  (∀ i, pool i = true ↔ (i = 0 ∨ i = 65535 ∨ i ∈ allocated))
    ∧ ∀ i ∈ allocated, 1 ≤ i ∧ i ≤ 65534

/-! ### Index arithmetic (`pointer_table_caches.go`, `referenceCount.go`) -/

/-- The function `l1TableIndex`; a division by zero panics. -/
def l1TableIndex (header : ImageHeader) (address : Nat) : Outcome Nat :=
  if header.clusterSize = 0 then .crash
  else if header.l2Size = 0 then .crash
  else .ok ((address / header.clusterSize) / header.l2Size)

/-- The function `l2TableIndex`; a division by zero panics. -/
def l2TableIndex (header : ImageHeader) (address : Nat) : Outcome Nat :=
  if header.clusterSize = 0 then .crash
  else if header.l2Size = 0 then .crash
  else .ok ((address / header.clusterSize) % header.l2Size)

/-- The function `getRefcountIndex`: the index into the refcount table and the index into
the block; a division by zero panics. -/
def getRefcountIndex (address clusterSize numberOfReferenceCountsInCluster : Nat) :
    Outcome (Nat × Nat) :=
  if clusterSize = 0 then .crash
  else if numberOfReferenceCountsInCluster = 0 then .crash
  else .ok ((address / clusterSize) / numberOfReferenceCountsInCluster,
    (address / clusterSize) % numberOfReferenceCountsInCluster)

/-- A header with 1 MiB clusters (`cluster_bits = 20`) and a virtual size of 1 MiB. -/
def megabyteClusterHeader : ImageHeader :=
  { createdHeader10MiB with
    clusterBits := 20, clusterSize := 1048576, virtualDiskSizeBytes := 1048576 }

/-! ### SCSI command layer (`pkg/scsi`) -/

/-- Go's `s[i]` on a byte slice: an index past the end panics. -/
def byteAt (s : List Byte) (i : Nat) : Outcome Nat :=
  match s.get? i with
  | some b => .ok b.val
  | none => .crash

/-- Go's `s[a:b]` on a slice whose capacity is its length: bounds out of order or past
the end panic. -/
def sliceOf (s : List Byte) (a b : Nat) : Outcome (List Byte) :=
  if a ≤ b ∧ b ≤ s.length then .ok ((s.drop a).take (b - a)) else .crash

/-- Go's `s[a:]`. -/
def sliceFrom (s : List Byte) (a : Nat) : Outcome (List Byte) :=
  if a ≤ s.length then .ok (s.drop a) else .crash

/-- `binary.BigEndian.Uint16`, `Uint32` and `Uint64` (`width` = 2, 4, 8): the value of the
first `width` bytes; a shorter slice fails the bounds check `_ = b[width-1]` and panics. -/
def bigEndianUint (width : Nat) (b : List Byte) : Outcome Nat :=
  if b.length < width then .crash else .ok (beValue (b.take width))

/-- Go's `copy(dst, src)`: the first `min(len(dst), len(src))` bytes of `dst` are replaced. -/
def copyBytes (dst src : List Byte) : List Byte :=
  src.take dst.length ++ dst.drop src.length

/-- `[]byte(fmt.Sprintf("%-<width>s", s))` for ASCII text: left-justified, padded with
spaces. -/
def padRight (width : Nat) (s : List Byte) : List Byte :=
  s ++ List.replicate (width - s.length) (lowByte 0x20)

/-- `[]byte(fmt.Sprintf("%v", n))` for an unsigned integer: its decimal digits. -/
def decimalBytes (n : Nat) : List Byte :=
  (Nat.toDigits 10 n).map fun c => lowByte c.toNat

/-- `SamStatGood`. -/
def SamStatGood : Nat := 0x00
/-- `SamStatCheckCondition`. -/
def SamStatCheckCondition : Nat := 0x02
/-- `SamStatBusy`. -/
def SamStatBusy : Nat := 0x08

/-- Sense key `NotReady`. -/
def NotReady : Nat := 0x02
/-- Sense key `MediumError`. -/
def MediumError : Nat := 0x03
/-- Sense key `IllegalRequest`. -/
def IllegalRequest : Nat := 0x05

/-- Additional sense code `AscInvalidOpCode`. -/
def AscInvalidOpCode : Nat := 0x2000
/-- Additional sense code `AscLbaOutOfRange`. -/
def AscLbaOutOfRange : Nat := 0x2100
/-- Additional sense code `AscInvalidFieldInCdb`. -/
def AscInvalidFieldInCdb : Nat := 0x2400
/-- Additional sense code `AscSavingParmsUnsup`. -/
def AscSavingParmsUnsup : Nat := 0x3900
/-- Additional sense code `AscReadError`. -/
def AscReadError : Nat := 0x1100

/-- The `CommandType` constants of `types.go`, with the values written there. -/
def TestUnitReady : Nat := 0x00
def RequestSense : Nat := 0x03
def FormatUnit : Nat := 0x04
def Inquiry : Nat := 0x12
def ModeSelect10 : Nat := 0x55
def ModeSense6 : Nat := 0x1a
def ModeSense10 : Nat := 0x5
def Read10 : Nat := 0x28
def Read16 : Nat := 0x88
def ServiceActionIn : Nat := 0x9e
def ReportLuns : Nat := 0xa0
def ReadCapacity10 : Nat := 0x25
def OperationCodeMaintenanceIn : Nat := 0xa3
def StartStop : Nat := 0x1b
def SynchronizeCache10 : Nat := 0x35
def SynchronizeCache16 : Nat := 0x91
def Write10 : Nat := 0x2a
def Write16 : Nat := 0x8a
def WriteSame16 : Nat := 0x93
def ServiceActionReportSupportedOperationCodes : Nat := 0x0c
def ServiceActionReadCapacity16 : Nat := 0x10

/-- `SCSIDataBuffer`. -/
structure SCSIDataBuffer where
  Buffer : List Byte
  Length : Nat
  TransferLength : Nat
  Residual : Nat
  deriving DecidableEq, Repr

/-- `SenseBuffer`. -/
structure SenseBuffer where
  Buffer : List Byte
  Length : Nat
  deriving DecidableEq, Repr

/-- The part of `SCSITarget` the command handlers read: the name, and the keys of the
`Devices` map in the order in which `range` visits them (Go leaves that order open). -/
structure SCSITarget where
  Name : List Byte
  Devices : List Nat
  deriving DecidableEq, Repr

/-- `SCSICommand`, with the fields the handlers use. -/
structure SCSICommand where
  OperationCode : Nat
  Target : SCSITarget
  InSDBBuffer : Option SCSIDataBuffer
  OutSDBBuffer : Option SCSIDataBuffer
  RelTargetPortID : Nat
  TargetPortGroupId : Nat
  TargetPortName : List Byte
  Offset : Nat
  TransferLength : Nat
  SCB : List Byte
  LogicalUnit : Nat
  Result : Nat
  SenseBuffer : Option SenseBuffer
  deriving DecidableEq, Repr

/-- `ModePage`. -/
structure ModePage where
  PageCode : Nat
  SubPageCode : Nat
  Data : List Byte
  deriving DecidableEq, Repr

/-- One call made on the `BackingStore` interface. -/
inductive StoreCall where
  | Read (offset transferLength : Nat)
  | Write (buffer : List Byte) (offset : Nat)
  | DataSync
  deriving DecidableEq, Repr

/-- The `BackingStore` interface: what its methods answer, and the calls made so far. -/
structure BackingStore where
  Read : Nat → Nat → Outcome (List Byte)
  Write : List Byte → Nat → Outcome Unit
  DataSync : Outcome Unit
  calls : List StoreCall

/-- `LogicalUnit`, with `Attrs` flattened. -/
structure LogicalUnit where
  Size : Nat
  UUID : Nat
  BlockShift : Nat
  Online : Bool
  DeviceType : Nat
  VendorID : List Byte
  ProductID : List Byte
  ProductRev : List Byte
  VersionDescription : List Byte
  ModePages : List ModePage
  ModeBlockDescriptor : List Byte
  BackingStorage : BackingStore

/-- `BuildSenseData`: fixed-format sense data of 18 bytes; the sense key is also stored in
`command.Result`. -/
def BuildSenseData (command : SCSICommand) (key asc : Nat) : SCSICommand :=
  { command with
    Result := key
    SenseBuffer := some
      { Buffer := [lowByte 0x70, lowByte 0x00, lowByte key, 0, 0, 0, 0, lowByte 0xa,
                   0, 0, 0, 0, lowByte (asc >>> 8), lowByte asc, 0, 0, 0, 0]
        Length := 0xa + 8 } }

/-- `getSCSIReadWriteOffset`. -/
def getSCSIReadWriteOffset (scb : List Byte) : Outcome Nat := do
  let opcode ← byteAt scb 0
  if opcode = Read10 ∨ opcode = Write10 ∨ opcode = SynchronizeCache10 then
    (sliceFrom scb 2).bind (bigEndianUint 4)
  else if opcode = Read16 ∨ opcode = Write16 ∨ opcode = WriteSame16
      ∨ opcode = SynchronizeCache16 then
    (sliceFrom scb 2).bind (bigEndianUint 8)
  else .ok 0

/-- `getSCSIReadWriteCount`. -/
def getSCSIReadWriteCount (scb : List Byte) : Outcome Nat := do
  let opcode ← byteAt scb 0
  if opcode = Read10 ∨ opcode = Write10 ∨ opcode = SynchronizeCache10 then
    (sliceFrom scb 7).bind (bigEndianUint 2)
  else if opcode = Read16 ∨ opcode = Write16 ∨ opcode = WriteSame16
      ∨ opcode = SynchronizeCache16 then
    (sliceFrom scb 10).bind (bigEndianUint 4)
  else .ok 0

/-- `validateOffsetLength`, on `uint64` operands. -/
def validateOffsetLength (transferLength logicalBlockAddress deviceSizeInBlocks : Nat) : Bool :=
  if transferLength ≠ 0 then
    let logicalBlockAddressOverflow :=
      decide (wrap64 (logicalBlockAddress + transferLength) < logicalBlockAddress)
    if logicalBlockAddressOverflow
        ∨ wrap64 (logicalBlockAddress + transferLength) > deviceSizeInBlocks then false
    else true
  else if logicalBlockAddress ≥ deviceSizeInBlocks then false
  else true

/-- `HandleRead`: the `CommandError` (sense key and additional sense code) if any, the
command, and the backing store with the call recorded. -/
def HandleRead (device : LogicalUnit) (command : SCSICommand) :
    Outcome (Option (Nat × Nat) × SCSICommand × BackingStore) :=
  let store := { device.BackingStorage with
    calls := device.BackingStorage.calls ++ [.Read command.Offset command.TransferLength] }
  match device.BackingStorage.Read command.Offset command.TransferLength with
  | .crash => .crash
  | .error _ => .ok (some (MediumError, AscReadError), command, store)
  | .ok readBuffer =>
    let length := readBuffer.length
    let readBuffer := readBuffer ++ List.replicate (command.TransferLength - length) 0
    match command.InSDBBuffer with
    | none => .crash
    | some buffer =>
      let buffer := { buffer with Residual := wrap32 length }
      if buffer.Length < wrap32 length then
        .ok (some (IllegalRequest, AscInvalidFieldInCdb),
          { command with InSDBBuffer := some buffer }, store)
      else
        .ok (none, { command with
          InSDBBuffer := some { buffer with Buffer := copyBytes buffer.Buffer readBuffer } },
          store)

/-- `SBCRead` (READ(10) and READ(16)): the SAM status, the command, the backing store. -/
def SBCRead (device : LogicalUnit) (command : SCSICommand) :
    Outcome (Nat × SCSICommand × BackingStore) := do
  let scb1 ← byteAt command.SCB 1
  if scb1 &&& 0xe0 ≠ 0 then
    .ok (SamStatCheckCondition, BuildSenseData command IllegalRequest AscInvalidFieldInCdb,
      device.BackingStorage)
  else
    let logicalBlockAddress ← getSCSIReadWriteOffset command.SCB
    let transferLength ← getSCSIReadWriteCount command.SCB
    let deviceSizeInBlocks := device.Size >>> device.BlockShift
    if !validateOffsetLength transferLength logicalBlockAddress deviceSizeInBlocks then
      .ok (SamStatCheckCondition, BuildSenseData command IllegalRequest AscLbaOutOfRange,
        device.BackingStorage)
    else
      let command := { command with
        Offset := wrap64 (logicalBlockAddress <<< device.BlockShift)
        TransferLength := wrap32 (transferLength <<< device.BlockShift) }
      let (scsiErr, command, store) ← HandleRead device command
      match scsiErr with
      | some (senseCode, additionalSenseCode) =>
        .ok (SamStatBusy, BuildSenseData command senseCode additionalSenseCode, store)
      | none => .ok (SamStatGood, command, store)

/-- `HandleSync`. -/
def HandleSync (backingStore : BackingStore) : Outcome (Option (Nat × Nat) × BackingStore) :=
  let store := { backingStore with calls := backingStore.calls ++ [.DataSync] }
  match backingStore.DataSync with
  | .crash => .crash
  | .error _ => .ok (some (MediumError, AscReadError), store)
  | .ok _ => .ok (none, store)

/-- `SbcSyncCache` (SYNCHRONIZE CACHE(10) and (16)). -/
def SbcSyncCache (device : LogicalUnit) (command : SCSICommand) :
    Outcome (Nat × SCSICommand × BackingStore) := do
  let logicalBlockAddress ← getSCSIReadWriteOffset command.SCB
  let numberOfLogicalBlock ← getSCSIReadWriteCount command.SCB
  let command := { command with
    Offset := wrap64 (logicalBlockAddress <<< device.BlockShift)
    TransferLength := wrap32 (numberOfLogicalBlock <<< device.BlockShift) }
  let (err, store) ← HandleSync device.BackingStorage
  match err with
  | some (senseCode, additionalSenseCode) =>
    .ok (SamStatCheckCondition, BuildSenseData command senseCode additionalSenseCode, store)
  | none => .ok (SamStatGood, command, store)

/-- `SBCReadCapacity` (READ CAPACITY(10)). -/
def SBCReadCapacity (device : LogicalUnit) (command : SCSICommand) :
    Outcome (Nat × SCSICommand) := do
  let size := device.Size >>> device.BlockShift
  let scb8 ← byteAt command.SCB 8
  let lbaGiven ←
    if scb8 &&& 0x1 = 0 then do
      let scb2 ← byteAt command.SCB 2
      let scb3 ← byteAt command.SCB 3
      let scb4 ← byteAt command.SCB 4
      let scb5 ← byteAt command.SCB 5
      Outcome.ok (decide ((scb2 ||| scb3 ||| scb4 ||| scb5) ≠ 0))
    else Outcome.ok false
  if lbaGiven then
    let command := match command.InSDBBuffer with
      | some buffer => { command with InSDBBuffer := some { buffer with Residual := 0 } }
      | none => command
    .ok (SamStatCheckCondition, BuildSenseData command IllegalRequest AscInvalidFieldInCdb)
  else
    match command.InSDBBuffer with
    | none => .crash
    | some buffer =>
      if buffer.Length < 8 then
        .ok (SamStatGood, { command with InSDBBuffer := some { buffer with Residual := 8 } })
      else
        let first :=
          if size >>> 32 ≠ 0 then copyBytes buffer.Buffer (uint32ToByte 0xffffffff)
          else copyBytes buffer.Buffer (uint32ToByte (wrap32 (sub64 size 1)))
        let rest ← sliceFrom first 4
        let second := first.take 4 ++ copyBytes rest (uint32ToByte (wrap32 (1 <<< device.BlockShift)))
        .ok (SamStatGood, { command with InSDBBuffer := some { buffer with Buffer := second } })

/-- The loop of `SPCReportLuns` over the attached logical units. -/
def SPCReportLuns.entries : Nat → List Nat → List Byte → List Byte
  | _, [], response => response
  | remainingLength, lun :: rest, response =>
    if remainingLength ≤ 0 then response
    else SPCReportLuns.entries (sub32 remainingLength 8) rest
      (response ++ [0x00, lowByte lun, 0x00, 0x00, 0x00, 0x00, 0x00, 0x00])

/-- `SPCReportLuns` (REPORT LUNS). -/
def SPCReportLuns (command : SCSICommand) : Outcome (Nat × SCSICommand) := do
  let allocationLength ← (sliceOf command.SCB 6 10).bind (bigEndianUint 4)
  if allocationLength < 16 then
    let command := match command.InSDBBuffer with
      | some buffer => { command with InSDBBuffer := some { buffer with Residual := 0 } }
      | none => command
    .ok (SamStatCheckCondition, BuildSenseData command IllegalRequest AscInvalidFieldInCdb)
  else
    let remainingLength := allocationLength
    let availableLength := (command.Target.Devices.length * 8) % 65536
    let availableLength :=
      if 0 ∈ command.Target.Devices then availableLength else (availableLength + 8) % 65536
    let response : List Byte :=
      [0x00, 0x00, lowByte (availableLength >>> 8), lowByte availableLength,
       0x00, 0x00, 0x00, 0x00]
    match command.InSDBBuffer with
    | none => .crash
    | some buffer =>
      let buffer := { buffer with Residual := allocationLength }
      let (response, remainingLength) :=
        if 0 ∈ command.Target.Devices then (response, remainingLength)
        else (response ++ [0x00, 0x00, 0x00, 0x00], sub32 remainingLength 8)
      let response := SPCReportLuns.entries remainingLength command.Target.Devices response
      .ok (SamStatGood, { command with
        InSDBBuffer := some { buffer with Buffer := copyBytes buffer.Buffer response } })

/-- `ModePage.toByte`. -/
def ModePage.toByte (modePage : ModePage) (pageControl : Nat) : List Byte :=
  let data : List Byte :=
    if modePage.SubPageCode = 0 then [lowByte modePage.PageCode, lowByte modePage.Data.length]
    else [lowByte (modePage.PageCode ||| 0x40), lowByte modePage.SubPageCode,
          0x00, lowByte modePage.Data.length]
  if pageControl ≠ 1 then data ++ modePage.Data else data

/-- `ModePages.findPage`. -/
def ModePages.findPage (modePages : List ModePage) (pageCode subPageCode : Nat) :
    Option ModePage :=
  modePages.find? fun modePage =>
    modePage.PageCode == pageCode && modePage.SubPageCode == subPageCode

/-- `ModePages.toBytes`. -/
def ModePages.toBytes (modePages : List ModePage) (pageCode subPageCode pageControl : Nat) :
    Outcome (List Byte) :=
  if pageCode = 0x3f then
    if subPageCode = 0x00 then
      .ok (modePages.foldl (fun data modePage => data ++ modePage.toByte pageControl) [])
    else if subPageCode = 0xff then
      .ok (modePages.foldl (fun data modePage =>
        if modePage.SubPageCode = 0x00 then data ++ modePage.toByte pageControl else data) [])
    else .error .modePageNotFound
  else
    match ModePages.findPage modePages pageCode subPageCode with
    | none => .error .modePageNotFound
    | some selectedModePage => .ok (selectedModePage.toByte pageControl)

/-- `SPCModeSense10` (MODE SENSE(10)). -/
def SPCModeSense10 (device : LogicalUnit) (command : SCSICommand) :
    Outcome (Nat × SCSICommand) := do
  let scb1 ← byteAt command.SCB 1
  let disableBlockDescriptors := scb1 &&& 0x8
  let scb2 ← byteAt command.SCB 2
  let pageCode := scb2 &&& 0x3f
  let pageControl := (scb2 &&& 0xc0) >>> 6
  let subPageCode ← byteAt command.SCB 3
  let allocationLength ← (sliceOf command.SCB 7 9).bind (bigEndianUint 4)
  if pageControl = 3 then
    .ok (SamStatCheckCondition, BuildSenseData command IllegalRequest AscSavingParmsUnsup)
  else
    let blockDescriptorLength := if disableBlockDescriptors = 0 then 8 else 0
    let blockDescriptor := if disableBlockDescriptors = 0 then device.ModeBlockDescriptor else []
    match ModePages.toBytes device.ModePages pageCode subPageCode pageControl with
    | .crash => .crash
    | .error _ =>
      .ok (SamStatCheckCondition, BuildSenseData command IllegalRequest AscInvalidFieldInCdb)
    | .ok modeParameterListData =>
      let listDataLength := modeParameterListData.length
      let responseData : List Byte :=
        [lowByte (listDataLength >>> 8), lowByte listDataLength, 0x00, 0x10, 0x00, 0x00,
         0x00, lowByte blockDescriptorLength]
      let responseData := responseData ++ blockDescriptor ++ modeParameterListData
      match command.InSDBBuffer with
      | none => .crash
      | some buffer =>
        let buffer :=
          if wrap32 responseData.length > allocationLength then
            { buffer with Residual := allocationLength }
          else buffer
        .ok (SamStatGood, { command with
          InSDBBuffer := some { buffer with Buffer := copyBytes buffer.Buffer responseData } })

/-- `allVpdPagesCommonFirstByte`. -/
def allVpdPagesCommonFirstByte (device : LogicalUnit) : Byte :=
  let peripheralQualifier := if !device.Online then 0x01 <<< 5 else 0x00
  lowByte (peripheralQualifier ||| device.DeviceType)

/-- VPD page codes of `spc_inquiry.go`. -/
def supportedVpdPagesVpdPageCode : Nat := 0x00
def unitSerialNumberVpdPageCode : Nat := 0x80
def deviceIdentificationVpdPageCode : Nat := 0x83
def blockLimitsVpdPageCode : Nat := 0xB0
def blockDeviceCharacteristicsVpdPageCode : Nat := 0xB1
def blockProvisioningVpdPageCode : Nat := 0xB2

/-- `supportedVpdPagesVpdPage`. -/
def supportedVpdPagesVpdPage (device : LogicalUnit) : List Byte :=
  [allVpdPagesCommonFirstByte device, lowByte supportedVpdPagesVpdPageCode, 0x00, 0x06,
   lowByte supportedVpdPagesVpdPageCode, lowByte unitSerialNumberVpdPageCode,
   lowByte deviceIdentificationVpdPageCode, lowByte blockLimitsVpdPageCode,
   lowByte blockProvisioningVpdPageCode, lowByte blockDeviceCharacteristicsVpdPageCode]

/-- The bytes of the string `"qcow2target-"`. -/
def serialNumberLabel : List Byte :=
  [0x71, 0x63, 0x6f, 0x77, 0x32, 0x74, 0x61, 0x72, 0x67, 0x65, 0x74, 0x2d]

/-- `unitSerialNumberVpdPage`: the serial number is
`fmt.Sprintf("qcow2target-%-36v", device.UUID)`. -/
def unitSerialNumberVpdPage (device : LogicalUnit) : List Byte :=
  [allVpdPagesCommonFirstByte device, lowByte unitSerialNumberVpdPageCode, 0x00, 0x24]
    ++ (serialNumberLabel ++ padRight 36 (decimalBytes device.UUID))

/-- `blockDeviceCharacteristicsVpdPage`. -/
def blockDeviceCharacteristicsVpdPage (device : LogicalUnit) : List Byte :=
  [allVpdPagesCommonFirstByte device, lowByte blockDeviceCharacteristicsVpdPageCode,
   0x00, 0x3c, 0x00, 0x01, 0x00, 0x00, 0x00, 0x00, 0x00, 0x00] ++ List.replicate 52 0x00

/-- `StringToByte`. -/
def StringToByte (line : List Byte) (align maxlength : Nat) : Outcome (List Byte) :=
  if align = 0 then .crash
  else
    let length := line.length
    let paddingSize := align - (length % align)
    if length + paddingSize > maxlength then sliceOf line 0 maxlength
    else .ok (copyBytes (List.replicate (length + paddingSize) 0) line)

/-- `protocolIdentifierAndCodeSet`. -/
def protocolIdentifierAndCodeSet (codeSet : Nat) : Byte := lowByte ((0x05 <<< 4) ||| codeSet)

/-- `associationAndDesignatorType`. -/
def associationAndDesignatorType (association designatorType : Nat) : Byte :=
  lowByte (0x80 ||| (association <<< 4) ||| designatorType)

/-- `deviceIdentificationVpdPage`. -/
def deviceIdentificationVpdPage (device : LogicalUnit) (command : SCSICommand) :
    Outcome (List Byte) := do
  let result : List Byte :=
    [allVpdPagesCommonFirstByte device, lowByte deviceIdentificationVpdPageCode]
  let targetName := command.Target.Name
  let targetNameDescriptor : List Byte :=
    [protocolIdentifierAndCodeSet 2, associationAndDesignatorType 0x01 0,
     lowByte targetName.length] ++ targetName
  let networkAddressAuthorityDescriptor : List Byte :=
    [protocolIdentifierAndCodeSet 1, associationAndDesignatorType 0x00 3, 0x00, 0x08]
      ++ uint64ToByte (device.UUID ||| wrap64 (0x3 <<< 60))
  let targetPortGroupDescriptor : List Byte :=
    [protocolIdentifierAndCodeSet 1, associationAndDesignatorType 0x01 5, 0x00, 0x04,
     0x00, 0x00, lowByte (command.TargetPortGroupId >>> 8), lowByte command.TargetPortGroupId]
  let relativeTargetIdDescriptor : List Byte :=
    [protocolIdentifierAndCodeSet 1, associationAndDesignatorType 0x01 4, 0x00, 0x04,
     0x00, 0x00, lowByte (command.RelTargetPortID >>> 8), lowByte command.RelTargetPortID]
  let portName ← StringToByte command.TargetPortName 4 256
  let scsiNameDescriptor : List Byte :=
    [protocolIdentifierAndCodeSet 3, associationAndDesignatorType 0x01 8, 0x00,
     lowByte portName.length] ++ portName
  let pageLength := (targetNameDescriptor.length + networkAddressAuthorityDescriptor.length
    + targetPortGroupDescriptor.length + relativeTargetIdDescriptor.length
    + scsiNameDescriptor.length) % 65536
  .ok (result ++ [lowByte (pageLength >>> 8), lowByte pageLength] ++ targetNameDescriptor
    ++ networkAddressAuthorityDescriptor ++ targetPortGroupDescriptor
    ++ relativeTargetIdDescriptor ++ scsiNameDescriptor)

/-- `blockLimitsVpdPage`. -/
def blockLimitsVpdPage (device : LogicalUnit) : List Byte :=
  [allVpdPagesCommonFirstByte device, lowByte blockLimitsVpdPageCode, 0x00, 0x3C]
    ++ List.replicate 60 0x00

/-- `blockProvisioningVpdPage`. -/
def blockProvisioningVpdPage (device : LogicalUnit) : List Byte :=
  [allVpdPagesCommonFirstByte device, lowByte blockLimitsVpdPageCode, 0x00, 0x04,
   0x00, 0x00, 0x00, 0x00]

/-- `standardInquiryData`. -/
def standardInquiryData (device : LogicalUnit) : List Byte :=
  let variadicLengthInquiryData : List Byte :=
    [0x10, 0x00, 0x02] ++ padRight 8 device.VendorID ++ padRight 16 device.ProductID
      ++ padRight 4 device.ProductRev ++ List.replicate 22 0x00 ++ device.VersionDescription
  [allVpdPagesCommonFirstByte device, 0x00, 0x05, lowByte (0x10 ||| 0x02),
   lowByte variadicLengthInquiryData.length] ++ variadicLengthInquiryData

/-- The page selected by the EVPD `switch` of `SPCInquiry`; `none` is its `default`. -/
def SPCInquiry.vpdPage (device : LogicalUnit) (command : SCSICommand) (pageCode : Nat) :
    Outcome (Option (List Byte)) :=
  if pageCode = supportedVpdPagesVpdPageCode then .ok (some (supportedVpdPagesVpdPage device))
  else if pageCode = unitSerialNumberVpdPageCode then
    .ok (some (unitSerialNumberVpdPage device))
  else if pageCode = deviceIdentificationVpdPageCode then
    (deviceIdentificationVpdPage device command).bind fun data => .ok (some data)
  else if pageCode = blockLimitsVpdPageCode then .ok (some (blockLimitsVpdPage device))
  else if pageCode = blockProvisioningVpdPageCode then
    .ok (some (blockProvisioningVpdPage device))
  else if pageCode = blockDeviceCharacteristicsVpdPageCode then
    .ok (some (blockDeviceCharacteristicsVpdPage device))
  else .ok none

/-- `SPCInquiry` (INQUIRY); a nil `device` is `none`. -/
def SPCInquiry (device : Option LogicalUnit) (command : SCSICommand) :
    Outcome (Nat × SCSICommand) := do
  let pageCode ← byteAt command.SCB 2
  let allocationLength ← (sliceOf command.SCB 3 5).bind (bigEndianUint 2)
  let scb1 ← byteAt command.SCB 1
  let enableVitalProductData := decide (scb1 &&& 0x01 > 0)
  match device with
  | none =>
    .ok (SamStatCheckCondition, BuildSenseData command IllegalRequest AscInvalidFieldInCdb)
  | some device =>
    if enableVitalProductData then
      match ← SPCInquiry.vpdPage device command pageCode with
      | none =>
        .ok (SamStatCheckCondition, BuildSenseData command IllegalRequest AscInvalidFieldInCdb)
      | some data =>
        match command.InSDBBuffer with
        | none => .crash
        | some buffer =>
          if allocationLength < data.length then
            .ok (SamStatGood, { command with InSDBBuffer := some { buffer with
              Buffer := copyBytes buffer.Buffer (data.take allocationLength)
              Residual := wrap32 data.length } })
          else
            .ok (SamStatGood, { command with InSDBBuffer := some { buffer with
              Buffer := copyBytes buffer.Buffer data } })
    else if pageCode ≠ 0 then
      .ok (SamStatCheckCondition, BuildSenseData command IllegalRequest AscInvalidFieldInCdb)
    else
      let data := standardInquiryData device
      let additionLength := data.length - 5
      match command.InSDBBuffer with
      | none => .crash
      | some buffer =>
        if allocationLength < additionLength % 65536 then
          .ok (SamStatGood, { command with InSDBBuffer := some { buffer with
            Residual := allocationLength
            Buffer := copyBytes buffer.Buffer (data.take allocationLength) } })
        else
          .ok (SamStatGood, { command with InSDBBuffer := some { buffer with
            Residual := wrap32 data.length
            Buffer := copyBytes buffer.Buffer data } })

/-- The callee that the `switch` of `LogicalUnit.PerformCommand` selects. -/
inductive Handler where
  | SPCTestUnit | SPCRequestSense | SBCFormatUnit | SPCInquiry | SBCStartStop
  | SBCReadCapacity | SBCModeSelect | SPCModeSense10 | SPCModeSense6 | SBCRead | SbcWrite
  | SbcSyncCache | SbcWriteSame16 | SPCReportLuns | SPCReportSupportedOperationCodes
  | SBCReadCapacity16
  | invalidFieldInCdb
  | invalidOpCode
  deriving DecidableEq, Repr

/-- The `switch` of `LogicalUnit.PerformCommand`: which handler runs for an operation code
(`invalidFieldInCdb` and `invalidOpCode` are the two branches that build sense data in
place). -/
def PerformCommand.handler (OperationCode : Nat) (SCB : List Byte) : Outcome Handler :=
  if OperationCode = TestUnitReady then .ok .SPCTestUnit
  else if OperationCode = RequestSense then .ok .SPCRequestSense
  else if OperationCode = FormatUnit then .ok .SBCFormatUnit
  else if OperationCode = Inquiry then .ok .SPCInquiry
  else if OperationCode = StartStop then .ok .SBCStartStop
  else if OperationCode = ReadCapacity10 then .ok .SBCReadCapacity
  else if OperationCode = ModeSelect10 then .ok .SBCModeSelect
  else if OperationCode = ModeSense10 then .ok .SPCModeSense10
  else if OperationCode = ModeSense6 then .ok .SPCModeSense6
  else if OperationCode = Read10 then .ok .SBCRead
  else if OperationCode = Read16 then .ok .SBCRead
  else if OperationCode = Write10 then .ok .SbcWrite
  else if OperationCode = Write16 then .ok .SbcWrite
  else if OperationCode = SynchronizeCache10 then .ok .SbcSyncCache
  else if OperationCode = SynchronizeCache16 then .ok .SbcSyncCache
  else if OperationCode = WriteSame16 then .ok .SbcWriteSame16
  else if OperationCode = ReportLuns then .ok .SPCReportLuns
  else if OperationCode = OperationCodeMaintenanceIn then
    (byteAt SCB 1).bind fun scb1 =>
      if scb1 &&& 0x1f = ServiceActionReportSupportedOperationCodes then
        .ok .SPCReportSupportedOperationCodes
      else .ok .invalidFieldInCdb
  else if OperationCode = ServiceActionIn then
    (byteAt SCB 1).bind fun scb1 =>
      if scb1 &&& 0x1f = ServiceActionReadCapacity16 then .ok .SBCReadCapacity16
      else .ok .invalidFieldInCdb
  else .ok .invalidOpCode
/-- `LogicalUnit.Init(TypeDisk)` applied by `NewSCSILu` to a unit of `size` bytes with
identifier `uuid` on the given backing store: block shift 9, on line, the five mode pages
and the mode block descriptor. -/
def NewSCSILu (size uuid : Nat) (backing : BackingStore) : LogicalUnit :=
  let blockShift := 9
  let blocks := size >>> blockShift
  { Size := size
    UUID := uuid
    BlockShift := blockShift
    Online := true
    DeviceType := 0x00
    VendorID := [0x4e, 0x58]
    ProductID := [0x51, 0x43, 0x4f, 0x57, 0x54, 0x41, 0x52, 0x47, 0x45, 0x54]
    ProductRev := [0x30, 0x2e, 0x31]
    VersionDescription := [0x03, 0x20, 0x09, 0x60, 0x03, 0x00, 0x00, 0x60,
                           0, 0, 0, 0, 0, 0, 0, 0]
    ModePages :=
      [⟨0x02, 0, [0x80, 0x80, 0x00, 0xa, 0x00, 0x00, 0x00, 0x00, 0x00, 0x00, 0x00,
                  0x00, 0x00, 0x00]⟩,
       ⟨0x08, 0, [0x14, 0, 0xff, 0xff, 0, 0, 0xff, 0xff, 0xff, 0xff, 0x80, 0x14,
                  0, 0, 0, 0, 0, 0]⟩,
       ⟨0x0a, 0, [2, 0x10, 0, 0, 0, 0, 0, 0, 2, 0]⟩,
       ⟨0x0a, 0x01, 0x04 :: List.replicate 27 0⟩,
       ⟨0x1c, 0, [8, 0, 0, 0, 0, 0, 0, 0, 0, 0]⟩]
    ModeBlockDescriptor :=
      (if blocks >>> 32 = 0 then uint32ToByte (wrap32 blocks) else uint32ToByte 0xffffffff)
        ++ uint32ToByte (wrap32 (1 <<< blockShift))
    BackingStorage := backing }

/-- A backing store over a blank medium: reads return zero bytes, writes and syncs succeed;
no call has been made yet. -/
def blankStore : BackingStore :=
  { Read := fun _ transferLength => .ok (List.replicate transferLength 0)
    Write := fun _ _ => .ok ()
    DataSync := .ok ()
    calls := [] }

/-- A SCSI command as the handlers receive it: the CDB, the target it is addressed to and
the data-in buffer; the operation code is the first CDB byte. -/
def commandOfCDB (SCB : List Byte) (target : SCSITarget) (buffer : Option SCSIDataBuffer) :
    SCSICommand :=
  { OperationCode := (SCB.headD 0).val
    Target := target
    InSDBBuffer := buffer
    OutSDBBuffer := none
    RelTargetPortID := 0
    TargetPortGroupId := 0
    TargetPortName := []
    Offset := 0
    TransferLength := 0
    SCB := SCB
    LogicalUnit := 0
    Result := 0
    SenseBuffer := none }

/-- A data-in buffer of `n` bytes, every byte preset to `0xFF` so that written bytes show. -/
def filledBuffer (n : Nat) : SCSIDataBuffer :=
  { Buffer := List.replicate n 0xFF, Length := n, TransferLength := 0, Residual := 0 }

/-- A target named `t` whose `Devices` map holds the given LUN numbers. -/
def targetWith (devices : List Nat) : SCSITarget := { Name := [0x74], Devices := devices }

/-! ### Login key-value text (`pkg/iscsi_target/util.go`) -/

/-- `bytes.Split(data, []byte{sep})`: the pieces of `data` between the occurrences of
`sep`; `n` separators give `n + 1` pieces. -/
def bytesSplit (sep : Byte) : List Byte → List (List Byte)
  | [] => [[]]
  | b :: rest =>
    if b = sep then [] :: bytesSplit sep rest
    else
      match bytesSplit sep rest with
      | [] => [[b]]
      | first :: more => (b :: first) :: more

/-- `bytes.Join(parts, []byte{sep})`. -/
def bytesJoin (sep : Byte) : List (List Byte) → List Byte
  | [] => []
  | [part] => part
  | part :: rest => part ++ sep :: bytesJoin sep rest

/-- `KeyValue`. -/
structure KeyValue where
  key : List Byte
  value : List Byte
  deriving DecidableEq, Repr

/-- `KeyValue.toByte`: `key + "=" + value`. -/
def KeyValue.toByte (keyValue : KeyValue) : List Byte :=
  keyValue.key ++ [0x3d] ++ keyValue.value

/-- `UnparseIscsiKeyValue`. -/
def UnparseIscsiKeyValue (kv : List KeyValue) : List Byte :=
  bytesJoin 0 (kv.map KeyValue.toByte)

/-- `ParseIscsiKeyValue`: the resulting map, as the list of its entries. -/
def ParseIscsiKeyValue (data : List Byte) : List (List Byte × List Byte) :=
  (bytesSplit 0 data).foldl (fun result keyValuePair =>
    match bytesSplit 0x3d keyValuePair with
    | [key, value] => mapAssign result key value
    | _ => result) []

/-! ### Login negotiation (`pkg/iscsi_target/session.go`, `login.go`) -/

/-- The bytes of an ASCII string literal. -/
def ascii (s : String) : List Byte := s.toList.map fun c => lowByte c.toNat

/-- `DigestNone`. -/
def DigestNone : Nat := 1 <<< 0
/-- `DigestCrc32c`. -/
def DigestCrc32c : Nat := 1 <<< 1
/-- `DigestAll`. -/
def DigestAll : Nat := DigestNone ||| DigestCrc32c

/-- `SecurityNegotiation`, `LoginOperationalNegotiation`, `FullFeaturePhase`. -/
def SecurityNegotiation : Nat := 0
def LoginOperationalNegotiation : Nat := 1
def FullFeaturePhase : Nat := 3

/-- `SessionNormal`, `SessionDiscovery`. -/
def SessionNormal : Nat := 0
def SessionDiscovery : Nat := 1

/-- An ASCII letter in lower case. -/
def asciiLower (b : Byte) : Byte :=
  if 0x41 ≤ b.val ∧ b.val ≤ 0x5a then lowByte (b.val + 0x20) else b

/-- `strings.EqualFold(a, b)` for an ASCII string `b`, which is how the code calls it (with
the literals `yes`, `no`, `crc32c` and `none`): the strings are compared rune by rune under
Unicode simple case folding.  A rune of `a` folds to an ASCII character of `b` when it is
that character up to the case of a letter, when it is U+017F (bytes C5 BF, the long s) and
the character is `s` or `S`, or when it is U+212A (bytes E2 84 AA, the Kelvin sign) and the
character is `k` or `K`; every other rune, also the replacement rune of a byte that is not
valid UTF-8, folds to no ASCII character. -/
def equalFold : List Byte → List Byte → Bool
  | [], [] => true
  | [], _ :: _ => false
  | _ :: _, [] => false
  | a :: as, b :: bs =>
    if a.val < 0x80 then asciiLower a == asciiLower b && equalFold as bs
    else
      match as with
      | a2 :: as2 =>
        if a.val = 0xc5 ∧ a2.val = 0xbf then
          (b.val = 0x73 ∨ b.val = 0x53) && equalFold as2 bs
        else
          match as2 with
          | a3 :: as3 =>
            if a.val = 0xe2 ∧ a2.val = 0x84 ∧ a3.val = 0xaa then
              (b.val = 0x6b ∨ b.val = 0x4b) && equalFold as3 bs
            else false
          | [] => false
      | [] => false

/-- `digestKeyConv`: the loop over the comma-separated values. -/
def digestKeyConv.loop : List (List Byte) → Nat → Nat × Bool
  | [], crc => (crc, true)
  | tmpV :: rest, crc =>
    if equalFold tmpV (ascii "crc32c") then digestKeyConv.loop rest (crc ||| DigestCrc32c)
    else if equalFold tmpV (ascii "none") then digestKeyConv.loop rest (crc ||| DigestNone)
    else (crc, false)

/-- `digestKeyConv`. -/
def digestKeyConv (value : List Byte) : Nat × Bool :=
  let valueArray := bytesSplit 0x2c value
  if valueArray.length = 0 then (0, false) else digestKeyConv.loop valueArray 0

/-- `digestKeyInConv`. -/
def digestKeyInConv (value : Nat) : List Byte :=
  if value = DigestNone then ascii "None"
  else if value = DigestCrc32c then ascii "CRC32C"
  else if value = DigestAll then ascii "None,CRC32C"
  else []

/-- The value of a non-empty string of decimal digits. -/
def decimalValue : List Byte → Nat → Option Nat
  | [], acc => some acc
  | b :: rest, acc =>
    if 0x30 ≤ b.val ∧ b.val ≤ 0x39 then decimalValue rest (acc * 10 + (b.val - 0x30)) else none

/-- `strconv.Atoi` on a 64-bit platform: an optional sign and decimal digits, within the
range of `int`; `none` is a returned error. -/
def Atoi (s : List Byte) : Option Int :=
  let signed : Bool × List Byte :=
    match s with
    | b :: rest =>
      if b.val = 0x2d then (true, rest) else if b.val = 0x2b then (false, rest) else (false, s)
    | [] => (false, s)
  match signed.2 with
  | [] => none
  | digits =>
    match decimalValue digits 0 with
    | none => none
    | some n =>
      let v : Int := if signed.1 then -(n : Int) else (n : Int)
      if -(2 : Int) ^ 63 ≤ v ∧ v < (2 : Int) ^ 63 then some v else none

/-- `numberKeyConv`: `uint(v)` of the parsed integer. -/
def numberKeyConv (value : List Byte) : Nat × Bool :=
  match Atoi value with
  | some v => ((v % 18446744073709551616).toNat, true)
  | none => (0, false)

/-- `numberKeyInConv`: `strconv.Itoa(int(value))`. -/
def numberKeyInConv (value : Nat) : List Byte :=
  if value < 9223372036854775808 then decimalBytes value
  else lowByte 0x2d :: decimalBytes (18446744073709551616 - value)

/-- `boolKeyConv`. -/
def boolKeyConv (value : List Byte) : Nat × Bool :=
  if equalFold value (ascii "yes") then (1, true)
  else if equalFold value (ascii "no") then (0, true)
  else (0, false)

/-- `boolKeyInConv`. -/
def boolKeyInConv (value : Nat) : List Byte :=
  if value = 0 then ascii "No" else ascii "Yes"

/-- The three pairs of conversion functions used in the key table. -/
inductive KeyConv where
  | digest
  | number
  | bool
  deriving DecidableEq, Repr

/-- The field `conv` of a key. -/
def KeyConv.conv : KeyConv → List Byte → Nat × Bool
  | .digest => digestKeyConv
  | .number => numberKeyConv
  | .bool => boolKeyConv

/-- The field `inConv` of a key. -/
def KeyConv.inConv : KeyConv → Nat → List Byte
  | .digest => digestKeyInConv
  | .number => numberKeyInConv
  | .bool => boolKeyInConv

/-- `iscsiSessionKeys` (the field `def` is `defaultValue`; `conv` and `inConv` are given
together). -/
structure iscsiSessionKeys where
  idx : Nat
  constValue : Bool
  defaultValue : Nat
  min : Nat
  max : Nat
  kind : KeyConv
  deriving DecidableEq, Repr

/-- The table `sessionKeys`. -/
def sessionKeys : List (List Byte × iscsiSessionKeys) :=
  [(ascii "MaxRecvDataSegmentLength", ⟨0, true, 65536, 512, 16777215, .number⟩),
   (ascii "HeaderDigest", ⟨1, false, DigestNone, DigestNone, DigestAll, .digest⟩),
   (ascii "DataDigest", ⟨2, false, DigestNone, DigestNone, DigestAll, .digest⟩),
   (ascii "InitialR2T", ⟨3, true, 1, 0, 1, .bool⟩),
   (ascii "MaxOutstandingR2T", ⟨4, true, 1, 1, 65535, .number⟩),
   (ascii "ImmediateData", ⟨5, true, 1, 0, 1, .bool⟩),
   (ascii "FirstBurstLength", ⟨6, true, 65536, 512, 16777215, .number⟩),
   (ascii "MaxBurstLength", ⟨7, true, 262144, 512, 16777215, .number⟩),
   (ascii "DataPDUInOrder", ⟨8, true, 1, 0, 1, .number⟩),
   (ascii "DataSequenceInOrder", ⟨9, true, 1, 0, 1, .number⟩),
   (ascii "ErrorRecoveryLevel", ⟨10, true, 0, 0, 2, .number⟩),
   (ascii "IFMarker", ⟨11, true, 0, 0, 1, .bool⟩),
   (ascii "OFMarker", ⟨12, true, 0, 0, 1, .bool⟩),
   (ascii "DefaultTime2Wait", ⟨13, true, 2, 0, 3600, .number⟩),
   (ascii "DefaultTime2Retain", ⟨14, false, 20, 0, 3600, .number⟩),
   (ascii "OFMarkInt", ⟨15, true, 2048, 1, 65535, .number⟩),
   (ascii "IFMarkInt", ⟨16, true, 2048, 1, 65535, .number⟩),
   (ascii "MaxConnections", ⟨17, true, 1, 1, 65535, .number⟩),
   (ascii "RDMAExtensions", ⟨18, true, 0, 0, 1, .bool⟩),
   (ascii "TargetRecvDataSegmentLength", ⟨19, true, 8192, 512, 16777215, .number⟩),
   (ascii "InitiatorRecvDataSegmentLength", ⟨20, true, 8192, 512, 16777215, .number⟩),
   (ascii "MaxOutstandingUnexpectedPDUs", ⟨21, true, 0, 2, 4294967295, .number⟩),
   (ascii "MaxXmitDataSegmentLength", ⟨22, true, 8192, 512, 16777215, .number⟩),
   (ascii "MaxQueueCmd", ⟨22, true, 128, 1, 512, .number⟩)]

/-- `iscsiLoginParam`, with the fields `processLoginData` uses; `sessionParam` holds the
`Value` of each entry, at the position of its `idx`. -/
structure iscsiLoginParam where
  iniCSG : Nat
  iniNSG : Nat
  iniTrans : Bool
  tgtNSG : Nat
  tgtTrans : Bool
  sessionType : Nat
  sessionParam : List Nat
  initiator : List Byte
  initiatorAlias : List Byte
  target : List Byte
  deriving DecidableEq, Repr

/-- The login parameters after `iscsiConnection.init`: every session parameter at the
default of its key, sorted by `idx`; the two entries of `idx` 22 stand in the order of the
table (the sort of the Go code may leave them in either order). -/
def iscsiConnection.init : iscsiLoginParam :=
  { iniCSG := 0
    iniNSG := 0
    iniTrans := false
    tgtNSG := LoginOperationalNegotiation
    tgtTrans := false
    sessionType := 0
    sessionParam := sessionKeys.map fun item => item.2.defaultValue
    initiator := []
    initiatorAlias := []
    target := [] }

/-- The assignment `sessionParam[idx].Value = value`: an index past the end panics. -/
def setSessionParam (sessionParam : List Nat) (idx value : Nat) : Outcome (List Nat) :=
  if idx < sessionParam.length then .ok (sessionParam.set idx value) else .crash

/-- The state of the loop of `processLoginData`. -/
structure LoginDataState where
  loginParam : iscsiLoginParam
  negotiationKeyValue : List KeyValue
  kvChanges : Nat
  deriving DecidableEq, Repr

/-- The body of the loop of `processLoginData` for one pair of the parsed login data. -/
def processLoginData.step (state : LoginDataState) (key val : List Byte) :
    Outcome LoginDataState :=
  if key = ascii "MaxRecvDataSegmentLength" then
    match mapLookup sessionKeys (ascii "MaxXmitDataSegmentLength") with
    | none => .crash
    | some defSessKey =>
      (setSessionParam state.loginParam.sessionParam defSessKey.idx
        (defSessKey.kind.conv val).1).bind fun sessionParam =>
        .ok { state with loginParam := { state.loginParam with sessionParam := sessionParam } }
  else if key = ascii "InitiatorName" then
    .ok { state with loginParam := { state.loginParam with initiator := val } }
  else if key = ascii "InitiatorAlias" then
    .ok { state with loginParam := { state.loginParam with initiatorAlias := val } }
  else if key = ascii "TargetName" then
    .ok { state with loginParam := { state.loginParam with target := val } }
  else if key = ascii "SessionType" then
    .ok { state with loginParam := { state.loginParam with
      sessionType := if val = ascii "Normal" then SessionNormal else SessionDiscovery } }
  else
    match mapLookup sessionKeys key with
    | none => .error .unknownNegotiationKey
    | some defSessKey =>
      let converted := defSessKey.kind.conv val
      let uintVal :=
        if (key = ascii "HeaderDigest" ∨ key = ascii "DataDigest") ∧ converted.1 = DigestAll then
          DigestNone
        else converted.1
      if converted.2 then
        if defSessKey.constValue then
          .ok { state with
            kvChanges := if uintVal ≠ defSessKey.defaultValue then state.kvChanges + 1
              else state.kvChanges
            negotiationKeyValue := state.negotiationKeyValue
              ++ [⟨key, defSessKey.kind.inConv defSessKey.defaultValue⟩] }
        else if defSessKey.min ≤ uintVal ∧ uintVal ≤ defSessKey.max then
          (setSessionParam state.loginParam.sessionParam defSessKey.idx uintVal).bind
            fun sessionParam =>
              .ok { state with
                loginParam := { state.loginParam with sessionParam := sessionParam }
                negotiationKeyValue := state.negotiationKeyValue
                  ++ [⟨key, defSessKey.kind.inConv uintVal⟩] }
        else
          .ok { state with
            negotiationKeyValue := state.negotiationKeyValue
              ++ [⟨key, defSessKey.kind.inConv defSessKey.defaultValue⟩]
            kvChanges := state.kvChanges + 1 }
      else .ok state

/-- The loop of `processLoginData` over the parsed pairs, in the order in which `range`
visits the map. -/
def processLoginData.loop : List (List Byte × List Byte) → LoginDataState →
    Outcome LoginDataState
  | [], state => .ok state
  | (key, val) :: rest, state =>
    (processLoginData.step state key val).bind (processLoginData.loop rest)

/-- `processLoginData` on the parsed login data `loginKV`: the key-value list it returns
with the login parameters it leaves, and whether the returned error is nil (`true`) or the
stage rejection (`false`); an unknown key is the error outcome. -/
def processLoginData (loginParam : iscsiLoginParam) (loginKV : List (List Byte × List Byte)) :
    Outcome (List KeyValue × iscsiLoginParam × Bool) :=
  (processLoginData.loop loginKV ⟨loginParam, [], 0⟩).bind fun state =>
    if state.kvChanges = 0 then
      if state.loginParam.iniNSG = FullFeaturePhase ∧ state.loginParam.iniTrans then
        .ok (state.negotiationKeyValue,
          { state.loginParam with tgtNSG := FullFeaturePhase, tgtTrans := true }, true)
      else .ok (state.negotiationKeyValue, state.loginParam, false)
    else
      .ok (state.negotiationKeyValue,
        { state.loginParam with tgtNSG := FullFeaturePhase, tgtTrans := true }, true)

/-! ### Session binding (`pkg/iscsi_target/session.go`) -/

/-- `ISCSISession`: the fields `BindISCSISession` reads and writes; `Target` is the
`TargetId` of the target the session points to and `Connections` the keys of its
connection map. -/
structure ISCSISession where
  ISID : Nat
  TSIH : Nat
  TPGT : Nat
  SessionType : Nat
  Target : Option Nat
  ExpCmdSN : Nat
  MaxCmdSN : Nat
  MaxQueueCommand : Nat
  Connections : List Nat
  deriving DecidableEq, Repr

/-- `ISCSITarget`: the name and id of the embedded SCSI target, what `TPGT.FindTPG`
answers for the portal of the connection (`none` is its error), and the session table. -/
structure ISCSITarget where
  Name : List Byte
  TargetId : Nat
  portalGroup : Option Nat
  Sessions : List (Nat × ISCSISession)
  deriving DecidableEq, Repr

/-- `ISCSITargetDriver`: the targets by name, the TSIH pool, and the connections on which
`close` has been called, as pairs of session TSIH and connection id. -/
structure ISCSITargetDriver where
  iSCSITargets : List (List Byte × ISCSITarget)
  TSIHPool : Nat → Bool
  closed : List (Nat × Nat)

/-- The fields of an `iscsiConnection` in login that `BindISCSISession` uses. -/
structure LoginConnection where
  ConnectionId : Nat
  TargetId : Nat
  expCmdSN : Nat
  sessionType : Nat
  target : List Byte
  isid : Nat
  tsih : Nat
  tpgt : Nat
  maxQueueCmd : Nat
  session : Option ISCSISession
  deriving DecidableEq, Repr

/-- `LookupISCSISession`. -/
def LookupISCSISession (targetDriver : ISCSITargetDriver) (tgtName : List Byte)
    (isid tsih tpgt : Nat) : Option ISCSISession :=
  match mapLookup targetDriver.iSCSITargets tgtName with
  | none => none
  | some tgt =>
    match mapLookup tgt.Sessions tsih with
    | none => none
    | some session => if session.ISID = isid ∧ session.TPGT = tpgt then some session else none

/-- Applies `change` to the target with the given `TargetId` (the target a session points
to). -/
def ISCSITargetDriver.updateTarget (targetDriver : ISCSITargetDriver) (targetId : Nat)
    (change : ISCSITarget → ISCSITarget) : ISCSITargetDriver :=
  { targetDriver with
    iSCSITargets := targetDriver.iSCSITargets.map fun item =>
      if item.2.TargetId = targetId then (item.1, change item.2) else item }

/-- `UnBindISCSISession`. -/
def UnBindISCSISession (targetDriver : ISCSITargetDriver) (session : ISCSISession) :
    ISCSITargetDriver :=
  match session.Target with
  | none => targetDriver
  | some targetId =>
    targetDriver.updateTarget targetId fun target =>
      { target with Sessions := mapDelete target.Sessions session.TSIH }

/-- `NewISCSISession`. -/
def NewISCSISession (targetDriver : ISCSITargetDriver) (connection : LoginConnection) :
    Outcome (ISCSISession × ISCSITargetDriver) :=
  let target := targetDriver.iSCSITargets.find? fun item => item.2.TargetId = connection.TargetId
  if target.isNone ∧ connection.TargetId ≠ 0xffff then .error .noTargetFound
  else
    let allocated := AllocTSIH targetDriver.TSIHPool
    if allocated.1 = 0 then .error .handlePoolExhausted
    else
      .ok ({ TSIH := allocated.1
             ISID := connection.isid
             TPGT := connection.tpgt
             SessionType := connection.sessionType
             Target := target.map fun item => item.2.TargetId
             Connections := [connection.ConnectionId]
             MaxQueueCommand := wrap32 connection.maxQueueCmd
             ExpCmdSN := connection.expCmdSN
             MaxCmdSN := 0 },
           { targetDriver with TSIHPool := allocated.2 })

/-- `ISCSITargetDriver.ReInstatement`. -/
def ISCSITargetDriver.ReInstatement (targetDriver : ISCSITargetDriver)
    (existSess : ISCSISession) (conn : LoginConnection) :
    Outcome (ISCSISession × ISCSITargetDriver) :=
  (NewISCSISession targetDriver conn).bind fun created =>
    let newSess := { created.1 with
      ExpCmdSN := existSess.ExpCmdSN
      MaxCmdSN := wrap32 (existSess.MaxCmdSN + 1) }
    let targetDriver := UnBindISCSISession created.2 existSess
    .ok (newSess, { targetDriver with
      closed := targetDriver.closed ++ existSess.Connections.map fun id => (existSess.TSIH, id) })

/-- The registration `newSession.Target.Sessions[newSession.TSIH] = newSession`; a session
without target is a nil dereference. -/
def registerSession (targetDriver : ISCSITargetDriver) (newSession : ISCSISession) :
    Outcome ISCSITargetDriver :=
  match newSession.Target with
  | none => .crash
  | some targetId =>
    .ok (targetDriver.updateTarget targetId fun target =>
      { target with Sessions := mapAssign target.Sessions newSession.TSIH newSession })

/-- `BindISCSISession`: the driver and the connection after the call. -/
def BindISCSISession (targetDriver : ISCSITargetDriver) (connection : LoginConnection) :
    Outcome (ISCSITargetDriver × LoginConnection) := do
  let connection ←
    if connection.sessionType = SessionDiscovery then
      Outcome.ok { connection with TargetId := 0xffff }
    else
      match targetDriver.iSCSITargets.find? fun item => item.2.Name = connection.target with
      | none => Outcome.error .noTargetFound
      | some target =>
        match target.2.portalGroup with
        | none => Outcome.error .noTargetFound
        | some tpgt => Outcome.ok { connection with tpgt := tpgt, TargetId := target.2.TargetId }
  let existSession := LookupISCSISession targetDriver connection.target connection.isid
    connection.tsih connection.tpgt
  let existingConnection : Option Nat :=
    match existSession with
    | some session => session.Connections.find? fun id => id = connection.ConnectionId
    | none => none
  if connection.sessionType = SessionDiscovery ∧ connection.tsih ≠ 0 ∧ existSession.isSome then
    .error .invalidRequest
  else
    match existSession with
    | none =>
      if connection.tsih ≠ 0 then .crash
      else
        let (newSession, targetDriver) ← NewISCSISession targetDriver connection
        if newSession.SessionType = SessionNormal then
          let targetDriver ← registerSession targetDriver newSession
          .ok (targetDriver, { connection with session := some newSession })
        else .ok (targetDriver, { connection with session := some newSession })
    | some session =>
      if connection.tsih = 0 then
        match existingConnection with
        | none => .crash
        | some _ =>
          let (newSession, targetDriver) ← targetDriver.ReInstatement session connection
          let targetDriver ← registerSession targetDriver newSession
          .ok (targetDriver, { connection with session := some newSession })
      else
        match existingConnection with
        | some id =>
          .ok ({ targetDriver with closed := targetDriver.closed ++ [(session.TSIH, id)] },
            connection)
        | none => .ok (targetDriver, connection)

/-- A driver with the single target `t` (id 1, portal group 1) and no session. -/
def singleTargetDriver : ISCSITargetDriver :=
  { iSCSITargets := [([0x74], { Name := [0x74], TargetId := 1, portalGroup := some 1,
                                Sessions := [] })]
    TSIHPool := newHandlePool
    closed := [] }

/-- A Normal-session login to target `t` with ISID 7 and TSIH 0 on the connection with the
given id and command sequence number. -/
def normalLogin (connectionId expCmdSN : Nat) : LoginConnection :=
  { ConnectionId := connectionId
    TargetId := 0
    expCmdSN := expCmdSN
    sessionType := SessionNormal
    target := [0x74]
    isid := 7
    tsih := 0
    tpgt := 0
    maxQueueCmd := 128
    session := none }

/-! ### PDU headers (`pkg/iscsi_target/command.go`, `login.go`, `logout.go`) -/

/-- The opcodes of `command.go`. -/
def OpNoopOut : Nat := 0x00
def OpSCSICmd : Nat := 0x01
def OpSCSITaskReq : Nat := 0x02
def OpLoginReq : Nat := 0x03
def OpTextReq : Nat := 0x04
def OpSCSIOut : Nat := 0x05
def OpLogoutReq : Nat := 0x06
def OpSNACKReq : Nat := 0x10
def OpNoopIn : Nat := 0x20
def OpSCSIResp : Nat := 0x21
def OpSCSITaskResp : Nat := 0x22
def OpLoginResp : Nat := 0x23
def OpTextResp : Nat := 0x24
def OpSCSIIn : Nat := 0x25
def OpLogoutResp : Nat := 0x26
def OpReady : Nat := 0x31
def OpAsync : Nat := 0x32
def OpReject : Nat := 0x3f

/-- `BasicHeaderSegmentSize`. -/
def BasicHeaderSegmentSize : Nat := 48
/-- `IscsiOpcodeMask`. -/
def IscsiOpcodeMask : Nat := 0x3F
/-- `IscsiFlagTmFuncMask`. -/
def IscsiFlagTmFuncMask : Nat := 0x7F

/-- `ISCSICommand` (without the raw header and the start time). -/
structure ISCSICommand where
  OperationCode : Nat
  DataLen : Nat
  RawData : List Byte
  Final : Bool
  FinalInSeq : Bool
  Immediate : Bool
  TaskTag : Nat
  ExpCmdSN : Nat
  MaxCmdSN : Nat
  AHSLen : Nat
  Resid : Nat
  ConnID : Nat
  CmdSN : Nat
  ExpStatSN : Nat
  Read : Bool
  Write : Bool
  LUN : Nat
  Transit : Bool
  Continue : Bool
  CurrentStage : Nat
  NextStage : Nat
  ISID : Nat
  TSIH : Nat
  StatSN : Nat
  StatusClass : Nat
  StatusDetail : Nat
  SCSIOpCode : Nat
  ExpectedDataLen : Nat
  CDB : List Byte
  Status : Nat
  SCSIResponse : Nat
  Result : Nat
  TaskFunc : Nat
  ReferencedTaskTag : Nat
  R2TSN : Nat
  DesiredLength : Nat
  HasStatus : Bool
  DataSequenceNumber : Nat
  BufferOffset : Nat
  deriving DecidableEq, Repr

/-- The zero value `ISCSICommand{}`. -/
def ISCSICommand.zero : ISCSICommand :=
  { OperationCode := 0, DataLen := 0, RawData := [], Final := false, FinalInSeq := false,
    Immediate := false, TaskTag := 0, ExpCmdSN := 0, MaxCmdSN := 0, AHSLen := 0, Resid := 0,
    ConnID := 0, CmdSN := 0, ExpStatSN := 0, Read := false, Write := false, LUN := 0,
    Transit := false, Continue := false, CurrentStage := 0, NextStage := 0, ISID := 0,
    TSIH := 0, StatSN := 0, StatusClass := 0, StatusDetail := 0, SCSIOpCode := 0,
    ExpectedDataLen := 0, CDB := [], Status := 0, SCSIResponse := 0, Result := 0,
    TaskFunc := 0, ReferencedTaskTag := 0, R2TSN := 0, DesiredLength := 0,
    HasStatus := false, DataSequenceNumber := 0, BufferOffset := 0 }

/-- The loop of `uint64FromByte`, over the bytes from the last to the first. -/
def uint64FromByte.loop : List Byte → Nat → Nat → Nat
  | [], _, out => out
  | b :: rest, i, out =>
    uint64FromByte.loop rest (i + 1) (wrap64 (out + wrap64 (b.val <<< (8 * i))))

/-- `uint64FromByte`. -/
def uint64FromByte (data : List Byte) : Nat := uint64FromByte.loop data.reverse 0 0

/-- The byte `data[i]` of a header whose length has been checked. -/
def headerByte (data : List Byte) (i : Nat) : Nat := (data.getD i 0).val

/-- The slice `data[a:b]` of a header whose length has been checked. -/
def headerField (data : List Byte) (a b : Nat) : List Byte := (data.drop a).take (b - a)

/-- The login-style fields that `parseHeader` reads for NOP-Out, Login, Text and Logout
requests and for Login responses; both transit and continue set is an error. -/
def parseHeader.stages (data : List Byte) (command : ISCSICommand) : Outcome ISCSICommand :=
  let command := { command with
    Transit := command.Final
    Continue := decide (headerByte data 1 &&& 0x40 = 0x40) }
  if command.Continue ∧ command.Transit then .error .transitAndContinue
  else
    .ok { command with
      CurrentStage := (headerByte data 1 &&& 0xc) >>> 2
      NextStage := headerByte data 1 &&& 0x3 }

/-- `parseHeader`. -/
def parseHeader (data : List Byte) : Outcome ISCSICommand :=
  if data.length ≠ BasicHeaderSegmentSize then .error .garbledHeader
  else
    let command : ISCSICommand := { ISCSICommand.zero with
      Immediate := decide (0x40 &&& headerByte data 0 = 0x40)
      OperationCode := headerByte data 0 &&& IscsiOpcodeMask
      Final := decide (0x80 &&& headerByte data 1 = 0x80)
      AHSLen := headerByte data 4 * 4
      DataLen := uint64FromByte (headerField data 5 8)
      TaskTag := wrap32 (uint64FromByte (headerField data 16 20)) }
    if command.OperationCode = OpSCSICmd then
      let command := { command with
        LUN := headerByte data 9
        ExpectedDataLen := wrap32 (uint64FromByte (headerField data 20 24))
        CmdSN := wrap32 (uint64FromByte (headerField data 24 28))
        Read := decide (headerByte data 1 &&& 0x40 = 0x40)
        Write := decide (headerByte data 1 &&& 0x20 = 0x20)
        CDB := headerField data 32 48
        ExpStatSN := wrap32 (uint64FromByte (headerField data 28 32))
        SCSIOpCode := headerByte data 32 }
      let command :=
        if command.SCSIOpCode = Read16 ∨ command.SCSIOpCode = Read10 then
          { command with Read := true }
        else if command.SCSIOpCode = Write16 ∨ command.SCSIOpCode = Write10 then
          { command with Write := true }
        else command
      .ok { command with
        ReferencedTaskTag := wrap32 (uint64FromByte (headerField data 20 24))
        TaskFunc := headerByte data 1 &&& IscsiFlagTmFuncMask }
    else if command.OperationCode = OpSCSITaskReq then
      .ok { command with
        ReferencedTaskTag := wrap32 (uint64FromByte (headerField data 20 24))
        TaskFunc := headerByte data 1 &&& IscsiFlagTmFuncMask }
    else if command.OperationCode = OpSCSIResp then .ok command
    else if command.OperationCode = OpSCSIOut then
      .ok { command with
        LUN := headerByte data 9
        ExpStatSN := wrap32 (uint64FromByte (headerField data 28 32))
        DataSequenceNumber := wrap32 (uint64FromByte (headerField data 36 40))
        BufferOffset := wrap32 (uint64FromByte (headerField data 40 44)) }
    else if command.OperationCode = OpNoopOut then
      (parseHeader.stages data command).bind fun command =>
        .ok { command with
          ISID := uint64FromByte (headerField data 8 14)
          TSIH := uint64FromByte (headerField data 14 16) % 65536
          ReferencedTaskTag := wrap32 (uint64FromByte (headerField data 20 24))
          CmdSN := wrap32 (uint64FromByte (headerField data 24 28))
          ExpStatSN := wrap32 (uint64FromByte (headerField data 28 32)) }
    else if command.OperationCode = OpLoginReq ∨ command.OperationCode = OpTextReq
        ∨ command.OperationCode = OpLogoutReq then
      (parseHeader.stages data command).bind fun command =>
        .ok { command with
          ISID := uint64FromByte (headerField data 8 14)
          TSIH := uint64FromByte (headerField data 14 16) % 65536
          ConnID := uint64FromByte (headerField data 20 22) % 65536
          CmdSN := wrap32 (uint64FromByte (headerField data 24 28))
          ExpStatSN := wrap32 (uint64FromByte (headerField data 28 32)) }
    else if command.OperationCode = OpLoginResp then
      (parseHeader.stages data command).bind fun command =>
        .ok { command with
          StatSN := wrap32 (uint64FromByte (headerField data 24 28))
          ExpCmdSN := wrap32 (uint64FromByte (headerField data 28 32))
          MaxCmdSN := wrap32 (uint64FromByte (headerField data 32 36))
          StatusClass := headerByte data 36
          StatusDetail := headerByte data 37 }
    else .ok command

/-- A data segment padded with zero bytes to a multiple of 4, as the padding loops of the
response builders and `alignBytesToBlock(data, 4)` do. -/
def padToFour (rd : List Byte) : List Byte :=
  rd ++ List.replicate ((4 - rd.length % 4) % 4) 0

/-- `MarshalUint64(uint64(v))[4:]` for a `uint32` field. -/
def lowFour (v : Nat) : List Byte := (uint64ToByte v).drop 4

/-- `MarshalUint64(uint64(len(RawData)))[5:]`: the length in three bytes. -/
def lengthField (n : Nat) : List Byte := (uint64ToByte n).drop 5

/-- The residual flags of a SCSI response. -/
def scsiCmdRespBytes.flag (iscsiCommand : ISCSICommand) : Nat :=
  if iscsiCommand.Resid > 0 then
    if iscsiCommand.Resid > iscsiCommand.ExpectedDataLen then 0x80 ||| 0x04 else 0x80 ||| 0x02
  else 0x80

/-- `scsiCmdRespBytes`. -/
def scsiCmdRespBytes (iscsiCommand : ISCSICommand) : List Byte :=
  [lowByte OpSCSIResp, lowByte (scsiCmdRespBytes.flag iscsiCommand),
   lowByte iscsiCommand.SCSIResponse, lowByte iscsiCommand.Status, 0x00]
    ++ lengthField iscsiCommand.RawData.length ++ List.replicate 8 0x00
    ++ lowFour iscsiCommand.TaskTag ++ List.replicate 4 0x00
    ++ lowFour iscsiCommand.StatSN ++ lowFour iscsiCommand.ExpCmdSN
    ++ lowFour iscsiCommand.MaxCmdSN ++ List.replicate 8 0x00 ++ lowFour iscsiCommand.Resid
    ++ padToFour iscsiCommand.RawData

/-- The flag byte of `dataInBytes`. -/
def dataInBytes.flag (iscsiCommand : ISCSICommand) : Nat :=
  let flag := if iscsiCommand.FinalInSeq ∨ iscsiCommand.Final then 0x80 else 0
  let flag := if iscsiCommand.HasStatus ∧ iscsiCommand.Final then flag ||| 0x01 else flag
  if iscsiCommand.Resid > 0 then
    if iscsiCommand.Resid > iscsiCommand.ExpectedDataLen then flag ||| 0x04
    else if iscsiCommand.Resid < iscsiCommand.ExpectedDataLen then flag ||| 0x02
    else flag
  else flag

/-- `dataInBytes`: the slice of `RawData` it copies can be out of bounds. -/
def dataInBytes (iscsiCommand : ISCSICommand) : Outcome (List Byte) := do
  let dl := iscsiCommand.DataLen + (4 - iscsiCommand.DataLen % 4) % 4
  let flag := dataInBytes.flag iscsiCommand
  let status := if iscsiCommand.HasStatus ∧ iscsiCommand.Final then iscsiCommand.Status else flag
  let header : List Byte :=
    [lowByte OpSCSIIn, lowByte flag, 0x00, lowByte status, 0x00]
      ++ lengthField iscsiCommand.DataLen ++ List.replicate 8 0x00
      ++ uint32ToByte iscsiCommand.TaskTag ++ List.replicate 4 0x00
      ++ uint32ToByte iscsiCommand.StatSN ++ uint32ToByte iscsiCommand.ExpCmdSN
      ++ uint32ToByte iscsiCommand.MaxCmdSN ++ uint32ToByte iscsiCommand.DataSequenceNumber
      ++ uint32ToByte iscsiCommand.BufferOffset ++ uint32ToByte iscsiCommand.Resid
  if iscsiCommand.ExpectedDataLen ≠ 0 then
    let segment ← sliceOf iscsiCommand.RawData iscsiCommand.BufferOffset
      (wrap32 (iscsiCommand.BufferOffset + wrap32 iscsiCommand.DataLen))
    .ok (header ++ copyBytes (List.replicate dl 0) segment)
  else .ok (header ++ List.replicate dl 0)

/-- `textRespBytes`. -/
def textRespBytes (iscsiCommand : ISCSICommand) : List Byte :=
  [lowByte OpTextResp,
   lowByte ((if iscsiCommand.Final then 0x80 else 0) ||| (if iscsiCommand.Continue then 0x40 else 0)),
   0x00, 0x00, 0x00]
    ++ lengthField iscsiCommand.RawData.length ++ List.replicate 8 0x00
    ++ lowFour iscsiCommand.TaskTag ++ List.replicate 4 0xff
    ++ lowFour iscsiCommand.StatSN ++ lowFour iscsiCommand.ExpCmdSN
    ++ lowFour iscsiCommand.MaxCmdSN ++ List.replicate 12 0x00
    ++ padToFour iscsiCommand.RawData

/-- `noopInBytes`. -/
def noopInBytes (iscsiCommand : ISCSICommand) : List Byte :=
  [lowByte OpNoopIn, 0x80, 0x00, 0x00, 0x00]
    ++ lengthField iscsiCommand.RawData.length ++ List.replicate 8 0x00
    ++ lowFour iscsiCommand.TaskTag ++ List.replicate 4 0xff
    ++ lowFour iscsiCommand.StatSN ++ lowFour iscsiCommand.ExpCmdSN
    ++ lowFour iscsiCommand.MaxCmdSN ++ List.replicate 12 0x00
    ++ padToFour iscsiCommand.RawData

/-- `scsiTMFRespBytes`. -/
def scsiTMFRespBytes (iscsiCommand : ISCSICommand) : List Byte :=
  [lowByte OpSCSITaskResp, 0x80, lowByte iscsiCommand.Result, 0x00]
    ++ List.replicate 12 0x00 ++ lowFour iscsiCommand.TaskTag ++ List.replicate 4 0x00
    ++ lowFour iscsiCommand.StatSN ++ lowFour iscsiCommand.ExpCmdSN
    ++ lowFour iscsiCommand.MaxCmdSN ++ List.replicate 12 0x00

/-- `r2tRespBytes`. -/
def r2tRespBytes (iscsiCommand : ISCSICommand) : List Byte :=
  [lowByte OpReady, if iscsiCommand.Final then 0x80 else 0x00, 0x00, 0x00]
    ++ List.replicate 12 0x00 ++ lowFour iscsiCommand.TaskTag ++ List.replicate 4 0x00
    ++ lowFour iscsiCommand.StatSN ++ lowFour iscsiCommand.ExpCmdSN
    ++ lowFour iscsiCommand.MaxCmdSN ++ lowFour iscsiCommand.R2TSN
    ++ lowFour iscsiCommand.BufferOffset ++ lowFour iscsiCommand.DesiredLength

/-- `loginResponseBytes`. -/
def loginResponseBytes (iscsiCommand : ISCSICommand) : List Byte :=
  let stagesAndTransitByte :=
    (if iscsiCommand.Transit then 0x80 else 0) ||| (if iscsiCommand.Continue then 0x40 else 0)
      ||| ((iscsiCommand.CurrentStage &&& 0xff) <<< 2) % 256 ||| (iscsiCommand.NextStage &&& 0xff)
  [lowByte OpLoginResp, lowByte stagesAndTransitByte, 0x00, 0x00, 0x00]
    ++ lengthField iscsiCommand.RawData.length
    ++ (uint64ToByte iscsiCommand.ISID).drop 2 ++ (uint64ToByte iscsiCommand.TSIH).drop 6
    ++ lowFour iscsiCommand.TaskTag ++ [0x00, 0x00, 0x00, 0x00]
    ++ lowFour iscsiCommand.StatSN ++ lowFour iscsiCommand.ExpCmdSN
    ++ lowFour iscsiCommand.MaxCmdSN
    ++ [lowByte iscsiCommand.StatusClass, lowByte iscsiCommand.StatusDetail, 0x00, 0x00,
        0x00, 0x00, 0x00, 0x00, 0x00, 0x00, 0x00, 0x00]
    ++ padToFour iscsiCommand.RawData

/-- `logoutResponseBytes`. -/
def logoutResponseBytes (iscsiCommand : ISCSICommand) : List Byte :=
  [lowByte OpLogoutResp, 0x80, 0x00, 0x00, 0x00, 0x00, 0x00, 0x00,
   0x00, 0x00, 0x00, 0x00, 0x00, 0x00, 0x00, 0x00]
    ++ uint32ToByte iscsiCommand.TaskTag ++ [0x00, 0x00, 0x00, 0x00]
    ++ uint32ToByte iscsiCommand.StatSN ++ uint32ToByte iscsiCommand.ExpCmdSN
    ++ uint32ToByte iscsiCommand.MaxCmdSN
    ++ [0x00, 0x00, 0x00, 0x00, 0x00, 0x00, 0x00, 0x00,
        0x00, 0x00, 0x00, 0x00, 0x00, 0x00, 0x00, 0x00]

/-- `ISCSICommand.Bytes`: an opcode without a case gives `nil`, the empty slice. -/
def ISCSICommand.Bytes (iscsiCommand : ISCSICommand) : Outcome (List Byte) :=
  if iscsiCommand.OperationCode = OpLoginResp then .ok (loginResponseBytes iscsiCommand)
  else if iscsiCommand.OperationCode = OpLogoutResp then .ok (logoutResponseBytes iscsiCommand)
  else if iscsiCommand.OperationCode = OpSCSIResp then .ok (scsiCmdRespBytes iscsiCommand)
  else if iscsiCommand.OperationCode = OpSCSIIn then dataInBytes iscsiCommand
  else if iscsiCommand.OperationCode = OpTextResp then .ok (textRespBytes iscsiCommand)
  else if iscsiCommand.OperationCode = OpNoopIn then .ok (noopInBytes iscsiCommand)
  else if iscsiCommand.OperationCode = OpSCSITaskResp then .ok (scsiTMFRespBytes iscsiCommand)
  else if iscsiCommand.OperationCode = OpReady then .ok (r2tRespBytes iscsiCommand)
  else .ok []

/-- The response that `buildResponsePackage(OpReject, nil)` builds for a request with the
given task tag, `ExpStatSN` and `CmdSN`, on a connection without session. -/
def rejectResponse (TaskTag ExpStatSN CmdSN : Nat) : ISCSICommand :=
  { ISCSICommand.zero with
    StatSN := ExpStatSN
    TaskTag := TaskTag
    OperationCode := OpReject
    Final := true
    NextStage := FullFeaturePhase
    ExpCmdSN := wrap32 (CmdSN + 1) }

/-- A Logout response with the given task tag and no data segment. -/
def logoutResponse (TaskTag : Nat) : ISCSICommand :=
  { ISCSICommand.zero with OperationCode := OpLogoutResp, TaskTag := TaskTag, Final := true }

/-- The 48-byte header of a SCSI Command PDU: final and read bits set, LUN 0, task tag 7,
expected data length 512, CmdSN 1, ExpStatSN 1, CDB READ(10) of one block at LBA 0. -/
def scsiReadHeader : List Byte :=
  [0x01, 0xC0, 0, 0, 0, 0, 0, 0, 0, 0, 0, 0, 0, 0, 0, 0,
   0, 0, 0, 7, 0, 0, 2, 0, 0, 0, 0, 1, 0, 0, 0, 1,
   0x28, 0, 0, 0, 0, 0, 0, 0, 1, 0, 0, 0, 0, 0, 0, 0]
/-! ### Data-In segmentation (`transferHandler`, `pkg/iscsi_target/iscsid.go`) -/

/-- `MaxBurstLength`. -/
def MaxBurstLength : Nat := 262144
/-- `MaxRecvDataSegmentLength`. -/
def MaxRecvDataSegmentLength : Nat := 65536
/-- The field `maxSeqCount` of a connection. -/
def maxSeqCount : Nat := MaxBurstLength / MaxRecvDataSegmentLength

/-- What `transferHandler` sets in the response before it writes one Data-In PDU. -/
structure DataInSegment where
  DataSequenceNumber : Nat
  BufferOffset : Nat
  DataLen : Int
  Final : Bool
  FinalInSeq : Bool
  deriving DecidableEq, Repr

/-- The bounds check that `dataInBytes` makes when the PDU is written, on the slice
`RawData[BufferOffset : BufferOffset+uint32(DataLen)]` of a response that carries
`transferLen` bytes. -/
def DataInSegment.inBounds (transferLen : Nat) (segment : DataInSegment) : Bool :=
  decide (segment.BufferOffset
      ≤ wrap32 (segment.BufferOffset + (segment.DataLen % 4294967296).toNat)
    ∧ wrap32 (segment.BufferOffset + (segment.DataLen % 4294967296).toNat) ≤ transferLen)

/-- The rounds of `transferHandler` from the label `SendRemainingData` on, for a Data-In
response of `transferLen` bytes: the PDUs written, in order, or the panic of a write whose
slice is out of bounds. The arguments are the local `offset` and `count` and the response's
`DataSequenceNumber`, all `uint32`; `none` means that the rounds allowed were used up
before a final PDU. -/
def transferHandler.sendRemainingData (segmentLen maxCount transferLen : Nat) :
    Nat → Nat → Nat → Nat → Option (Outcome (List DataInSegment))
  | 0, _, _, _ => none
  | rounds + 1, offset, count, dataSN =>
    if wrap32 (offset + segmentLen) < transferLen then
      let counted := wrap32 (count + 1)
      let segment : DataInSegment :=
        ⟨dataSN, offset, segmentLen, false, !decide (counted < maxCount)⟩
      if segment.inBounds transferLen then
        (transferHandler.sendRemainingData segmentLen maxCount transferLen rounds
            (wrap32 (offset + segmentLen)) (if counted < maxCount then counted else 0)
            (wrap32 (dataSN + 1))).map
          fun rest => rest.bind fun segments => .ok (segment :: segments)
      else some .crash
    else
      let segment : DataInSegment :=
        ⟨dataSN, offset, (transferLen : Int) - (offset : Int), true, true⟩
      if segment.inBounds transferLen then some (.ok [segment]) else some .crash

/-- The PDUs `transferHandler` writes for a Data-In response of `transferLen` bytes on a
connection with the default segment length and burst. -/
def transferHandler.segments (transferLen rounds : Nat) :
    Option (Outcome (List DataInSegment)) :=
  transferHandler.sendRemainingData MaxRecvDataSegmentLength maxSeqCount transferLen rounds 0 0 0

/-- The PDU number `i` of `count` that the specification describes for `n` bytes. -/
def expectedSegment (n count i : Nat) : DataInSegment :=
  { DataSequenceNumber := i
    BufferOffset := i * 65536
    DataLen := ((min 65536 (n - i * 65536) : Nat) : Int)
    Final := decide (i + 1 = count)
    FinalInSeq := decide (i % 4 = 3 ∨ i + 1 = count) }

/-! ### The write-back reference counts (`referenceCount.go`) -/

/-- The assignment through the pointer that `LruCacheMap.get` returned: the vector of the
entry of `key` is replaced, the cell of the key in the queue stays. -/
def LruCacheMap.writeThrough {T P : Type} [DecidableEq T] (cacheMap : LruCacheMap T P) (key : T)
    (value : VectorCache P) : LruCacheMap T P :=
  { cacheMap with
    store := cacheMap.store.map fun item =>
      if item.1 = key then (item.1, { item.2 with data := value }) else item }

/-- The type `ReferenceCountWriteBack`; `evicted` holds the keys of the map
`referenceCountClustersEvictedFromCacheNotTableSynced`. -/
structure ReferenceCountWriteBack where
  rawFile : QcowRawFile
  table : VectorCache Nat
  offset : Nat
  referenceBlockCache : LruCacheMap Nat Nat
  numberOfReferenceCountsInCluster : Nat
  clusterSize : Nat
  maxValidClusterOffset : Nat
  evicted : List Nat

/-- The type `newCluster`. -/
structure newCluster where
  clusterAddress : Nat
  referenceCountBlock : VectorCache Nat
  deriving DecidableEq, Repr

/-- What `setClusterRefcount` returns: the dropped cluster if any, one of the two requests
to the caller, another error, or a panic. -/
inductive SetRefcountResult where
  | done (droppedCluster : Option Nat)
  | needNewCluster
  | needReadCluster (address : Nat)
  | failed (e : Err)
  | panicked
  deriving DecidableEq, Repr

/-- The eviction callback of the write-back reference counts: the index is recorded as
evicted before the table is synced, and the block is written at the address the table holds
for it. -/
def ReferenceCountWriteBack.writeEvicted (rawFile : QcowRawFile) (table : VectorCache Nat)
    (index : Nat) (evictedBlock : VectorCache Nat) (state : List Nat × File) :
    Outcome Unit × List Nat × File :=
  let evicted := if index ∈ state.1 then state.1 else state.1 ++ [index]
  match table.get index with
  | .ok address =>
    let written := QcowRawFile.writeRefcountBlock
      { rawFile with file := { rawFile.file with content := state.2 } } address
      evictedBlock.getValues
    (written.1, evicted, written.2)
  | .error e => (.error e, evicted, state.2)
  | .crash => (.crash, evicted, state.2)

/-- The last steps of `setClusterRefcount`, once the block of `tableIndex` is in the cache. -/
def ReferenceCountWriteBack.setCached (referenceCount : ReferenceCountWriteBack)
    (tableIndex blockIndex blockAddrDisk refcount : Nat) (newCluster : Option newCluster) :
    SetRefcountResult × ReferenceCountWriteBack :=
  match referenceCount.referenceBlockCache.get 0 tableIndex with
  | (.ok (some refBlockItem), cache) =>
    let referenceCount := { referenceCount with referenceBlockCache := cache }
    let tableNotSynced := decide (tableIndex ∈ referenceCount.evicted)
    let dropping : SetRefcountResult × ReferenceCountWriteBack :=
      if !refBlockItem.dirty && !tableNotSynced then
        match newCluster with
        | some cluster =>
          match referenceCount.table.set tableIndex cluster.clusterAddress with
          | .ok table => (.done (some blockAddrDisk), { referenceCount with table := table })
          | _ => (.panicked, referenceCount)
        | none => (.needNewCluster, referenceCount)
      else (.done none, referenceCount)
    match dropping with
    | (.done droppedCluster, referenceCount) =>
      match referenceCount.referenceBlockCache.get 0 tableIndex with
      | (.ok (some block), cache) =>
        match block.set blockIndex refcount with
        | .ok block =>
          (.done droppedCluster,
            { referenceCount with referenceBlockCache := cache.writeThrough tableIndex block })
        | _ => (.panicked, { referenceCount with referenceBlockCache := cache })
      | (_, cache) => (.panicked, { referenceCount with referenceBlockCache := cache })
    | other => other
  | (_, cache) => (.panicked, { referenceCount with referenceBlockCache := cache })

/-- The method `ReferenceCountWriteBack.setClusterRefcount`: the result and the reference
counts after. -/
def ReferenceCountWriteBack.setClusterRefcount (referenceCount : ReferenceCountWriteBack)
    (clusterAddress refcount : Nat) (newCluster : Option newCluster) :
    SetRefcountResult × ReferenceCountWriteBack :=
  match getRefcountIndex clusterAddress referenceCount.clusterSize
      referenceCount.numberOfReferenceCountsInCluster with
  | .ok (tableIndex, blockIndex) =>
    match referenceCount.table.get tableIndex with
    | .ok blockAddrDisk =>
      if !referenceCount.referenceBlockCache.containsKey tableIndex then
        match newCluster with
        | some cluster =>
          match referenceCount.table.set tableIndex cluster.clusterAddress with
          | .ok table =>
            let inserted := referenceCount.referenceBlockCache.insert tableIndex
              cluster.referenceCountBlock
              (ReferenceCountWriteBack.writeEvicted referenceCount.rawFile table)
              (referenceCount.evicted, referenceCount.rawFile.file.content)
            let referenceCount := { referenceCount with
              table := table
              referenceBlockCache := inserted.2.1
              evicted := inserted.2.2.1
              rawFile := { referenceCount.rawFile with
                file := { referenceCount.rawFile.file with content := inserted.2.2.2 } } }
            match inserted.1 with
            | .ok _ =>
              referenceCount.setCached tableIndex blockIndex blockAddrDisk refcount newCluster
            | .error e => (.failed e, referenceCount)
            | .crash => (.panicked, referenceCount)
          | _ => (.panicked, referenceCount)
        | none =>
          if blockAddrDisk = 0 then (.needNewCluster, referenceCount)
          else (.needReadCluster blockAddrDisk, referenceCount)
      else referenceCount.setCached tableIndex blockIndex blockAddrDisk refcount newCluster
    | _ => (.panicked, referenceCount)
  | _ => (.panicked, referenceCount)

/-- An image file of four clusters of 512 bytes whose third cluster (offset 1024) is the
refcount block: the reference counts of clusters 0, 1 and 2 are 1. -/
def fourClusterFile : File :=
  (File.truncate File.empty 2048).write 1024 [0, 1, 0, 1, 0, 1]

/-- The write-back reference counts of `fourClusterFile` as `newReferenceCountWriteBack`
builds them for a refcount table with the single entry 1024, 256 reference counts per
block and a cache of two blocks. -/
def fourClusterReferenceCounts : ReferenceCountWriteBack :=
  { rawFile := { file := { content := fourClusterFile, writable := true }
                 clusterSize := 512, clusterMask := 511, readOnly := false }
    table := vectorCacheFromArray [1024]
    offset := 512
    referenceBlockCache := newCacheMap Nat Nat 2
    numberOfReferenceCountsInCluster := 256
    clusterSize := 512
    maxValidClusterOffset := (1 * 256 - 1) * 512
    evicted := [] }

/-! ### The write-back pointer table (`pointer_table_caches.go`) -/

/-- The constant `L2TableOffsetMask`. -/
def L2TableOffsetMask : Nat := 0x00fffffffffffe00
/-- The constant `CompressedFlag`. -/
def CompressedFlag : Nat := 1 <<< 62
/-- The constant `ClusterUsedFlag`. -/
def ClusterUsedFlag : Nat := 1 <<< 63

/-- The loop of `readL2Cluster`: a compressed entry is an error, the others are masked. -/
def readL2Cluster.loop : List Nat → Outcome (List Nat)
  | [] => .ok []
  | element :: rest =>
    if element &&& CompressedFlag ≠ 0 then .error .compressedClustersNotSupported
    else (readL2Cluster.loop rest).bind fun masked => .ok ((element &&& L2TableOffsetMask) :: masked)

/-- The function `readL2Cluster`. -/
def readL2Cluster (rawFile : QcowRawFile) (clusterAddress : Nat) : Outcome (List Nat) :=
  (rawFile.readPointerCluster clusterAddress 0).bind readL2Cluster.loop

/-- The type `pointerWriteBackCache`: `l1Table` is the vector of the `l1WriteBackCache` and
`evicted` holds the keys of the map `l2ClustersEvictedButNotL1Synced`. -/
structure pointerWriteBackCache where
  l1Table : VectorCache Nat
  header : ImageHeader
  rawFile : QcowRawFile
  cache : LruCacheMap Nat Nat
  evicted : List Nat

/-- What `updateClusterAddress` returns: `nil`, the request `ErrNeedFreeClusters` with the
cluster to remove and the reference counts to set (address, value), another error, or a
panic. -/
inductive UpdateResult where
  | done
  | needFreeClusters (clusterToRemove : Nat) (clustersToReferenceCount : List (Nat × Nat))
  | failed (e : Err)
  | panicked
  deriving DecidableEq, Repr

/-- The eviction callback of `readClusterAddress`: nothing is done on a read-only raw file;
otherwise the address is recorded as evicted before the L1 table is synced and the table is
written at its address. -/
def pointerWriteBackCache.writeEvicted (rawFile : QcowRawFile) (index : Nat)
    (evictedTable : VectorCache Nat) (state : List Nat × File) :
    Outcome Unit × List Nat × File :=
  if rawFile.readOnly then (.ok (), state)
  else
    let written := QcowRawFile.writePointerTable
      { rawFile with file := { rawFile.file with content := state.2 } } index
      evictedTable.getValues ClusterUsedFlag
    (written.1, if index ∈ state.1 then state.1 else state.1 ++ [index], written.2)

/-- The first part of `readClusterAddress`: the L2 table at `l2ClusterAddress` is read into
the cache when it is not there. -/
def pointerWriteBackCache.fill (writeBackCache : pointerWriteBackCache) (l2ClusterAddress : Nat) :
    Outcome Unit × pointerWriteBackCache :=
  if !writeBackCache.cache.containsKey l2ClusterAddress then
    match readL2Cluster writeBackCache.rawFile l2ClusterAddress with
    | .ok data =>
      let inserted := writeBackCache.cache.insert l2ClusterAddress (vectorCacheFromArray data)
        (pointerWriteBackCache.writeEvicted writeBackCache.rawFile)
        (writeBackCache.evicted, writeBackCache.rawFile.file.content)
      (inserted.1, { writeBackCache with
        cache := inserted.2.1
        evicted := inserted.2.2.1
        rawFile := { writeBackCache.rawFile with
          file := { writeBackCache.rawFile.file with content := inserted.2.2.2 } } })
    | .error e => (.error e, writeBackCache)
    | .crash => (.crash, writeBackCache)
  else (.ok (), writeBackCache)

/-- The method `pointerWriteBackCache.readClusterAddress`: the result and the cache after. -/
def pointerWriteBackCache.readClusterAddress (writeBackCache : pointerWriteBackCache)
    (virtualAddress : Nat) : Outcome Nat × pointerWriteBackCache :=
  match l1TableIndex writeBackCache.header virtualAddress with
  | .ok l1Index =>
    match writeBackCache.l1Table.get l1Index with
    | .ok l2ClusterAddress =>
      if l2ClusterAddress = 0 then (.error .needPointerCluster, writeBackCache)
      else
        match writeBackCache.fill l2ClusterAddress with
        | (.ok _, writeBackCache) =>
          match writeBackCache.cache.get 0 l2ClusterAddress with
          | (.ok (some l2Cluster), cache) =>
            match l2TableIndex writeBackCache.header virtualAddress with
            | .ok index => (l2Cluster.get index, { writeBackCache with cache := cache })
            | _ => (.crash, { writeBackCache with cache := cache })
          | (_, cache) => (.crash, { writeBackCache with cache := cache })
        | (.error e, writeBackCache) => (.error e, writeBackCache)
        | (.crash, writeBackCache) => (.crash, writeBackCache)
    | _ => (.crash, writeBackCache)
  | _ => (.crash, writeBackCache)

/-- The method `pointerWriteBackCache.updateClusterAddress`; `obtainNewCluster` is what the
callback of that name returns when it is called. -/
def pointerWriteBackCache.updateClusterAddress (writeBackCache : pointerWriteBackCache)
    (virtualAddress newClusterAddress : Nat) (obtainNewCluster : Outcome Nat) :
    UpdateResult × pointerWriteBackCache :=
  match l1TableIndex writeBackCache.header virtualAddress with
  | .ok l1Index =>
    match writeBackCache.l1Table.get l1Index with
    | .ok l2ClusterAddress =>
      match writeBackCache.cache.get 0 l2ClusterAddress with
      | (.ok (some cachedL2Item), cache) =>
        let writeBackCache := { writeBackCache with cache := cache }
        if !cachedL2Item.dirty && !decide (l2ClusterAddress ∈ writeBackCache.evicted) then
          match obtainNewCluster with
          | .ok newL2TableClusterAddress =>
            match writeBackCache.l1Table.set l1Index newL2TableClusterAddress with
            | .ok l1Table =>
              let writeBackCache := { writeBackCache with l1Table := l1Table }
              match writeBackCache.cache.remove l2ClusterAddress with
              | (.ok _, cache) =>
                let writeBackCache := { writeBackCache with cache := cache }
                match l2TableIndex writeBackCache.header virtualAddress with
                | .ok index =>
                  match cachedL2Item.set index newClusterAddress with
                  | .ok changed =>
                    match writeBackCache.cache.set newL2TableClusterAddress changed with
                    | (.ok _, cache) =>
                      (.needFreeClusters l2ClusterAddress
                          [(l2ClusterAddress, 0), (newL2TableClusterAddress, 1)],
                        { writeBackCache with cache := cache })
                    | (.error e, cache) => (.failed e, { writeBackCache with cache := cache })
                    | (.crash, cache) => (.panicked, { writeBackCache with cache := cache })
                  | _ => (.panicked, writeBackCache)
                | _ => (.panicked, writeBackCache)
              | (.error e, cache) => (.failed e, { writeBackCache with cache := cache })
              | (.crash, cache) => (.panicked, { writeBackCache with cache := cache })
            | _ => (.panicked, writeBackCache)
          | .error e => (.failed e, writeBackCache)
          | .crash => (.panicked, writeBackCache)
        else
          match l2TableIndex writeBackCache.header virtualAddress with
          | .ok index =>
            match cachedL2Item.set index newClusterAddress with
            | .ok changed =>
              (.done, { writeBackCache with
                cache := writeBackCache.cache.writeThrough l2ClusterAddress changed })
            | _ => (.panicked, writeBackCache)
          | _ => (.panicked, writeBackCache)
      | (_, cache) => (.panicked, { writeBackCache with cache := cache })
    | _ => (.panicked, writeBackCache)
  | _ => (.panicked, writeBackCache)

/-- A write-back pointer table for the 10 MiB header: the single L1 entry points to the L2
table at 196608, which is in the cache, clean, with all 8192 entries zero. -/
def cachedPointerTable : pointerWriteBackCache :=
  { l1Table := vectorCacheFromArray [196608]
    header := createdHeader10MiB
    rawFile := { file := { content := File.empty, writable := true }
                 clusterSize := 65536, clusterMask := 65535, readOnly := false }
    cache := ((newCacheMap Nat Nat 100).set 196608
      (vectorCacheFromArray (List.replicate 8192 0))).2
    evicted := [] }

/-- A write-back pointer table with two L1 entries over a writable raw file: the first points
to the L2 table at 196608, which is in the cache, clean, with all 8192 entries zero; the
second points to the L2 table at 458752, which is not in the cache. -/
def twoTablePointerTable : pointerWriteBackCache :=
  { cachedPointerTable with l1Table := vectorCacheFromArray [196608, 458752] }

/-! ### Opening an image (`imageFromFile`, `qcow2.go`) -/

/-- The part of `imageFromFile` that decides whether the reference counts are rebuilt:
a rebuild is required unless the first entry of the refcount table is not zero and the
first reference count of the block it points to is not zero; the `lazyRefcounts` flag of
the header forces it. -/
def imageFromFile.referenceCountRebuildRequired (file : File) (header : ImageHeader) :
    Outcome Bool := do
  let pos ← seekStart header.refCountTableOffset
  let (firstReferenceBlockAddress, _) ← binaryRead64 file pos
  let required ←
    if firstReferenceBlockAddress ≠ 0 then do
      let pos ← seekStart firstReferenceBlockAddress
      let (firstClusterRefcount, _) ← binaryRead16 file pos
      Outcome.ok (decide (firstClusterRefcount = 0))
    else Outcome.ok true
  Outcome.ok (if header.lazyRefcounts then true else required)

/-- The function `imageFromFile` up to its read-only check: the header, the raw file and
whether the reference counts are to be rebuilt.  `backing` is what `getBackingFileImage`
returns for a header that names a backing file. -/
def imageFromFile.opening (file : OsFile) (readOnly : Bool) (backing : Outcome Unit) :
    Outcome (ImageHeader × QcowRawFile × Bool) := do
  let header ← imageHeaderFromFile file.content
  let rawFile ← qcowRawFileFromFile file header.clusterSize readOnly
  if header.backingFilePath.isSome then backing else Outcome.ok ()
  let referenceCountRebuildRequired ←
    imageFromFile.referenceCountRebuildRequired file.content header
  if readOnly && referenceCountRebuildRequired then
    Outcome.error .readOnlyImageBrokenReferenceCounts
  else Outcome.ok (header, rawFile, referenceCountRebuildRequired)

/-- An image file with the test header in which the dirty and the corrupt
incompatible-feature bits and the lazy-refcounts compatible bit are set; the first entry of
its refcount table (at 65536) points to a refcount block at 73728 whose first reference
count is 1. -/
def flaggedImageFile : File :=
  (((File.ofList (testHeaderBytes 0x0c 0x03 0x00)).write 87 [0x01]).write 65536
    (uint64ToByte 73728)).write 73728 [0x00, 0x01]

/-! ### Rebuilding the reference counts (`referenceCountRebuild.go`) -/

/-- The constant `L1TableOffsetMask`. -/
def L1TableOffsetMask : Nat := 0x00fffffffffffe00

/-- The raw file once the file behind its descriptor has become `content`. -/
def QcowRawFile.over (rawFile : QcowRawFile) (content : File) : QcowRawFile :=
  { rawFile with file := { rawFile.file with content := content } }

/-- The function `addReferenceCount`; the counts are `uint16`, a zero cluster size panics. -/
def addReferenceCount (referenceCounts : List Nat) (clusterSize clusterAddress : Nat) :
    Outcome (List Nat) :=
  if clusterSize = 0 then .crash
  else
    let idx := clusterAddress / clusterSize
    if idx ≥ referenceCounts.length then .error .wrongReferenceCountIndex
    else .ok (referenceCounts.set idx ((referenceCounts.getD idx 0 + 1) % 65536))

/-- The function `setHeaderReferenceCount`. -/
def setHeaderReferenceCount (referenceCounts : List Nat) (clusterSize : Nat) :
    Outcome (List Nat) :=
  addReferenceCount referenceCounts clusterSize 0

/-- The loop shared by `setL1ReferenceCounts` and `setReferenceCountTableClusters`: one
reference for each of the `remaining` clusters from cluster number `i` of the table at
`tableOffset`. -/
def addTableClusters (clusterSize tableOffset : Nat) : Nat → Nat → List Nat → Outcome (List Nat)
  | 0, _, referenceCounts => .ok referenceCounts
  | remaining + 1, i, referenceCounts =>
    (addReferenceCount referenceCounts clusterSize
      (wrap64 (tableOffset + wrap64 (i * clusterSize)))).bind
      fun referenceCounts => addTableClusters clusterSize tableOffset remaining (i + 1)
        referenceCounts

/-- The function `setL1ReferenceCounts`. -/
def setL1ReferenceCounts (referenceCounts : List Nat) (header : ImageHeader) :
    Outcome (List Nat) :=
  addTableClusters header.clusterSize header.l1TableOffset header.l1Clusters 0 referenceCounts

/-- The inner loop of `setDataReferenceCounts`, over the entries of one L2 table. -/
def setDataReferenceCounts.table (clusterSize : Nat) : List Nat → List Nat → Outcome (List Nat)
  | [], referenceCounts => .ok referenceCounts
  | dataClusterAddress :: rest, referenceCounts =>
    if dataClusterAddress ≠ 0 then
      (addReferenceCount referenceCounts clusterSize dataClusterAddress).bind
        fun referenceCounts => setDataReferenceCounts.table clusterSize rest referenceCounts
    else setDataReferenceCounts.table clusterSize rest referenceCounts

/-- The outer loop of `setDataReferenceCounts`, over the entries of the L1 table. -/
def setDataReferenceCounts.loop (header : ImageHeader) (rawFile : QcowRawFile) :
    List Nat → List Nat → Outcome (List Nat)
  | [], referenceCounts => .ok referenceCounts
  | l2AddressOnDisk :: rest, referenceCounts =>
    if l2AddressOnDisk ≠ 0 then
      (addReferenceCount referenceCounts header.clusterSize l2AddressOnDisk).bind
        fun referenceCounts =>
          (rawFile.readPointerTable l2AddressOnDisk (header.clusterSize / 8)
            L2TableOffsetMask).bind
            fun l2Table =>
              (setDataReferenceCounts.table header.clusterSize l2Table referenceCounts).bind
                fun referenceCounts => setDataReferenceCounts.loop header rawFile rest
                  referenceCounts
    else setDataReferenceCounts.loop header rawFile rest referenceCounts

/-- The function `setDataReferenceCounts`. -/
def setDataReferenceCounts (referenceCounts : List Nat) (header : ImageHeader)
    (rawFile : QcowRawFile) : Outcome (List Nat) :=
  (rawFile.readPointerTable header.l1TableOffset header.l1Size L1TableOffsetMask).bind
    fun l1Table => setDataReferenceCounts.loop header rawFile l1Table referenceCounts

/-- The function `setReferenceCountTableClusters`. -/
def setReferenceCountTableClusters (referenceCounts : List Nat) (header : ImageHeader) :
    Outcome (List Nat) :=
  addTableClusters header.clusterSize header.refCountTableOffset header.refCountTableClusters 0
    referenceCounts

/-- The inner loop of `allocateReferenceCountBlocks`, run over the counts from
`firstFreeCluster` on: the first cluster with a zero count, `none` past the end. -/
def allocateReferenceCountBlocks.scan : List Nat → Nat → Option Nat
  | [], _ => none
  | count :: rest, firstFreeCluster =>
    if count = 0 then some firstFreeCluster
    else allocateReferenceCountBlocks.scan rest (firstFreeCluster + 1)

/-- The outer loop of `allocateReferenceCountBlocks`, for the `remaining` entries of the
table: the table and the counts. -/
def allocateReferenceCountBlocks.loop (clusterSize : Nat) :
    Nat → Nat → List Nat → List Nat → Outcome (List Nat × List Nat)
  | 0, _, referenceCounts, referenceCountTable => .ok (referenceCountTable, referenceCounts)
  | remaining + 1, firstFreeCluster, referenceCounts, referenceCountTable =>
    match allocateReferenceCountBlocks.scan (referenceCounts.drop firstFreeCluster)
        firstFreeCluster with
    | none => .error .notEnoughSpaceForReferenceCounts
    | some firstFreeCluster =>
      let address := wrap64 (firstFreeCluster * clusterSize)
      (addReferenceCount referenceCounts clusterSize address).bind fun referenceCounts =>
        allocateReferenceCountBlocks.loop clusterSize remaining (firstFreeCluster + 1)
          referenceCounts (referenceCountTable ++ [address])

/-- The function `allocateReferenceCountBlocks`: the refcount table it returns and the counts
it leaves in `referenceCounts`. -/
def allocateReferenceCountBlocks (header : ImageHeader) (referenceCounts : List Nat)
    (referenceBlockClusters : Nat) : Outcome (List Nat × List Nat) :=
  let pointersPerClusters := header.clusterSize / 8
  (divRoundUp64 referenceBlockClusters pointersPerClusters).bind
    fun referenceCountTableEntries =>
      allocateReferenceCountBlocks.loop header.clusterSize referenceCountTableEntries 0
        referenceCounts []

/-- The loop of `writeReferenceCountBlocks` over the refcount table from entry `index`,
threading the file; a slice whose start is past its end panics. -/
def writeReferenceCountBlocks.loop (referenceCounts : List Nat) (rawFile : QcowRawFile)
    (referenceCountBlockEntries : Nat) : List Nat → Nat → File → Outcome Unit × File
  | [], _, file => (.ok (), file)
  | referenceCountBlockAdress :: rest, index, file =>
    let referenceCountBlockStart := wrap64 (index * referenceCountBlockEntries)
    let referenceCountBlockEnd := wrap64 (referenceCountBlockStart + referenceCountBlockEntries)
    let referenceCountBlockEnd :=
      if referenceCounts.length < referenceCountBlockEnd then referenceCounts.length
      else referenceCountBlockEnd
    if referenceCountBlockEnd < referenceCountBlockStart then (.crash, file)
    else
      let referenceCountBlock :=
        (referenceCounts.take referenceCountBlockEnd).drop referenceCountBlockStart
      match (rawFile.over file).writeRefcountBlock referenceCountBlockAdress
          referenceCountBlock with
      | (.ok _, file) =>
        if referenceCountBlock.length < referenceCountBlockEntries then
          match (rawFile.over file).writeRefcountBlock
              (wrap64 (referenceCountBlockAdress + referenceCountBlock.length * 2))
              (List.replicate (referenceCountBlockEntries - referenceCountBlock.length) 0) with
          | (.ok _, file) =>
            writeReferenceCountBlocks.loop referenceCounts rawFile referenceCountBlockEntries
              rest (index + 1) file
          | (.error e, file) => (.error e, file)
          | (.crash, file) => (.crash, file)
        else
          writeReferenceCountBlocks.loop referenceCounts rawFile referenceCountBlockEntries
            rest (index + 1) file
      | (.error e, file) => (.error e, file)
      | (.crash, file) => (.crash, file)

/-- The function `writeReferenceCountBlocks`: the header with the lazy-refcounts bit, the
blocks, the refcount table, then the header without the bit. -/
def writeReferenceCountBlocks (referenceCounts : List Nat) (header : ImageHeader)
    (referenceTable : List Nat) (rawFile : QcowRawFile) (referenceCountBlockEntries : Nat) :
    Outcome Unit × File :=
  let header :=
    { header with
      compatibleFeatures := header.compatibleFeatures ||| compatibleFeaturesLazyRefcounts }
  match rawFile.writeHeader header with
  | (.ok _, file) =>
    match writeReferenceCountBlocks.loop referenceCounts rawFile referenceCountBlockEntries
        referenceTable 0 file with
    | (.ok _, file) =>
      match (rawFile.over file).writePointerTable header.refCountTableOffset referenceTable 0 with
      | (.ok _, file) =>
        (rawFile.over file).writeHeader
          { header with
            compatibleFeatures := header.compatibleFeatures
              &&& (18446744073709551615 ^^^ compatibleFeaturesLazyRefcounts) }
      | (.error e, file) => (.error e, file)
      | (.crash, file) => (.crash, file)
    | (.error e, file) => (.error e, file)
    | (.crash, file) => (.crash, file)
  | (.error e, file) => (.error e, file)
  | (.crash, file) => (.crash, file)

/-- The part of `rebuildReferenceCounts` that writes nothing: the sizes, the two checks, the
counts of the header, L1, L2, data and refcount-table clusters, and the allocation of the
refcount blocks.  It gives the counts, the refcount table and the number of counts in a
block. -/
def rebuildReferenceCounts.counts (rawFile : QcowRawFile) (header : ImageHeader) :
    Outcome (List Nat × List Nat × Nat) := do
  let referenceCountBits := wrap64 (2 ^ header.refCountOrder)
  let referenceCountBytes ← divRoundUp64 referenceCountBits 8
  if referenceCountBytes = 0 then Outcome.crash else Outcome.ok ()
  let referenceCountBlockEntries := header.clusterSize / referenceCountBytes
  let maxClusters :=
    wrap32 (wrap32 (wrap32 (header.l1Clusters + header.numL2Clusters) + header.numClusters) + 1)
  let referenceBlockClusters ← divRoundUp64 maxClusters referenceCountBlockEntries
  let pointersPerCluster := header.clusterSize / 8
  let referenceCountTableClusters ← divRoundUp64 referenceBlockClusters pointersPerCluster
  let referenceCountBlockForReferenceCount ←
    divRoundUp64 (wrap64 (referenceBlockClusters + referenceCountTableClusters))
      referenceCountBlockEntries
  let referenceCountTableClustersForReferenceCounts ←
    divRoundUp64 referenceCountBlockForReferenceCount referenceCountBlockEntries
  let maxValidClusterIndex :=
    wrap64 (wrap64 (wrap64 (wrap64 (maxClusters + referenceBlockClusters)
      + referenceCountTableClusters) + referenceCountBlockForReferenceCount)
      + referenceCountTableClustersForReferenceCounts)
  if maxValidClusterIndex > L1TableMaxSize then
    Outcome.error .invalidReferenceCountTableSize
  else
    let maxValidClusterOffset := wrap64 (maxValidClusterIndex * header.clusterSize)
    let size := rawFile.size
    if maxValidClusterOffset < sub64 size header.clusterSize then
      Outcome.error .invalidReferenceCountOffset
    else do
      let referenceCounts := List.replicate maxValidClusterIndex 0
      let referenceCounts ← setHeaderReferenceCount referenceCounts header.clusterSize
      let referenceCounts ← setL1ReferenceCounts referenceCounts header
      let referenceCounts ← setDataReferenceCounts referenceCounts header rawFile
      let referenceCounts ← setReferenceCountTableClusters referenceCounts header
      let (referenceTable, referenceCounts) ←
        allocateReferenceCountBlocks header referenceCounts referenceBlockClusters
      Outcome.ok (referenceCounts, referenceTable, referenceCountBlockEntries)

/-- The function `rebuildReferenceCounts`: its result and the file it leaves. -/
def rebuildReferenceCounts (rawFile : QcowRawFile) (header : ImageHeader) :
    Outcome Unit × File :=
  match rebuildReferenceCounts.counts rawFile header with
  | .ok (referenceCounts, referenceTable, referenceCountBlockEntries) =>
    writeReferenceCountBlocks referenceCounts header referenceTable rawFile
      referenceCountBlockEntries
  | .error e => (.error e, rawFile.file.content)
  | .crash => (.crash, rawFile.file.content)

/-- The type `ReferenceCountNoCache`. -/
structure ReferenceCountNoCache where
  rawFile : QcowRawFile
  offset : Nat
  numberOfReferenceCountsInCluster : Nat
  clusterSize : Nat
  _maxValidClusterOffset : Nat

/-- The function `newReferenceCountNoCache`. -/
def newReferenceCountNoCache (rawFile : QcowRawFile)
    (refcountTableOffset refcountTableEntries refcountBlockEntries clusterSize : Nat) :
    ReferenceCountNoCache :=
  let maxValidClusterIndex := sub64 (wrap64 (refcountTableEntries * refcountBlockEntries)) 1
  let maxValidClusterOffset := wrap64 (maxValidClusterIndex * clusterSize)
  { rawFile := rawFile, offset := refcountTableOffset,
    numberOfReferenceCountsInCluster := refcountBlockEntries, clusterSize := clusterSize,
    _maxValidClusterOffset := maxValidClusterOffset }

/-- The method `ReferenceCountNoCache.getClusterRefcount`: the count stored in the file for
the cluster at `address`, zero when the refcount table has no block for it. -/
def ReferenceCountNoCache.getClusterRefcount (referenceCount : ReferenceCountNoCache)
    (address : Nat) : Outcome Nat := do
  let (tableIndex, blockIndex) ← getRefcountIndex address referenceCount.clusterSize
    referenceCount.numberOfReferenceCountsInCluster
  let uint16Size := 2
  let uint64Size := 8
  let blockAddrDisk ← referenceCount.rawFile.readUint64At
    (wrap64 (referenceCount.offset + wrap64 (uint64Size * tableIndex)))
  if blockAddrDisk = 0 then Outcome.ok 0
  else
    referenceCount.rawFile.readUint16At
      (wrap64 (blockAddrDisk + wrap64 (uint16Size * blockIndex)))

/-- The reference counts of an image as `imageFromFile` sets them up without a cache, over
the file `content`. -/
def storedReferenceCounts (rawFile : QcowRawFile) (header : ImageHeader) (content : File) :
    Outcome ReferenceCountNoCache := do
  let refcountBytes := wrap64 (wrap64 (2 ^ header.refCountOrder) + 7) / 8
  if refcountBytes = 0 then Outcome.crash else Outcome.ok ()
  let refcountBlockEntries := header.clusterSize / refcountBytes
  let refcountTableEntries ← maxRefCountClusters header.numClusters header.numL2Clusters
    header.l1Clusters (wrap32 header.clusterSize)
  Outcome.ok (newReferenceCountNoCache (rawFile.over content) header.refCountTableOffset
    refcountTableEntries refcountBlockEntries header.clusterSize)

/-- The header of an image of 512 clusters of 512 bytes: L1 table in cluster 1, refcount
table in cluster 2. -/
def smallClusterHeader : ImageHeader :=
  { createdHeader10MiB with
    clusterBits := 9, clusterSize := 512, virtualDiskSizeBytes := 262144, l1Size := 8,
    l1TableOffset := 512, refCountTableOffset := 1024, numClusters := 512, l2Size := 64,
    numL2Clusters := 8 }

/-- An image file of 301 clusters with the header `smallClusterHeader`: the first L1 entry
points to an L2 table in cluster 3, whose first entry points to a data cluster in cluster 300
(offset 153600); the refcount table is empty, so opening the image rebuilds the counts. -/
def sparseImageFile : File :=
  (((File.ofList smallClusterHeader.toByte).write 512 (uint64ToByte 1536)).write 1536
    (uint64ToByte 153600)).write 153600 (List.replicate 512 0x01)

/-- The raw file `imageFromFile` builds over `sparseImageFile`. -/
def sparseImageRawFile : QcowRawFile :=
  { file := { content := sparseImageFile, writable := true }, clusterSize := 512,
    clusterMask := 511, readOnly := false }

/-! ### The pointer table without a cache (`pointer_table_caches.go`) -/

/-- The type `pointerTableNoCache`; its `l1NoCache` holds the same header and raw file. -/
structure pointerTableNoCache where
  header : ImageHeader
  rawFile : QcowRawFile

/-- The function `l2ClusterAddressOffsetInFile`. -/
def l2ClusterAddressOffsetInFile (header : ImageHeader) (virtualAddress : Nat) : Outcome Nat :=
  (l1TableIndex header virtualAddress).bind fun l1Index =>
    .ok (wrap64 (header.l1TableOffset + wrap64 (8 * l1Index)))

/-- The method `l1NoCache.getL2ClusterAddress`. -/
def l1NoCache.getL2ClusterAddress (l1Table : pointerTableNoCache) (virtualAddress : Nat) :
    Outcome Nat :=
  (l2ClusterAddressOffsetInFile l1Table.header virtualAddress).bind fun offset =>
    l1Table.rawFile.readUint64At offset

/-- The method `pointerTableNoCache.readClusterAddress`. -/
def pointerTableNoCache.readClusterAddress (pointerTable : pointerTableNoCache)
    (virtualAddress : Nat) : Outcome Nat :=
  (l1NoCache.getL2ClusterAddress pointerTable virtualAddress).bind fun l2ClusterAddress =>
    if l2ClusterAddress = 0 then .error .needPointerCluster
    else
      (l2TableIndex pointerTable.header virtualAddress).bind fun indexInL2Table =>
        pointerTable.rawFile.readUint64At (wrap64 (l2ClusterAddress + wrap64 (8 * indexInL2Table)))

/-- The method `pointerTableNoCache.addNewPointerCluster`: the result and the file after. -/
def pointerTableNoCache.addNewPointerCluster (pointerTable : pointerTableNoCache)
    (virtualAddress newClusterAddress : Nat) : Outcome Unit × File :=
  match l2ClusterAddressOffsetInFile pointerTable.header virtualAddress with
  | .ok offset => pointerTable.rawFile.writeUint64At newClusterAddress offset
  | .error e => (.error e, pointerTable.rawFile.file.content)
  | .crash => (.crash, pointerTable.rawFile.file.content)

/-- The method `pointerTableNoCache.updateClusterAddress`: the result and the file after. -/
def pointerTableNoCache.updateClusterAddress (pointerTable : pointerTableNoCache)
    (virtualAddress newClusterAddress : Nat) : Outcome Unit × File :=
  match l1NoCache.getL2ClusterAddress pointerTable virtualAddress with
  | .ok l2ClusterAddress =>
    match l2TableIndex pointerTable.header virtualAddress with
    | .ok indexInL2Table =>
      pointerTable.rawFile.writeUint64At newClusterAddress
        (wrap64 (l2ClusterAddress + wrap64 (8 * indexInL2Table)))
    | .error e => (.error e, pointerTable.rawFile.file.content)
    | .crash => (.crash, pointerTable.rawFile.file.content)
  | .error e => (.error e, pointerTable.rawFile.file.content)
  | .crash => (.crash, pointerTable.rawFile.file.content)

/-! ### The rest of the write-back pointer table -/

/-- The raw file of the table once the file behind the descriptor has become `content`. -/
def pointerWriteBackCache.over (writeBackCache : pointerWriteBackCache) (content : File) :
    pointerWriteBackCache :=
  { writeBackCache with rawFile := writeBackCache.rawFile.over content }

/-- The eviction callback of `addNewPointerCluster`: as the one of `readClusterAddress`,
without the test for a read-only file. -/
def pointerWriteBackCache.writeEvictedNew (rawFile : QcowRawFile) (index : Nat)
    (evictedTable : VectorCache Nat) (state : List Nat × File) :
    Outcome Unit × List Nat × File :=
  let written := QcowRawFile.writePointerTable (rawFile.over state.2) index
    evictedTable.getValues ClusterUsedFlag
  (written.1, if index ∈ state.1 then state.1 else state.1 ++ [index], written.2)

/-- The method `pointerWriteBackCache.addNewPointerCluster`. -/
def pointerWriteBackCache.addNewPointerCluster (writeBackCache : pointerWriteBackCache)
    (virtualAddress newClusterAddress : Nat) : Outcome Unit × pointerWriteBackCache :=
  match l1TableIndex writeBackCache.header virtualAddress with
  | .ok l1Index =>
    match writeBackCache.l1Table.set l1Index newClusterAddress with
    | .ok l1Table =>
      let writeBackCache := { writeBackCache with l1Table := l1Table }
      match l1Table.get l1Index with
      | .ok l2ClusterAddress =>
        let l2Cluster := newVectorCache writeBackCache.header.l2Size 0
        let inserted := writeBackCache.cache.insert l2ClusterAddress l2Cluster
          (pointerWriteBackCache.writeEvictedNew writeBackCache.rawFile)
          (writeBackCache.evicted, writeBackCache.rawFile.file.content)
        (inserted.1, { writeBackCache with
          cache := inserted.2.1
          evicted := inserted.2.2.1
          rawFile := writeBackCache.rawFile.over inserted.2.2.2 })
      | _ => (.crash, writeBackCache)
    | _ => (.crash, writeBackCache)
  | _ => (.crash, writeBackCache)

/-- The method `pointerWriteBackCache.updateClusterAddress` with its callback: the callback
`obtainNewCluster` acts on a state `α` of the caller (the image it allocates in). -/
def pointerWriteBackCache.updateClusterAddressWith {α : Type}
    (writeBackCache : pointerWriteBackCache) (virtualAddress newClusterAddress : Nat)
    (obtainNewCluster : α → Outcome Nat × α) (caller : α) :
    UpdateResult × pointerWriteBackCache × α :=
  match l1TableIndex writeBackCache.header virtualAddress with
  | .ok l1Index =>
    match writeBackCache.l1Table.get l1Index with
    | .ok l2ClusterAddress =>
      match writeBackCache.cache.get 0 l2ClusterAddress with
      | (.ok (some cachedL2Item), _) =>
        if !cachedL2Item.dirty && !decide (l2ClusterAddress ∈ writeBackCache.evicted) then
          let obtained := obtainNewCluster caller
          let updated := writeBackCache.updateClusterAddress virtualAddress newClusterAddress
            obtained.1
          (updated.1, updated.2, obtained.2)
        else
          let updated := writeBackCache.updateClusterAddress virtualAddress newClusterAddress
            (.error .callbackFailed)
          (updated.1, updated.2, caller)
      | _ =>
        let updated := writeBackCache.updateClusterAddress virtualAddress newClusterAddress
          (.error .callbackFailed)
        (updated.1, updated.2, caller)
    | _ => (.panicked, writeBackCache, caller)
  | _ => (.panicked, writeBackCache, caller)

/-- The loop of `pointerWriteBackCache.sync` over the entries of the cache: a dirty table is
written at its address and marked clean. -/
def pointerWriteBackCache.sync.loop (rawFile : QcowRawFile) :
    List (Nat × cacheMapEntry Nat) → LruCacheMap Nat Nat → File →
    Outcome Unit × LruCacheMap Nat Nat × File
  | [], cache, file => (.ok (), cache, file)
  | (address, l2Table) :: rest, cache, file =>
    if !l2Table.data.dirty then pointerWriteBackCache.sync.loop rawFile rest cache file
    else if address ≠ 0 then
      match (rawFile.over file).writePointerTable address l2Table.data.getValues
          ClusterUsedFlag with
      | (.ok _, file) =>
        pointerWriteBackCache.sync.loop rawFile rest
          (cache.writeThrough address l2Table.data.markClean) file
      | (.error e, file) => (.error e, cache, file)
      | (.crash, file) => (.crash, cache, file)
    else (.error .zeroAddressWhileFlushing, cache, file)

/-- The method `pointerWriteBackCache.sync`. -/
def pointerWriteBackCache.sync (writeBackCache : pointerWriteBackCache) :
    Outcome Unit × pointerWriteBackCache :=
  let synced := pointerWriteBackCache.sync.loop writeBackCache.rawFile
    writeBackCache.cache.store writeBackCache.cache writeBackCache.rawFile.file.content
  (synced.1, { writeBackCache with
    cache := synced.2.1, rawFile := writeBackCache.rawFile.over synced.2.2 })

/-- The method `pointerWriteBackCache.syncL1`. -/
def pointerWriteBackCache.syncL1 (writeBackCache : pointerWriteBackCache) :
    Outcome Bool × pointerWriteBackCache :=
  if writeBackCache.l1Table.dirty then
    match writeBackCache.rawFile.writePointerTable writeBackCache.header.l1TableOffset
        writeBackCache.l1Table.getValues 0 with
    | (.ok _, file) =>
      (.ok true, { writeBackCache with
        rawFile := writeBackCache.rawFile.over file
        evicted := []
        l1Table := writeBackCache.l1Table.markClean })
    | (.error e, file) => (.error e, writeBackCache.over file)
    | (.crash, file) => (.crash, writeBackCache.over file)
  else (.ok false, writeBackCache)

/-- The function `newPointerWriteBackCache`, with `newL1WriteBackCache`. -/
def newPointerWriteBackCache (header : ImageHeader) (rawFile : QcowRawFile) (cacheSize : Nat) :
    Outcome pointerWriteBackCache :=
  (rawFile.readPointerTable header.l1TableOffset header.numL2Clusters L1TableOffsetMask).bind
    fun table =>
      .ok { l1Table := vectorCacheFromArray table, header := header, rawFile := rawFile,
            cache := newCacheMap Nat Nat cacheSize, evicted := [] }

/-- The interface `pointerTableCache` with its two implementations. -/
inductive pointerTableCache where
  | writeBack (table : pointerWriteBackCache)
  | noCache (table : pointerTableNoCache)

/-- The function `newPointerTable`. -/
def newPointerTable (header : ImageHeader) (rawFile : QcowRawFile) (useCache : Bool)
    (cacheSize : Nat) : Outcome pointerTableCache :=
  if useCache then
    (newPointerWriteBackCache header rawFile cacheSize).bind fun table => .ok (.writeBack table)
  else .ok (.noCache { header := header, rawFile := rawFile })

/-! ### The rest of the reference counts (`referenceCount.go`) -/

/-- The reference counts once the file behind the descriptor has become `content`. -/
def ReferenceCountWriteBack.over (referenceCount : ReferenceCountWriteBack) (content : File) :
    ReferenceCountWriteBack :=
  { referenceCount with rawFile := referenceCount.rawFile.over content }

/-- The function `newReferenceCountWriteBack`. -/
def newReferenceCountWriteBack (rawFile : QcowRawFile)
    (refcountTableOffset refcountTableEntries refcountBlockEntries clusterSize cacheSize : Nat) :
    Outcome ReferenceCountWriteBack :=
  (rawFile.readPointerTable refcountTableOffset refcountTableEntries 0).bind fun tableData =>
    let table := vectorCacheFromArray tableData
    let maxValidClusterIndex := sub64 (wrap64 (table.len * refcountBlockEntries)) 1
    let maxValidClusterOffset := wrap64 (maxValidClusterIndex * clusterSize)
    .ok { rawFile := rawFile, table := table, offset := refcountTableOffset,
          referenceBlockCache := newCacheMap Nat Nat cacheSize,
          numberOfReferenceCountsInCluster := refcountBlockEntries, clusterSize := clusterSize,
          maxValidClusterOffset := maxValidClusterOffset, evicted := [] }

/-- The eviction callback of `getClusterRefcount`: nothing is done on a read-only raw file. -/
def ReferenceCountWriteBack.writeEvictedOnRead (rawFile : QcowRawFile) (table : VectorCache Nat)
    (index : Nat) (evictedBlock : VectorCache Nat) (state : List Nat × File) :
    Outcome Unit × List Nat × File :=
  if rawFile.readOnly then (.ok (), state)
  else ReferenceCountWriteBack.writeEvicted rawFile table index evictedBlock state

/-- The method `ReferenceCountWriteBack.getClusterRefcount`. -/
def ReferenceCountWriteBack.getClusterRefcount (referenceCount : ReferenceCountWriteBack)
    (address : Nat) : Outcome Nat × ReferenceCountWriteBack :=
  match getRefcountIndex address referenceCount.clusterSize
      referenceCount.numberOfReferenceCountsInCluster with
  | .ok (tableIndex, blockIndex) =>
    match referenceCount.table.get tableIndex with
    | .ok blockAddrDisk =>
      if blockAddrDisk = 0 then (.ok 0, referenceCount)
      else
        let filled : Outcome Unit × ReferenceCountWriteBack :=
          if !referenceCount.referenceBlockCache.containsKey tableIndex then
            match referenceCount.rawFile.readRefCountBlock blockAddrDisk with
            | .ok refCountBlock =>
              let inserted := referenceCount.referenceBlockCache.insert tableIndex
                (vectorCacheFromArray refCountBlock)
                (ReferenceCountWriteBack.writeEvictedOnRead referenceCount.rawFile
                  referenceCount.table)
                (referenceCount.evicted, referenceCount.rawFile.file.content)
              (inserted.1, { referenceCount with
                referenceBlockCache := inserted.2.1
                evicted := inserted.2.2.1
                rawFile := referenceCount.rawFile.over inserted.2.2.2 })
            | .error e => (.error e, referenceCount)
            | .crash => (.crash, referenceCount)
          else (.ok (), referenceCount)
        match filled with
        | (.ok _, referenceCount) =>
          match referenceCount.referenceBlockCache.get 0 tableIndex with
          | (.ok (some value), cache) =>
            (value.get blockIndex, { referenceCount with referenceBlockCache := cache })
          | (.ok none, cache) =>
            (.error .inconsistentCache, { referenceCount with referenceBlockCache := cache })
          | (.error e, cache) => (.error e, { referenceCount with referenceBlockCache := cache })
          | (.crash, cache) => (.crash, { referenceCount with referenceBlockCache := cache })
        | (.error e, referenceCount) => (.error e, referenceCount)
        | (.crash, referenceCount) => (.crash, referenceCount)
    | _ => (.crash, referenceCount)
  | _ => (.crash, referenceCount)

/-- The loop of `flushBlocks` over the entries of the cache: every block is written at the
address the table holds for it and marked clean. -/
def ReferenceCountWriteBack.flushBlocks.loop (rawFile : QcowRawFile) (table : VectorCache Nat) :
    List (Nat × cacheMapEntry Nat) → LruCacheMap Nat Nat → File →
    Outcome Unit × LruCacheMap Nat Nat × File
  | [], cache, file => (.ok (), cache, file)
  | (tableIndex, block) :: rest, cache, file =>
    match table.get tableIndex with
    | .ok address =>
      if address ≠ 0 then
        match (rawFile.over file).writeRefcountBlock address block.data.getValues with
        | (.ok _, file) =>
          ReferenceCountWriteBack.flushBlocks.loop rawFile table rest
            (cache.writeThrough tableIndex block.data.markClean) file
        | (.error e, file) => (.error e, cache, file)
        | (.crash, file) => (.crash, cache, file)
      else (.error .zeroAddressWhileFlushing, cache, file)
    | _ => (.crash, cache, file)

/-- The method `ReferenceCountWriteBack.flushBlocks`. -/
def ReferenceCountWriteBack.flushBlocks (referenceCount : ReferenceCountWriteBack) :
    Outcome Unit × ReferenceCountWriteBack :=
  let flushed := ReferenceCountWriteBack.flushBlocks.loop referenceCount.rawFile
    referenceCount.table referenceCount.referenceBlockCache.store
    referenceCount.referenceBlockCache referenceCount.rawFile.file.content
  (flushed.1, { referenceCount with
    referenceBlockCache := flushed.2.1, rawFile := referenceCount.rawFile.over flushed.2.2 })

/-- The method `ReferenceCountWriteBack.flushTable`. -/
def ReferenceCountWriteBack.flushTable (referenceCount : ReferenceCountWriteBack) :
    Outcome Bool × ReferenceCountWriteBack :=
  if referenceCount.table.dirty then
    match referenceCount.rawFile.writePointerTable referenceCount.offset
        referenceCount.table.getValues 0 with
    | (.ok _, file) =>
      (.ok true, { referenceCount with
        rawFile := referenceCount.rawFile.over file
        evicted := []
        table := referenceCount.table.markClean })
    | (.error e, file) => (.error e, referenceCount.over file)
    | (.crash, file) => (.crash, referenceCount.over file)
  else (.ok false, referenceCount)

/-- The method `ReferenceCountNoCache.setClusterRefcount`: the result and the file after.
The errors of the write of the table entry and of the write of the count are dropped. -/
def ReferenceCountNoCache.setClusterRefcount (referenceCount : ReferenceCountNoCache)
    (clusterAddress refcount : Nat) (newCluster : Option newCluster) :
    SetRefcountResult × File :=
  let file := referenceCount.rawFile.file.content
  match getRefcountIndex clusterAddress referenceCount.clusterSize
      referenceCount.numberOfReferenceCountsInCluster with
  | .ok (tableIndex, blockIndex) =>
    let uint16Size := 2
    let uint64Size := 8
    let entryOffset := wrap64 (referenceCount.offset + wrap64 (uint64Size * tableIndex))
    match referenceCount.rawFile.readUint64At entryOffset with
    | .ok blockAddrDisk =>
      let located : SetRefcountResult × Nat × File :=
        match newCluster with
        | some cluster =>
          match referenceCount.rawFile.writeRefcountBlock cluster.clusterAddress
              cluster.referenceCountBlock.getValues with
          | (.ok _, file) =>
            let written := (referenceCount.rawFile.over file).writeUint64At
              cluster.clusterAddress entryOffset
            (.done none, cluster.clusterAddress, written.2)
          | (.error e, file) => (.failed e, blockAddrDisk, file)
          | (.crash, file) => (.panicked, blockAddrDisk, file)
        | none =>
          if blockAddrDisk = 0 then (.needNewCluster, blockAddrDisk, file)
          else (.done none, blockAddrDisk, file)
      match located with
      | (.done _, blockAddrDisk, file) =>
        let written := (referenceCount.rawFile.over file).writeUint16At refcount
          (wrap64 (blockAddrDisk + wrap64 (blockIndex * uint16Size)))
        (.done none, written.2)
      | (other, _, file) => (other, file)
    | .error e => (.failed e, file)
    | .crash => (.panicked, file)
  | _ => (.panicked, file)

/-- The interface `ReferenceCountTable` with its two implementations. -/
inductive ReferenceCountTable where
  | writeBack (referenceCount : ReferenceCountWriteBack)
  | noCache (referenceCount : ReferenceCountNoCache)

/-- The function `newReferenceCount`. -/
def newReferenceCount (rawFile : QcowRawFile)
    (refcountTableOffset refcountTableEntries refcountBlockEntries clusterSize : Nat)
    (useCache : Bool) (cacheSize : Nat) : Outcome ReferenceCountTable :=
  if useCache then
    (newReferenceCountWriteBack rawFile refcountTableOffset refcountTableEntries
      refcountBlockEntries clusterSize cacheSize).bind fun referenceCount =>
      .ok (.writeBack referenceCount)
  else
    .ok (.noCache (newReferenceCountNoCache rawFile refcountTableOffset refcountTableEntries
      refcountBlockEntries clusterSize))

/-- The method `maxValidClusterOffset` of the interface. -/
def ReferenceCountTable.maxValidClusterOffset : ReferenceCountTable → Nat
  | .writeBack referenceCount => referenceCount.maxValidClusterOffset
  | .noCache referenceCount => referenceCount._maxValidClusterOffset

/-- The method `referenceCountsPerBlock` of the interface. -/
def ReferenceCountTable.referenceCountsPerBlock : ReferenceCountTable → Nat
  | .writeBack referenceCount => referenceCount.numberOfReferenceCountsInCluster
  | .noCache referenceCount => referenceCount.numberOfReferenceCountsInCluster
/-! ### The two interfaces as the image calls them

Every structure of an image holds a copy of the raw file, and all copies share one file
descriptor.  The calls below hand the file as it is now to the structure and return the file
as the call leaves it. -/

/-- The method `readClusterAddress` of the interface `pointerTableCache`. -/
def pointerTableCache.readClusterAddress (pointerTable : pointerTableCache) (file : File)
    (virtualAddress : Nat) : Outcome Nat × pointerTableCache × File :=
  match pointerTable with
  | .writeBack table =>
    let read := (table.over file).readClusterAddress virtualAddress
    (read.1, .writeBack read.2, read.2.rawFile.file.content)
  | .noCache table =>
    (pointerTableNoCache.readClusterAddress { table with rawFile := table.rawFile.over file }
      virtualAddress, .noCache table, file)

/-- The method `addNewPointerCluster` of the interface `pointerTableCache`. -/
def pointerTableCache.addNewPointerCluster (pointerTable : pointerTableCache) (file : File)
    (virtualAddress newClusterAddress : Nat) : Outcome Unit × pointerTableCache × File :=
  match pointerTable with
  | .writeBack table =>
    let added := (table.over file).addNewPointerCluster virtualAddress newClusterAddress
    (added.1, .writeBack added.2, added.2.rawFile.file.content)
  | .noCache table =>
    let added := pointerTableNoCache.addNewPointerCluster
      { table with rawFile := table.rawFile.over file } virtualAddress newClusterAddress
    (added.1, .noCache table, added.2)

/-- The method `sync` of the interface `pointerTableCache`. -/
def pointerTableCache.sync (pointerTable : pointerTableCache) (file : File) :
    Outcome Unit × pointerTableCache × File :=
  match pointerTable with
  | .writeBack table =>
    let synced := (table.over file).sync
    (synced.1, .writeBack synced.2, synced.2.rawFile.file.content)
  | .noCache table => (.ok (), .noCache table, file)

/-- The method `syncL1` of the interface `pointerTableCache`. -/
def pointerTableCache.syncL1 (pointerTable : pointerTableCache) (file : File) :
    Outcome Bool × pointerTableCache × File :=
  match pointerTable with
  | .writeBack table =>
    let synced := (table.over file).syncL1
    (synced.1, .writeBack synced.2, synced.2.rawFile.file.content)
  | .noCache table => (.ok false, .noCache table, file)

/-- The method `setClusterRefcount` of the interface `ReferenceCountTable`. -/
def ReferenceCountTable.setClusterRefcount (referenceCounts : ReferenceCountTable) (file : File)
    (clusterAddress refcount : Nat) (newCluster : Option newCluster) :
    SetRefcountResult × ReferenceCountTable × File :=
  match referenceCounts with
  | .writeBack referenceCount =>
    let set := (referenceCount.over file).setClusterRefcount clusterAddress refcount newCluster
    (set.1, .writeBack set.2, set.2.rawFile.file.content)
  | .noCache referenceCount =>
    let set := ReferenceCountNoCache.setClusterRefcount
      { referenceCount with rawFile := referenceCount.rawFile.over file }
      clusterAddress refcount newCluster
    (set.1, .noCache referenceCount, set.2)

/-- The method `getClusterRefcount` of the interface `ReferenceCountTable`. -/
def ReferenceCountTable.getClusterRefcount (referenceCounts : ReferenceCountTable) (file : File)
    (address : Nat) : Outcome Nat × ReferenceCountTable × File :=
  match referenceCounts with
  | .writeBack referenceCount =>
    let got := (referenceCount.over file).getClusterRefcount address
    (got.1, .writeBack got.2, got.2.rawFile.file.content)
  | .noCache referenceCount =>
    (ReferenceCountNoCache.getClusterRefcount
      { referenceCount with rawFile := referenceCount.rawFile.over file } address,
      .noCache referenceCount, file)

/-- The method `flushBlocks` of the interface `ReferenceCountTable`. -/
def ReferenceCountTable.flushBlocks (referenceCounts : ReferenceCountTable) (file : File) :
    Outcome Unit × ReferenceCountTable × File :=
  match referenceCounts with
  | .writeBack referenceCount =>
    let flushed := (referenceCount.over file).flushBlocks
    (flushed.1, .writeBack flushed.2, flushed.2.rawFile.file.content)
  | .noCache referenceCount => (.ok (), .noCache referenceCount, file)

/-- The method `flushTable` of the interface `ReferenceCountTable`. -/
def ReferenceCountTable.flushTable (referenceCounts : ReferenceCountTable) (file : File) :
    Outcome Bool × ReferenceCountTable × File :=
  match referenceCounts with
  | .writeBack referenceCount =>
    let flushed := (referenceCount.over file).flushTable
    (flushed.1, .writeBack flushed.2, flushed.2.rawFile.file.content)
  | .noCache referenceCount => (.ok false, .noCache referenceCount, file)

/-! ### The image (`qcow2.go`) -/

/-- The type `ImageFile` without its `backingFile` pointer, which the methods take as an
argument of its own. -/
structure ImageFile where
  rawFile : QcowRawFile
  header : ImageHeader
  pointerTable : pointerTableCache
  referenceCounts : ReferenceCountTable
  unrefClusters : List Nat
  availClusters : List Nat
  closed : Bool
  readOnly : Bool

/-- The `backingFile` of an image: the backing image in some state `β`, and its `ReadAt`,
which gives the bytes read and the state after (`none` when the rounds are used up). -/
structure BackingFile (β : Type) where
  state : β
  ReadAt : β → Nat → Nat → Option (Outcome (List Byte) × β)

/-- The file of the image as it is now. -/
def ImageFile.file (imageFile : ImageFile) : File := imageFile.rawFile.file.content

/-- The image once its file has become `content`. -/
def ImageFile.over (imageFile : ImageFile) (content : File) : ImageFile :=
  { imageFile with rawFile := imageFile.rawFile.over content }

/-- The `checkAddUint64Boundaries` of `util.go`. -/
def checkAddUint64Boundaries (first second : Nat) : Check :=
  if sub64 18446744073709551615 first < second then .error .sumOverflow else .ok ()

/-- The method `limitRangeFile`. -/
def ImageFile.limitRangeFile (imageFile : ImageFile) (address count : Nat) : Nat :=
  match checkAddUint64Boundaries address count with
  | .error _ => 0
  | .ok _ =>
    if address > imageFile.header.virtualDiskSizeBytes then 0
    else
      let remainingOffset := sub64 imageFile.header.virtualDiskSizeBytes address
      if count < remainingOffset then count else remainingOffset

/-- The method `l1AddressOffset`. -/
def ImageFile.l1AddressOffset (imageFile : ImageFile) (address : Nat) : Outcome Nat :=
  (l1TableIndex imageFile.header address).bind fun l1Index => .ok (wrap64 (l1Index * 8))

/-- The method `getNewCluster`; `initialData` is `none` for `nil`. -/
def ImageFile.getNewCluster (imageFile : ImageFile) (initialData : Option (List Byte)) :
    Outcome Nat × ImageFile :=
  match imageFile.availClusters.getLast? with
  | some newClusterAddress =>
    let imageFile := { imageFile with availClusters := imageFile.availClusters.dropLast }
    let written :=
      match initialData with
      | some data => imageFile.rawFile.writeCluster newClusterAddress data
      | none => imageFile.rawFile.zeroCluster newClusterAddress
    match written with
    | (.ok _, file) => (.ok newClusterAddress, imageFile.over file)
    | (.error e, file) => (.error e, imageFile.over file)
    | (.crash, file) => (.crash, imageFile.over file)
  | none =>
    match imageFile.rawFile.allocateClusterAtFileEnd
        imageFile.referenceCounts.maxValidClusterOffset with
    | (.ok newClusterAddress, file) =>
      let imageFile := imageFile.over file
      match initialData with
      | some data =>
        match imageFile.rawFile.writeCluster newClusterAddress data with
        | (.ok _, file) => (.ok newClusterAddress, imageFile.over file)
        | (.error e, file) => (.error e, imageFile.over file)
        | (.crash, file) => (.crash, imageFile.over file)
      | none => (.ok newClusterAddress, imageFile)
    | (.error e, file) => (.error e, imageFile.over file)
    | (.crash, file) => (.crash, imageFile.over file)

/-- The loop `for !referenceCountsAreSet` of `ImageFile.setClusterRefcount`: the clusters
added and the clusters that lost their reference.  `none` when the rounds are used up. -/
def ImageFile.setClusterRefcount.loop (address referenceCount : Nat) :
    Nat → ImageFile → Option newCluster → List Nat →
    Option (Outcome (List Nat × List Nat) × ImageFile)
  | 0, _, _, _ => none
  | fuel + 1, imageFile, cluster, addedClusters =>
    let set := imageFile.referenceCounts.setClusterRefcount imageFile.file address
      referenceCount cluster
    let imageFile := ({ imageFile with referenceCounts := set.2.1 } : ImageFile).over set.2.2
    match set.1 with
    | .needNewCluster =>
      match imageFile.getNewCluster none with
      | (.ok newAddress, imageFile) =>
        ImageFile.setClusterRefcount.loop address referenceCount fuel imageFile
          (some { clusterAddress := newAddress
                  referenceCountBlock :=
                    newVectorCache imageFile.referenceCounts.referenceCountsPerBlock 0 })
          (addedClusters ++ [newAddress])
      | (.error e, imageFile) => some (.error e, imageFile)
      | (.crash, imageFile) => some (.crash, imageFile)
    | .needReadCluster blockAddress =>
      match imageFile.rawFile.readRefCountBlock blockAddress with
      | .ok block =>
        ImageFile.setClusterRefcount.loop address referenceCount fuel imageFile
          (some { clusterAddress := blockAddress
                  referenceCountBlock := vectorCacheFromArray block })
          addedClusters
      | .error e => some (.error e, imageFile)
      | .crash => some (.crash, imageFile)
    | .failed e => some (.error e, imageFile)
    | .panicked => some (.crash, imageFile)
    | .done none => some (.ok (addedClusters, []), imageFile)
    | .done (some droppedCluster) => some (.ok (addedClusters, [droppedCluster]), imageFile)

/-- A loop over addresses with a step that may fail: the second loop of
`ImageFile.setClusterRefcount`. -/
def ImageFile.setClusterRefcount.added
    (step : ImageFile → Nat → Option (Outcome (List Nat) × ImageFile)) :
    List Nat → ImageFile → Option (Outcome Unit × ImageFile)
  | [], imageFile => some (.ok (), imageFile)
  | address :: rest, imageFile =>
    match step imageFile address with
    | none => none
    | some (.ok _, imageFile) => ImageFile.setClusterRefcount.added step rest imageFile
    | some (.error e, imageFile) => some (.error e, imageFile)
    | some (.crash, imageFile) => some (.crash, imageFile)

/-- The method `ImageFile.setClusterRefcount`: the clusters that lost their reference, and
the image after.  The rounds count the turns of the loop and the depth of the calls. -/
def ImageFile.setClusterRefcount :
    Nat → ImageFile → Nat → Nat → Option (Outcome (List Nat) × ImageFile)
  | 0, _, _, _ => none
  | fuel + 1, imageFile, address, referenceCount =>
    match ImageFile.setClusterRefcount.loop address referenceCount (fuel + 1) imageFile
        none [] with
    | none => none
    | some (.ok (addedClusters, unreferencedClusters), imageFile) =>
      match ImageFile.setClusterRefcount.added
          (fun image added => ImageFile.setClusterRefcount fuel image added 1)
          addedClusters imageFile with
      | none => none
      | some (.ok _, imageFile) => some (.ok unreferencedClusters, imageFile)
      | some (.error e, imageFile) => some (.error e, imageFile)
      | some (.crash, imageFile) => some (.crash, imageFile)
    | some (.error e, imageFile) => some (.error e, imageFile)
    | some (.crash, imageFile) => some (.crash, imageFile)

/-- The method `fileOffsetRead`: the offset in the file and whether the cluster is
allocated. -/
def ImageFile.fileOffsetRead (imageFile : ImageFile) (address : Nat) :
    Outcome (Nat × Bool) × ImageFile :=
  if address ≥ imageFile.header.virtualDiskSizeBytes then
    (.error .addressBeyondVirtualSize, imageFile)
  else
    let read := imageFile.pointerTable.readClusterAddress imageFile.file address
    let imageFile := ({ imageFile with pointerTable := read.2.1 } : ImageFile).over read.2.2
    match read.1 with
    | .ok clusterAddress =>
      if clusterAddress = 0 then (.ok (0, false), imageFile)
      else (.ok (wrap64 (clusterAddress + imageFile.rawFile.clusterOffset address), true),
        imageFile)
    | .error e =>
      if e = .needPointerCluster then (.ok (0, false), imageFile) else (.error e, imageFile)
    | .crash => (.crash, imageFile)

/-- The method `appendDataCluster`. -/
def ImageFile.appendDataCluster (fuel : Nat) (imageFile : ImageFile)
    (data : Option (List Byte)) : Option (Outcome Nat × ImageFile) :=
  match imageFile.getNewCluster data with
  | (.ok newAddress, imageFile) =>
    match ImageFile.setClusterRefcount fuel imageFile newAddress 1 with
    | none => none
    | some (.ok newlyUnreferencedCluster, imageFile) =>
      some (.ok newAddress,
        { imageFile with
          unrefClusters := imageFile.unrefClusters ++ newlyUnreferencedCluster })
    | some (.error e, imageFile) => some (.error e, imageFile)
    | some (.crash, imageFile) => some (.crash, imageFile)
  | (.error e, imageFile) => some (.error e, imageFile)
  | (.crash, imageFile) => some (.crash, imageFile)

/-- The method `ImageFile.updateClusterAddress`: the reference counts still to be set, and
the image after. -/
def ImageFile.updateClusterAddress (imageFile : ImageFile) (virtualAddress clusterAddress : Nat)
    (referenceCountBeingSet : List (Nat × Nat)) : Outcome (List (Nat × Nat)) × ImageFile :=
  match imageFile.pointerTable with
  | .noCache table =>
    match pointerTableNoCache.updateClusterAddress
        { table with rawFile := table.rawFile.over imageFile.file }
        virtualAddress clusterAddress with
    | (.ok _, file) => (.ok referenceCountBeingSet, imageFile.over file)
    | (.error e, file) => (.error e, imageFile.over file)
    | (.crash, file) => (.crash, imageFile.over file)
  | .writeBack table =>
    let updated := (table.over imageFile.file).updateClusterAddressWith virtualAddress
      clusterAddress (fun image : ImageFile => image.getNewCluster none) imageFile
    let imageFile : ImageFile :=
      { updated.2.2 with pointerTable := .writeBack (updated.2.1.over updated.2.2.file) }
    match updated.1 with
    | .done => (.ok referenceCountBeingSet, imageFile)
    | .needFreeClusters clusterToRemove clustersToReferenceCount =>
      (.ok (referenceCountBeingSet ++ clustersToReferenceCount),
        { imageFile with unrefClusters := imageFile.unrefClusters ++ [clusterToRemove] })
    | .failed e => (.error e, imageFile)
    | .panicked => (.crash, imageFile)

/-- The last loop of `fileOffsetWrite`: the reference counts that were put off are set. -/
def ImageFile.fileOffsetWrite.counts (fuel : Nat) :
    List (Nat × Nat) → ImageFile → Option (Outcome Unit × ImageFile)
  | [], imageFile => some (.ok (), imageFile)
  | refCountToSet :: rest, imageFile =>
    match ImageFile.setClusterRefcount fuel imageFile refCountToSet.1 refCountToSet.2 with
    | none => none
    | some (.ok unreferencedClusters, imageFile) =>
      ImageFile.fileOffsetWrite.counts fuel rest
        { imageFile with unrefClusters := imageFile.unrefClusters ++ unreferencedClusters }
    | some (.error e, imageFile) => some (.error e, imageFile)
    | some (.crash, imageFile) => some (.crash, imageFile)

/-- The part of `fileOffsetWrite` for a cluster that has no data cluster yet: the data
cluster is allocated, filled from the backing file if there is one, and entered in the
pointer table. -/
def ImageFile.fileOffsetWrite.allocate {β : Type} (fuel : Nat) (imageFile : ImageFile)
    (backingFile : Option (BackingFile β)) (address : Nat)
    (referenceCountBeingSet : List (Nat × Nat)) :
    Option (Outcome (Nat × List (Nat × Nat)) × ImageFile × Option (BackingFile β)) :=
  let initial : Option (Outcome (Option (List Byte)) × Option (BackingFile β)) :=
    match backingFile with
    | some backing =>
      if imageFile.header.clusterSize = 0 then some (.crash, backingFile)
      else
        let clusterBegin := sub64 address (address % imageFile.header.clusterSize)
        match backing.ReadAt backing.state clusterBegin imageFile.header.clusterSize with
        | none => none
        | some (.ok data, state) => some (.ok (some data), some { backing with state := state })
        | some (.error e, state) => some (.error e, some { backing with state := state })
        | some (.crash, state) => some (.crash, some { backing with state := state })
    | none => some (.ok none, none)
  match initial with
  | none => none
  | some (.ok initialData, backingFile) =>
    match ImageFile.appendDataCluster fuel imageFile initialData with
    | none => none
    | some (.ok clusterAddress, imageFile) =>
      match imageFile.updateClusterAddress address clusterAddress referenceCountBeingSet with
      | (.ok referenceCountBeingSet, imageFile) =>
        some (.ok (clusterAddress, referenceCountBeingSet), imageFile, backingFile)
      | (.error e, imageFile) => some (.error e, imageFile, backingFile)
      | (.crash, imageFile) => some (.crash, imageFile, backingFile)
    | some (.error e, imageFile) => some (.error e, imageFile, backingFile)
    | some (.crash, imageFile) => some (.crash, imageFile, backingFile)
  | some (.error e, backingFile) => some (.error e, imageFile, backingFile)
  | some (.crash, backingFile) => some (.crash, imageFile, backingFile)

/-- The method `fileOffsetWrite`. -/
def ImageFile.fileOffsetWrite {β : Type} (fuel : Nat) (imageFile : ImageFile)
    (backingFile : Option (BackingFile β)) (address : Nat) :
    Option (Outcome Nat × ImageFile × Option (BackingFile β)) :=
  if address ≥ imageFile.header.virtualDiskSizeBytes then
    some (.error .addressBeyondVirtualSize, imageFile, backingFile)
  else
    let read := imageFile.pointerTable.readClusterAddress imageFile.file address
    let imageFile := ({ imageFile with pointerTable := read.2.1 } : ImageFile).over read.2.2
    -- the cluster address read, and the reference count of a new L2 cluster
    let located : Outcome (Nat × List (Nat × Nat)) × ImageFile :=
      match read.1 with
      | .ok clusterAddress => (.ok (clusterAddress, []), imageFile)
      | .error e =>
        if e = .needPointerCluster then
          match imageFile.getNewCluster none with
          | (.ok newL2ClusterAddress, imageFile) =>
            let added := imageFile.pointerTable.addNewPointerCluster imageFile.file address
              newL2ClusterAddress
            let imageFile :=
              ({ imageFile with pointerTable := added.2.1 } : ImageFile).over added.2.2
            match added.1 with
            | .ok _ => (.ok (0, [(newL2ClusterAddress, 1)]), imageFile)
            | .error e => (.error e, imageFile)
            | .crash => (.crash, imageFile)
          | (.error e, imageFile) => (.error e, imageFile)
          | (.crash, imageFile) => (.crash, imageFile)
        else (.error e, imageFile)
      | .crash => (.crash, imageFile)
    match located with
    | (.ok (clusterAddress, referenceCountBeingSet), imageFile) =>
      let allocated :=
        if clusterAddress = 0 then
          ImageFile.fileOffsetWrite.allocate fuel imageFile backingFile address
            referenceCountBeingSet
        else some (.ok (clusterAddress, referenceCountBeingSet), imageFile, backingFile)
      match allocated with
      | none => none
      | some (.ok (clusterAddress, referenceCountBeingSet), imageFile, backingFile) =>
        match ImageFile.fileOffsetWrite.counts fuel referenceCountBeingSet imageFile with
        | none => none
        | some (.ok _, imageFile) =>
          some (.ok (wrap64 (clusterAddress + imageFile.rawFile.clusterOffset address)),
            imageFile, backingFile)
        | some (.error e, imageFile) => some (.error e, imageFile, backingFile)
        | some (.crash, imageFile) => some (.crash, imageFile, backingFile)
      | some (.error e, imageFile, backingFile) => some (.error e, imageFile, backingFile)
      | some (.crash, imageFile, backingFile) => some (.crash, imageFile, backingFile)
    | (.error e, imageFile) => some (.error e, imageFile, backingFile)
    | (.crash, imageFile) => some (.crash, imageFile, backingFile)

/-- The loop of `ImageFile.ReadAt`: `buffer` holds the bytes read so far.  `none` when the
rounds are used up. -/
def ImageFile.ReadAt.loop {β : Type} (address readCount : Nat) :
    Nat → ImageFile → Option (BackingFile β) → Nat → List Byte →
    Option (Outcome (List Byte) × ImageFile × Option (BackingFile β))
  | 0, _, _, _, _ => none
  | fuel + 1, imageFile, backingFile, numberBytesRead, buffer =>
    if numberBytesRead < readCount then
      let currentAddress := wrap64 (address + numberBytesRead)
      let located := imageFile.fileOffsetRead currentAddress
      let imageFile := located.2
      let count := imageFile.rawFile.limitRangeCluster currentAddress
        (sub64 readCount numberBytesRead)
      match located.1 with
      | .ok (fileOffset, true) =>
        match imageFile.rawFile.ReadAt count fileOffset with
        | .ok tempBuffer =>
          ImageFile.ReadAt.loop address readCount fuel imageFile backingFile
            (wrap64 (numberBytesRead + count)) (buffer ++ tempBuffer)
        | .error e => some (.error e, imageFile, backingFile)
        | .crash => some (.crash, imageFile, backingFile)
      | .ok (_, false) =>
        match backingFile with
        | some backing =>
          match backing.ReadAt backing.state currentAddress count with
          | none => none
          | some (.ok data, state) =>
            ImageFile.ReadAt.loop address readCount fuel imageFile
              (some { backing with state := state })
              (wrap64 (numberBytesRead + count)) (buffer ++ data)
          | some (.error e, state) =>
            some (.error e, imageFile, some { backing with state := state })
          | some (.crash, state) =>
            some (.crash, imageFile, some { backing with state := state })
        | none =>
          ImageFile.ReadAt.loop address readCount fuel imageFile backingFile
            (wrap64 (numberBytesRead + count)) (buffer ++ List.replicate count 0)
      | .error e => some (.error e, imageFile, backingFile)
      | .crash => some (.crash, imageFile, backingFile)
    else some (.ok buffer, imageFile, backingFile)

/-- The method `ImageFile.ReadAt`: the bytes read, the image and its backing file after.
Every turn of the loop reads at least one byte when the cluster size is not zero, so
`readCount + 1` rounds are enough. -/
def ImageFile.ReadAt {β : Type} (imageFile : ImageFile) (backingFile : Option (BackingFile β))
    (address size : Nat) : Option (Outcome (List Byte) × ImageFile × Option (BackingFile β)) :=
  let readCount := imageFile.limitRangeFile address size
  ImageFile.ReadAt.loop address readCount (readCount + 1) imageFile backingFile 0 []

/-- The image as the backing file of another one. -/
def ImageFile.asBackingFile {β : Type} (imageFile : ImageFile)
    (backingFile : Option (BackingFile β)) :
    BackingFile (ImageFile × Option (BackingFile β)) :=
  { state := (imageFile, backingFile)
    ReadAt := fun state address size => ImageFile.ReadAt state.1 state.2 address size }

/-- The loop of `ImageFile.WriteAt`.  `none` when the rounds are used up. -/
def ImageFile.WriteAt.loop {β : Type} (fuel address writeCount : Nat) (data : List Byte) :
    Nat → ImageFile → Option (BackingFile β) → Nat →
    Option (Outcome Unit × ImageFile × Option (BackingFile β))
  | 0, _, _, _ => none
  | turns + 1, imageFile, backingFile, numberBytesWritten =>
    if numberBytesWritten < writeCount then
      let currentAddress := wrap64 (address + numberBytesWritten)
      match ImageFile.fileOffsetWrite fuel imageFile backingFile currentAddress with
      | none => none
      | some (.ok offset, imageFile, backingFile) =>
        let count := imageFile.rawFile.limitRangeCluster currentAddress
          (sub64 writeCount numberBytesWritten)
        if wrap64 (numberBytesWritten + count) < numberBytesWritten
            ∨ data.length < wrap64 (numberBytesWritten + count) then
          some (.crash, imageFile, backingFile)
        else
          match imageFile.rawFile.WriteAt
              ((data.take (wrap64 (numberBytesWritten + count))).drop numberBytesWritten)
              offset with
          | (.ok _, file) =>
            ImageFile.WriteAt.loop fuel address writeCount data turns (imageFile.over file)
              backingFile (wrap64 (numberBytesWritten + count))
          | (.error e, file) => some (.error e, imageFile.over file, backingFile)
          | (.crash, file) => some (.crash, imageFile.over file, backingFile)
      | some (.error e, imageFile, backingFile) => some (.error e, imageFile, backingFile)
      | some (.crash, imageFile, backingFile) => some (.crash, imageFile, backingFile)
    else some (.ok (), imageFile, backingFile)

/-- The method `ImageFile.WriteAt`; `fuel` bounds the rounds of every call of
`setClusterRefcount`. -/
def ImageFile.WriteAt {β : Type} (fuel : Nat) (imageFile : ImageFile)
    (backingFile : Option (BackingFile β)) (address : Nat) (data : List Byte) :
    Option (Outcome Unit × ImageFile × Option (BackingFile β)) :=
  if imageFile.readOnly then some (.error .writeAttemptToReadOnlyDisk, imageFile, backingFile)
  else
    let writeCount := imageFile.limitRangeFile address data.length
    ImageFile.WriteAt.loop fuel address writeCount data (writeCount + 1) imageFile backingFile 0

/-- The method `syncCache`. -/
def ImageFile.syncCache (imageFile : ImageFile) : Outcome Unit × ImageFile :=
  let synced := imageFile.pointerTable.sync imageFile.file
  let imageFile := ({ imageFile with pointerTable := synced.2.1 } : ImageFile).over synced.2.2
  match synced.1 with
  | .ok _ =>
    let flushed := imageFile.referenceCounts.flushBlocks imageFile.file
    let imageFile :=
      ({ imageFile with referenceCounts := flushed.2.1 } : ImageFile).over flushed.2.2
    match flushed.1 with
    | .ok _ =>
      match imageFile.rawFile.sync with
      | (.ok _, _) =>
        let table := imageFile.referenceCounts.flushTable imageFile.file
        let imageFile :=
          ({ imageFile with referenceCounts := table.2.1 } : ImageFile).over table.2.2
        match table.1 with
        | .ok tableChanged =>
          let l1 := imageFile.pointerTable.syncL1 imageFile.file
          let imageFile := ({ imageFile with pointerTable := l1.2.1 } : ImageFile).over l1.2.2
          match l1.1 with
          | .ok l1Changed =>
            if tableChanged || l1Changed then (imageFile.rawFile.sync.1, imageFile)
            else (.ok (), imageFile)
          | .error e => (.error e, imageFile)
          | .crash => (.crash, imageFile)
        | .error e => (.error e, imageFile)
        | .crash => (.crash, imageFile)
      | (.error e, _) => (.error e, imageFile)
      | (.crash, _) => (.crash, imageFile)
    | .error e => (.error e, imageFile)
    | .crash => (.crash, imageFile)
  | .error e => (.error e, imageFile)
  | .crash => (.crash, imageFile)

/-- The method `Flush`. -/
def ImageFile.Flush (imageFile : ImageFile) : Outcome Unit × ImageFile :=
  match imageFile.syncCache with
  | (.ok _, imageFile) =>
    (.ok (), { imageFile with
      availClusters := imageFile.availClusters ++ imageFile.unrefClusters
      unrefClusters := [] })
  | failed => failed

/-- The method `Close`.  Closing the descriptors (of the image and of its backing files,
which are read-only and are not synced) is taken to succeed; it changes no file. -/
def ImageFile.Close (imageFile : ImageFile) : Outcome Unit × ImageFile :=
  if imageFile.closed then (.ok (), imageFile)
  else
    let synced : Outcome Unit × ImageFile :=
      if !imageFile.readOnly then imageFile.syncCache else (.ok (), imageFile)
    match synced with
    | (.ok _, imageFile) => (.ok (), { imageFile with closed := true })
    | failed => failed

/-- The loop of `findAvailableClusters`.  `none` when the rounds are used up. -/
def ImageFile.findAvailableClusters.loop (size : Nat) :
    Nat → ImageFile → Nat → Option (Outcome Unit × ImageFile)
  | 0, _, _ => none
  | fuel + 1, imageFile, i =>
    if i < size then
      let got := imageFile.referenceCounts.getClusterRefcount imageFile.file i
      let imageFile := ({ imageFile with referenceCounts := got.2.1 } : ImageFile).over got.2.2
      match got.1 with
      | .ok refcount =>
        ImageFile.findAvailableClusters.loop size fuel
          (if refcount = 0 then
            { imageFile with availClusters := imageFile.availClusters ++ [i] }
          else imageFile)
          (wrap64 (i + imageFile.header.clusterSize))
      | .error e => some (.error e, imageFile)
      | .crash => some (.crash, imageFile)
    else some (.ok (), imageFile)

/-- The method `findAvailableClusters`. -/
def ImageFile.findAvailableClusters (imageFile : ImageFile) : Option (Outcome Unit × ImageFile) :=
  ImageFile.findAvailableClusters.loop imageFile.rawFile.size (imageFile.rawFile.size + 1)
    imageFile 0

/-- The type `ImageFactory`. -/
structure ImageFactory where
  useCache : Bool
  pointerTableCacheSize : Nat
  referenceCountTableCacheSize : Nat

/-- The function `NoCacheImageFactory`. -/
def NoCacheImageFactory : ImageFactory :=
  { useCache := false, pointerTableCacheSize := 0, referenceCountTableCacheSize := 0 }

/-- The part of `imageFromFile` after the read-only check: the rebuild of the reference
counts if it is required, the two tables, the two boundary checks and the search for
available clusters. -/
def ImageFactory.imageFromFile.build (factory : ImageFactory) (header : ImageHeader)
    (rawFile : QcowRawFile) (referenceCountRebuildRequired readOnly : Bool) :
    Option (Outcome ImageFile) :=
  let rebuilt : Outcome Unit × File :=
    if referenceCountRebuildRequired then rebuildReferenceCounts rawFile header
    else (.ok (), rawFile.file.content)
  match rebuilt with
  | (.ok _, file) =>
    let rawFile := rawFile.over file
    let refcountBytes := wrap64 (wrap64 (2 ^ header.refCountOrder) + 7) / 8
    if refcountBytes = 0 then some .crash
    else
      let refcountBlockEntries := header.clusterSize / refcountBytes
      let tables : Outcome (pointerTableCache × ReferenceCountTable) := do
        let pointerCache ← newPointerTable header rawFile factory.useCache
          factory.pointerTableCacheSize
        let refcountTableEntries ← maxRefCountClusters header.numClusters header.numL2Clusters
          header.l1Clusters (wrap32 header.clusterSize)
        let referenceCounts ← newReferenceCount rawFile header.refCountTableOffset
          refcountTableEntries refcountBlockEntries header.clusterSize factory.useCache
          factory.referenceCountTableCacheSize
        Outcome.ok (pointerCache, referenceCounts)
      match tables with
      | .ok (pointerCache, referenceCounts) =>
        let image : ImageFile :=
          { rawFile := rawFile, header := header, pointerTable := pointerCache,
            referenceCounts := referenceCounts, unrefClusters := [], availClusters := [],
            closed := false, readOnly := readOnly }
        let checked : Outcome Unit := do
          let l1Offset ← image.l1AddressOffset header.virtualDiskSizeBytes
          Outcome.ofCheck (checkAddUint64Boundaries header.l1TableOffset l1Offset)
          Outcome.ofCheck (checkAddUint64Boundaries header.refCountTableOffset
            (wrap64 (header.refCountTableClusters * header.clusterSize)))
        match checked with
        | .ok _ =>
          match image.findAvailableClusters with
          | none => none
          | some (.ok _, image) => some (.ok image)
          | some (.error e, _) => some (.error e)
          | some (.crash, _) => some .crash
        | .error e => some (.error e)
        | .crash => some .crash
      | .error e => some (.error e)
      | .crash => some .crash
  | (.error e, _) => some (.error e)
  | (.crash, _) => some .crash

/-- The method `imageFromFile`; `backing` is what `getBackingFileImage` returns for a header
that names a backing file. -/
def ImageFactory.imageFromFile (factory : ImageFactory) (file : OsFile) (readOnly : Bool)
    (backing : Outcome Unit) : Option (Outcome ImageFile) :=
  match imageFromFile.opening file readOnly backing with
  | .ok (header, rawFile, referenceCountRebuildRequired) =>
    ImageFactory.imageFromFile.build factory header rawFile referenceCountRebuildRequired
      readOnly
  | .error e => some (.error e)
  | .crash => some .crash

/-- The method `OpenImage` on the file at the path, opened with `O_RDWR`. -/
def ImageFactory.OpenImage (factory : ImageFactory) (content : File) (backing : Outcome Unit) :
    Option (Outcome ImageFile) :=
  factory.imageFromFile { content := content, writable := true } false backing

/-- The loop of `createImageFromHeader`: the reference count of every cluster below
`endClusterAddress` is set to 1.  `none` when the rounds are used up. -/
def ImageFactory.createImageFromHeader.loop (fuel endClusterAddress : Nat) :
    Nat → ImageFile → Nat → Option (Outcome Unit × ImageFile)
  | 0, _, _ => none
  | turns + 1, qcowImage, clusterAddress =>
    if clusterAddress < endClusterAddress then
      match ImageFile.setClusterRefcount fuel qcowImage clusterAddress 1 with
      | none => none
      | some (.ok unreferencedClusters, qcowImage) =>
        ImageFactory.createImageFromHeader.loop fuel endClusterAddress turns
          { qcowImage with unrefClusters := qcowImage.unrefClusters ++ unreferencedClusters }
          (wrap64 (clusterAddress + qcowImage.header.clusterSize))
      | some (.error e, qcowImage) => some (.error e, qcowImage)
      | some (.crash, qcowImage) => some (.crash, qcowImage)
    else some (.ok (), qcowImage)

/-- The method `createImageFromHeader` on a newly created file. -/
def ImageFactory.createImageFromHeader (factory : ImageFactory) (fuel : Nat)
    (header : ImageHeader) (backing : Outcome Unit) : Option (Outcome ImageFile) :=
  match header.writeToFile File.empty with
  | .ok file =>
    match factory.imageFromFile { content := file, writable := true } false backing with
    | none => none
    | some (.ok qcowImage) =>
      let endClusterAddress := wrap64 (header.refCountTableOffset
        + wrap64 (header.refCountTableClusters * header.clusterSize))
      match ImageFactory.createImageFromHeader.loop fuel endClusterAddress
          (endClusterAddress + 1) qcowImage 0 with
      | none => none
      | some (.ok _, qcowImage) => some (.ok qcowImage)
      | some (.error e, _) => some (.error e)
      | some (.crash, _) => some .crash
    | some (.error e) => some (.error e)
    | some .crash => some .crash
  | .error e => some (.error e)
  | .crash => some .crash

/-- The method `CreateImage` for a path that does not exist yet. -/
def ImageFactory.CreateImage (factory : ImageFactory) (fuel virtualSize : Nat) :
    Option (Outcome ImageFile) :=
  match createHeaderForSizeAndPath virtualSize none with
  | .ok header => factory.createImageFromHeader fuel header (.ok ())
  | .error e => some (.error e)
  | .crash => some .crash
/-! ### A child image larger than its backing image -/

/-- The header of an image of `clusters` clusters of 512 bytes, with one L2 table: L1 table in
cluster 1, refcount table in cluster 2. -/
def oneTableHeader (clusters : Nat) : ImageHeader :=
  { createdHeader10MiB with
    clusterBits := 9, clusterSize := 512, virtualDiskSizeBytes := clusters * 512, l1Size := 1,
    l1TableOffset := 512, refCountTableOffset := 1024, numClusters := clusters, l2Size := 64,
    numL2Clusters := 1 }

/-- An image file of four clusters with the given header and no data: the refcount table in
cluster 2 points to the refcount block in cluster 3, which counts one reference for each of
the four clusters. -/
def emptyImageFile (header : ImageHeader) : File :=
  match header.writeToFile File.empty with
  | .ok file =>
    (file.write 1024 (uint64ToByte 1536)).write 1536
      ([0, 1, 0, 1, 0, 1, 0, 1] ++ List.replicate 504 0)
  | _ => File.empty

/-- The backing image: one cluster of virtual size, no data, opened read-only. -/
def shortBackingImage : Option (Outcome ImageFile) :=
  NoCacheImageFactory.imageFromFile
    { content := emptyImageFile (oneTableHeader 1), writable := false } true (.ok ())

/-- The child image: two clusters of virtual size, no data, its header names the backing
file `p`. -/
def longChildImage : Option (Outcome ImageFile) :=
  NoCacheImageFactory.OpenImage
    (emptyImageFile { oneTableHeader 2 with
      backingFileOffset := 112, backingFileSize := 1, backingFilePath := some [0x70] })
    (.ok ())

/-- The number of bytes that `ReadAt(address, size)` returns on the child image over the
backing image. -/
def longChildImage.readLength (address size : Nat) : Option (Outcome Nat) :=
  match shortBackingImage, longChildImage with
  | some (.ok backing), some (.ok child) =>
    (ImageFile.ReadAt child (some (backing.asBackingFile (none : Option (BackingFile Unit))))
      address size).map fun read => read.1.bind fun bytes => .ok bytes.length
  | _, _ => none

/-! ### What the clusters of an image file are used for

The definitions of this section are not translated from the source: they state what it
means for an image to be in a consistent state, as the proofs of the read and write methods
need it. -/

/-- The big-endian 64-bit word at offset `p` of a file. -/
def File.word (f : File) (p : Nat) : Nat := beValue (f.bytes p 8)

/-- What a cluster of the image file is used for: nothing yet, the L2 table of an L1 entry,
the data of a cluster of the virtual disk, a cluster that belongs to the reference counts or
was given up, a cluster in the list of available clusters, or a cluster that was just
allocated. -/
inductive ClusterRole where
  | free
  | l2Table (index : Nat)
  | data (index : Nat)
  | reserved
  | available
  | pending
  deriving DecidableEq, Repr

/-- The end of the L1 table and of the refcount table (of `entries` entries), whichever is
later. -/
def ImageHeader.tablesEnd (h : ImageHeader) (entries : Nat) : Nat :=
  max (h.l1TableOffset + 8 * h.numL2Clusters) (h.refCountTableOffset + 8 * entries)

/-- The sizes and offsets of a header fit together: the cluster size is `2 ^ cluster_bits`
with `9 ≤ cluster_bits ≤ 30`, an L2 table fills a cluster, the L2 tables cover the virtual
size, the L1 table and the refcount table do not overlap, and every offset that the
reference counts (with `entries` table entries) let a cluster have is below `2 ^ 55`. -/
structure ImageHeader.Layout (h : ImageHeader) (entries : Nat) : Prop where
  bits_ge : 9 ≤ h.clusterBits
  bits_le : h.clusterBits ≤ 30
  clusterSize_eq : h.clusterSize = 2 ^ h.clusterBits
  l2Size_eq : h.l2Size = h.clusterSize / 8
  covered : h.virtualDiskSizeBytes ≤ h.numL2Clusters * h.l2Size * h.clusterSize
  disjoint : h.l1TableOffset + 8 * h.numL2Clusters ≤ h.refCountTableOffset
    ∨ h.refCountTableOffset + 8 * entries ≤ h.l1TableOffset
  bound : entries * (h.clusterSize / 2) * h.clusterSize ≤ 2 ^ 55

/-- The part of the file a byte position lies in: the L1 table, the refcount table, another
place before the end of the tables, or a cluster with its role. -/
inductive Zone where
  | l1Table
  | refcountTable
  | other
  | cluster (role : ClusterRole)
  deriving DecidableEq, Repr

/-- The zone of the byte position `p`, for the roles `ρ` of the clusters. -/
def ImageHeader.zone (h : ImageHeader) (entries : Nat) (ρ : Nat → ClusterRole) (p : Nat) : Zone :=
  if h.l1TableOffset ≤ p ∧ p < h.l1TableOffset + 8 * h.numL2Clusters then .l1Table
  else if h.refCountTableOffset ≤ p ∧ p < h.refCountTableOffset + 8 * entries then
    .refcountTable
  else if p < h.tablesEnd entries then .other
  else .cluster (ρ (p / h.clusterSize))

/-- The file `f'` is `f` after writes at positions in `touched` only; it may have grown. -/
def File.Differ (touched : Nat → Prop) (f f' : File) : Prop :=
  f.size ≤ f'.size ∧ ∀ p, ¬ touched p → f'.get p = f.get p

/-- The roles `ρ` of the clusters fit the file, the L2 tables `L` (cluster number of the L2
table of every L1 entry, 0 for none), the data clusters `M` (cluster number of the data of
every cluster of the virtual disk, 0 for none) and the list of available clusters. -/
structure ClusterRoles (h : ImageHeader) (entries : Nat) (f : File) (ρ : Nat → ClusterRole)
    (L M : Nat → Nat) (availClusters : List Nat) : Prop where
  inFile : ∀ n, ρ n ≠ .free →
    h.tablesEnd entries ≤ n * h.clusterSize ∧ (n + 1) * h.clusterSize ≤ f.size
  l2 : ∀ i, i < h.numL2Clusters → L i ≠ 0 → ρ (L i) = .l2Table i
  data : ∀ k, k < h.numL2Clusters * h.l2Size → M k ≠ 0 →
    ρ (M k) = .data k ∧ L (k / h.l2Size) ≠ 0
  avail : ∀ a ∈ availClusters, h.clusterSize ∣ a ∧ ρ (a / h.clusterSize) = .available
  nodup : availClusters.Nodup
  tables : h.tablesEnd entries ≤ f.size
  size : f.size ≤ entries * (h.clusterSize / 2) * h.clusterSize

/-- The pointer table without a cache represents `L` and `M`: the L1 entries in the file are
the addresses of the L2 tables, and the entries of every L2 table in the file are the
addresses of the data clusters. -/
structure pointerTableNoCache.Represents (table : pointerTableNoCache) (h : ImageHeader)
    (f : File) (L M : Nat → Nat) : Prop where
  header : table.header = h
  writable : table.rawFile.readOnly = false ∧ table.rawFile.file.writable = true
  l1 : ∀ i, i < h.numL2Clusters → f.word (h.l1TableOffset + 8 * i) = L i * h.clusterSize
  l2 : ∀ i, i < h.numL2Clusters → L i ≠ 0 → ∀ j, j < h.l2Size →
    f.word (L i * h.clusterSize + 8 * j) = M (i * h.l2Size + j) * h.clusterSize

/-- The L2 table of the L1 entry `i` as it is in the file: no entry is compressed, and
without their flags the entries are the addresses of the data clusters. -/
def l2TableOnDisk (h : ImageHeader) (f : File) (L M : Nat → Nat) (i : Nat) : Prop :=
  ∀ j, j < h.l2Size →
    f.word (L i * h.clusterSize + 8 * j) &&& CompressedFlag = 0
    ∧ f.word (L i * h.clusterSize + 8 * j) &&& L2TableOffsetMask
        = M (i * h.l2Size + j) * h.clusterSize

/-- The cached L2 tables `held` fit `L` and `M`: a cached L2 table is the table of an L1 entry
and holds the addresses of its data clusters; an L2 table that is not cached, or is cached
and clean, is in the file. -/
def l2TablesHeld (h : ImageHeader) (f : File) (L M : Nat → Nat)
    (held : List (Nat × Nat × VectorCache Nat)) : Prop :=
  (∀ x ∈ held, ∃ i, i < h.numL2Clusters ∧ L i ≠ 0 ∧ x.2.1 = L i * h.clusterSize
      ∧ x.2.2.data.length = h.l2Size
      ∧ (∀ j, j < h.l2Size → x.2.2.data.getD j 0 = M (i * h.l2Size + j) * h.clusterSize)
      ∧ (x.2.2.dirty = false → l2TableOnDisk h f L M i))
  ∧ (∀ i, i < h.numL2Clusters → L i ≠ 0 →
      L i * h.clusterSize ∉ held.map (fun x => x.2.1) → l2TableOnDisk h f L M i)

/-- The write-back pointer table represents `L` and `M`: the L1 vector holds the addresses of
the L2 tables, and the cached L2 tables fit `L` and `M`. -/
structure pointerWriteBackCache.Represents (table : pointerWriteBackCache) (h : ImageHeader)
    (f : File) (L M : Nat → Nat) : Prop where
  header : table.header = h
  writable : table.rawFile.readOnly = false ∧ table.rawFile.file.writable = true
  clusterSize : table.rawFile.clusterSize = h.clusterSize
  l1Length : table.l1Table.data.length = h.numL2Clusters
  l1 : ∀ i, i < h.numL2Clusters → table.l1Table.data.getD i 0 = L i * h.clusterSize
  capacity : 0 < table.cache.capacity
  cache : ∃ held created, table.cache.Holds held created ∧ l2TablesHeld h f L M held

/-- The pointer table of an image represents `L` and `M`. -/
def pointerTableCache.Represents (pointerTable : pointerTableCache) (h : ImageHeader) (f : File)
    (L M : Nat → Nat) : Prop :=
  match pointerTable with
  | .writeBack table => table.Represents h f L M
  | .noCache table => table.Represents h f L M

/-- The L2 table at `address` is at hand: in the cache of the write-back pointer table;
always without a cache. -/
def pointerTableCache.Loaded (pointerTable : pointerTableCache) (address : Nat) : Prop :=
  match pointerTable with
  | .writeBack table => table.cache.containsKey address = true
  | .noCache _ => True

/-- A block address that the reference counts hold: none, or a cluster that is reserved. -/
def reservedOrNone (h : ImageHeader) (ρ : Nat → ClusterRole) (b : Nat) : Prop :=
  b = 0 ∨ (h.clusterSize ∣ b ∧ ρ (b / h.clusterSize) = .reserved)

/-- The reference counts without a cache write to reserved clusters only: every entry of the
refcount table in the file is none or a reserved cluster. -/
structure ReferenceCountNoCache.Confined (referenceCount : ReferenceCountNoCache)
    (h : ImageHeader) (entries : Nat) (f : File) (ρ : Nat → ClusterRole) : Prop where
  offset : referenceCount.offset = h.refCountTableOffset
  clusterSize : referenceCount.clusterSize = h.clusterSize
  perBlock : referenceCount.numberOfReferenceCountsInCluster = h.clusterSize / 2
  writable : referenceCount.rawFile.readOnly = false
    ∧ referenceCount.rawFile.file.writable = true
  limit : referenceCount._maxValidClusterOffset + h.clusterSize
    ≤ entries * (h.clusterSize / 2) * h.clusterSize
  blocks : ∀ t, t < entries → reservedOrNone h ρ (f.word (h.refCountTableOffset + 8 * t))

/-- The write-back reference counts write to reserved clusters only: every entry of the
table vector is none or a reserved cluster, and every cached block fills a cluster and has
an entry in the table. -/
structure ReferenceCountWriteBack.Confined (referenceCount : ReferenceCountWriteBack)
    (h : ImageHeader) (entries : Nat) (ρ : Nat → ClusterRole) : Prop where
  clusterSize : referenceCount.clusterSize = h.clusterSize
  perBlock : referenceCount.numberOfReferenceCountsInCluster = h.clusterSize / 2
  writable : referenceCount.rawFile.readOnly = false
    ∧ referenceCount.rawFile.file.writable = true
  limit : referenceCount.maxValidClusterOffset + h.clusterSize
    ≤ entries * (h.clusterSize / 2) * h.clusterSize
  blocks : ∀ b ∈ referenceCount.table.data, reservedOrNone h ρ b
  capacity : 0 < referenceCount.referenceBlockCache.capacity
  cache : ∃ held created, referenceCount.referenceBlockCache.Holds held created
    ∧ ∀ x ∈ held, x.2.2.data.length = h.clusterSize / 2
        ∧ ∃ b, referenceCount.table.data.get? x.2.1 = some b ∧ b ≠ 0

/-- The reference counts of an image write to reserved clusters only. -/
def ReferenceCountTable.Confined (referenceCounts : ReferenceCountTable) (h : ImageHeader)
    (entries : Nat) (f : File) (ρ : Nat → ClusterRole) : Prop :=
  match referenceCounts with
  | .writeBack referenceCount => referenceCount.Confined h entries ρ
  | .noCache referenceCount => referenceCount.Confined h entries f ρ

/-- The image is in a consistent state for the refcount table size `entries`, the L2 tables
`L`, the data clusters `M` and the roles `ρ` of the clusters of its file. -/
structure ImageFile.Sound (s : ImageFile) (entries : Nat) (L M : Nat → Nat)
    (ρ : Nat → ClusterRole) : Prop where
  layout : s.header.Layout entries
  writable : s.rawFile.readOnly = false ∧ s.rawFile.file.writable = true
  clusterSize : s.rawFile.clusterSize = s.header.clusterSize
  clusterMask : s.rawFile.clusterMask = s.header.clusterSize - 1
  roles : ClusterRoles s.header entries s.file ρ L M s.availClusters
  pointers : s.pointerTable.Represents s.header s.file L M
  counts : s.referenceCounts.Confined s.header entries s.file ρ

/-- The image holds the virtual disk `disk`: a byte of an allocated cluster is the byte of
the file in its data cluster, a byte of a cluster that is not allocated is zero. -/
def ImageFile.Stores (s : ImageFile) (M : Nat → Nat) (disk : Nat → Byte) : Prop :=
  ∀ p, p < s.header.virtualDiskSizeBytes →
    (M (p / s.header.clusterSize) ≠ 0 →
      s.file.get (M (p / s.header.clusterSize) * s.header.clusterSize
        + p % s.header.clusterSize) = disk p)
    ∧ (M (p / s.header.clusterSize) = 0 → disk p = 0)

/-- A writable image without a backing file is in a consistent state and holds the virtual
disk `disk`. -/
def ImageFile.Consistent (s : ImageFile) (disk : Nat → Byte) : Prop :=
  s.readOnly = false ∧ ∃ entries L M ρ, s.Sound entries L M ρ ∧ s.Stores M disk

/-- The virtual disk after `WriteAt(address, data)`: the bytes of `data` that fall below the
virtual size replace the bytes there. -/
def written (size : Nat) (disk : Nat → Byte) (address : Nat) (data : List Byte) : Nat → Byte :=
  fun p => if address ≤ p ∧ p < address + data.length ∧ p < size then data.getD (p - address) 0
    else disk p

/-- The byte positions the pointer table writes to: the L1 table and the L2 tables. -/
def ImageHeader.pointerZone (h : ImageHeader) (entries : Nat) (ρ : Nat → ClusterRole)
    (p : Nat) : Prop :=
  h.zone entries ρ p = .l1Table ∨ ∃ i, h.zone entries ρ p = .cluster (.l2Table i)

/-- The byte positions the reference counts write to: the refcount table and the reserved
clusters. -/
def ImageHeader.countZone (h : ImageHeader) (entries : Nat) (ρ : Nat → ClusterRole)
    (p : Nat) : Prop :=
  h.zone entries ρ p = .refcountTable ∨ h.zone entries ρ p = .cluster .reserved

/-- The image `s` with the roles `ρ` has become `s'` with the roles `ρ'` by steps that keep
the header, do not shorten the file, keep the role of every cluster that is neither free nor
available, and leave the bytes of the data clusters and of the pending clusters as they are. -/
structure ImageFile.Keeps (entries : Nat) (s : ImageFile) (ρ : Nat → ClusterRole)
    (s' : ImageFile) (ρ' : Nat → ClusterRole) : Prop where
  header : s'.header = s.header
  readOnly : s'.readOnly = s.readOnly
  size : s.file.size ≤ s'.file.size
  roles : ∀ n, ρ n ≠ .free → ρ n ≠ .available → ρ' n = ρ n
  kept : ∀ p, (s.header.zone entries ρ p = .cluster .pending
      ∨ ∃ k, s.header.zone entries ρ p = .cluster (.data k)) → s'.file.get p = s.file.get p

/-- The image after the calls `WriteAt(address, data)` of the list, in order, on an image
without a backing file, when every call succeeds; `none` when a call fails or the rounds of
a call are used up. -/
def ImageFile.writeAll (fuel : Nat) : List (Nat × List Byte) → ImageFile → Option ImageFile
  | [], imageFile => some imageFile
  | write :: rest, imageFile =>
    match ImageFile.WriteAt fuel imageFile (none : Option (BackingFile Unit)) write.1 write.2 with
    | some (.ok _, imageFile, _) => ImageFile.writeAll fuel rest imageFile
    | _ => none

/-- The byte most recently written to the position `p` by the writes `(address, data)` of the
list, the last one being the most recent; `none` when no write covers `p`.  This definition
follows the words of the specification, not the code. -/
def lastWritten : List (Nat × List Byte) → Nat → Option Byte
  | [], _ => none
  | write :: rest, p =>
    match lastWritten rest p with
    | some b => some b
    | none =>
      if write.1 ≤ p ∧ p < write.1 + write.2.length then some (write.2.getD (p - write.1) 0)
      else none

/-- An image file of four clusters of 512 bytes for a virtual disk of two clusters, with no
data. -/
def tinyFile : File := emptyImageFile (oneTableHeader 2)

/-- The raw file over `tinyFile`, opened for reading and writing. -/
def tinyRawFile : QcowRawFile :=
  { file := { content := tinyFile, writable := true }, clusterSize := 512, clusterMask := 511,
    readOnly := false }

/-- The image that `NoCacheImageFactory.OpenImage` builds over `tinyFile`. -/
def tinyImage : ImageFile :=
  { rawFile := tinyRawFile, header := oneTableHeader 2,
    pointerTable := .noCache { header := oneTableHeader 2, rawFile := tinyRawFile },
    referenceCounts := .noCache
      { rawFile := tinyRawFile, offset := 1024, numberOfReferenceCountsInCluster := 256,
        clusterSize := 512, _maxValidClusterOffset := 261632 },
    unrefClusters := [], availClusters := [], closed := false, readOnly := false }

/-- The image that `createImageFromHeader` of the factory without caches creates for the
header `oneTableHeader 2`: a virtual disk of two clusters of 512 bytes. -/
def createdImage : ImageFile :=
  match NoCacheImageFactory.createImageFromHeader 10 (oneTableHeader 2) (.ok ()) with
  | some (.ok image) => image
  | _ => tinyImage

/-! ## Part II: lemmas and theorems -/

/-! ### Outcomes -/


@[simp] theorem Outcome.bind_eq {α β : Type} (x : Outcome α) (f : α → Outcome β) :
    (x >>= f) = x.bind f := rfl
@[simp] theorem Outcome.pure_eq {α : Type} (a : α) : (pure a : Outcome α) = .ok a := rfl
@[simp] theorem Outcome.ok_bind {α β : Type} (a : α) (f : α → Outcome β) :
    (Outcome.ok a).bind f = f a := rfl
@[simp] theorem Outcome.error_bind {α β : Type} (e : Err) (f : α → Outcome β) :
    (Outcome.error e : Outcome α).bind f = .error e := rfl
@[simp] theorem Outcome.crash_bind {α β : Type} (f : α → Outcome β) :
    (Outcome.crash : Outcome α).bind f = .crash := rfl

theorem binaryRead32_bind {β : Type} (f : File) (pos : Nat) (k : Nat × Nat → Outcome β)
    (h : pos + 4 ≤ f.size) :
    (binaryRead32 f pos).bind k = k (beValue (f.bytes pos 4), pos + 4) := by
  simp [binaryRead32, readFull, h]

theorem binaryRead64_bind {β : Type} (f : File) (pos : Nat) (k : Nat × Nat → Outcome β)
    (h : pos + 8 ≤ f.size) :
    (binaryRead64 f pos).bind k = k (beValue (f.bytes pos 8), pos + 8) := by
  simp [binaryRead64, readFull, h]

theorem binaryRead32_short {β : Type} (f : File) (pos : Nat) (k : Nat × Nat → Outcome β)
    (h : ¬ pos + 4 ≤ f.size) :
    (binaryRead32 f pos).bind k = .error .ioFailure := by
  simp [binaryRead32, readFull, h]

theorem binaryRead64_short {β : Type} (f : File) (pos : Nat) (k : Nat × Nat → Outcome β)
    (h : ¬ pos + 8 ≤ f.size) :
    (binaryRead64 f pos).bind k = .error .ioFailure := by
  simp [binaryRead64, readFull, h]

theorem readHeaderFields_eq (file : File) (hs : 104 ≤ file.size) :
    readHeaderFields file =
        (readCompressionType file 104 (beValue (file.bytes 100 4))).bind fun c =>
          (readBackingFilePath file (beValue (file.bytes 8 8)) (beValue (file.bytes 16 4))).bind
            fun p => .ok (storedHeader file c p) := by
  unfold readHeaderFields storedHeader
  simp only [Outcome.bind_eq, Outcome.pure_eq]
  rw [show seekStart 0 = Outcome.ok 0 from rfl]
  simp (disch := omega) only [Outcome.ok_bind, binaryRead32_bind, binaryRead64_bind, Nat.zero_add, Nat.reduceAdd]

theorem readHeaderFields_short (file : File) (hs : ¬ 104 ≤ file.size) :
    readHeaderFields file = .error .ioFailure := by
  unfold readHeaderFields
  simp only [Outcome.bind_eq, Outcome.pure_eq]
  rw [show seekStart 0 = Outcome.ok 0 from rfl]
  simp only [Outcome.ok_bind]
  by_cases h0 : 0 + 4 ≤ file.size
  swap
  · exact binaryRead32_short _ _ _ h0
  simp only [binaryRead32_bind _ _ _ h0, Nat.reduceAdd]
  by_cases h4 : 4 + 4 ≤ file.size
  swap
  · exact binaryRead32_short _ _ _ h4
  simp only [binaryRead32_bind _ _ _ h4, Nat.reduceAdd]
  by_cases h8 : 8 + 8 ≤ file.size
  swap
  · exact binaryRead64_short _ _ _ h8
  simp only [binaryRead64_bind _ _ _ h8, Nat.reduceAdd]
  by_cases h16 : 16 + 4 ≤ file.size
  swap
  · exact binaryRead32_short _ _ _ h16
  simp only [binaryRead32_bind _ _ _ h16, Nat.reduceAdd]
  by_cases h20 : 20 + 4 ≤ file.size
  swap
  · exact binaryRead32_short _ _ _ h20
  simp only [binaryRead32_bind _ _ _ h20, Nat.reduceAdd]
  by_cases h24 : 24 + 8 ≤ file.size
  swap
  · exact binaryRead64_short _ _ _ h24
  simp only [binaryRead64_bind _ _ _ h24, Nat.reduceAdd]
  by_cases h32 : 32 + 4 ≤ file.size
  swap
  · exact binaryRead32_short _ _ _ h32
  simp only [binaryRead32_bind _ _ _ h32, Nat.reduceAdd]
  by_cases h36 : 36 + 4 ≤ file.size
  swap
  · exact binaryRead32_short _ _ _ h36
  simp only [binaryRead32_bind _ _ _ h36, Nat.reduceAdd]
  by_cases h40 : 40 + 8 ≤ file.size
  swap
  · exact binaryRead64_short _ _ _ h40
  simp only [binaryRead64_bind _ _ _ h40, Nat.reduceAdd]
  by_cases h48 : 48 + 8 ≤ file.size
  swap
  · exact binaryRead64_short _ _ _ h48
  simp only [binaryRead64_bind _ _ _ h48, Nat.reduceAdd]
  by_cases h56 : 56 + 4 ≤ file.size
  swap
  · exact binaryRead32_short _ _ _ h56
  simp only [binaryRead32_bind _ _ _ h56, Nat.reduceAdd]
  by_cases h60 : 60 + 4 ≤ file.size
  swap
  · exact binaryRead32_short _ _ _ h60
  simp only [binaryRead32_bind _ _ _ h60, Nat.reduceAdd]
  by_cases h64 : 64 + 8 ≤ file.size
  swap
  · exact binaryRead64_short _ _ _ h64
  simp only [binaryRead64_bind _ _ _ h64, Nat.reduceAdd]
  by_cases h72 : 72 + 8 ≤ file.size
  swap
  · exact binaryRead64_short _ _ _ h72
  simp only [binaryRead64_bind _ _ _ h72, Nat.reduceAdd]
  by_cases h80 : 80 + 8 ≤ file.size
  swap
  · exact binaryRead64_short _ _ _ h80
  simp only [binaryRead64_bind _ _ _ h80, Nat.reduceAdd]
  by_cases h88 : 88 + 8 ≤ file.size
  swap
  · exact binaryRead64_short _ _ _ h88
  simp only [binaryRead64_bind _ _ _ h88, Nat.reduceAdd]
  by_cases h96 : 96 + 4 ≤ file.size
  swap
  · exact binaryRead32_short _ _ _ h96
  simp only [binaryRead32_bind _ _ _ h96, Nat.reduceAdd]
  by_cases h100 : 100 + 4 ≤ file.size
  swap
  · exact binaryRead32_short _ _ _ h100
  simp only [binaryRead32_bind _ _ _ h100, Nat.reduceAdd]
  omega

theorem getClusterSize_of_lt {cb : Nat} (h : cb < 64) : getClusterSize cb = 2 ^ cb := by
  unfold getClusterSize wrap64
  apply Nat.mod_eq_of_lt
  calc 2 ^ cb < 2 ^ 64 := Nat.pow_lt_pow_right (by decide) h
    _ = 18446744073709551616 := by norm_num

theorem getClusterSize_of_ge {cb : Nat} (h : 64 ≤ cb) : getClusterSize cb = 0 := by
  unfold getClusterSize wrap64
  obtain ⟨k, rfl⟩ := Nat.exists_eq_add_of_le h
  rw [pow_add]
  norm_num

theorem preComputeTableSizes_crash (header : ImageHeader)
    (h : header.clusterSize = 0 ∨ wrap32 (header.clusterSize / 8) = 0
      ∨ wrap32 header.clusterSize = 0) :
    header.preComputeTableSizes = .crash := by
  unfold ImageHeader.preComputeTableSizes divRoundUp64
  simp only [Outcome.bind_eq, Outcome.pure_eq]
  by_cases h0 : header.clusterSize = 0
  · simp [h0]
  · simp only [if_neg h0, Outcome.ok_bind]
    unfold divRoundUp32
    by_cases h1 : wrap32 (header.clusterSize / 8) = 0
    · simp [h1]
    · simp only [if_neg h1, Outcome.ok_bind]
      have h2 : wrap32 header.clusterSize = 0 := by tauto
      simp [h2]

theorem badClusterBits_crash (cb : Nat) (h : cb ≤ 2 ∨ 32 ≤ cb) :
    getClusterSize cb = 0 ∨ wrap32 (getClusterSize cb / 8) = 0
      ∨ wrap32 (getClusterSize cb) = 0 := by
  by_cases h64 : 64 ≤ cb
  · left; exact getClusterSize_of_ge h64
  · have hlt : cb < 64 := by omega
    rw [getClusterSize_of_lt hlt]
    right
    rcases h with h | h
    · left
      interval_cases cb <;> decide
    · right
      obtain ⟨k, rfl⟩ := Nat.exists_eq_add_of_le h
      unfold wrap32
      rw [pow_add]
      norm_num

theorem Outcome.bind_eq_ok {α β : Type} {x : Outcome α} {f : α → Outcome β} {b : β} :
    x.bind f = .ok b ↔ ∃ a, x = .ok a ∧ f a = .ok b := by
  cases x <;> simp

theorem readHeaderFields_ok {file : File} {r : ImageHeader}
    (hr : readHeaderFields file = .ok r) :
    104 ≤ file.size ∧ ∃ c p,
      readCompressionType file 104 (beValue (file.bytes 100 4)) = .ok c ∧
      readBackingFilePath file (beValue (file.bytes 8 8)) (beValue (file.bytes 16 4)) = .ok p ∧
      r = storedHeader file c p := by
  by_cases hs : 104 ≤ file.size
  · rw [readHeaderFields_eq file hs] at hr
    obtain ⟨c, hc, hr⟩ := Outcome.bind_eq_ok.mp hr
    obtain ⟨p, hp, hr⟩ := Outcome.bind_eq_ok.mp hr
    exact ⟨hs, c, p, hc, hp, (Outcome.ok.inj hr).symm⟩
  · rw [readHeaderFields_short file hs] at hr
    cases hr

theorem readHeaderFields_clusterSize {file : File} {r : ImageHeader}
    (hr : readHeaderFields file = .ok r) : r.clusterSize = getClusterSize r.clusterBits := by
  obtain ⟨_, c, p, _, _, rfl⟩ := readHeaderFields_ok hr
  rfl

/-- Whenever the stored fields can be read and `cluster_bits` is at most 2 or at least 32,
`imageHeaderFromFile` panics (division by zero in `preComputeTableSizes`) instead of
returning the invalid-cluster-bits error. -/
theorem imageHeaderFromFile_crash_of_clusterBits (file : File) (r : ImageHeader)
    (hr : readHeaderFields file = .ok r) (hcb : r.clusterBits ≤ 2 ∨ 32 ≤ r.clusterBits) :
    imageHeaderFromFile file = .crash := by
  have hcs := readHeaderFields_clusterSize hr
  unfold imageHeaderFromFile
  simp only [Outcome.bind_eq, hr, Outcome.ok_bind]
  rw [preComputeTableSizes_crash r (by rw [hcs]; exact badClusterBits_crash _ hcb)]
  rfl


/-! ### Header validation -/

theorem validateIncompatibleFeatures_fst (h : ImageHeader) :
    ∃ c d, h.validateIncompatibleFeatures.1 = { h with imageCorrupt := c, imageRefCountDirty := d } := by
  unfold ImageHeader.validateIncompatibleFeatures
  simp only []
  split_ifs <;> exact ⟨_, _, rfl⟩

theorem validateIncompatibleFeatures_snd (h : ImageHeader) :
    h.validateIncompatibleFeatures.2 =
      if h.incompatibleFeatures &&& 8 ≠ 0 then .error .compressionNotSupported
      else if h.incompatibleFeatures &&& 4 ≠ 0 then .error .externalDataFileNotSupported
      else if h.incompatibleFeatures &&& 16 ≠ 0 then .error .extendedL2EntriesNotSupported
      else .ok () := by
  unfold ImageHeader.validateIncompatibleFeatures
  simp only [incompatibleFeaturesCompressionTypeBit, incompatibleFeaturesExternalDataFileBit,
    incompatibleFeaturesExtendedL2EntriesBit]
  split_ifs <;> rfl

/-- The checks of `validate` written as one sequence over the header it was called on. -/
theorem validate_flat (h : ImageHeader) :
    h.validate = (do
      h.validateMagic
      h.validateVersionNumber
      h.validateBackingFileSizeOffset
      h.validateClusterBits
      h.validateVirtualDiskSize
      h.validateCryptMethod
      h.validateL1TableSize
      h.validateL1TableOffset
      h.validateRefCountTableClusters
      h.validateNbSnapshots
      h.validateIncompatibleFeatures.2
      h.validateAutoClearFeatures
      h.validateRefCountOrder
      h.validateHeaderLength
      h.checkOffsetsForClusterBoundaries
      h.validateNumberOfL2Clusters
      h.refcountTableSizeSanityCheck) := by
  obtain ⟨c, d, hcd⟩ := validateIncompatibleFeatures_fst h
  unfold ImageHeader.validate
  rcases hv : h.validateIncompatibleFeatures with ⟨h', v⟩
  rw [hv] at hcd
  simp only at hcd
  subst hcd
  rfl

theorem land_low_bits (x m b : Nat) (h : m &&& b = b) : x &&& b = (x &&& m) &&& b := by
  rw [Nat.land_assoc, h]

theorem validate_congr_reserved (h : ImageHeader) (x y : Nat)
    (hx : x &&& 31 = h.incompatibleFeatures &&& 31)
    (hy : y &&& 3 = h.autoClearFeatures &&& 3) :
    ({ h with incompatibleFeatures := x, autoClearFeatures := y } : ImageHeader).validate
      = h.validate := by
  have e8 : x &&& 8 = h.incompatibleFeatures &&& 8 := by
    rw [land_low_bits x 31 8 (by decide), hx, ← land_low_bits _ 31 8 (by decide)]
  have e4 : x &&& 4 = h.incompatibleFeatures &&& 4 := by
    rw [land_low_bits x 31 4 (by decide), hx, ← land_low_bits _ 31 4 (by decide)]
  have e16 : x &&& 16 = h.incompatibleFeatures &&& 16 := by
    rw [land_low_bits x 31 16 (by decide), hx, ← land_low_bits _ 31 16 (by decide)]
  have e2 : y &&& 2 = h.autoClearFeatures &&& 2 := by
    rw [land_low_bits y 3 2 (by decide), hy, ← land_low_bits _ 3 2 (by decide)]
  have e1 : y &&& 1 = h.autoClearFeatures &&& 1 := by
    rw [land_low_bits y 3 1 (by decide), hy, ← land_low_bits _ 3 1 (by decide)]
  rw [validate_flat, validate_flat, validateIncompatibleFeatures_snd,
    validateIncompatibleFeatures_snd]
  have ha : ({ h with incompatibleFeatures := x, autoClearFeatures := y } :
      ImageHeader).validateAutoClearFeatures = h.validateAutoClearFeatures := by
    simp only [ImageHeader.validateAutoClearFeatures, autoClearFeaturesRawExternalData,
      autoClearFeaturesBitmapsExtension, e2, e1]
  rw [ha]
  simp only [e8, e4, e16]
  rfl


theorem preComputeTableSizes_eq (h : ImageHeader) :
    h.preComputeTableSizes = (derivedSizes h.virtualDiskSizeBytes h.clusterSize).bind fun d =>
      .ok (h.setDerived d) := by
  unfold ImageHeader.preComputeTableSizes derivedSizes ImageHeader.setDerived
  simp only [Outcome.bind_eq, Outcome.pure_eq]
  cases divRoundUp64 h.virtualDiskSizeBytes h.clusterSize with
  | error e => rfl
  | crash => rfl
  | ok a =>
    simp only [Outcome.ok_bind]
    cases divRoundUp32 (wrap32 a) (wrap32 (h.clusterSize / 8)) with
    | error e => rfl
    | crash => rfl
    | ok b =>
      simp only [Outcome.ok_bind]
      cases divRoundUp32 b (wrap32 h.clusterSize) with
      | error e => rfl
      | crash => rfl
      | ok c =>
        simp only [Outcome.ok_bind]
        cases findRefcountTableClustersNumber (wrap32 a) b c (wrap32 h.clusterSize) with
        | error e => rfl
        | crash => rfl
        | ok d => rfl

theorem derivedSizes_ok (v cs : Nat) (h0 : cs ≠ 0) (h1 : wrap32 (cs / 8) ≠ 0)
    (h2 : wrap32 cs ≠ 0) : ∃ d, derivedSizes v cs = .ok d := by
  simp [derivedSizes, divRoundUp64, divRoundUp32, findRefcountTableClustersNumber,
    maxRefCountClusters, h0, h1, h2]

theorem clusterSize_bounds {cb : Nat} (h : 9 ≤ cb ∧ cb ≤ 30) :
    512 ≤ 2 ^ cb ∧ 2 ^ cb ≤ 1073741824 := by
  constructor
  · calc 512 = 2 ^ 9 := by norm_num
      _ ≤ 2 ^ cb := Nat.pow_le_pow_right (by decide) h.1
  · calc 2 ^ cb ≤ 2 ^ 30 := Nat.pow_le_pow_right (by decide) h.2
      _ = 1073741824 := by norm_num

theorem derivedSizes_ok_of_clusterBits {cb : Nat} (v : Nat) (h : 9 ≤ cb ∧ cb ≤ 30) :
    ∃ d, derivedSizes v (2 ^ cb) = .ok d := by
  obtain ⟨hl, hu⟩ := clusterSize_bounds h
  apply derivedSizes_ok
  · omega
  · unfold wrap32; omega
  · unfold wrap32; omega



theorem Check.seq_eq_ok {c : Check} {k : Unit → Check} :
    (c >>= k) = .ok () ↔ c = .ok () ∧ k () = .ok () := by
  cases c with
  | error e => simp [bind, Except.bind]
  | ok u => cases u; simp [bind, Except.bind]

theorem Check.ite_error_eq_ok {p : Prop} [Decidable p] {e : Err} {c : Check} :
    (if p then (Except.error e : Check) else c) = .ok () ↔ ¬ p ∧ c = .ok () := by
  split_ifs <;> simp_all

theorem validate_eq_ok_iff (h : ImageHeader) :
    h.validate = .ok () ↔
      h.magic = QcowMagic ∧ h.versionNumber = 3
      ∧ ¬ (h.backingFileOffset = 0 ∧ h.backingFileSize > 0)
      ∧ ¬ (h.backingFileSize = 0 ∧ h.backingFileOffset > 0)
      ∧ h.backingFileSize ≤ maxBackingFileNameSize
      ∧ (MinClusterBits ≤ h.clusterBits ∧ h.clusterBits ≤ MaxClusterBits)
      ∧ h.virtualDiskSizeBytes ≤ h.diskSizeLimitForCluster
      ∧ h.cryptMethod = 0
      ∧ h.l1Size ≤ L1TableMaxSize
      ∧ h.l1TableOffset ≤ h.virtualDiskSizeBytes
      ∧ h.refCountTableClusters ≠ 0
      ∧ h.nbSnapshots = 0
      ∧ h.incompatibleFeatures &&& 8 = 0
      ∧ h.incompatibleFeatures &&& 4 = 0
      ∧ h.incompatibleFeatures &&& 16 = 0
      ∧ h.autoClearFeatures &&& 2 = 0
      ∧ h.autoClearFeatures &&& 1 = 0
      ∧ h.refCountOrder = 4
      ∧ V3BareHeaderSize ≤ h.Length
      ∧ h.l1TableOffset &&& sub64 h.clusterSize 1 = 0
      ∧ h.snapshotOffset &&& sub64 h.clusterSize 1 = 0
      ∧ h.refCountTableOffset &&& sub64 h.clusterSize 1 = 0
      ∧ h.numL2Clusters ≤ L1TableMaxSize
      ∧ h.refCountTableClusters ≤ wrap32 (2 * h.refCountClustersNumberComputed)
      ∧ wrap32 (h.l1Clusters + h.refCountClustersNumberComputed) ≤ L1TableMaxSize := by
  rw [validate_flat, validateIncompatibleFeatures_snd]
  simp only [Check.seq_eq_ok, ImageHeader.validateMagic, ImageHeader.validateVersionNumber,
    ImageHeader.validateBackingFileSizeOffset, ImageHeader.validateClusterBits,
    ImageHeader.validateVirtualDiskSize,
    ImageHeader.validateCryptMethod, ImageHeader.validateL1TableSize,
    ImageHeader.validateL1TableOffset, ImageHeader.validateRefCountTableClusters,
    ImageHeader.validateNbSnapshots,
    ImageHeader.validateAutoClearFeatures, ImageHeader.validateRefCountOrder,
    ImageHeader.validateHeaderLength, ImageHeader.checkOffsetsForClusterBoundaries,
    ImageHeader.validateNumberOfL2Clusters, ImageHeader.refcountTableSizeSanityCheck,
    offsetIsClusterBoundary, autoClearFeaturesRawExternalData, autoClearFeaturesBitmapsExtension]
  simp only [Check.ite_error_eq_ok, true_and, and_true, ne_eq, not_not, gt_iff_lt, not_lt,
    and_assoc, not_or]



theorem Outcome.bind_ne_crash {α β : Type} {x : Outcome α} {f : α → Outcome β}
    (hx : x ≠ .crash) (hf : ∀ a, f a ≠ .crash) : x.bind f ≠ .crash := by
  cases x with
  | ok a => exact hf a
  | error e => simp
  | crash => exact absurd rfl hx

theorem readFull_ne_crash (file : File) (pos n : Nat) : readFull file pos n ≠ .crash := by
  unfold readFull
  split_ifs <;> simp

theorem readCompressionType_ne_crash (file : File) (pos len : Nat) :
    readCompressionType file pos len ≠ .crash := by
  unfold readCompressionType binaryRead8
  split_ifs
  · exact Outcome.bind_ne_crash (Outcome.bind_ne_crash (readFull_ne_crash _ _ _) (by simp))
      (by simp)
  · simp

theorem readBackingFilePath_ne_crash (file : File) (off size : Nat) :
    readBackingFilePath file off size ≠ .crash := by
  unfold readBackingFilePath seekStart
  split_ifs
  · simp only [Outcome.ok_bind]
    exact Outcome.bind_ne_crash (readFull_ne_crash _ _ _) (by simp)
  · simp
  · simp

theorem land_two_pow_eq_zero_iff (x k : Nat) : x &&& 2 ^ k = 0 ↔ x.testBit k = false := by
  rw [Nat.and_two_pow]
  cases x.testBit k <;> simp

theorem clusterMask_eq {cb : Nat} (h : cb < 64) :
    sub64 (2 ^ cb) 1 = 2 ^ cb - 1 := by
  have h1 : 2 ^ cb < 18446744073709551616 := by
    calc 2 ^ cb < 2 ^ 64 := Nat.pow_lt_pow_right (by decide) h
      _ = 18446744073709551616 := by norm_num
  have h2 : 0 < 2 ^ cb := Nat.two_pow_pos cb
  unfold sub64
  rw [if_pos (by omega)]

theorem imageHeaderFromFile_eq_of_fields {file : File} {r : ImageHeader}
    (hr : readHeaderFields file = .ok r) :
    imageHeaderFromFile file =
      (derivedSizes r.virtualDiskSizeBytes r.clusterSize).bind fun d =>
        (Outcome.ofCheck (r.setDerived d).validate).bind fun _ => .ok (r.setDerived d) := by
  unfold imageHeaderFromFile
  simp only [Outcome.bind_eq, Outcome.pure_eq, hr, Outcome.ok_bind, preComputeTableSizes_eq]
  cases derivedSizes r.virtualDiskSizeBytes r.clusterSize <;> rfl

theorem Check.eq_ok_or_error (c : Check) : c = .ok () ∨ ∃ e, c = .error e := by
  cases c with
  | error e => exact Or.inr ⟨e, rfl⟩
  | ok u => cases u; exact Or.inl rfl

/-- C9: `imageHeaderFromFile` returns an error for every header (a file of at least 104 bytes
whose stored fields are `r`) with `cluster_bits` in [9,30] in which the magic is not
0x514649fb, or the version is not 3, or the crypt method or the snapshot count is not 0, or
the refcount order is not 4, or the header length is below 104, or the L1 size exceeds 32 Mi,
or the L1-table, refcount-table or snapshot offset is not a multiple of the cluster size, or
incompatible-feature bit 2, 3 or 4 or auto-clear bit 0 or 1 is set. -/
theorem imageHeaderFromFile_rejects_unsupported (file : File) (r : ImageHeader)
    (hs : 104 ≤ file.size) (hr : r = storedHeader file 0 none)
    (hcb : 9 ≤ r.clusterBits ∧ r.clusterBits ≤ 30)
    (hbad : r.magic ≠ 0x514649fb ∨ r.versionNumber ≠ 3 ∨ r.cryptMethod ≠ 0
      ∨ r.nbSnapshots ≠ 0 ∨ r.refCountOrder ≠ 4 ∨ r.Length < 104
      ∨ r.l1Size > 32 * 1024 * 1024
      ∨ r.l1TableOffset % 2 ^ r.clusterBits ≠ 0
      ∨ r.refCountTableOffset % 2 ^ r.clusterBits ≠ 0
      ∨ r.snapshotOffset % 2 ^ r.clusterBits ≠ 0
      ∨ r.incompatibleFeatures.testBit 2 = true
      ∨ r.incompatibleFeatures.testBit 3 = true
      ∨ r.incompatibleFeatures.testBit 4 = true
      ∨ r.autoClearFeatures.testBit 0 = true
      ∨ r.autoClearFeatures.testBit 1 = true) :
    ∃ e, imageHeaderFromFile file = .error e := by
  subst hr
  have hfields := readHeaderFields_eq file hs
  cases hc : readCompressionType file 104 (beValue (file.bytes 100 4)) with
  | crash => exact absurd hc (readCompressionType_ne_crash _ _ _)
  | error e =>
    refine ⟨e, ?_⟩
    unfold imageHeaderFromFile
    simp [hfields, hc]
  | ok c =>
    cases hp : readBackingFilePath file (beValue (file.bytes 8 8)) (beValue (file.bytes 16 4)) with
    | crash => exact absurd hp (readBackingFilePath_ne_crash _ _ _)
    | error e =>
      refine ⟨e, ?_⟩
      unfold imageHeaderFromFile
      simp [hfields, hc, hp]
    | ok p =>
      have hr : readHeaderFields file = .ok (storedHeader file c p) := by
        simp [hfields, hc, hp]
      rw [imageHeaderFromFile_eq_of_fields hr]
      have hcs : (storedHeader file c p).clusterSize = 2 ^ (storedHeader file 0 none).clusterBits :=
        getClusterSize_of_lt (show (storedHeader file 0 none).clusterBits < 64 by omega)
      obtain ⟨d, hd⟩ := derivedSizes_ok_of_clusterBits
        (storedHeader file c p).virtualDiskSizeBytes hcb
      rw [hcs, hd]
      simp only [Outcome.ok_bind]
      rcases Check.eq_ok_or_error ((storedHeader file c p).setDerived d).validate
        with hv | ⟨e, hv⟩
      · exfalso
        rw [validate_eq_ok_iff] at hv
        obtain ⟨v1, v2, -, -, -, -, -, v3, v4, -, -, v5, v6, v7, v8, v9, v10, v11, v12, v13, v14,
          v15, -, -, -⟩ := hv
        have hm := clusterMask_eq (show (storedHeader file 0 none).clusterBits < 64 by omega)
        simp only [ImageHeader.setDerived, storedHeader] at v1 v2 v3 v4 v5 v6 v7 v8 v9 v10 v11 v12 v13 v14 v15 hcb hbad hm hcs
        simp only [hcs, hm, Nat.and_pow_two_sub_one_eq_mod] at v13 v14 v15
        change _ &&& 2 ^ 3 = 0 at v6
        change _ &&& 2 ^ 2 = 0 at v7
        change _ &&& 2 ^ 4 = 0 at v8
        change _ &&& 2 ^ 1 = 0 at v9
        change _ &&& 2 ^ 0 = 0 at v10
        rw [land_two_pow_eq_zero_iff _ 3] at v6
        rw [land_two_pow_eq_zero_iff _ 2] at v7
        rw [land_two_pow_eq_zero_iff _ 4] at v8
        rw [land_two_pow_eq_zero_iff _ 1] at v9
        rw [land_two_pow_eq_zero_iff _ 0] at v10
        simp only [QcowMagic, L1TableMaxSize, V3BareHeaderSize] at v1 v4 v12
        rcases hbad with b | b | b | b | b | b | b | b | b | b | b | b | b | b | b
        · exact b v1
        · exact b v2
        · exact b v3
        · exact b v5
        · exact b v11
        · exact absurd v12 (by change ¬ (104 ≤ _); omega)
        · exact absurd v4 (by omega)
        · exact b v13
        · exact b v15
        · exact b v14
        · rw [v7] at b; cases b
        · rw [v6] at b; cases b
        · rw [v8] at b; cases b
        · rw [v10] at b; cases b
        · rw [v9] at b; cases b
      · exact ⟨e, by rw [hv]; rfl⟩


/-! ### Claims on header validation -/

/-- C8: the claim fails on the code.  For the test header with `cluster_bits = 0` the stored
fields are read, and `imageHeaderFromFile` then panics with a division by zero in
`preComputeTableSizes` (which runs before `validate`) instead of returning an error. -/
theorem imageHeaderFromFile_clusterBits_zero_crashes :
    readHeaderFields (File.ofList (testHeaderBytes 0 0 0))
        = .ok (storedHeader (File.ofList (testHeaderBytes 0 0 0)) 0 none)
      ∧ (storedHeader (File.ofList (testHeaderBytes 0 0 0)) 0 none).clusterBits = 0
      ∧ imageHeaderFromFile (File.ofList (testHeaderBytes 0 0 0)) = Outcome.crash := by
  decide

/-- C7: the claim fails on the code.  For a virtual size of 2^48 bytes (accepted by the size
limit of the default cluster size 2^16) `createHeaderForSizeAndPath` stores
`numClusters = 0`, the `uint32` truncation of `ceil(2^48 / 2^16) = 2^32`. -/
theorem createHeaderForSizeAndPath_numClusters_wraps :
    ∃ h, createHeaderForSizeAndPath 281474976710656 none = .ok h
      ∧ h.clusterBits = 16 ∧ h.clusterSize = 2 ^ 16 ∧ h.virtualDiskSizeBytes = 2 ^ 48
      ∧ h.numClusters = 0
      ∧ (h.virtualDiskSizeBytes + h.clusterSize - 1) / h.clusterSize = 4294967296 :=
  ⟨_, rfl, rfl, rfl, rfl, rfl, rfl⟩


set_option maxRecDepth 10000 in
theorem imageHeaderFromFile_rejects_unsupported_witness :
    104 ≤ (File.ofList (testHeaderBytes 0x0c 0x08 0x00)).size
      ∧ (storedHeader (File.ofList (testHeaderBytes 0x0c 0x08 0x00)) 0 none).clusterBits = 12
      ∧ (storedHeader (File.ofList (testHeaderBytes 0x0c 0x08 0x00)) 0 none).incompatibleFeatures.testBit 3 = true
      ∧ ∃ e, imageHeaderFromFile (File.ofList (testHeaderBytes 0x0c 0x08 0x00)) = .error e :=
  ⟨by decide, by decide, by decide,
    imageHeaderFromFile_rejects_unsupported _ _ (by decide) rfl (by decide)
      (Or.inr (Or.inr (Or.inr (Or.inr (Or.inr (Or.inr (Or.inr (Or.inr (Or.inr (Or.inr (Or.inr
        (Or.inl (by decide)))))))))))))⟩

/-- C10 (the code differs): the test header with incompatible-feature bit 5 and auto-clear
bit 2 set, both of them reserved, is accepted by `imageHeaderFromFile`, which returns the
header with these bits in it instead of an error: `validateIncompatibleFeatures` and
`validateAutoClearFeatures` refuse the feature bits they name and test no other bit. -/
theorem imageHeaderFromFile_accepts_reserved_bits :
    ∃ h, imageHeaderFromFile (File.ofList (testHeaderBytes 0x0c 0x20 0x04)) = .ok h
      ∧ h.incompatibleFeatures.testBit 5 = true ∧ h.autoClearFeatures.testBit 2 = true :=
  ⟨_, rfl, by decide, by decide⟩

theorem Outcome.verdict_bind_ok {α β : Type} (x : Outcome α) (f : α → β) :
    (x.bind fun a => Outcome.ok (f a)).verdict = x.verdict := by
  cases x <;> rfl

/-- The reserved feature bits are not examined.  Two headers that agree in every stored field
except incompatible-feature bits above bit 4 and auto-clear bits above bit 1 get the same
verdict from `imageHeaderFromFile`: both are accepted, or both fail with the same error. -/
theorem imageHeaderFromFile_reserved_bits_ignored (f1 f2 : File) (r : ImageHeader) (x y : Nat)
    (h1 : readHeaderFields f1 = .ok r)
    (h2 : readHeaderFields f2 = .ok { r with incompatibleFeatures := x, autoClearFeatures := y })
    (hx : x &&& 31 = r.incompatibleFeatures &&& 31)
    (hy : y &&& 3 = r.autoClearFeatures &&& 3) :
    (imageHeaderFromFile f2).verdict = (imageHeaderFromFile f1).verdict := by
  rw [imageHeaderFromFile_eq_of_fields h1, imageHeaderFromFile_eq_of_fields h2]
  show ((derivedSizes r.virtualDiskSizeBytes r.clusterSize).bind _).verdict = _
  cases derivedSizes r.virtualDiskSizeBytes r.clusterSize with
  | error e => rfl
  | crash => rfl
  | ok d =>
    simp only [Outcome.ok_bind]
    have hv := validate_congr_reserved (r.setDerived d) x y hx hy
    have he : ({ r with incompatibleFeatures := x, autoClearFeatures := y } : ImageHeader).setDerived d
        = { r.setDerived d with incompatibleFeatures := x, autoClearFeatures := y } := rfl
    rw [he, hv, Outcome.verdict_bind_ok, Outcome.verdict_bind_ok]

set_option maxRecDepth 10000 in
theorem imageHeaderFromFile_reserved_bits_ignored_witness :
    (imageHeaderFromFile (File.ofList (testHeaderBytes 0x0c 0x20 0x04))).verdict
      = (imageHeaderFromFile (File.ofList validHeader)).verdict
      ∧ (imageHeaderFromFile (File.ofList validHeader)).verdict = .ok () :=
  ⟨imageHeaderFromFile_reserved_bits_ignored (File.ofList validHeader)
      (File.ofList (testHeaderBytes 0x0c 0x20 0x04)) validHeaderFields 32 4 (by rfl) (by rfl)
      (by decide) (by decide), by rfl⟩

/-! ### Serialising and parsing the header -/

theorem File.bytes_length (f : File) (p n : Nat) : (f.bytes p n).length = n := by
  simp [File.bytes]

theorem File.bytes_append (f : File) (p m n : Nat) :
    f.bytes p (m + n) = f.bytes p m ++ f.bytes (p + m) n := by
  simp only [File.bytes, List.range_add, List.map_append, List.map_map]
  congr 1
  apply List.map_congr_left
  intro i _
  simp [Nat.add_assoc]

theorem File.bytes_four (f : File) (p : Nat) :
    f.bytes p 4 = [f.get p, f.get (p + 1), f.get (p + 2), f.get (p + 3)] := by
  simp [File.bytes, List.range_succ]

theorem File.bytes_eight (f : File) (p : Nat) :
    f.bytes p 8 = [f.get p, f.get (p + 1), f.get (p + 2), f.get (p + 3),
      f.get (p + 4), f.get (p + 5), f.get (p + 6), f.get (p + 7)] := by
  simp [File.bytes, List.range_succ]

theorem uint32ToByte_beValue (a b c d : Byte) :
    uint32ToByte (beValue [a, b, c, d]) = [a, b, c, d] := by
  have ha := a.isLt
  have hb := b.isLt
  have hc := c.isLt
  have hd := d.isLt
  simp only [uint32ToByte, beValue, List.foldl, lowByte, List.cons.injEq, and_true]
  refine ⟨?_, ?_, ?_, ?_⟩ <;> apply Fin.ext <;> simp only [] <;> omega

theorem uint64ToByte_beValue (a b c d e f g h : Byte) :
    uint64ToByte (beValue [a, b, c, d, e, f, g, h]) = [a, b, c, d, e, f, g, h] := by
  have ha := a.isLt
  have hb := b.isLt
  have hc := c.isLt
  have hd := d.isLt
  have he := e.isLt
  have hf := f.isLt
  have hg := g.isLt
  have hh := h.isLt
  simp only [uint64ToByte, beValue, List.foldl, lowByte, List.cons.injEq, and_true]
  refine ⟨?_, ?_, ?_, ?_, ?_, ?_, ?_, ?_⟩ <;> apply Fin.ext <;> simp only [] <;> omega

theorem uint32ToByte_bytes (f : File) (p : Nat) : uint32ToByte (beValue (f.bytes p 4)) = f.bytes p 4 := by
  rw [File.bytes_four, uint32ToByte_beValue]

theorem uint64ToByte_bytes (f : File) (p : Nat) : uint64ToByte (beValue (f.bytes p 8)) = f.bytes p 8 := by
  rw [File.bytes_eight, uint64ToByte_beValue]

theorem File.bytes_header_split (f : File) :
    f.bytes 0 104 = f.bytes 0 4 ++ f.bytes 4 4 ++ f.bytes 8 8 ++ f.bytes 16 4 ++ f.bytes 20 4
      ++ f.bytes 24 8 ++ f.bytes 32 4 ++ f.bytes 36 4 ++ f.bytes 40 8 ++ f.bytes 48 8
      ++ f.bytes 56 4 ++ f.bytes 60 4 ++ f.bytes 64 8 ++ f.bytes 72 8 ++ f.bytes 80 8
      ++ f.bytes 88 8 ++ f.bytes 96 4 ++ f.bytes 100 4 := by
  rw [show (104 : Nat) = 100 + 4 from rfl, File.bytes_append,
    show (100 : Nat) = 96 + 4 from rfl, File.bytes_append,
    show (96 : Nat) = 88 + 8 from rfl, File.bytes_append,
    show (88 : Nat) = 80 + 8 from rfl, File.bytes_append,
    show (80 : Nat) = 72 + 8 from rfl, File.bytes_append,
    show (72 : Nat) = 64 + 8 from rfl, File.bytes_append,
    show (64 : Nat) = 60 + 4 from rfl, File.bytes_append,
    show (60 : Nat) = 56 + 4 from rfl, File.bytes_append,
    show (56 : Nat) = 48 + 8 from rfl, File.bytes_append,
    show (48 : Nat) = 40 + 8 from rfl, File.bytes_append,
    show (40 : Nat) = 36 + 4 from rfl, File.bytes_append,
    show (36 : Nat) = 32 + 4 from rfl, File.bytes_append,
    show (32 : Nat) = 24 + 8 from rfl, File.bytes_append,
    show (24 : Nat) = 20 + 4 from rfl, File.bytes_append,
    show (20 : Nat) = 16 + 4 from rfl, File.bytes_append,
    show (16 : Nat) = 8 + 8 from rfl, File.bytes_append,
    show (8 : Nat) = 4 + 4 from rfl, File.bytes_append]

theorem toByte_setDerived (h : ImageHeader) (d : Nat × Nat × Nat × Nat × Nat) :
    (h.setDerived d).toByte = h.toByte := rfl

theorem toByte_storedHeader (file : File) (c : Nat) (p : Option (List Byte))
    (hl : (storedHeader file c p).Length = 104) :
    (storedHeader file c p).toByte = file.bytes 0 104 := by
  unfold ImageHeader.toByte
  rw [if_pos hl, File.bytes_header_split]
  simp only [storedHeader, uint32ToByte_bytes, uint64ToByte_bytes]

theorem readCompressionType_eq_ok {file : File} {len c : Nat} (hs : file.size = 104)
    (h : readCompressionType file 104 len = .ok c) : len ≤ 104 ∧ c = 0 := by
  unfold readCompressionType at h
  split_ifs at h with hlen
  · simp [binaryRead8, readFull, hs] at h
  · simp only [V3BareHeaderSize] at hlen
    exact ⟨by omega, by cases h; rfl⟩

theorem imageHeaderFromFile_ok {file : File} {h : ImageHeader}
    (hh : imageHeaderFromFile file = .ok h) :
    ∃ r d, readHeaderFields file = .ok r
      ∧ derivedSizes r.virtualDiskSizeBytes r.clusterSize = .ok d
      ∧ (r.setDerived d).validate = .ok () ∧ h = r.setDerived d := by
  cases hr : readHeaderFields file with
  | error e => simp [imageHeaderFromFile, hr] at hh
  | crash => simp [imageHeaderFromFile, hr] at hh
  | ok r =>
    rw [imageHeaderFromFile_eq_of_fields hr] at hh
    obtain ⟨d, hd, hh⟩ := Outcome.bind_eq_ok.mp hh
    obtain ⟨u, hv, hh⟩ := Outcome.bind_eq_ok.mp hh
    refine ⟨r, d, rfl, hd, ?_, (Outcome.ok.inj hh).symm⟩
    rcases Check.eq_ok_or_error (r.setDerived d).validate with hok | ⟨e, he⟩
    · exact hok
    · rw [he] at hv
      cases hv

/-- C6: for every 104-byte header image that `imageHeaderFromFile` accepts, the header length
field is 104 and `toByte` of the parsed header returns exactly the input bytes. -/
theorem toByte_imageHeaderFromFile (file : File) (h : ImageHeader) (hs : file.size = 104)
    (hh : imageHeaderFromFile file = .ok h) :
    h.Length = 104 ∧ h.toByte = file.bytes 0 104 := by
  obtain ⟨r, d, hr, -, hv, rfl⟩ := imageHeaderFromFile_ok hh
  obtain ⟨-, c, p, hc, -, rfl⟩ := readHeaderFields_ok hr
  obtain ⟨hlen, -⟩ := readCompressionType_eq_ok hs hc
  rw [validate_eq_ok_iff] at hv
  have hl : (storedHeader file c p).Length = 104 := by
    have h19 := hv.2.2.2.2.2.2.2.2.2.2.2.2.2.2.2.2.2.2.1
    simp only [V3BareHeaderSize, ImageHeader.setDerived, storedHeader] at h19
    simp only [storedHeader]
    omega
  exact ⟨hl, by rw [toByte_setDerived, toByte_storedHeader file c p hl]⟩

set_option maxRecDepth 10000 in
theorem toByte_imageHeaderFromFile_witness :
    (File.ofList validHeader).size = 104
      ∧ imageHeaderFromFile (File.ofList validHeader)
          = .ok (validHeaderFields.setDerived (33554432, 512, 65536, 16, 33))
      ∧ (validHeaderFields.setDerived (33554432, 512, 65536, 16, 33)).toByte
          = (File.ofList validHeader).bytes 0 104
      ∧ (File.ofList validHeader).bytes 0 104 = validHeader :=
  ⟨rfl, rfl, (toByte_imageHeaderFromFile (File.ofList validHeader) _ rfl rfl).2, rfl⟩



theorem File.get_write (f : File) (p : Nat) (bs : List Byte) (x : Nat) :
    (f.write p bs).get x =
      if p ≤ x ∧ x < p + bs.length then bs.getD (x - p) 0 else f.get x := by
  unfold File.write
  by_cases hb : bs.length = 0
  · rw [if_pos hb, if_neg (by omega)]
  · simp only [if_neg hb, File.get]
    by_cases hx : p ≤ x ∧ x < p + bs.length
    · have : x < max f.size (p + bs.length) := lt_of_lt_of_le hx.2 (le_max_right _ _)
      simp [hx, this]
    · simp only [if_neg hx]
      by_cases hs : x < f.size
      · have : x < max f.size (p + bs.length) := lt_of_lt_of_le hs (le_max_left _ _)
        simp [hs, this]
      · simp [hs]

theorem File.size_write (f : File) (p : Nat) (bs : List Byte) :
    (f.write p bs).size = if bs.length = 0 then f.size else max f.size (p + bs.length) := by
  unfold File.write
  split_ifs <;> rfl

theorem File.size_le_write (f : File) (p : Nat) (bs : List Byte) :
    f.size ≤ (f.write p bs).size := by
  rw [File.size_write]
  split_ifs
  · exact le_refl _
  · exact le_max_left _ _

theorem File.bytes_eq_of_get (f g : File) (p q n : Nat)
    (h : ∀ i, i < n → f.get (p + i) = g.get (q + i)) : f.bytes p n = g.bytes q n := by
  unfold File.bytes
  apply List.map_congr_left
  intro i hi
  exact h i (List.mem_range.mp hi)

theorem File.bytes_write_of_disjoint (f : File) (p : Nat) (bs : List Byte) (q n : Nat)
    (h : q + n ≤ p ∨ p + bs.length ≤ q) : (f.write p bs).bytes q n = f.bytes q n := by
  apply File.bytes_eq_of_get
  intro i hi
  rw [File.get_write, if_neg]
  omega

theorem File.bytes_write_inside (f : File) (p : Nat) (bs : List Byte) (k n : Nat)
    (h : k + n ≤ bs.length) : (f.write p bs).bytes (p + k) n = (bs.drop k).take n := by
  apply List.ext_getElem
  · simp [File.bytes_length]; omega
  · intro i h1 h2
    simp only [File.bytes, List.getElem_map, List.getElem_range, File.get_write]
    rw [File.bytes_length] at h1
    rw [if_pos (by omega)]
    simp only [List.getElem_take, List.getElem_drop]
    rw [show p + k + i - p = k + i by omega, List.getD_eq_getElem _ _ (by omega)]

theorem File.bytes_write_same (f : File) (p : Nat) (bs : List Byte) :
    (f.write p bs).bytes p bs.length = bs := by
  have := File.bytes_write_inside f p bs 0 bs.length (by omega)
  simpa using this


theorem beValue_uint32ToByte (v : Nat) : beValue (uint32ToByte v) = wrap32 v := by
  simp only [uint32ToByte, beValue, List.foldl, lowByte, wrap32]
  omega

theorem beValue_uint64ToByte (v : Nat) : beValue (uint64ToByte v) = wrap64 v := by
  simp only [uint64ToByte, beValue, List.foldl, lowByte, wrap64]
  omega

/-- The first 104 bytes of `toByte`. -/
theorem toByte_eq (h : ImageHeader) :
    ∃ tail, h.toByte = uint32ToByte h.magic
    ++ (uint32ToByte h.versionNumber
    ++ (uint64ToByte h.backingFileOffset
    ++ (uint32ToByte h.backingFileSize
    ++ (uint32ToByte h.clusterBits
    ++ (uint64ToByte h.virtualDiskSizeBytes
    ++ (uint32ToByte h.cryptMethod
    ++ (uint32ToByte h.l1Size
    ++ (uint64ToByte h.l1TableOffset
    ++ (uint64ToByte h.refCountTableOffset
    ++ (uint32ToByte h.refCountTableClusters
    ++ (uint32ToByte h.nbSnapshots
    ++ (uint64ToByte h.snapshotOffset
    ++ (uint64ToByte h.incompatibleFeatures
    ++ (uint64ToByte h.compatibleFeatures
    ++ (uint64ToByte h.autoClearFeatures
    ++ (uint32ToByte h.refCountOrder
    ++ (uint32ToByte h.Length ++ tail)))))))))))))))))
    ∧ (h.Length = 104 → tail = [])
    ∧ (h.Length ≠ 104 → tail = [lowByte h.compressionType, 0, 0, 0, 0, 0, 0, 0]) := by
  unfold ImageHeader.toByte
  by_cases hl : h.Length = 104
  · refine ⟨[], ?_, fun _ => rfl, fun hn => absurd hl hn⟩
    simp only [if_pos hl, List.append_assoc, List.append_nil]
  · refine ⟨_, ?_, fun hn => absurd hn hl, fun _ => rfl⟩
    simp only [if_neg hl, List.append_assoc]

theorem uint32ToByte_length (v : Nat) : (uint32ToByte v).length = 4 := rfl
theorem uint64ToByte_length (v : Nat) : (uint64ToByte v).length = 8 := rfl

theorem toByte_length (h : ImageHeader) :
    h.toByte.length = if h.Length = 104 then 104 else 112 := by
  unfold ImageHeader.toByte
  split_ifs <;> simp [uint32ToByte_length, uint64ToByte_length]

theorem drop_take_append (a b : List Byte) (k : Nat) (h : a.length = k) :
    (a ++ b).take k = a ∧ (a ++ b).drop k = b := by
  subst h
  simp


theorem File.bytes_split_eq (f : File) (p m n : Nat) (a b : List Byte)
    (h : f.bytes p (m + n) = a ++ b) (ha : a.length = m) :
    f.bytes p m = a ∧ f.bytes (p + m) n = b := by
  rw [File.bytes_append] at h
  exact List.append_inj h (by rw [File.bytes_length, ha])

theorem fields_of_header_bytes (f : File) (h : ImageHeader)
    (hb : f.bytes 0 104 = uint32ToByte h.magic ++ (uint32ToByte h.versionNumber ++ (uint64ToByte h.backingFileOffset ++ (uint32ToByte h.backingFileSize ++ (uint32ToByte h.clusterBits ++ (uint64ToByte h.virtualDiskSizeBytes ++ (uint32ToByte h.cryptMethod ++ (uint32ToByte h.l1Size ++ (uint64ToByte h.l1TableOffset ++ (uint64ToByte h.refCountTableOffset ++ (uint32ToByte h.refCountTableClusters ++ (uint32ToByte h.nbSnapshots ++ (uint64ToByte h.snapshotOffset ++ (uint64ToByte h.incompatibleFeatures ++ (uint64ToByte h.compatibleFeatures ++ (uint64ToByte h.autoClearFeatures ++ (uint32ToByte h.refCountOrder ++ uint32ToByte h.Length))))))))))))))))) :
    beValue (f.bytes 0 4) = wrap32 h.magic ∧
      beValue (f.bytes 4 4) = wrap32 h.versionNumber ∧
      beValue (f.bytes 8 8) = wrap64 h.backingFileOffset ∧
      beValue (f.bytes 16 4) = wrap32 h.backingFileSize ∧
      beValue (f.bytes 20 4) = wrap32 h.clusterBits ∧
      beValue (f.bytes 24 8) = wrap64 h.virtualDiskSizeBytes ∧
      beValue (f.bytes 32 4) = wrap32 h.cryptMethod ∧
      beValue (f.bytes 36 4) = wrap32 h.l1Size ∧
      beValue (f.bytes 40 8) = wrap64 h.l1TableOffset ∧
      beValue (f.bytes 48 8) = wrap64 h.refCountTableOffset ∧
      beValue (f.bytes 56 4) = wrap32 h.refCountTableClusters ∧
      beValue (f.bytes 60 4) = wrap32 h.nbSnapshots ∧
      beValue (f.bytes 64 8) = wrap64 h.snapshotOffset ∧
      beValue (f.bytes 72 8) = wrap64 h.incompatibleFeatures ∧
      beValue (f.bytes 80 8) = wrap64 h.compatibleFeatures ∧
      beValue (f.bytes 88 8) = wrap64 h.autoClearFeatures ∧
      beValue (f.bytes 96 4) = wrap32 h.refCountOrder ∧
      beValue (f.bytes 100 4) = wrap32 h.Length := by
  obtain ⟨e0, r0⟩ := File.bytes_split_eq f 0 4 100 _ _ hb (by rfl)
  obtain ⟨e1, r1⟩ := File.bytes_split_eq f 4 4 96 _ _ r0 (by rfl)
  obtain ⟨e2, r2⟩ := File.bytes_split_eq f 8 8 88 _ _ r1 (by rfl)
  obtain ⟨e3, r3⟩ := File.bytes_split_eq f 16 4 84 _ _ r2 (by rfl)
  obtain ⟨e4, r4⟩ := File.bytes_split_eq f 20 4 80 _ _ r3 (by rfl)
  obtain ⟨e5, r5⟩ := File.bytes_split_eq f 24 8 72 _ _ r4 (by rfl)
  obtain ⟨e6, r6⟩ := File.bytes_split_eq f 32 4 68 _ _ r5 (by rfl)
  obtain ⟨e7, r7⟩ := File.bytes_split_eq f 36 4 64 _ _ r6 (by rfl)
  obtain ⟨e8, r8⟩ := File.bytes_split_eq f 40 8 56 _ _ r7 (by rfl)
  obtain ⟨e9, r9⟩ := File.bytes_split_eq f 48 8 48 _ _ r8 (by rfl)
  obtain ⟨e10, r10⟩ := File.bytes_split_eq f 56 4 44 _ _ r9 (by rfl)
  obtain ⟨e11, r11⟩ := File.bytes_split_eq f 60 4 40 _ _ r10 (by rfl)
  obtain ⟨e12, r12⟩ := File.bytes_split_eq f 64 8 32 _ _ r11 (by rfl)
  obtain ⟨e13, r13⟩ := File.bytes_split_eq f 72 8 24 _ _ r12 (by rfl)
  obtain ⟨e14, r14⟩ := File.bytes_split_eq f 80 8 16 _ _ r13 (by rfl)
  obtain ⟨e15, r15⟩ := File.bytes_split_eq f 88 8 8 _ _ r14 (by rfl)
  obtain ⟨e16, r16⟩ := File.bytes_split_eq f 96 4 4 _ _ r15 (by rfl)
  simp only [Nat.zero_add, Nat.reduceAdd] at *
  refine ⟨?_, ?_, ?_, ?_, ?_, ?_, ?_, ?_, ?_, ?_, ?_, ?_, ?_, ?_, ?_, ?_, ?_, ?_⟩
  · rw [e0, beValue_uint32ToByte]
  · rw [e1, beValue_uint32ToByte]
  · rw [e2, beValue_uint64ToByte]
  · rw [e3, beValue_uint32ToByte]
  · rw [e4, beValue_uint32ToByte]
  · rw [e5, beValue_uint64ToByte]
  · rw [e6, beValue_uint32ToByte]
  · rw [e7, beValue_uint32ToByte]
  · rw [e8, beValue_uint64ToByte]
  · rw [e9, beValue_uint64ToByte]
  · rw [e10, beValue_uint32ToByte]
  · rw [e11, beValue_uint32ToByte]
  · rw [e12, beValue_uint64ToByte]
  · rw [e13, beValue_uint64ToByte]
  · rw [e14, beValue_uint64ToByte]
  · rw [e15, beValue_uint64ToByte]
  · rw [e16, beValue_uint32ToByte]
  · rw [r16, beValue_uint32ToByte]



theorem lengthMarkOffset_ge (h : ImageHeader) (hcs : h.clusterSize = 2 ^ h.clusterBits)
    (hcb : 9 ≤ h.clusterBits ∧ h.clusterBits ≤ 30)
    (hrtc2 : h.refCountTableClusters < 4294967296)
    (hal : h.refCountTableOffset % 2 ^ h.clusterBits = 0)
    (hpos : h.lengthMarkOffset < 9223372036854775808) :
    510 ≤ h.lengthMarkOffset := by
  obtain ⟨hl, hu⟩ := clusterSize_bounds hcb
  have h64 : 2 ^ h.clusterBits ∣ 18446744073709551616 := by
    have : (18446744073709551616 : Nat) = 2 ^ 64 := by norm_num
    rw [this]
    exact pow_dvd_pow 2 (by omega)
  have hR : 2 ^ h.clusterBits ∣ h.refCountTableOffset := Nat.dvd_of_mod_eq_zero hal
  unfold ImageHeader.lengthMarkOffset at *
  simp only [hcs] at *
  generalize 2 ^ h.clusterBits = cs at *
  generalize h.refCountTableClusters = rtc at *
  generalize h.refCountTableOffset = rto at *
  have hA : rtc * cs < 18446744073709551616 := by nlinarith
  have hA' : wrap64 (rtc * cs) = rtc * cs := Nat.mod_eq_of_lt hA
  rw [hA'] at hpos ⊢
  have hB : cs ∣ wrap64 (rtc * cs + rto) :=
    (Nat.dvd_mod_iff h64).mpr (dvd_add (Dvd.intro_left rtc rfl) hR)
  have hb2 : wrap64 (rtc * cs + rto) < 18446744073709551616 := Nat.mod_lt _ (by norm_num)
  generalize wrap64 (rtc * cs + rto) = b at *
  rcases Nat.eq_zero_or_pos b with hb | hb
  · subst hb
    unfold sub64 at hpos
    simp at hpos
  · have := Nat.le_of_dvd hb hB
    unfold sub64 at hpos ⊢
    split_ifs at hpos ⊢ <;> omega

/-- The file `writeToFile` leaves. -/
theorem writeToFile_eq (h : ImageHeader) (f0 : File) :
    h.writeToFile f0 =
      if h.lengthMarkOffset < 9223372036854775808 then
        .ok ((match h.backingFilePath with
          | some path => ((f0.write 0 h.toByte).write h.toByte.length
              [0, 0, 0, 0, 0, 0, 0, 0]).write (h.toByte.length + 8) path
          | none => (f0.write 0 h.toByte).write h.toByte.length
              [0, 0, 0, 0, 0, 0, 0, 0]).write h.lengthMarkOffset [0])
      else .error .headerWrite := by
  unfold ImageHeader.writeToFile seekStart
  by_cases hp : h.lengthMarkOffset < 9223372036854775808
  · simp only [if_pos hp]
  · simp only [if_neg hp]

theorem storedHeader_setDerived_eq (f : File) (h : ImageHeader) (d : Nat × Nat × Nat × Nat × Nat)
    (hd : h.setDerived d = h)
    (h1 : beValue (f.bytes 0 4) = h.magic) (h2 : beValue (f.bytes 4 4) = h.versionNumber)
    (h3 : beValue (f.bytes 8 8) = h.backingFileOffset)
    (h4 : beValue (f.bytes 16 4) = h.backingFileSize)
    (h5 : beValue (f.bytes 20 4) = h.clusterBits)
    (h6 : beValue (f.bytes 24 8) = h.virtualDiskSizeBytes)
    (h7 : beValue (f.bytes 32 4) = h.cryptMethod) (h8 : beValue (f.bytes 36 4) = h.l1Size)
    (h9 : beValue (f.bytes 40 8) = h.l1TableOffset)
    (h10 : beValue (f.bytes 48 8) = h.refCountTableOffset)
    (h11 : beValue (f.bytes 56 4) = h.refCountTableClusters)
    (h12 : beValue (f.bytes 60 4) = h.nbSnapshots)
    (h13 : beValue (f.bytes 64 8) = h.snapshotOffset)
    (h14 : beValue (f.bytes 72 8) = h.incompatibleFeatures)
    (h15 : beValue (f.bytes 80 8) = h.compatibleFeatures)
    (h16 : beValue (f.bytes 88 8) = h.autoClearFeatures)
    (h17 : beValue (f.bytes 96 4) = h.refCountOrder) (h18 : beValue (f.bytes 100 4) = h.Length)
    (hcs : h.clusterSize = getClusterSize h.clusterBits)
    (hf1 : h.imageCorrupt = false) (hf2 : h.imageRefCountDirty = false)
    (hf3 : h.lazyRefcounts = false) :
    (storedHeader f h.compressionType h.backingFilePath).setDerived d = h := by
  rw [← hd]
  cases h
  simp only [ImageHeader.setDerived, storedHeader] at *
  simp only [h1, h2, h3, h4, h5, h6, h7, h8, h9, h10, h11, h12, h13, h14, h15, h16, h17, h18,
    hcs, hf1, hf2, hf3]


theorem File.bytes_write_zero (f0 : File) (bs : List Byte) (q k : Nat)
    (hq : q + k ≤ bs.length) : (f0.write 0 bs).bytes q k = (bs.drop q).take k := by
  have := File.bytes_write_inside f0 0 bs q k hq
  rwa [Nat.zero_add] at this

theorem bytes_layout_header (f0 : File) (hb ext : List Byte) (path : Option (List Byte))
    (lmo q k : Nat) (hq : q + k ≤ hb.length) (hl : hb.length ≤ lmo) :
    ((match path with
      | some p => ((f0.write 0 hb).write hb.length ext).write (hb.length + 8) p
      | none => (f0.write 0 hb).write hb.length ext).write lmo [0]).bytes q k
      = (hb.drop q).take k := by
  rw [File.bytes_write_of_disjoint _ _ _ _ _ (Or.inl (by omega))]
  cases path with
  | none =>
    simp only []
    rw [File.bytes_write_of_disjoint _ _ _ _ _ (Or.inl (by omega)),
      File.bytes_write_zero _ _ _ _ hq]
  | some p =>
    simp only []
    rw [File.bytes_write_of_disjoint _ _ _ _ _ (Or.inl (by omega)),
      File.bytes_write_of_disjoint _ _ _ _ _ (Or.inl (by omega)),
      File.bytes_write_zero _ _ _ _ hq]

theorem bytes_layout_path (g : File) (p : List Byte) (lmo n : Nat)
    (hl : n + p.length ≤ lmo) :
    ((g.write n p).write lmo [0]).bytes n p.length = p := by
  rw [File.bytes_write_of_disjoint _ _ _ _ _ (Or.inl (by omega)), File.bytes_write_same]

theorem size_layout (f0 : File) (hb ext : List Byte) (path : Option (List Byte)) (lmo : Nat)
    (hne : hb.length ≠ 0) :
    hb.length ≤ ((match path with
      | some p => ((f0.write 0 hb).write hb.length ext).write (hb.length + 8) p
      | none => (f0.write 0 hb).write hb.length ext).write lmo [0]).size := by
  have h1 : hb.length ≤ (f0.write 0 hb).size := by
    rw [File.size_write, if_neg hne]
    exact le_trans (by omega) (le_max_right _ _)
  refine le_trans ?_ (File.size_le_write _ _ _)
  cases path with
  | none => exact le_trans h1 (File.size_le_write _ _ _)
  | some p =>
    exact le_trans h1 (le_trans (File.size_le_write _ _ _) (File.size_le_write _ _ _))

theorem size_layout_path (g : File) (p : List Byte) (lmo n : Nat) (hne : p.length ≠ 0) :
    n + p.length ≤ ((g.write n p).write lmo [0]).size := by
  refine le_trans ?_ (File.size_le_write _ _ _)
  rw [File.size_write, if_neg hne]
  exact le_max_right _ _


theorem toByte_drop_104 (h : ImageHeader) (hl : h.Length ≠ 104) :
    (h.toByte.drop 104).take 1 = [lowByte h.compressionType] := by
  unfold ImageHeader.toByte
  rw [if_neg hl, List.drop_append_of_le_length (by simp [uint32ToByte_length, uint64ToByte_length])]
  rw [List.drop_of_length_le (by simp [uint32ToByte_length, uint64ToByte_length])]
  rfl

theorem toByte_take_104 (h : ImageHeader) :
    (h.toByte.drop 0).take 104 = uint32ToByte h.magic
    ++ (uint32ToByte h.versionNumber
    ++ (uint64ToByte h.backingFileOffset
    ++ (uint32ToByte h.backingFileSize
    ++ (uint32ToByte h.clusterBits
    ++ (uint64ToByte h.virtualDiskSizeBytes
    ++ (uint32ToByte h.cryptMethod
    ++ (uint32ToByte h.l1Size
    ++ (uint64ToByte h.l1TableOffset
    ++ (uint64ToByte h.refCountTableOffset
    ++ (uint32ToByte h.refCountTableClusters
    ++ (uint32ToByte h.nbSnapshots
    ++ (uint64ToByte h.snapshotOffset
    ++ (uint64ToByte h.incompatibleFeatures
    ++ (uint64ToByte h.compatibleFeatures
    ++ (uint64ToByte h.autoClearFeatures
    ++ (uint32ToByte h.refCountOrder
    ++ uint32ToByte h.Length)))))))))))))))) := by
  obtain ⟨tail, ht, -, -⟩ := toByte_eq h
  rw [ht, List.drop_zero]
  simp only [← List.append_assoc]
  rw [List.take_left' (by simp [uint32ToByte_length, uint64ToByte_length])]

theorem diskSizeLimitForCluster_lt (h : ImageHeader) :
    h.diskSizeLimitForCluster < 18446744073709551616 := by
  unfold ImageHeader.diskSizeLimitForCluster ClusterAddressSize wrap64
  have : ∀ x : Nat, x % 18446744073709551616 / 8 / 8 < 18446744073709551616 := by
    intro x; omega
  exact this _

set_option maxRecDepth 4000 in
theorem readCompressionType_layout (f : File) (h : ImageHeader)
    (hsz : h.toByte.length ≤ f.size)
    (hb : h.Length ≠ 104 → f.bytes 104 1 = [lowByte h.compressionType])
    (hc : h.compressionType < 256) (h0 : h.Length = 104 → h.compressionType = 0)
    (hl : 104 ≤ h.Length) :
    readCompressionType f 104 h.Length = .ok h.compressionType := by
  unfold readCompressionType V3BareHeaderSize
  have htl := toByte_length h
  by_cases hl4 : h.Length = 104
  · rw [if_neg (show ¬ h.Length > 104 by omega), h0 hl4]
  · rw [if_neg hl4] at htl
    rw [if_pos (show h.Length > 104 by omega)]
    unfold binaryRead8 readFull
    rw [if_pos (by omega)]
    simp only [Outcome.ok_bind, hb hl4, beValue, List.foldl, lowByte]
    congr 1
    omega

/-- C5, as stated, fails: the header `pathAt200Header` is accepted by `validate` and carries
the derived sizes `preComputeTableSizes` computes, but `writeToFile` puts its backing-file
path at offset 112 whatever `backingFileOffset` says, so parsing the written file reads the
path from offset 200 and returns three zero bytes instead of `abc`. -/
theorem writeToFile_misplaces_backing_path :
    pathAt200Header.validate = .ok ()
      ∧ pathAt200Header.preComputeTableSizes = .ok pathAt200Header
      ∧ (pathAt200Header.writeToFile File.empty).bind imageHeaderFromFile
          = .ok { pathAt200Header with backingFilePath := some [0, 0, 0] } := by
  set_option maxRecDepth 10000 in exact ⟨by rfl, by rfl, by rfl⟩

/-- C5, amended: for every header that `validate` accepts and that is in the canonical form
`ImageHeader.Canonical` (fields within their Go types, derived sizes and flags as parsing
computes them, backing-file path of `backingFileSize` bytes recorded right after the empty
extension area), whenever `writeToFile` succeeds on any file, `imageHeaderFromFile` on the
written file succeeds and returns exactly that header. -/
theorem imageHeaderFromFile_writeToFile (h : ImageHeader) (f0 f : File)
    (hv : h.validate = .ok ()) (hc : h.Canonical) (hw : h.writeToFile f0 = .ok f) :
    imageHeaderFromFile f = .ok h := by
  obtain ⟨c1, c2, c3, c4, c5, c6, c7, c8, c9, c10, c11, c12, c13, c14, c15⟩ := hc
  have hv0 := hv
  rw [validate_eq_ok_iff] at hv
  obtain ⟨v1, v2, v3, v4, v5, v6, v7, v8, v9, v10, v11, v12, v13, v14, v15, v16, v17, v18,
    v19, v20, v21, v22, v23, v24, v25⟩ := hv
  simp only [QcowMagic, maxBackingFileNameSize, MinClusterBits, MaxClusterBits, L1TableMaxSize,
    V3BareHeaderSize] at v1 v5 v6 v9 v19
  rw [writeToFile_eq] at hw
  split_ifs at hw with hp
  have hf := (Outcome.ok.inj hw).symm
  have hcs : h.clusterSize = 2 ^ h.clusterBits := by rw [c10, getClusterSize_of_lt (by omega)]
  have hal : h.refCountTableOffset % 2 ^ h.clusterBits = 0 := by
    rw [hcs, clusterMask_eq (by omega), Nat.and_pow_two_sub_one_eq_mod] at v22
    exact v22
  have hlmo := lengthMarkOffset_ge h hcs v6 c2 hal hp
  have htl := toByte_length h
  have h104 : 104 ≤ h.toByte.length := by split_ifs at htl <;> omega
  have h112 : h.toByte.length ≤ 112 := by split_ifs at htl <;> omega
  have hb104 : f.bytes 0 104 = (h.toByte.drop 0).take 104 := by
    rw [hf]
    exact bytes_layout_header _ _ _ _ _ 0 104 (by omega) (by omega)
  rw [toByte_take_104] at hb104
  obtain ⟨e1, e2, e3, e4, e5, e6, e7, e8, e9, e10, e11, e12, e13, e14, e15, e16, e17, e18⟩ :=
    fields_of_header_bytes f h hb104
  have hsz : h.toByte.length ≤ f.size := by
    rw [hf]
    exact size_layout _ _ _ _ _ (by omega)
  have hlim := diskSizeLimitForCluster_lt h
  have hoff : h.backingFileOffset ≤ 120 := by
    cases hp2 : h.backingFilePath with
    | none => rw [hp2] at c15; simp only [] at c15; omega
    | some p => rw [hp2] at c15; simp only [] at c15; omega
  unfold wrap32 wrap64 at *
  rw [Nat.mod_eq_of_lt (by omega)] at e1 e2 e3 e4 e5 e6 e7 e8 e9 e10 e11 e12 e13 e14 e15 e16 e17 e18
  have hrc : readCompressionType f 104 (beValue (f.bytes 100 4)) = .ok h.compressionType := by
    rw [e18]
    refine readCompressionType_layout f h (by omega) ?_ c8 c9 v19
    intro hl
    have hl2 : h.toByte.length = 112 := by rw [htl, if_neg hl]
    have hb : f.bytes 104 1 = (h.toByte.drop 104).take 1 := by
      rw [hf]
      exact bytes_layout_header _ _ _ _ _ 104 1 (by omega) (by omega)
    rw [hb, toByte_drop_104 h hl]
  -- the backing-file path
  have hrp : readBackingFilePath f (beValue (f.bytes 8 8)) (beValue (f.bytes 16 4))
      = .ok h.backingFilePath := by
    rw [e3, e4]
    unfold readBackingFilePath
    cases hp2 : h.backingFilePath with
    | none =>
      rw [hp2] at c15
      simp only [] at c15
      rw [if_neg (by omega)]
    | some p =>
      rw [hp2] at c15 hf
      simp only [] at c15 hf
      obtain ⟨k1, k2, k3, k4⟩ := c15
      rw [if_pos ⟨by omega, k2⟩]
      unfold seekStart
      rw [if_pos (by omega)]
      simp only [Outcome.ok_bind]
      unfold readFull
      have hs2 : h.backingFileOffset + h.backingFileSize ≤ f.size := by
        rw [hf, k3, ← k1]
        exact size_layout_path _ _ _ _ (by omega)
      rw [if_pos hs2]
      simp only [Outcome.ok_bind]
      have hb : f.bytes h.backingFileOffset h.backingFileSize = p := by
        rw [hf, k3, ← k1]
        exact bytes_layout_path _ _ _ _ k4
      rw [hb]
  have hr : readHeaderFields f = .ok (storedHeader f h.compressionType h.backingFilePath) := by
    rw [readHeaderFields_eq f (by omega), hrc, hrp]
    rfl
  rw [imageHeaderFromFile_eq_of_fields hr]
  rw [preComputeTableSizes_eq] at c14
  obtain ⟨d, hd, hsd⟩ := Outcome.bind_eq_ok.mp c14
  have hsd := Outcome.ok.inj hsd
  have hst := storedHeader_setDerived_eq f h d hsd e1 e2 e3 e4 e5 e6 e7 e8 e9 e10 e11 e12 e13
    e14 e15 e16 e17 e18 c10 c11 c12 c13
  have hV : (storedHeader f h.compressionType h.backingFilePath).virtualDiskSizeBytes
      = h.virtualDiskSizeBytes := e6
  have hC : (storedHeader f h.compressionType h.backingFilePath).clusterSize
      = h.clusterSize := by
    rw [c10, ← e5]
    rfl
  rw [hV, hC, hd]
  simp only [Outcome.ok_bind]
  rw [hst, hv0]
  rfl


set_option maxRecDepth 10000 in
theorem imageHeaderFromFile_writeToFile_witness :
    createHeaderForSizeAndPath 10485760 none = .ok createdHeader10MiB
      ∧ createdHeader10MiB.validate = .ok ()
      ∧ createdHeader10MiB.Canonical
      ∧ createdHeader10MiB.clusterSize = 65536 ∧ createdHeader10MiB.numClusters = 160
      ∧ ∃ f, createdHeader10MiB.writeToFile File.empty = .ok f
          ∧ imageHeaderFromFile f = .ok createdHeader10MiB :=
  have hc : createdHeader10MiB.Canonical :=
    ⟨by decide, by decide, by decide, by decide, by decide, by decide, by decide, by decide,
      fun _ => rfl, by rfl, rfl, rfl, rfl, by rfl, Or.inl rfl⟩
  ⟨by rfl, by rfl, hc, rfl, rfl, _, rfl,
    imageHeaderFromFile_writeToFile createdHeader10MiB File.empty _ (by rfl) hc rfl⟩


/-! ### The raw image file -/

/-- On a read-only raw file, each write method that tests `readOnly` returns a read-only
error and leaves the file as it was. -/
theorem QcowRawFile.guarded_writes_refused (rawFile : QcowRawFile) (hr : rawFile.readOnly = true)
    (bytes : List Byte) (value offset : Nat) (table : List Nat) (header : ImageHeader) :
    rawFile.WriteAt bytes offset = (.error .writeAttemptToReadOnlyDisk, rawFile.file.content)
      ∧ rawFile.writeUint64At value offset
          = (.error .writeAttemptToReadOnlyDisk, rawFile.file.content)
      ∧ rawFile.writeUint16At value offset
          = (.error .writeAttemptToReadOnlyDisk, rawFile.file.content)
      ∧ rawFile.writeHeader header = (.error .writeAttemptToReadOnlyDisk, rawFile.file.content)
      ∧ rawFile.writePointerTable offset table value
          = (.error .writeAttemptToReadOnlyDisk, rawFile.file.content)
      ∧ rawFile.writeRefcountBlock offset table
          = (.error .writeAttemptToReadOnlyDisk, rawFile.file.content)
      ∧ rawFile.writeCluster offset bytes
          = (.error .writeAttemptToReadOnlyDisk, rawFile.file.content)
      ∧ rawFile.allocateClusterAtFileEnd offset
          = (.error .attemptToTruncateReadOnlyFile, rawFile.file.content)
      ∧ rawFile.sync = (.error .attemptToSyncReadOnlyFile, rawFile.file.content) := by
  simp [QcowRawFile.WriteAt, QcowRawFile.writeUint64At, QcowRawFile.writeUint16At,
    QcowRawFile.writeHeader, QcowRawFile.writePointerTable, QcowRawFile.writeRefcountBlock,
    QcowRawFile.writeCluster, QcowRawFile.allocateClusterAtFileEnd, QcowRawFile.sync, hr]

/-- C13: the claim fails on the code for `zeroCluster`, which does not test `readOnly`.  On
a read-only raw file with 4-byte clusters over the file `1 2 3 4 5 6`, `zeroCluster(0)`
succeeds and overwrites the first cluster with zeros when the descriptor is writable, and
returns the I/O error of the refused `Write` (not a read-only error) when the descriptor was
opened for reading only. -/
theorem zeroCluster_ignores_readOnly :
    ∃ rw ro : QcowRawFile,
      qcowRawFileFromFile ⟨File.ofList [1, 2, 3, 4, 5, 6], true⟩ 4 true = .ok rw
      ∧ qcowRawFileFromFile ⟨File.ofList [1, 2, 3, 4, 5, 6], false⟩ 4 true = .ok ro
      ∧ rw.readOnly = true ∧ ro.readOnly = true
      ∧ (rw.zeroCluster 0).1 = .ok ()
      ∧ (rw.zeroCluster 0).2.bytes 0 6 = [0, 0, 0, 0, 5, 6]
      ∧ (ro.zeroCluster 0).1 = .error .ioFailure
      ∧ Err.isReadOnly .ioFailure = false :=
  ⟨_, _, rfl, rfl, rfl, rfl, by decide, by decide, by decide, rfl⟩

/-! ### The linked list -/

theorem Seg.frame {T : Type} {cells cells2 : Nat → Option (linkedListCell T)}
    {items : List (Nat × T)} {prev after : Option Nat}
    (h : ∀ p ∈ items.map Prod.fst, cells2 p = cells p) (hs : Seg cells prev items after) :
    Seg cells2 prev items after := by
  induction items generalizing prev with
  | nil => trivial
  | cons a rest ih =>
    obtain ⟨p, x⟩ := a
    obtain ⟨h1, h2⟩ := hs
    refine ⟨?_, ih (fun q hq => h q (by simp at hq ⊢; exact Or.inr hq)) h2⟩
    rw [h p (by simp), h1]

theorem firstId_append {T : Type} (a b : List (Nat × T)) (after : Option Nat) :
    firstId (a ++ b) after = firstId a (firstId b after) := by
  cases a <;> rfl

theorem lastId_append {T : Type} (a b : List (Nat × T)) (prev : Option Nat) :
    lastId prev (a ++ b) = lastId (lastId prev a) b := by
  induction a generalizing prev with
  | nil => rfl
  | cons x rest ih => exact ih _

theorem lastId_cons_irrel {T : Type} (x : Nat × T) (rest : List (Nat × T)) (p q : Option Nat) :
    lastId p (x :: rest) = lastId q (x :: rest) := rfl

theorem lastId_mem {T : Type} {items : List (Nat × T)} {prev : Option Nat} {t : Nat}
    (hne : items ≠ []) (h : lastId prev items = some t) : t ∈ items.map Prod.fst := by
  induction items generalizing prev with
  | nil => exact absurd rfl hne
  | cons a rest ih =>
    obtain ⟨p, x⟩ := a
    cases rest with
    | nil =>
      simp only [lastId, Option.some.injEq] at h
      simp [h]
    | cons b rest2 =>
      have := @ih (some p) (by simp) h
      simp only [List.map_cons, List.mem_cons] at this ⊢
      exact Or.inr this

theorem lastId_eq_none {T : Type} {items : List (Nat × T)} (h : lastId none items = none) :
    items = [] := by
  cases items with
  | nil => rfl
  | cons a rest =>
    exfalso
    obtain ⟨p, x⟩ := a
    have : ∀ (l : List (Nat × T)) (q : Nat), lastId (some q) l ≠ none := by
      intro l
      induction l with
      | nil => intro q; simp [lastId]
      | cons b l ih => intro q; exact ih _
    exact this rest p h

theorem firstId_eq_none {T : Type} {items : List (Nat × T)} (h : firstId items none = none) :
    items = [] := by
  cases items with
  | nil => rfl
  | cons a rest => cases h

theorem Seg.append {T : Type} {cells : Nat → Option (linkedListCell T)}
    {a b : List (Nat × T)} {prev after : Option Nat} :
    Seg cells prev (a ++ b) after ↔
      Seg cells prev a (firstId b after) ∧ Seg cells (lastId prev a) b after := by
  induction a generalizing prev with
  | nil => simp [Seg, lastId]
  | cons x rest ih =>
    obtain ⟨p, v⟩ := x
    show (cells p = some { value := v, next := firstId (rest ++ b) after, previous := prev }
      ∧ Seg cells (some p) (rest ++ b) after) ↔ _
    rw [ih, firstId_append]
    simp only [Seg, lastId, and_assoc]

/-- Redirecting the `next` of the last cell of a segment. -/
theorem Seg.setNext {T : Type} {cells : Nat → Option (linkedListCell T)}
    {items : List (Nat × T)} {prev after : Option Nat} (after2 : Option Nat) {t : Nat}
    (hs : Seg cells prev items after) (hn : (items.map Prod.fst).Nodup) (hne : items ≠ [])
    (ht : lastId prev items = some t) :
    ∃ c, cells t = some c ∧
      Seg (Function.update cells t (some { c with next := after2 })) prev items after2 := by
  induction items generalizing prev with
  | nil => exact absurd rfl hne
  | cons a rest ih =>
    obtain ⟨p, x⟩ := a
    obtain ⟨h1, h2⟩ := hs
    cases rest with
    | nil =>
      simp only [lastId, Option.some.injEq] at ht
      subst ht
      refine ⟨_, h1, ?_, trivial⟩
      simp [firstId]
    | cons b rest2 =>
      simp only [List.map_cons, List.nodup_cons] at hn
      obtain ⟨c, hc, hseg⟩ := ih h2 (by simpa using hn.2) (by simp) ht
      refine ⟨c, hc, ?_, hseg⟩
      have hmem := @lastId_mem _ _ (some p) _ (by simp) ht
      have hpt : p ≠ t := by
        intro h
        subst h
        exact hn.1 (by simpa using hmem)
      rw [Function.update_noteq hpt, h1]
      rfl

/-- Redirecting the `previous` of the first cell of a segment. -/
theorem Seg.setPrevious {T : Type} {cells : Nat → Option (linkedListCell T)}
    {rest : List (Nat × T)} {prev after : Option Nat} (prev2 : Option Nat) {h : Nat} {y : T}
    (hs : Seg cells prev ((h, y) :: rest) after) (hn : (((h, y) :: rest).map Prod.fst).Nodup) :
    ∃ c, cells h = some c ∧
      Seg (Function.update cells h (some { c with previous := prev2 })) prev2 ((h, y) :: rest)
        after := by
  obtain ⟨h1, h2⟩ := hs
  refine ⟨_, h1, by simp, Seg.frame ?_ h2⟩
  intro q hq
  simp only [List.map_cons, List.nodup_cons] at hn
  rw [Function.update_noteq]
  intro e
  subst e
  exact hn.1 hq

theorem linkedList.Rep.addRear {T : Type} {list : linkedList T} {fifo : Fifo T}
    (h : list.Rep fifo) (x : T) :
    (list.addRear x).1 = .ok fifo.created
      ∧ (list.addRear x).2.Rep (fifo.apply (.addRear x)).2 := by
  obtain ⟨ha, hsz, hh, ht, hn, hf, hs⟩ := h
  obtain ⟨items, created⟩ := fifo
  simp only at ha hsz hh ht hn hf hs
  have hfresh : created ∉ items.map Prod.fst := fun hm => Nat.lt_irrefl _ (hf _ hm)
  have hnotin : ∀ p ∈ items.map Prod.fst, p ≠ created := by
    intro p hp e
    subst e
    exact hfresh hp
  have hn2 : ((items ++ [(created, x)]).map Prod.fst).Nodup := by
    rw [List.map_append, List.nodup_append]
    refine ⟨hn, by simp, ?_⟩
    intro a ha1 ha2
    simp only [List.map_cons, List.map_nil, List.mem_singleton] at ha2
    subst ha2
    exact hfresh ha1
  have hf2 : ∀ p ∈ (items ++ [(created, x)]).map Prod.fst, p < created + 1 := by
    intro p hp
    simp only [List.map_append, List.mem_append, List.map_cons, List.map_nil,
      List.mem_singleton] at hp
    rcases hp with hp | hp
    · exact Nat.lt_succ_of_lt (hf p hp)
    · omega
  cases items with
  | nil =>
    simp only [lastId] at ht
    have e : list.addRear x = (.ok list.allocated,
        { cells := Function.update list.cells list.allocated
            (some { value := x, next := none, previous := none }),
          allocated := list.allocated + 1, head := some list.allocated, size := 1,
          tail := some list.allocated }) := by
      simp only [linkedList.addRear, linkedList.store, ht]
    rw [e]
    subst ha
    exact ⟨rfl, ⟨rfl, rfl, rfl, rfl, hn2, hf2, by simp [Seg, firstId, Fifo.apply]⟩⟩
  | cons a rest =>
    have hne : a :: rest ≠ [] := by simp
    obtain ⟨t, ht2⟩ : ∃ t, lastId none (a :: rest) = some t := by
      cases h : lastId none (a :: rest) with
      | none => exact absurd (lastId_eq_none h) hne
      | some t => exact ⟨t, rfl⟩
    rw [ht2] at ht
    have htm := lastId_mem hne ht2
    have htc : t ≠ created := hnotin t htm
    obtain ⟨c, hc, hseg⟩ := Seg.setNext (some created)
      (@Seg.frame _ _ (Function.update list.cells created
        (some { value := x, next := none, previous := none })) _ _ _
        (fun p hp => Function.update_noteq (hnotin p hp) _ _) hs) hn hne ht2
    rw [Function.update_noteq htc] at hc
    have e : list.addRear x = (.ok list.allocated,
        { cells := Function.update (Function.update (Function.update list.cells list.allocated
            (some { value := x, next := none, previous := none })) t
              (some { c with next := some list.allocated })) list.allocated
              (some { value := x, next := none, previous := some t }),
          allocated := list.allocated + 1, head := list.head, size := list.size + 1,
          tail := some list.allocated }) := by
      subst ha
      simp only [linkedList.addRear, linkedList.store, ht, Function.update_noteq htc, hc,
        Function.update_same, Function.update_noteq (Ne.symm htc)]
    rw [e]
    subst ha
    refine ⟨rfl, ⟨rfl, by simp [Fifo.apply, hsz], ?_, ?_, hn2, hf2, ?_⟩⟩
    · simp only [Fifo.apply, firstId_append, hh]
      rfl
    · show _ = lastId none ((a :: rest) ++ [(list.allocated, x)])
      rw [lastId_append]
      rfl
    · simp only [Fifo.apply]
      rw [Seg.append]
      refine ⟨Seg.frame ?_ hseg, ?_⟩
      · intro p hp
        exact Function.update_noteq (hnotin p hp) _ _
      · rw [ht2]
        simp [Seg, firstId]

theorem linkedList.Rep.removeFront_nil {T : Type} {list : linkedList T} {fifo : Fifo T}
    (h : list.Rep fifo) (he : fifo.items = []) :
    list.removeFront = (.error .emptyList, list) := by
  have := h.size
  rw [he] at this
  simp [linkedList.removeFront, this]

theorem linkedList.Rep.removeFront_cons {T : Type} {list : linkedList T} {fifo : Fifo T}
    (h : list.Rep fifo) {p : Nat} {x : T} {rest : List (Nat × T)}
    (he : fifo.items = (p, x) :: rest) :
    (list.removeFront).1 = .ok x
      ∧ (list.removeFront).2.Rep { fifo with items := rest } := by
  obtain ⟨ha, hsz, hh, ht, hn, hf, hs⟩ := h
  obtain ⟨items, created⟩ := fifo
  simp only at ha hsz hh ht hn hf hs he
  subst he
  obtain ⟨h1, h2⟩ := hs
  simp only [firstId] at hh
  simp only [List.map_cons, List.nodup_cons] at hn
  have hf2 : ∀ q ∈ rest.map Prod.fst, q < created := fun q hq => hf q (by simp [hq])
  cases rest with
  | nil =>
    have e : list.removeFront = (.ok x, { list with tail := none, head := none, size := 0 }) := by
      simp only [linkedList.removeFront, hsz, hh, Option.bind, h1]
      simp
    rw [e]
    exact ⟨rfl, ⟨ha, rfl, rfl, rfl, by simp, hf2, trivial⟩⟩
  | cons b rest2 =>
    obtain ⟨q, y⟩ := b
    obtain ⟨h3, h4⟩ := h2
    simp only [firstId] at h1
    have e : list.removeFront = (.ok x,
        { list with
          cells := Function.update list.cells q
            (some { value := y, next := firstId rest2 none, previous := none }),
          head := some q, size := list.size - 1 }) := by
      simp only [linkedList.removeFront, hsz, hh, Option.bind, h1, linkedList.store, h3]
      simp
    rw [e]
    refine ⟨rfl, ⟨ha, by simp [hsz], rfl, ht, hn.2, hf2, ?_, ?_⟩⟩
    · simp
    · refine Seg.frame ?_ h4
      intro r hr
      simp only [List.map_cons, List.nodup_cons] at hn
      show Function.update list.cells q _ r = _
      rw [Function.update_noteq]
      intro e2
      subst e2
      exact hn.2.1 hr

theorem filter_ne_of_nodup {T : Type} (a b : List (Nat × T)) (p : Nat) (x : T)
    (hn : ((a ++ (p, x) :: b).map Prod.fst).Nodup) :
    (a ++ (p, x) :: b).filter (fun item => item.1 ≠ p) = a ++ b
      ∧ (a ++ (p, x) :: b).find? (fun item => item.1 = p) = some (p, x) := by
  rw [List.map_append, List.nodup_append] at hn
  obtain ⟨-, hb, hd⟩ := hn
  simp only [List.map_cons, List.nodup_cons] at hb
  have ha : ∀ i ∈ a, i.1 ≠ p := by
    intro i hi e
    exact hd (List.mem_map_of_mem Prod.fst hi) (by simp [e])
  have hb2 : ∀ i ∈ b, i.1 ≠ p := by
    intro i hi e
    exact hb.1 (by rw [← e]; exact List.mem_map_of_mem Prod.fst hi)
  constructor
  · rw [List.filter_append, List.filter_cons]
    simp only [ne_eq, not_true_eq_false, decide_False, Bool.false_eq_true, ↓reduceIte]
    rw [List.filter_eq_self.mpr (by simpa using ha), List.filter_eq_self.mpr (by simpa using hb2)]
  · rw [List.find?_append]
    have : a.find? (fun item => decide (item.1 = p)) = none := by
      rw [List.find?_eq_none]
      simpa using ha
    rw [this]
    simp

theorem linkedList.bypassNext_spec {T : Type} (list : linkedList T) (cell : linkedListCell T)
    (a : List (Nat × T)) (after : Option Nat)
    (hs : Seg list.cells none a after) (hn : (a.map Prod.fst).Nodup)
    (hh : list.head = firstId a after) (hp : cell.previous = lastId none a) :
    ∃ list1, list.bypassNext cell = some list1 ∧ list1.size = list.size
      ∧ list1.allocated = list.allocated ∧ list1.tail = list.tail
      ∧ list1.head = firstId a cell.next ∧ Seg list1.cells none a cell.next
      ∧ ∀ q, q ∉ a.map Prod.fst → list1.cells q = list.cells q := by
  cases a with
  | nil =>
    simp only [lastId] at hp
    refine ⟨{ list with head := cell.next }, ?_, rfl, rfl, rfl, rfl, trivial, fun _ _ => rfl⟩
    simp only [linkedList.bypassNext, hp]
  | cons a0 rest =>
    have hne : a0 :: rest ≠ [] := by simp
    obtain ⟨t, ht2⟩ : ∃ t, lastId none (a0 :: rest) = some t := by
      cases h : lastId none (a0 :: rest) with
      | none => exact absurd (lastId_eq_none h) hne
      | some t => exact ⟨t, rfl⟩
    rw [ht2] at hp
    obtain ⟨c, hc, hseg⟩ := Seg.setNext cell.next hs hn hne ht2
    refine ⟨list.store t { c with next := cell.next }, ?_, rfl, rfl, rfl, hh, hseg, ?_⟩
    · simp only [linkedList.bypassNext, hp, hc]
    · intro q hq
      have htm := lastId_mem hne ht2
      show Function.update list.cells t _ q = _
      rw [Function.update_noteq]
      intro e
      subst e
      exact hq htm

theorem linkedList.bypassPrevious_spec {T : Type} (list : linkedList T)
    (cell : linkedListCell T) (b : List (Nat × T)) (pv : Option Nat)
    (hs : Seg list.cells pv b none) (hn : (b.map Prod.fst).Nodup)
    (ht : list.tail = lastId pv b) (hx : cell.next = firstId b none) :
    ∃ list2, list.bypassPrevious cell = some list2 ∧ list2.size = list.size
      ∧ list2.allocated = list.allocated ∧ list2.head = list.head
      ∧ list2.tail = lastId cell.previous b ∧ Seg list2.cells cell.previous b none
      ∧ ∀ q, q ∉ b.map Prod.fst → list2.cells q = list.cells q := by
  cases b with
  | nil =>
    simp only [firstId] at hx
    refine ⟨{ list with tail := cell.previous }, ?_, rfl, rfl, rfl, rfl, trivial,
      fun _ _ => rfl⟩
    simp only [linkedList.bypassPrevious, hx]
  | cons b0 rest =>
    obtain ⟨h, y⟩ := b0
    simp only [firstId] at hx
    obtain ⟨c, hc, hseg⟩ := Seg.setPrevious cell.previous hs hn
    refine ⟨list.store h { c with previous := cell.previous }, ?_, rfl, rfl, rfl, ht, hseg, ?_⟩
    · simp only [linkedList.bypassPrevious, hx, hc]
    · intro q hq
      show Function.update list.cells h _ q = _
      rw [Function.update_noteq]
      intro e
      subst e
      exact hq (by simp)

theorem linkedList.Rep.removeByPointer {T : Type} {list : linkedList T} {fifo : Fifo T}
    (h : list.Rep fifo) {a b : List (Nat × T)} {p : Nat} {x : T}
    (he : fifo.items = a ++ (p, x) :: b) :
    (list.removeByPointer p).1 = .ok x
      ∧ (list.removeByPointer p).2.Rep { fifo with items := a ++ b } := by
  obtain ⟨ha, hsz, hh, ht, hn, hf, hs⟩ := h
  obtain ⟨items, created⟩ := fifo
  simp only at ha hsz hh ht hn hf hs he
  subst he
  rw [Seg.append] at hs
  obtain ⟨hsa, hp, hsb⟩ := hs
  have hn0 := hn
  rw [List.map_append, List.nodup_append] at hn
  obtain ⟨hna, hnb, hd⟩ := hn
  simp only [List.map_cons, List.nodup_cons] at hnb
  have hpa : p ∉ a.map Prod.fst := fun hm => hd hm (by simp)
  have hdab : ∀ q, q ∈ a.map Prod.fst → q ∉ b.map Prod.fst :=
    fun q h1 h2 => hd h1 (by simp [h2])
  rw [firstId_append] at hh
  rw [lastId_append] at ht
  obtain ⟨l1, e1, s1, a1, t1, h1, g1, f1⟩ := linkedList.bypassNext_spec list
    { value := x, next := firstId b none, previous := lastId none a } a (some p) hsa hna hh rfl
  have hsb1 : Seg l1.cells (some p) b none :=
    Seg.frame (fun q hq => f1 q (fun hqa => hdab q hqa hq)) hsb
  obtain ⟨l2, e2, s2, a2, h2, t2, g2, f2⟩ := linkedList.bypassPrevious_spec l1
    { value := x, next := firstId b none, previous := lastId none a } b (some p) hsb1 hnb.2
    (by rw [t1, ht]; rfl) rfl
  have hc1 : l1.cells p = some { value := x, next := firstId b none, previous := lastId none a } := by
    rw [f1 p hpa, hp]
  have hc2 : l2.cells p = some { value := x, next := firstId b none, previous := lastId none a } := by
    rw [f2 p hnb.1, hc1]
  have hbroken : ¬ (firstId b none = none ∧ lastId none a = none ∧ list.size ≠ 1) := by
    rintro ⟨k1, k2, k3⟩
    rw [firstId_eq_none k1, lastId_eq_none k2] at hsz
    exact k3 hsz
  have e : list.removeByPointer p = (.ok x, { l2 with size := l2.size - 1 }) := by
    have hs0 : list.size ≠ 0 := by rw [hsz]; simp
    simp only [linkedList.removeByPointer, hs0, if_false, hp, hbroken, e1, hc1, e2, hc2]
  rw [e]
  refine ⟨rfl, ⟨by rw [← ha]; exact a2.trans a1, ?_, ?_, ?_, ?_, ?_, ?_⟩⟩
  · show l2.size - 1 = (a ++ b).length
    rw [s2, s1, hsz]
    simp
  · show l2.head = firstId (a ++ b) none
    rw [h2, h1, firstId_append]
  · show l2.tail = lastId none (a ++ b)
    rw [t2, lastId_append]
  · show ((a ++ b).map Prod.fst).Nodup
    rw [List.map_append, List.nodup_append]
    exact ⟨hna, hnb.2, fun q h1 h2 => hdab q h1 h2⟩
  · intro q hq
    refine hf q ?_
    simp only [List.map_append, List.mem_append, List.map_cons, List.mem_cons] at hq ⊢
    tauto
  · show Seg l2.cells none (a ++ b) none
    rw [Seg.append]
    exact ⟨Seg.frame (fun q hq => f2 q (hdab q hq)) g1, g2⟩

theorem linkedList.Rep.removeByPointer_nil {T : Type} {list : linkedList T} {fifo : Fifo T}
    (h : list.Rep fifo) (he : fifo.items = []) (p : Nat) :
    list.removeByPointer p = (.error .emptyList, list) := by
  have := h.size
  rw [he] at this
  simp [linkedList.removeByPointer, this]

theorem linkedList.contentFrom_spec {T : Type} (list : linkedList T) (zero : T) (k : Nat)
    (rest : List (Nat × T)) :
    ∀ (prev : Option Nat) (p : Nat) (x : T) (acc : List T),
      Seg list.cells prev ((p, x) :: rest) none → list.tail = lastId prev ((p, x) :: rest) →
      list.contentFrom zero (rest.length + k + 1) p acc
        = .ok (acc ++ ((p, x) :: rest).map Prod.snd ++ List.replicate k zero) := by
  induction rest with
  | nil =>
    intro prev p x acc hs ht
    obtain ⟨h1, -⟩ := hs
    simp only [lastId] at ht
    simp only [List.length_nil, Nat.zero_add, linkedList.contentFrom, h1, firstId, ht,
      Option.bind, List.map_cons, List.map_nil]
  | cons b rest2 ih =>
    intro prev p x acc hs ht
    obtain ⟨q, y⟩ := b
    obtain ⟨h1, h2⟩ := hs
    have := ih (some p) q y (acc ++ [x]) h2 ht
    rw [show ((q, y) :: rest2).length + k + 1 = (rest2.length + k + 1) + 1 by simp; omega]
    rw [linkedList.contentFrom]
    simp only [h1, firstId]
    rw [this]
    simp

theorem linkedList.Rep.content {T : Type} {list : linkedList T} {fifo : Fifo T}
    (h : list.Rep fifo) (zero : T) :
    list.content zero = .ok (fifo.items.map Prod.snd) ∧ list.size = fifo.items.length := by
  refine ⟨?_, h.size⟩
  obtain ⟨ha, hsz, hh, ht, hn, hf, hs⟩ := h
  obtain ⟨items, created⟩ := fifo
  simp only at ha hsz hh ht hn hf hs
  cases items with
  | nil => simp [linkedList.content, hsz]
  | cons a rest =>
    obtain ⟨p, x⟩ := a
    have := linkedList.contentFrom_spec list zero 0 rest none p x [] hs ht
    simp only [firstId] at hh
    simp only [linkedList.content, hsz, hh]
    simp only [List.length_cons, Nat.add_eq_zero, one_ne_zero, and_false, if_false]
    rw [Nat.add_zero] at this
    rw [this]
    simp

theorem linkedList.Rep.apply_step {T : Type} {list : linkedList T} {fifo : Fifo T}
    (h : list.Rep fifo) (op : ListOp T)
    (hadm : match op with
      | .removeByPointer pointer => fifo.items = [] ∨ pointer ∈ fifo.items.map Prod.fst
      | _ => True) :
    (list.apply op).1 = (fifo.apply op).1 ∧ (list.apply op).2.Rep (fifo.apply op).2 := by
  cases op with
  | addRear x =>
    obtain ⟨h1, h2⟩ := h.addRear x
    have e : list.addRear x = (.ok fifo.created, (list.addRear x).2) := by
      rw [← h1]
    simp only [linkedList.apply]
    rw [e]
    exact ⟨rfl, by rw [e] at h2; exact h2⟩
  | removeFront =>
    cases hi : fifo.items with
    | nil =>
      have e := h.removeFront_nil hi
      simp only [linkedList.apply, e, Fifo.apply, hi]
      exact ⟨trivial, h⟩
    | cons a rest =>
      obtain ⟨p, x⟩ := a
      obtain ⟨h1, h2⟩ := h.removeFront_cons hi
      have e : list.removeFront = (.ok x, (list.removeFront).2) := by
        rw [← h1]
      simp only [linkedList.apply, Fifo.apply, hi]
      rw [e]
      exact ⟨rfl, by rw [e] at h2; exact h2⟩
  | removeByPointer p =>
    simp only at hadm
    by_cases hi : fifo.items = []
    · have e := h.removeByPointer_nil hi p
      simp only [linkedList.apply, e, Fifo.apply, hi]
      exact ⟨by simp, by simpa using h⟩
    · have hm : p ∈ fifo.items.map Prod.fst := hadm.resolve_left hi
      obtain ⟨⟨p2, x⟩, hmem, hp2⟩ := List.mem_map.mp hm
      simp only at hp2
      subst hp2
      obtain ⟨a, b, hab⟩ := List.append_of_mem hmem
      obtain ⟨h1, h2⟩ := h.removeByPointer hab
      have e : list.removeByPointer p2 = (.ok x, (list.removeByPointer p2).2) := by
        rw [← h1]
      obtain ⟨k1, k2⟩ := filter_ne_of_nodup a b p2 x (by rw [← hab]; exact h.nodup)
      simp only [linkedList.apply, Fifo.apply]
      rw [e, hab, k2, k1]
      exact ⟨rfl, by rw [e] at h2; exact h2⟩

theorem linkedList.Rep.run_steps {T : Type} (ops : List (ListOp T)) :
    ∀ {list : linkedList T} {fifo : Fifo T}, list.Rep fifo → fifo.Admits ops →
      (list.run ops).1 = (fifo.run ops).1 ∧ (list.run ops).2.Rep (fifo.run ops).2 := by
  induction ops with
  | nil => intro list fifo h _; exact ⟨rfl, h⟩
  | cons op ops ih =>
    intro list fifo h hadm
    obtain ⟨ha, hrest⟩ := hadm
    obtain ⟨h1, h2⟩ := h.apply_step op ha
    obtain ⟨h3, h4⟩ := ih h2 hrest
    exact ⟨by simp only [linkedList.run, Fifo.run, h1, h3], h4⟩

theorem newLinkedList_rep (T : Type) : (newLinkedList T).Rep { items := [], created := 0 } :=
  ⟨rfl, rfl, rfl, rfl, List.nodup_nil, fun _ h => by simp at h, trivial⟩

/-- C30: `linkedList` refines a FIFO sequence.  For every run of `addRear`, `removeFront`
and `removeByPointer` (on cells that are in the list at that moment, or on the empty list)
from the empty list, each operation returns what the abstract sequence returns (the removed
element, or an error on the empty sequence, which is left unchanged), and afterwards
`content()` is the abstract sequence and `size` its length. -/
theorem linkedList_refines_fifo {T : Type} (zero : T) (ops : List (ListOp T))
    (h : Fifo.Admits { items := [], created := 0 } ops) :
    ((newLinkedList T).run ops).1 = (Fifo.run { items := [], created := 0 } ops).1
      ∧ ((newLinkedList T).run ops).2.content zero
          = .ok ((Fifo.run { items := [], created := 0 } ops).2.items.map Prod.snd)
      ∧ ((newLinkedList T).run ops).2.size
          = (Fifo.run { items := [], created := 0 } ops).2.items.length := by
  obtain ⟨h1, h2⟩ := linkedList.Rep.run_steps ops (newLinkedList_rep T) h
  exact ⟨h1, h2.content zero⟩

/-- A run with removals from the empty list, from the middle and from the front. -/
theorem linkedList_refines_fifo_witness :
    Fifo.Admits { items := [], created := 0 }
        [ListOp.removeFront, .removeByPointer 7, .addRear 10, .addRear 20, .addRear 30,
          .removeByPointer 1, .removeFront, .addRear 40]
      ∧ (Fifo.run { items := [], created := 0 }
          [ListOp.removeFront, .removeByPointer 7, .addRear 10, .addRear 20, .addRear 30,
            .removeByPointer 1, .removeFront, .addRear 40]).1
        = [.failed, .failed, .cell 0, .cell 1, .cell 2, .element 20, .element 10, .cell 3]
      ∧ ((newLinkedList Nat).run
          [ListOp.removeFront, .removeByPointer 7, .addRear 10, .addRear 20, .addRear 30,
            .removeByPointer 1, .removeFront, .addRear 40]).2.content 0 = .ok [30, 40]
      ∧ ((newLinkedList Nat).run
          [ListOp.removeFront, .removeByPointer 7, .addRear 10, .addRear 20, .addRear 30,
            .removeByPointer 1, .removeFront, .addRear 40]).2.size = 2 :=
  have hadm : Fifo.Admits { items := [], created := 0 }
      [ListOp.removeFront, .removeByPointer 7, .addRear 10, .addRear 20, .addRear 30,
        .removeByPointer 1, .removeFront, .addRear 40] :=
    ⟨trivial, Or.inl rfl, trivial, trivial, trivial, Or.inr (by decide), trivial, trivial,
      trivial⟩
  ⟨hadm, by decide, (linkedList_refines_fifo 0 _ hadm).2.1, (linkedList_refines_fifo 0 _ hadm).2.2⟩

set_option maxRecDepth 1000000 in
/-- The run of `TestLinkedListU64`: after `addRear` of 0..99, a hundred `removeFront` return
0..99 in order and one more fails. -/
theorem linkedList_hundred :
    (((newLinkedList Nat).run
        ((List.range 100).map ListOp.addRear ++ List.replicate 101 ListOp.removeFront)).1.drop 100)
      = (List.range 100).map ListReply.element ++ [.failed] := by
  decide



/-! ### The LRU cache -/

theorem filter_find_of_nodup {α κ : Type} [DecidableEq κ] (key : α → κ) (a b : List α) (x : α)
    (hn : ((a ++ x :: b).map key).Nodup) :
    (a ++ x :: b).filter (fun i => key i ≠ key x) = a ++ b
      ∧ (a ++ x :: b).find? (fun i => key i = key x) = some x := by
  rw [List.map_append, List.nodup_append] at hn
  obtain ⟨-, hb, hd⟩ := hn
  simp only [List.map_cons, List.nodup_cons] at hb
  have ha : ∀ i ∈ a, key i ≠ key x := by
    intro i hi e
    exact hd (List.mem_map_of_mem key hi) (by simp [e])
  have hb2 : ∀ i ∈ b, key i ≠ key x := by
    intro i hi e
    exact hb.1 (by rw [← e]; exact List.mem_map_of_mem key hi)
  constructor
  · rw [List.filter_append, List.filter_cons]
    simp only [ne_eq, not_true_eq_false, decide_False, Bool.false_eq_true, ↓reduceIte]
    rw [List.filter_eq_self.mpr (by simpa using ha), List.filter_eq_self.mpr (by simpa using hb2)]
  · rw [List.find?_append]
    have : a.find? (fun i => decide (key i = key x)) = none := by
      rw [List.find?_eq_none]
      simpa using ha
    rw [this]
    simp

theorem filter_find_of_not_mem {α κ : Type} [DecidableEq κ] (key : α → κ) (l : List α) (k : κ)
    (hn : k ∉ l.map key) :
    l.filter (fun i => key i ≠ k) = l ∧ l.find? (fun i => key i = k) = none := by
  have ha : ∀ i ∈ l, key i ≠ k := by
    intro i hi e
    exact hn (by rw [← e]; exact List.mem_map_of_mem key hi)
  constructor
  · exact List.filter_eq_self.mpr (by simpa using ha)
  · rw [List.find?_eq_none]
    simpa using ha

/-- What the cache holds for a key: nothing when the key is not held, else its entry. -/
theorem LruCacheMap.Holds.lookup {T P : Type} [DecidableEq T] {cacheMap : LruCacheMap T P}
    {held : List (Nat × T × VectorCache P)} {created : Nat} (h : cacheMap.Holds held created)
    (key : T) :
    (key ∉ held.map (fun item => item.2.1) ∧ mapLookup cacheMap.store key = none)
      ∨ ∃ a b p v, held = a ++ (p, key, v) :: b
          ∧ mapLookup cacheMap.store key = some { data := v, linkedListPointer := p } := by
  by_cases hk : key ∈ held.map (fun item => item.2.1)
  · right
    obtain ⟨⟨p, k, v⟩, hm, rfl⟩ := List.mem_map.mp hk
    obtain ⟨a, b, hab⟩ := List.append_of_mem hm
    refine ⟨a, b, p, v, hab, ?_⟩
    have hn := h.nodup
    rw [hab] at hn
    have := (filter_find_of_nodup (fun item : Nat × T × VectorCache P => item.2.1) a b
      (p, k, v) hn).2
    rw [mapLookup, h.store, List.find?_map, hab]
    simp only [Function.comp_def]
    simp only at this
    rw [this]
    rfl
  · left
    refine ⟨hk, ?_⟩
    have := (filter_find_of_not_mem (fun item : Nat × T × VectorCache P => item.2.1) held key
      hk).2
    rw [mapLookup, h.store, List.find?_map]
    simp only [Function.comp_def]
    rw [this]
    rfl

theorem LruCacheMap.Holds.unlink {T P : Type} [DecidableEq T] {cacheMap : LruCacheMap T P}
    {created : Nat} {a b : List (Nat × T × VectorCache P)} {p : Nat} {k : T}
    {v : VectorCache P} (h : cacheMap.Holds (a ++ (p, k, v) :: b) created) :
    ∃ queue, cacheMap.queue.removeByPointer p = (.ok k, queue)
      ∧ LruCacheMap.Holds
          { cacheMap with queue := queue, store := mapDelete cacheMap.store k } (a ++ b) created
      ∧ (a ++ (p, k, v) :: b).filter (fun item => item.2.1 ≠ k) = a ++ b
      ∧ k ∉ (a ++ b).map (fun item => item.2.1) := by
  have hq := h.queue
  obtain ⟨h1, h2⟩ := hq.removeByPointer (a := a.map fun item => (item.1, item.2.1))
    (b := b.map fun item => (item.1, item.2.1)) (p := p) (x := k) (by simp)
  have hf := (filter_find_of_nodup (fun item : Nat × T × VectorCache P => item.2.1) a b
    (p, k, v) h.nodup).1
  simp only at hf
  have hn := h.nodup
  have hn2 : ((a ++ b).map fun item => item.2.1).Nodup := by
    rw [← hf]
    exact (List.filter_sublist _).map _ |>.nodup hn
  have hk : k ∉ (a ++ b).map (fun item => item.2.1) := by
    rw [← hf]
    intro hm
    obtain ⟨i, hi, hik⟩ := List.mem_map.mp hm
    have := (List.mem_filter.mp hi).2
    simp only [ne_eq, decide_not, Bool.not_eq_true', decide_eq_false_iff_not] at this
    exact this hik
  refine ⟨(cacheMap.queue.removeByPointer p).2, by rw [← h1], ⟨?_, ?_, hn2⟩, hf, hk⟩
  · simpa using h2
  · show mapDelete cacheMap.store k = _
    rw [mapDelete, h.store, ← hf, List.filter_map]
    rfl

theorem LruCacheMap.Holds.link {T P : Type} [DecidableEq T] {cacheMap : LruCacheMap T P}
    {held : List (Nat × T × VectorCache P)} {created : Nat} (h : cacheMap.Holds held created)
    (k : T) (v : VectorCache P) (hk : k ∉ held.map (fun item => item.2.1)) :
    ∃ queue, cacheMap.queue.addRear k = (.ok created, queue)
      ∧ LruCacheMap.Holds
          { cacheMap with
            queue := queue
            store := cacheMap.store ++ [(k, { data := v, linkedListPointer := created })] }
          (held ++ [(created, k, v)]) (created + 1) := by
  obtain ⟨h1, h2⟩ := h.queue.addRear k
  refine ⟨(cacheMap.queue.addRear k).2, by rw [← h1], ⟨?_, ?_, ?_⟩⟩
  · simpa [Fifo.apply] using h2
  · show cacheMap.store ++ _ = _
    rw [h.store]
    simp
  · rw [List.map_append, List.nodup_append]
    refine ⟨h.nodup, by simp, ?_⟩
    intro x hx1 hx2
    simp only [List.map_cons, List.map_nil, List.mem_singleton] at hx2
    subst hx2
    exact hk hx1

theorem LruCacheMap.Holds.set {T P : Type} [DecidableEq T] {cacheMap : LruCacheMap T P}
    {held : List (Nat × T × VectorCache P)} {created : Nat} (h : cacheMap.Holds held created)
    (key : T) (value : VectorCache P) :
    (cacheMap.set key value).1 = .ok ()
      ∧ (cacheMap.set key value).2.Holds (heldTouch held created key value) (created + 1)
      ∧ (cacheMap.set key value).2.capacity = cacheMap.capacity := by
  rcases h.lookup key with ⟨hk, hl⟩ | ⟨a, b, p, v, hab, hl⟩
  · obtain ⟨q, hq, hh⟩ := h.link key value hk
    have hd : mapDelete cacheMap.store key = cacheMap.store := by
      rw [mapDelete, h.store]
      have := (filter_find_of_not_mem (fun item : Nat × T × VectorCache P => item.2.1) held key
        hk).1
      rw [List.filter_map]
      simp only [Function.comp_def]
      rw [this]
    have e : cacheMap.set key value = (.ok (), { cacheMap with
        queue := q
        store := cacheMap.store ++ [(key, { data := value, linkedListPointer := created })] }) := by
      simp only [LruCacheMap.set, hl, hq, mapAssign, hd]
    rw [e]
    refine ⟨rfl, ?_, rfl⟩
    rw [heldTouch, (filter_find_of_not_mem (fun item : Nat × T × VectorCache P => item.2.1)
      held key hk).1]
    exact hh
  · subst hab
    obtain ⟨q, hq, hh, hf, hk⟩ := h.unlink
    obtain ⟨q2, hq2, hh2⟩ := hh.link key value hk
    have e : cacheMap.set key value = (.ok (), { cacheMap with
        queue := q2
        store := mapDelete cacheMap.store key
          ++ [(key, { data := value, linkedListPointer := created })] }) := by
      simp only [LruCacheMap.set, hl, hq]
      simp only at hq2
      simp only [hq2, mapAssign]
    rw [e]
    refine ⟨rfl, ?_, rfl⟩
    rw [heldTouch, hf]
    exact hh2

theorem LruCacheMap.Holds.get {T P : Type} [DecidableEq T] {cacheMap : LruCacheMap T P}
    {held : List (Nat × T × VectorCache P)} {created : Nat} (h : cacheMap.Holds held created)
    (zero key : T) :
    (key ∉ held.map (fun item => item.2.1) ∧ cacheMap.get zero key = (.ok none, cacheMap))
      ∨ ∃ a b p v, held = a ++ (p, key, v) :: b
          ∧ (cacheMap.get zero key).1 = .ok (some v)
          ∧ (cacheMap.get zero key).2.Holds (heldTouch held created key v) (created + 1)
          ∧ (cacheMap.get zero key).2.capacity = cacheMap.capacity := by
  rcases h.lookup key with ⟨hk, hl⟩ | ⟨a, b, p, v, hab, hl⟩
  · left
    refine ⟨hk, ?_⟩
    simp only [LruCacheMap.get, hl]
  · right
    refine ⟨a, b, p, v, hab, ?_⟩
    subst hab
    obtain ⟨q, hq, hh, hf, hk⟩ := h.unlink
    obtain ⟨q2, hq2, hh2⟩ := hh.link key v hk
    have e : cacheMap.get zero key = (.ok (some v), { cacheMap with
        queue := q2
        store := mapDelete cacheMap.store key
          ++ [(key, { data := v, linkedListPointer := created })] }) := by
      simp only [LruCacheMap.get, hl, hq]
      simp only at hq2
      simp only [hq2, mapAssign]
    rw [e]
    refine ⟨rfl, ?_, rfl⟩
    rw [heldTouch, hf]
    exact hh2

theorem LruCacheMap.Holds.remove {T P : Type} [DecidableEq T] {cacheMap : LruCacheMap T P}
    {held : List (Nat × T × VectorCache P)} {created : Nat} (h : cacheMap.Holds held created)
    (key : T) :
    (cacheMap.remove key).1 = .ok ()
      ∧ (cacheMap.remove key).2.Holds (held.filter fun item => item.2.1 ≠ key) created
      ∧ (cacheMap.remove key).2.capacity = cacheMap.capacity := by
  rcases h.lookup key with ⟨hk, hl⟩ | ⟨a, b, p, v, hab, hl⟩
  · have e : cacheMap.remove key = (.ok (), cacheMap) := by
      simp only [LruCacheMap.remove, hl]
    rw [e, (filter_find_of_not_mem (fun item : Nat × T × VectorCache P => item.2.1)
      held key hk).1]
    exact ⟨rfl, h, rfl⟩
  · subst hab
    obtain ⟨q, hq, hh, hf, hk⟩ := h.unlink
    have e : cacheMap.remove key = (.ok (), { cacheMap with
        queue := q, store := mapDelete cacheMap.store key }) := by
      simp only [LruCacheMap.remove, hl, hq]
    rw [e, hf]
    exact ⟨rfl, hh, rfl⟩

theorem LruCacheMap.Holds.evict {T P : Type} [DecidableEq T] {cacheMap : LruCacheMap T P}
    {created : Nat} {rest : List (Nat × T × VectorCache P)} {p : Nat} {k : T}
    {v : VectorCache P} (h : cacheMap.Holds ((p, k, v) :: rest) created) :
    ∃ queue, cacheMap.queue.removeFront = (.ok k, queue)
      ∧ mapLookup cacheMap.store k = some { data := v, linkedListPointer := p }
      ∧ LruCacheMap.Holds
          { cacheMap with queue := queue, store := mapDelete cacheMap.store k } rest created := by
  obtain ⟨h1, h2⟩ := @linkedList.Rep.removeFront_cons _ _ _ h.queue p k
    (rest.map fun item => (item.1, item.2.1)) (by simp)
  have hf := filter_find_of_nodup (fun item : Nat × T × VectorCache P => item.2.1) [] rest
    (p, k, v) h.nodup
  simp only [List.nil_append] at hf
  have hn := h.nodup
  simp only [List.map_cons, List.nodup_cons] at hn
  refine ⟨(cacheMap.queue.removeFront).2, by rw [← h1], ?_, ⟨by simpa using h2, ?_, hn.2⟩⟩
  · rw [mapLookup, h.store, List.find?_map]
    simp only [Function.comp_def]
    rw [hf.2]
    rfl
  · show mapDelete cacheMap.store k = _
    rw [mapDelete, h.store, List.filter_map]
    simp only [Function.comp_def]
    rw [hf.1]

theorem LruCacheMap.Holds.length {T P : Type} {cacheMap : LruCacheMap T P}
    {held : List (Nat × T × VectorCache P)} {created : Nat} (h : cacheMap.Holds held created) :
    cacheMap.store.length = held.length := by
  rw [h.store, List.length_map]

/-- What `insert` does to a cache in a consistent state, with the recording callback: when
the cache holds exactly `capacity > 0` entries the least recently used one is removed
(and recorded when dirty), otherwise nothing is removed; then `key -> value` is the most
recently used entry. -/
theorem LruCacheMap.Holds.insert {T P : Type} [DecidableEq T] {cacheMap : LruCacheMap T P}
    {held : List (Nat × T × VectorCache P)} {created : Nat} (h : cacheMap.Holds held created)
    (hc : 0 < cacheMap.capacity) (key : T) (value : VectorCache P)
    (log : List (T × VectorCache P)) :
    (cacheMap.insert key value recordWrite log).1 = .ok ()
      ∧ (cacheMap.insert key value recordWrite log).2.1.capacity = cacheMap.capacity
      ∧ ((held.length ≠ cacheMap.capacity
            ∧ (cacheMap.insert key value recordWrite log).2.1.Holds
                (heldTouch held created key value) (created + 1)
            ∧ (cacheMap.insert key value recordWrite log).2.2 = log)
        ∨ ∃ p k v rest, held = (p, k, v) :: rest ∧ held.length = cacheMap.capacity
            ∧ (cacheMap.insert key value recordWrite log).2.1.Holds
                (heldTouch rest created key value) (created + 1)
            ∧ (cacheMap.insert key value recordWrite log).2.2
                = if v.dirty then log ++ [(k, v)] else log) := by
  by_cases hfull : held.length = cacheMap.capacity
  · cases held with
    | nil => simp at hfull; omega
    | cons x rest =>
      obtain ⟨p, k, v⟩ := x
      obtain ⟨q, hq, hl, hh⟩ := h.evict
      obtain ⟨s1, s2, s3⟩ := hh.set key value
      have e : cacheMap.insert key value recordWrite log
          = (((({ cacheMap with queue := q, store := mapDelete cacheMap.store k } :
              LruCacheMap T P).set key value).1),
            (({ cacheMap with queue := q, store := mapDelete cacheMap.store k } :
              LruCacheMap T P).set key value).2,
            if v.dirty then log ++ [(k, v)] else log) := by
        have hlen : cacheMap.store.length = cacheMap.capacity := by rw [h.length]; exact hfull
        simp only [LruCacheMap.insert, hlen, if_true, hq, hl, recordWrite]
        cases v.dirty <;> simp
      rw [e]
      exact ⟨s1, s3, Or.inr ⟨p, k, v, rest, rfl, hfull, s2, rfl⟩⟩
  · obtain ⟨s1, s2, s3⟩ := h.set key value
    have e : cacheMap.insert key value recordWrite log
        = ((cacheMap.set key value).1, (cacheMap.set key value).2, log) := by
      have hlen : cacheMap.store.length ≠ cacheMap.capacity := by rw [h.length]; exact hfull
      simp only [LruCacheMap.insert, hlen, if_false]
    rw [e]
    exact ⟨s1, s3, Or.inl ⟨hfull, s2, rfl⟩⟩

theorem heldTouch_entries {T P : Type} [DecidableEq T] (held : List (Nat × T × VectorCache P))
    (created : Nat) (key : T) (value : VectorCache P) :
    (heldTouch held created key value).map (fun item => (item.2.1, item.2.2))
      = ((held.map fun item => (item.2.1, item.2.2)).filter fun item => item.1 ≠ key)
          ++ [(key, value)] := by
  rw [heldTouch, List.map_append, List.filter_map]
  rfl

theorem LruCacheMap.Refines.apply_op {T P : Type} [DecidableEq T] (zero : T)
    {state : LruCacheMap T P × List (T × VectorCache P)} {spec : LruSpec T P}
    (h : LruCacheMap.Refines state spec) (hc : 0 < spec.capacity) (op : LruOp T P) :
    (LruCacheMap.apply zero state op).1 = (spec.apply op).1
      ∧ LruCacheMap.Refines (LruCacheMap.apply zero state op).2 (spec.apply op).2
      ∧ (spec.apply op).2.capacity = spec.capacity := by
  obtain ⟨held, created, hh, he, hw, hcap⟩ := h
  obtain ⟨cacheMap, log⟩ := state
  simp only at hh hw hcap
  cases op with
  | get key =>
    rcases hh.get zero key with ⟨hk, e⟩ | ⟨a, b, p, v, hab, e1, e2, e3⟩
    · have hf : spec.entries.find? (fun item => item.1 = key) = none := by
        rw [he, List.find?_map]
        simp only [Function.comp_def]
        rw [(filter_find_of_not_mem (fun item : Nat × T × VectorCache P => item.2.1) held key
          hk).2]
        rfl
      simp only [LruCacheMap.apply, e, LruSpec.apply, hf]
      exact ⟨trivial, ⟨held, created, hh, he, hw, hcap⟩, trivial⟩
    · have hf : spec.entries.find? (fun item => item.1 = key) = some (key, v) := by
        rw [he, List.find?_map]
        simp only [Function.comp_def]
        have := (filter_find_of_nodup (fun item : Nat × T × VectorCache P => item.2.1) a b
          (p, key, v) (by rw [← hab]; exact hh.nodup)).2
        simp only at this
        rw [hab, this]
        rfl
      have e : cacheMap.get zero key = (.ok (some v), (cacheMap.get zero key).2) := by
        rw [← e1]
      simp only [LruCacheMap.apply, LruSpec.apply, hf]
      rw [e]
      refine ⟨rfl, ⟨_, _, by rw [e] at e2; exact e2, ?_, hw, by rw [e] at e3; exact e3.trans hcap⟩,
        rfl⟩
      rw [heldTouch_entries, ← he]
      rfl
  | set key value =>
    obtain ⟨s1, s2, s3⟩ := hh.set key value
    simp only [LruCacheMap.apply, LruSpec.apply, s1]
    refine ⟨rfl, ⟨_, _, s2, ?_, hw, s3.trans hcap⟩, rfl⟩
    rw [heldTouch_entries, ← he]
    rfl
  | remove key =>
    obtain ⟨s1, s2, s3⟩ := hh.remove key
    simp only [LruCacheMap.apply, LruSpec.apply, s1]
    refine ⟨rfl, ⟨_, _, s2, ?_, hw, s3.trans hcap⟩, trivial⟩
    show List.filter _ spec.entries = _
    rw [he, List.filter_map]
    rfl
  | insert key value =>
    obtain ⟨s1, s2, s3⟩ := hh.insert (by rw [hcap]; exact hc) key value log
    have hlen : spec.entries.length = held.length := by rw [he, List.length_map]
    rcases s3 with ⟨hne, k1, k2⟩ | ⟨p, k, v, rest, hheld, hfull, k1, k2⟩
    · have hne2 : ¬ spec.entries.length = spec.capacity := by rw [hlen, ← hcap]; exact hne
      simp only [LruCacheMap.apply, LruSpec.apply, s1, hne2, if_false]
      refine ⟨rfl, ⟨_, _, k1, ?_, by rw [k2]; exact hw, s2.trans hcap⟩, rfl⟩
      rw [heldTouch_entries, ← he]
      rfl
    · have hfull2 : spec.entries.length = spec.capacity := by rw [hlen, ← hcap]; exact hfull
      have hent : spec.entries = (k, v) :: rest.map (fun item => (item.2.1, item.2.2)) := by
        rw [he, hheld]
        rfl
      simp only [LruCacheMap.apply, LruSpec.apply, s1, hfull2, if_true]
      rw [hent]
      refine ⟨rfl, ⟨_, _, k1, ?_, by rw [k2, hw]; rfl, s2.trans hcap⟩, rfl⟩
      rw [heldTouch_entries]
      rfl

theorem LruCacheMap.Refines.run_ops {T P : Type} [DecidableEq T] (zero : T)
    (ops : List (LruOp T P)) :
    ∀ {state : LruCacheMap T P × List (T × VectorCache P)} {spec : LruSpec T P},
      LruCacheMap.Refines state spec → 0 < spec.capacity →
      (LruCacheMap.run zero state ops).1 = (spec.run ops).1
        ∧ LruCacheMap.Refines (LruCacheMap.run zero state ops).2 (spec.run ops).2 := by
  induction ops with
  | nil => intro state spec h _; exact ⟨rfl, h⟩
  | cons op ops ih =>
    intro state spec h hc
    obtain ⟨h1, h2, h3⟩ := h.apply_op zero hc op
    obtain ⟨h4, h5⟩ := ih h2 (by rw [h3]; exact hc)
    exact ⟨by simp only [LruCacheMap.run, LruSpec.run, h1, h4], h5⟩

theorem newCacheMap_refines (T P : Type) (capacity : Nat) :
    LruCacheMap.Refines (newCacheMap T P capacity, [])
      { capacity := capacity, entries := [], written := [] } :=
  ⟨[], 0, ⟨newLinkedList_rep T, rfl, List.nodup_nil⟩, rfl, rfl, rfl⟩

/-- C28: the cache refines an LRU map.  For every capacity above zero and every run of
`get`, `set`, `insert` and `remove` from the empty cache (with an eviction callback that
records its calls and returns no error), every operation returns what the abstract LRU map
returns, and afterwards the cache holds exactly the abstract entries, its queue lists their
keys from the least to the most recently used, and the callback was called exactly for the
evicted dirty entries.  In the abstract map `get`, `set` and `insert` make their key the most
recently used one, and `insert` into a map of exactly `capacity` entries first removes the
least recently used entry and otherwise removes nothing. -/
theorem LruCacheMap_refines_lru {T P : Type} [DecidableEq T] (zero : T) (capacity : Nat)
    (hc : 0 < capacity) (ops : List (LruOp T P)) :
    (LruCacheMap.run zero (newCacheMap T P capacity, []) ops).1
        = (LruSpec.run { capacity := capacity, entries := [], written := [] } ops).1
      ∧ (LruCacheMap.run zero (newCacheMap T P capacity, []) ops).2.2
        = (LruSpec.run { capacity := capacity, entries := [], written := [] } ops).2.written
      ∧ (LruCacheMap.run zero (newCacheMap T P capacity, []) ops).2.1.queue.content zero
        = .ok ((LruSpec.run { capacity := capacity, entries := [], written := [] }
            ops).2.entries.map Prod.fst)
      ∧ (LruCacheMap.run zero (newCacheMap T P capacity, []) ops).2.1.store.map
          (fun item => (item.1, item.2.data))
        = (LruSpec.run { capacity := capacity, entries := [], written := [] } ops).2.entries := by
  obtain ⟨h1, held, created, hh, he, hw, -⟩ :=
    LruCacheMap.Refines.run_ops zero ops (newCacheMap_refines T P capacity) hc
  refine ⟨h1, hw, ?_, ?_⟩
  · rw [(hh.queue.content zero).1, he]
    simp
  · rw [hh.store, he]
    simp


/-- The run of C28: keys 1..5 are inserted into a cache of capacity 5 with dirty vectors;
inserting 6 evicts key 1, inserting 7 evicts key 2, and after `get(3)` inserting 8 evicts
key 4. -/
theorem LruCacheMap_refines_lru_witness :
    0 < 5
      ∧ (LruSpec.run { capacity := 5, entries := [], written := [] }
          [LruOp.insert 1 (newVectorCache 1 11), .insert 2 (newVectorCache 1 12),
            .insert 3 (newVectorCache 1 13), .insert 4 (newVectorCache 1 14),
            .insert 5 (newVectorCache 1 15), .insert 6 (newVectorCache 1 16),
            .insert 7 (newVectorCache 1 17), .get 3,
            .insert 8 (newVectorCache 1 18)]).2.written
        = [(1, newVectorCache 1 11), (2, newVectorCache 1 12), (4, newVectorCache 1 14)]
      ∧ (LruCacheMap.run 0 (newCacheMap Nat Nat 5, [])
          [LruOp.insert 1 (newVectorCache 1 11), .insert 2 (newVectorCache 1 12),
            .insert 3 (newVectorCache 1 13), .insert 4 (newVectorCache 1 14),
            .insert 5 (newVectorCache 1 15), .insert 6 (newVectorCache 1 16),
            .insert 7 (newVectorCache 1 17), .get 3,
            .insert 8 (newVectorCache 1 18)]).2.2
        = [(1, newVectorCache 1 11), (2, newVectorCache 1 12), (4, newVectorCache 1 14)]
      ∧ (LruCacheMap.run 0 (newCacheMap Nat Nat 5, [])
          [LruOp.insert 1 (newVectorCache 1 11), .insert 2 (newVectorCache 1 12),
            .insert 3 (newVectorCache 1 13), .insert 4 (newVectorCache 1 14),
            .insert 5 (newVectorCache 1 15), .insert 6 (newVectorCache 1 16),
            .insert 7 (newVectorCache 1 17), .get 3,
            .insert 8 (newVectorCache 1 18)]).2.1.queue.content 0
        = .ok [5, 6, 7, 3, 8] :=
  ⟨by decide, by decide,
    (LruCacheMap_refines_lru 0 5 (by decide) _).2.1,
    (LruCacheMap_refines_lru 0 5 (by decide) _).2.2.1⟩

/-- C29: the claim fails on the code.  `insert` removes the least recently used entry from
the queue and from the map before it calls the callback.  In a cache of capacity 1 that
holds the dirty vector of key 1, `insert(2, ..)` with a callback that returns an error
returns that error, and the cache then holds nothing: the dirty vector of key 1 is gone. -/
theorem insert_drops_entry_when_callback_fails :
    ∃ cache1 cache2 : LruCacheMap Nat Nat,
      (newCacheMap Nat Nat 1).insert 1 (newVectorCache 1 0) recordWrite [] = (.ok (), cache1, [])
      ∧ cache1.containsKey 1 = true
      ∧ mapLookup (cache1.store.map fun item => (item.1, item.2.data)) 1
          = some { data := [0], dirty := true }
      ∧ cache1.insert 2 (vectorCacheFromArray [7]) (fun _ _ s => (.error .ioFailure, s)) ()
          = (.error .ioFailure, cache2, ())
      ∧ cache2.containsKey 1 = false ∧ cache2.store.length = 0
      ∧ cache2.queue.content 0 = .ok [] :=
  ⟨_, _, rfl, by decide, by decide, rfl, by decide, by decide, by decide⟩


/-! ### Target session identifying handles -/

theorem AllocTSIH.loop_eq (pool : Nat → Bool) (n i : Nat) :
    AllocTSIH.loop pool n i = (List.range' i n).find? fun j => !pool j := by
  induction n generalizing i with
  | zero => rfl
  | succ n ih =>
    rw [AllocTSIH.loop, List.range'_succ, List.find?_cons, ih]
    cases pool i <;> rfl

theorem find?_congr_mem {α : Type} (p q : α → Bool) (l : List α) (h : ∀ x ∈ l, p x = q x) :
    l.find? p = l.find? q := by
  induction l with
  | nil => rfl
  | cons a l ih =>
    rw [List.find?_cons, List.find?_cons, h a (by simp), ih (fun x hx => h x (by simp [hx]))]

theorem find?_range' (p : Nat → Bool) (n s : Nat) :
    ((List.range' s n).find? p = none ∧ ∀ i, s ≤ i → i < s + n → p i = false)
      ∨ ∃ r, (List.range' s n).find? p = some r ∧ s ≤ r ∧ r < s + n ∧ p r = true
          ∧ ∀ j, s ≤ j → j < r → p j = false := by
  induction n generalizing s with
  | zero =>
    left
    exact ⟨rfl, fun i h1 h2 => by omega⟩
  | succ n ih =>
    rw [List.range'_succ, List.find?_cons]
    cases hp : p s with
    | true =>
      right
      exact ⟨s, rfl, le_refl _, by omega, hp, fun j h1 h2 => by omega⟩
    | false =>
      rcases ih (s + 1) with ⟨h1, h2⟩ | ⟨r, h1, h2, h3, h4, h5⟩
      · left
        refine ⟨h1, ?_⟩
        intro i hi1 hi2
        rcases Nat.eq_or_lt_of_le hi1 with e | e
        · rw [← e]; exact hp
        · exact h2 i e (by omega)
      · right
        refine ⟨r, h1, by omega, by omega, h4, ?_⟩
        intro j hj1 hj2
        rcases Nat.eq_or_lt_of_le hj1 with e | e
        · rw [← e]; exact hp
        · exact h5 j e hj2

theorem smallestFree_spec (allocated : List Nat) :
    (smallestFree allocated = 0 ∧ ∀ i, 1 ≤ i → i ≤ 65534 → i ∈ allocated)
      ∨ (1 ≤ smallestFree allocated ∧ smallestFree allocated ≤ 65534
          ∧ smallestFree allocated ∉ allocated
          ∧ ∀ j, 1 ≤ j → j < smallestFree allocated → j ∈ allocated) := by
  unfold smallestFree
  rcases find?_range' (fun i => decide (i ∉ allocated)) 65534 1 with ⟨h1, h2⟩ | ⟨r, h1, h2, h3, h4, h5⟩
  · left
    rw [h1]
    refine ⟨rfl, ?_⟩
    intro i hi1 hi2
    simpa using h2 i hi1 (by omega)
  · right
    rw [h1]
    simp only [Option.getD_some]
    refine ⟨h2, by omega, by simpa using h4, ?_⟩
    intro j hj1 hj2
    simpa using h5 j hj1 hj2

theorem PoolHolds.alloc {pool : Nat → Bool} {allocated : List Nat}
    (h : PoolHolds pool allocated) :
    (AllocTSIH pool).1 = smallestFree allocated
      ∧ PoolHolds (AllocTSIH pool).2
          (if smallestFree allocated = 0 then allocated
            else smallestFree allocated :: allocated) := by
  obtain ⟨hp, hr⟩ := h
  have h0 : pool 0 = true := (hp 0).mpr (Or.inl rfl)
  have hloop : AllocTSIH.loop pool 65535 0
      = (List.range' 1 65534).find? fun i => decide (i ∉ allocated) := by
    rw [AllocTSIH.loop_eq, show (65535 : Nat) = 65534 + 1 from rfl, List.range'_succ,
      List.find?_cons, h0]
    simp only [Bool.not_true]
    apply find?_congr_mem
    intro x hx
    rw [List.mem_range'] at hx
    obtain ⟨k, hk, hxk⟩ := hx
    have := hp x
    by_cases hm : x ∈ allocated
    · have hpt := this.mpr (Or.inr (Or.inr hm))
      simp [hpt, hm]
    · have hpf : pool x = false := by
        cases hv : pool x with
        | false => rfl
        | true =>
          rcases this.mp hv with e | e | e
          · omega
          · omega
          · exact absurd e hm
      simp [hpf, hm]
  rcases find?_range' (fun i => decide (i ∉ allocated)) 65534 1 with
    ⟨h1, h2⟩ | ⟨r, h1, h2, h3, h4, h5⟩
  · have e : AllocTSIH pool = (0, pool) := by
      simp only [AllocTSIH, hloop, h1]
    have es : smallestFree allocated = 0 := by
      simp only [smallestFree, h1, Option.getD_none]
    rw [e, es]
    exact ⟨rfl, by simpa using ⟨hp, hr⟩⟩
  · have e : AllocTSIH pool = (r, Function.update pool r true) := by
      simp only [AllocTSIH, hloop, h1]
    have es : smallestFree allocated = r := by
      simp only [smallestFree, h1, Option.getD_some]
    rw [e, es]
    refine ⟨rfl, ?_⟩
    rw [if_neg (by omega)]
    constructor
    · intro i
      by_cases hi : i = r
      · subst hi
        simp
      · show Function.update pool r true i = true ↔ _
        rw [Function.update_noteq hi, hp i]
        simp [hi]
    · intro i hi
      rcases List.mem_cons.mp hi with e2 | e2
      · subst e2; omega
      · exact hr i e2

theorem PoolHolds.release {pool : Nat → Bool} {allocated : List Nat}
    (h : PoolHolds pool allocated) {tsih : Nat} (ht : tsih ∈ allocated) :
    PoolHolds (ReleaseTSIH pool tsih) (allocated.filter fun i => i ≠ tsih) := by
  obtain ⟨hp, hr⟩ := h
  have hb := hr tsih ht
  constructor
  · intro i
    unfold ReleaseTSIH
    by_cases hi : i = tsih
    · subst hi
      simp
      omega
    · rw [Function.update_noteq hi, hp i]
      simp [hi]
  · intro i hi
    exact hr i (List.mem_filter.mp hi).1

theorem PoolHolds.run_calls (ops : List HandleOp) :
    ∀ {pool : Nat → Bool} {allocated : List Nat}, PoolHolds pool allocated →
      releasesAllocated allocated ops → runHandles pool ops = specHandles allocated ops := by
  induction ops with
  | nil => intro _ _ _ _; rfl
  | cons op ops ih =>
    intro pool allocated h hrel
    cases op with
    | alloc =>
      obtain ⟨h1, h2⟩ := h.alloc
      simp only [runHandles, specHandles, h1]
      rw [ih h2 hrel]
    | release tsih =>
      obtain ⟨ht, hrest⟩ := hrel
      simp only [runHandles, specHandles]
      exact ih (h.release ht) hrest

theorem newHandlePool_holds : PoolHolds newHandlePool [] := by
  constructor
  · intro i
    simp [newHandlePool]
  · intro i hi
    cases hi

/-- C19: from a new driver, for every sequence of `AllocTSIH` calls and `ReleaseTSIH` calls
of handles that are allocated at that moment, every `AllocTSIH` returns what the abstract
first-fit allocator returns; that value is the smallest handle of 1..0xFFFE that is not
allocated, and it is 0 only when all 65534 handles are allocated; 0xFFFF is never
returned. -/
theorem AllocTSIH_first_fit (ops : List HandleOp) (h : releasesAllocated [] ops) :
    runHandles newHandlePool ops = specHandles [] ops
      ∧ (∀ r ∈ runHandles newHandlePool ops, r ≠ 65535)
      ∧ ∀ allocated : List Nat,
          (smallestFree allocated = 0 ∧ ∀ i, 1 ≤ i → i ≤ 65534 → i ∈ allocated)
            ∨ (1 ≤ smallestFree allocated ∧ smallestFree allocated ≤ 65534
                ∧ smallestFree allocated ∉ allocated
                ∧ ∀ j, 1 ≤ j → j < smallestFree allocated → j ∈ allocated) := by
  have hrun := PoolHolds.run_calls ops newHandlePool_holds h
  refine ⟨hrun, ?_, smallestFree_spec⟩
  rw [hrun]
  have : ∀ (ops : List HandleOp) (allocated : List Nat),
      ∀ r ∈ specHandles allocated ops, r ≠ 65535 := by
    intro ops
    induction ops with
    | nil => intro _ r hr; cases hr
    | cons op ops ih =>
      intro allocated r hr
      cases op with
      | alloc =>
        simp only [specHandles, List.mem_cons] at hr
        rcases hr with e | e
        · rcases smallestFree_spec allocated with ⟨k, -⟩ | ⟨-, k, -⟩ <;> omega
        · exact ih _ r e
      | release tsih => exact ih _ r hr
  exact this ops []

theorem AllocTSIH_first_fit_witness :
    releasesAllocated [] [.alloc, .alloc, .alloc, .release 2, .alloc, .alloc]
      ∧ runHandles newHandlePool [.alloc, .alloc, .alloc, .release 2, .alloc, .alloc]
        = [1, 2, 3, 2, 4] :=
  have h : releasesAllocated [] [.alloc, .alloc, .alloc, .release 2, .alloc, .alloc] :=
    ⟨by decide, trivial⟩
  ⟨h, (AllocTSIH_first_fit _ h).1.trans (by decide)⟩


/-! ### The iSCSI task queue -/

/-- C15: the claim fails on the code.  `Push` appends and `Pop` takes the last element, so
the queue is a stack: after pushing the commands with CmdSN 5 and then 7, `Pop` returns the
one with CmdSN 7, not the smallest. -/
theorem taskQueue_Pop_returns_last_pushed :
    taskQueue.Pop (taskQueue.Push (taskQueue.Push [] (commandWithSN 5)) (commandWithSN 7))
      = .ok (commandWithSN 7, [commandWithSN 5]) := by
  decide

/-- C14: the claim fails on the code.  In a session with ExpCmdSN 5, when the commands with
CmdSN 6, 7 and 5 arrive in this order, only command 5 is executed: `Pop` then returns
command 7, which is not the expected 6, so it is pushed back and commands 6 and 7 stay in
the queue.  (For the arrival order 7, 5, 6 of the claim the commands are executed as 5, 6,
7.) -/
theorem iscsiTaskQueueHandler_strands_commands :
    arrivals { ExpCmdSN := 5, PendingTasks := [], executed := [] }
        [commandWithSN 6, commandWithSN 7, commandWithSN 5]
      = { ExpCmdSN := 6, PendingTasks := [commandWithSN 6, commandWithSN 7],
          executed := [commandWithSN 5] }
      ∧ arrivals { ExpCmdSN := 5, PendingTasks := [], executed := [] }
        [commandWithSN 7, commandWithSN 5, commandWithSN 6]
      = { ExpCmdSN := 8, PendingTasks := [],
          executed := [commandWithSN 5, commandWithSN 6, commandWithSN 7] } := by
  decide

/-- C26: the claim fails on the code for ABORT TASK SET (2) and LOGICAL UNIT RESET (5),
whose cases are empty: the result of a new task stays 0x00 (Function complete) instead of
0x05 (Not supported).  ABORT TASK behaves as claimed, and CLEAR ACA (3) gives 0x05. -/
theorem taskManagement_empty_cases :
    (iscsiExecTask.taskManagement 2 9 { tag := 1, CmdSN := 1, Immediate := true, result := 0 }
        [commandWithSN 7]).1.result = 0x00
      ∧ (iscsiExecTask.taskManagement 5 9 { tag := 1, CmdSN := 1, Immediate := true, result := 0 }
        [commandWithSN 7]).1.result = 0x00
      ∧ (iscsiExecTask.taskManagement 3 9 { tag := 1, CmdSN := 1, Immediate := true, result := 0 }
        [commandWithSN 7]).1.result = 0x05
      ∧ iscsiExecTask.taskManagement 1 7 { tag := 1, CmdSN := 1, Immediate := true, result := 0 }
        [commandWithSN 6, commandWithSN 7]
        = ({ tag := 1, CmdSN := 1, Immediate := true, result := 0x00 }, [commandWithSN 6])
      ∧ iscsiExecTask.taskManagement 1 9 { tag := 1, CmdSN := 1, Immediate := true, result := 0 }
        [commandWithSN 6, commandWithSN 7]
        = ({ tag := 1, CmdSN := 1, Immediate := true, result := 0x01 },
            [commandWithSN 6, commandWithSN 7]) := by
  decide

/-! ### Index arithmetic and size limits -/

/-- C34: for a power-of-two cluster size `cs = 2 ^ cb >= 8` that fits 64 bits, with
`l2Size = cs / 8`, a cluster mask `cs - 1` and `e > 0` refcounts per block, the L1 index of an
address is `(a / cs) / l2Size`, its L2 index `(a / cs) mod l2Size`, and with the offset in
the cluster they rebuild `a`; the refcount table index is `(a / cs) / e` and the block index
`(a / cs) mod e`, which rebuild `a / cs`. -/
theorem index_arithmetic (header : ImageHeader) (rawFile : QcowRawFile) (a cb e : Nat)
    (hcb : 3 ≤ cb ∧ cb < 64) (hcs : header.clusterSize = 2 ^ cb)
    (hl2 : header.l2Size = header.clusterSize / 8)
    (hmask : rawFile.clusterMask = sub64 header.clusterSize 1) (he : 0 < e) :
    ∃ l1 l2 table block,
      l1TableIndex header a = .ok l1 ∧ l2TableIndex header a = .ok l2
        ∧ l1 = (a / header.clusterSize) / header.l2Size
        ∧ l2 = (a / header.clusterSize) % header.l2Size
        ∧ (l1 * header.l2Size + l2) * header.clusterSize + rawFile.clusterOffset a = a
        ∧ l2 < header.l2Size ∧ rawFile.clusterOffset a < header.clusterSize
        ∧ getRefcountIndex a header.clusterSize e = .ok (table, block)
        ∧ table = (a / header.clusterSize) / e ∧ block = (a / header.clusterSize) % e
        ∧ table * e + block = a / header.clusterSize ∧ block < e := by
  have hpos : 0 < 2 ^ cb := Nat.two_pow_pos cb
  have h8 : 8 ≤ 2 ^ cb := by
    calc 8 = 2 ^ 3 := by norm_num
      _ ≤ 2 ^ cb := Nat.pow_le_pow_right (by norm_num) hcb.1
  have hl2pos : 0 < header.l2Size := by
    rw [hl2, hcs]
    exact Nat.div_pos h8 (by norm_num)
  have hoff : rawFile.clusterOffset a = a % header.clusterSize := by
    rw [QcowRawFile.clusterOffset, hmask, hcs, clusterMask_eq hcb.2,
      Nat.and_pow_two_sub_one_eq_mod]
  refine ⟨_, _, _, _, ?_, ?_, rfl, rfl, ?_, ?_, ?_, ?_, rfl, rfl, ?_, ?_⟩
  · rw [l1TableIndex, if_neg (by omega), if_neg (by omega)]
  · rw [l2TableIndex, if_neg (by omega), if_neg (by omega)]
  · rw [hoff, Nat.mul_comm _ header.l2Size, Nat.div_add_mod, Nat.mul_comm,
      Nat.div_add_mod]
  · exact Nat.mod_lt _ hl2pos
  · rw [hoff]
    exact Nat.mod_lt _ (by omega)
  · rw [getRefcountIndex, if_neg (by omega), if_neg (by omega)]
  · rw [Nat.mul_comm, Nat.div_add_mod]
  · exact Nat.mod_lt _ he

theorem index_arithmetic_witness :
    ∃ l1 l2 table block,
      l1TableIndex createdHeader10MiB 5000000 = .ok l1
        ∧ l2TableIndex createdHeader10MiB 5000000 = .ok l2
        ∧ l1 = (5000000 / createdHeader10MiB.clusterSize) / createdHeader10MiB.l2Size
        ∧ l2 = (5000000 / createdHeader10MiB.clusterSize) % createdHeader10MiB.l2Size
        ∧ (l1 * createdHeader10MiB.l2Size + l2) * createdHeader10MiB.clusterSize
            + QcowRawFile.clusterOffset
                { file := ⟨File.empty, true⟩, clusterSize := 65536, clusterMask := 65535,
                  readOnly := false } 5000000 = 5000000
        ∧ l2 < createdHeader10MiB.l2Size
        ∧ QcowRawFile.clusterOffset
            { file := ⟨File.empty, true⟩, clusterSize := 65536, clusterMask := 65535,
              readOnly := false } 5000000 < createdHeader10MiB.clusterSize
        ∧ getRefcountIndex 5000000 createdHeader10MiB.clusterSize 32768 = .ok (table, block)
        ∧ table = (5000000 / createdHeader10MiB.clusterSize) / 32768
        ∧ block = (5000000 / createdHeader10MiB.clusterSize) % 32768
        ∧ table * 32768 + block = 5000000 / createdHeader10MiB.clusterSize ∧ block < 32768 :=
  index_arithmetic createdHeader10MiB
    { file := ⟨File.empty, true⟩, clusterSize := 65536, clusterMask := 65535,
      readOnly := false } 5000000 16 32768 (by decide) (by decide) (by decide) (by decide)
    (by decide)

/-- C40: the claim fails on the code.  For `cluster_bits = 20` the product
`L1TableMaxSize * clusterSize * clusterSize = 2 ^ 65` wraps to 0 in `uint64`, so
`diskSizeLimitForCluster` is 0 and `validateVirtualDiskSize` rejects a virtual size of 1 MiB,
far below `32 MiB * clusterSize ^ 2 / 64 = 2 ^ 59`. -/
theorem diskSizeLimitForCluster_wraps :
    megabyteClusterHeader.clusterBits = 20
      ∧ megabyteClusterHeader.clusterSize = getClusterSize 20
      ∧ megabyteClusterHeader.diskSizeLimitForCluster = 0
      ∧ megabyteClusterHeader.validateVirtualDiskSize = .error .virtualDiskSizeTooLarge
      ∧ megabyteClusterHeader.virtualDiskSizeBytes
          ≤ 32 * 1024 * 1024 * megabyteClusterHeader.clusterSize ^ 2 / 64 :=
  ⟨rfl, rfl, rfl, rfl, by decide⟩

/-- C39: the claim fails on the code.  `createHeaderForSizeAndPath(1000, nil)` returns a
header, `writeToFile` writes it, and `imageHeaderFromFile` on the written file fails in
`validateL1TableOffset`: the L1 table offset 65536 is above the virtual size 1000. -/
theorem createHeaderForSizeAndPath_small_size_rejected :
    (createHeaderForSizeAndPath 1000 none).isOk = true
      ∧ ((createHeaderForSizeAndPath 1000 none).bind fun header =>
          header.writeToFile File.empty).isOk = true
      ∧ ((createHeaderForSizeAndPath 1000 none).bind fun header =>
          (header.writeToFile File.empty).bind imageHeaderFromFile)
        = .error .l1TableOffsetBeyondVirtualSize := by
  set_option maxRecDepth 10000 in decide

/-! ### SCSI command layer -/

theorem bigEndianUint_of_short_slice (s : List Byte) (a b width : Nat) (h : b - a < width) :
    (sliceOf s a b).bind (bigEndianUint width) = .crash := by
  unfold sliceOf
  split
  · simp only [Outcome.bind, bigEndianUint]
    rw [if_pos]
    simp only [List.length_take, List.length_drop]
    omega
  · rfl

theorem byteAt_cases (s : List Byte) (i : Nat) :
    (∃ v, byteAt s i = .ok v) ∨ byteAt s i = .crash := by
  unfold byteAt
  cases s.get? i <;> simp

theorem copyBytes_length (dst src : List Byte) : (copyBytes dst src).length = dst.length := by
  simp only [copyBytes, List.length_append, List.length_take, List.length_drop]
  omega

theorem copyBytes_take (dst src : List Byte) (h : src.length ≤ dst.length) :
    (copyBytes dst src).take src.length = src := by
  simp only [copyBytes]
  rw [List.take_of_length_le h, List.take_left']
  rfl

/-- C21 (the code differs): `types.go` declares `ModeSense10` as `0x5`, so the dispatch of
`PerformCommand` answers the MODE SENSE(10) operation code 5Ah with INVALID OPCODE and
routes operation code 05h, which is not in the claimed table, to `SPCModeSense10`. -/
theorem PerformCommand_misroutes_mode_sense_10 (SCB : List Byte) :
    PerformCommand.handler 0x5A SCB = .ok .invalidOpCode ∧
    PerformCommand.handler 0x05 SCB = .ok .SPCModeSense10 :=
  ⟨rfl, rfl⟩

/-- C22 (the code differs): SYNCHRONIZE CACHE(10) for LBA FFFFFFFFh and one block on a
1 GiB unit (2097152 blocks) is out of range for `validateOffsetLength`, yet `SbcSyncCache`
returns GOOD without sense data and calls `DataSync` on the backing store. -/
theorem SbcSyncCache_skips_range_check :
    validateOffsetLength 1 0xFFFFFFFF (2 ^ 30 >>> 9) = false ∧
    (SbcSyncCache (NewSCSILu (2 ^ 30) 1000 blankStore)
        (commandOfCDB [0x35, 0, 0xFF, 0xFF, 0xFF, 0xFF, 0, 0, 1, 0] (targetWith [0]) none)).bind
      (fun r => .ok (r.1, r.2.1.SenseBuffer, r.2.2.calls))
      = .ok (SamStatGood, none, [StoreCall.DataSync]) := by
  constructor
  · decide
  · rfl

/-- C23: on a unit of `B = Size >> 9 ≥ 1` blocks, READ CAPACITY(10) with a zero LBA field
and a data-in buffer of at least 8 bytes returns GOOD; bytes 0-3 of the buffer are the
big-endian `min(B - 1, 0xFFFFFFFF)` and bytes 4-7 the big-endian 512. -/
theorem SBCReadCapacity_reports_last_block (device : LogicalUnit) (command : SCSICommand)
    (buffer : SCSIDataBuffer) (pmi : Nat)
    (hshift : device.BlockShift = 9) (hsize : device.Size < 2 ^ 64)
    (hblocks : 1 ≤ device.Size >>> 9)
    (h8 : byteAt command.SCB 8 = .ok pmi)
    (h2 : byteAt command.SCB 2 = .ok 0) (h3 : byteAt command.SCB 3 = .ok 0)
    (h4 : byteAt command.SCB 4 = .ok 0) (h5 : byteAt command.SCB 5 = .ok 0)
    (hbuffer : command.InSDBBuffer = some buffer)
    (hlength : 8 ≤ buffer.Length) (hbytes : 8 ≤ buffer.Buffer.length) :
    ∃ result : SCSICommand, ∃ data : SCSIDataBuffer,
      SBCReadCapacity device command = .ok (SamStatGood, result) ∧
      result.InSDBBuffer = some data ∧
      data.Buffer.take 4 = uint32ToByte (min (device.Size >>> 9 - 1) 0xFFFFFFFF) ∧
      (data.Buffer.drop 4).take 4 = uint32ToByte 512 ∧
      data.Buffer.length = buffer.Buffer.length := by
  have hvalue : (if device.Size >>> 9 >>> 32 ≠ 0 then
        copyBytes buffer.Buffer (uint32ToByte 0xffffffff)
      else copyBytes buffer.Buffer (uint32ToByte (wrap32 (sub64 (device.Size >>> 9) 1))))
      = copyBytes buffer.Buffer (uint32ToByte (min (device.Size >>> 9 - 1) 0xFFFFFFFF)) := by
    have hlt : device.Size >>> 9 < 2 ^ 64 := by
      rw [Nat.shiftRight_eq_div_pow]
      exact lt_of_le_of_lt (Nat.div_le_self _ _) hsize
    by_cases hbig : device.Size >>> 9 >>> 32 = 0
    · rw [if_neg (not_not.mpr hbig)]
      rw [Nat.shiftRight_eq_div_pow] at hbig
      have h32 : device.Size >>> 9 < 2 ^ 32 := by
        by_contra hge
        have : 1 ≤ device.Size >>> 9 / 2 ^ 32 :=
          (Nat.one_le_div_iff (by decide)).mpr (not_lt.mp hge)
        omega
      have hsub : wrap32 (sub64 (device.Size >>> 9) 1) = device.Size >>> 9 - 1 := by
        unfold wrap32 sub64
        rw [if_pos hblocks]
        apply Nat.mod_eq_of_lt
        norm_num at h32
        omega
      rw [hsub, min_eq_left]
      norm_num at h32
      omega
    · rw [if_pos hbig]
      rw [Nat.shiftRight_eq_div_pow] at hbig
      have h32 : 2 ^ 32 ≤ device.Size >>> 9 := by
        by_contra hlt32
        exact hbig (Nat.div_eq_of_lt (not_le.mp hlt32))
      rw [min_eq_right]
      norm_num at h32
      omega
  have hfirst : (copyBytes buffer.Buffer
      (uint32ToByte (min (device.Size >>> 9 - 1) 0xFFFFFFFF))).length = buffer.Buffer.length :=
    copyBytes_length _ _
  unfold SBCReadCapacity
  simp only [bind, Outcome.bind, h8, h2, h3, h4, h5, hbuffer, hshift]
  have hzero : decide ((0 ||| 0 ||| 0 ||| 0 : Nat) ≠ 0) = false := rfl
  simp only [hzero, Bool.false_eq_true, if_false, ite_self]
  rw [if_neg (not_lt.mpr hlength), hvalue]
  have hfour : 4 ≤ (copyBytes buffer.Buffer
      (uint32ToByte (min (device.Size >>> 9 - 1) 0xFFFFFFFF))).length := by
    rw [hfirst]
    omega
  unfold sliceFrom
  rw [if_pos hfour]
  refine ⟨_, _, rfl, rfl, ?_, ?_, ?_⟩
  · show List.take 4 (List.take 4 _ ++ _) = _
    rw [List.take_left']
    · exact copyBytes_take buffer.Buffer
        (uint32ToByte (min (device.Size >>> 9 - 1) 0xFFFFFFFF))
        (le_trans (show 4 ≤ 8 by decide) hbytes)
    · rw [List.length_take, hfirst]
      omega
  · show List.take 4 (List.drop 4 (List.take 4 _ ++ _)) = _
    rw [List.drop_left']
    · exact copyBytes_take
        (List.drop 4 (copyBytes buffer.Buffer
          (uint32ToByte (min (device.Size >>> 9 - 1) 0xFFFFFFFF))))
        (uint32ToByte 512)
        (by
          rw [List.length_drop, hfirst]
          exact le_trans (show 4 ≤ 8 - 4 by decide) (Nat.sub_le_sub_right hbytes 4))
    · rw [List.length_take, hfirst]
      omega
  · show (List.take 4 _ ++ _).length = _
    rw [List.length_append, List.length_take, hfirst, copyBytes_length, List.length_drop,
      hfirst]
    omega

/-- C23 on a 1 GiB unit: last LBA 2097151 and block size 512. -/
theorem SBCReadCapacity_reports_last_block_witness :
    ∃ result : SCSICommand, ∃ data : SCSIDataBuffer,
      SBCReadCapacity (NewSCSILu (2 ^ 30) 1000 blankStore)
        (commandOfCDB [0x25, 0, 0, 0, 0, 0, 0, 0, 0, 0] (targetWith [0])
          (some (filledBuffer 8))) = .ok (SamStatGood, result) ∧
      result.InSDBBuffer = some data ∧
      data.Buffer.take 4 = uint32ToByte (min (2 ^ 30 >>> 9 - 1) 0xFFFFFFFF) ∧
      (data.Buffer.drop 4).take 4 = uint32ToByte 512 ∧
      data.Buffer.length = 8 ∧
      uint32ToByte (min (2 ^ 30 >>> 9 - 1) 0xFFFFFFFF) = uint32ToByte 2097151 :=
  have h := SBCReadCapacity_reports_last_block (NewSCSILu (2 ^ 30) 1000 blankStore)
    (commandOfCDB [0x25, 0, 0, 0, 0, 0, 0, 0, 0, 0] (targetWith [0]) (some (filledBuffer 8)))
    (filledBuffer 8) 0 rfl (by decide) (by decide) rfl rfl rfl rfl rfl rfl (by decide)
    (by decide)
  match h with
  | ⟨result, data, h1, h2, h3, h4, h5⟩ => ⟨result, data, h1, h2, h3, h4, h5, by decide⟩

/-- C35 (the code differs): REPORT LUNS with allocation length 32 on a target whose only
logical unit is LUN 1 returns GOOD with LUN LIST LENGTH 16, but only 20 bytes of parameter
data are written (the buffer was preset to FFh): the entry added for LUN 0 is 4 bytes long,
so the second entry starts at byte 12 and byte 17 is not the LUN number 1. -/
theorem SPCReportLuns_short_entry_for_lun_zero :
    (SPCReportLuns (commandOfCDB [0xA0, 0, 0, 0, 0, 0, 0, 0, 0, 32, 0, 0] (targetWith [1])
        (some (filledBuffer 32)))).bind
      (fun r => .ok (r.1, r.2.InSDBBuffer.map fun b => b.Buffer))
      = .ok (SamStatGood, some
          [0, 0, 0, 16, 0, 0, 0, 0,
           0, 0, 0, 0, 0, 1, 0, 0,
           0, 0, 0, 0, 0xFF, 0xFF, 0xFF, 0xFF,
           0xFF, 0xFF, 0xFF, 0xFF, 0xFF, 0xFF, 0xFF, 0xFF]) := by
  rfl

/-- C36 (the code differs): INQUIRY with EVPD = 1 for page B2h returns a page whose byte 1
is B0h, and for page 80h a page whose PAGE LENGTH field is 36 although 48 bytes follow the
4-byte header (the buffer of 64 bytes was preset to FFh; bytes 4-51 are written). -/
theorem SPCInquiry_vpd_pages_mislabelled :
    (SPCInquiry (some (NewSCSILu (2 ^ 30) 1000 blankStore))
        (commandOfCDB [0x12, 1, 0xB2, 0, 0xFF, 0] (targetWith [0]) (some (filledBuffer 64)))).bind
      (fun r => .ok (r.1, r.2.InSDBBuffer.map fun b => b.Buffer.take 9))
      = .ok (SamStatGood, some [0, 0xB0, 0, 4, 0, 0, 0, 0, 0xFF]) ∧
    (SPCInquiry (some (NewSCSILu (2 ^ 30) 1000 blankStore))
        (commandOfCDB [0x12, 1, 0x80, 0, 0xFF, 0] (targetWith [0]) (some (filledBuffer 64)))).bind
      (fun r => .ok (r.1, r.2.InSDBBuffer.map fun b => (b.Buffer.take 4, b.Buffer.drop 48)))
      = .ok (SamStatGood, some ([0, 0x80, 0, 36],
          [0x20, 0x20, 0x20, 0x20, 0xFF, 0xFF, 0xFF, 0xFF, 0xFF, 0xFF, 0xFF, 0xFF,
           0xFF, 0xFF, 0xFF, 0xFF])) := by
  constructor <;> rfl

/-- C37 (the code differs): `SPCModeSense10` never returns a status: it reads the
allocation length with `binary.BigEndian.Uint32` from the two-byte slice `SCB[7:9]`, which
panics for every CDB (and a CDB too short for that slice panics as well). -/
theorem SPCModeSense10_always_panics (device : LogicalUnit) (command : SCSICommand) :
    SPCModeSense10 device command = .crash := by
  have h := bigEndianUint_of_short_slice command.SCB 7 9 4 (by decide)
  unfold SPCModeSense10
  simp only [bind, Outcome.bind] at h ⊢
  rcases byteAt_cases command.SCB 1 with ⟨v1, h1⟩ | h1 <;> rw [h1]
  rcases byteAt_cases command.SCB 2 with ⟨v2, h2⟩ | h2 <;> rw [h2]
  rcases byteAt_cases command.SCB 3 with ⟨v3, h3⟩ | h3 <;> rw [h3]
  simp only []
  rw [h]

/-- C38 (the code differs): READ(16) of 8388608 blocks (4 GiB) at LBA 0 on an 8 GiB unit
passes the range check, but `TransferLength = 8388608 << 9` wraps to 0 in 32 bits: the
backing store is asked for 0 bytes and the command returns GOOD. -/
theorem SBCRead_transfer_length_wraps :
    validateOffsetLength 8388608 0 (2 ^ 33 >>> 9) = true ∧
    (SBCRead (NewSCSILu (2 ^ 33) 1000 blankStore)
        (commandOfCDB [0x88, 0, 0, 0, 0, 0, 0, 0, 0, 0, 0, 0x80, 0, 0, 0, 0] (targetWith [0])
          (some (filledBuffer 0)))).bind
      (fun r => .ok (r.1, r.2.1.Offset, r.2.1.TransferLength, r.2.2.calls))
      = .ok (SamStatGood, 0, 0, [StoreCall.Read 0 0]) := by
  constructor
  · decide
  · rfl

/-! ### Login key-value text -/

/-- C31 (the code differs): the list `A=1`, `B=x=y` has distinct keys without `=` or NUL
and values without NUL, but parsing its serialisation yields a map with the single entry
`A ↦ 1`: the pair whose value contains `=` splits into three pieces and is skipped. -/
theorem ParseIscsiKeyValue_drops_value_with_equals_sign :
    UnparseIscsiKeyValue [⟨[0x41], [0x31]⟩, ⟨[0x42], [0x78, 0x3d, 0x79]⟩]
      = [0x41, 0x3d, 0x31, 0, 0x42, 0x3d, 0x78, 0x3d, 0x79] ∧
    ParseIscsiKeyValue
        (UnparseIscsiKeyValue [⟨[0x41], [0x31]⟩, ⟨[0x42], [0x78, 0x3d, 0x79]⟩])
      = [([0x41], [0x31])] ∧
    mapLookup (ParseIscsiKeyValue
        (UnparseIscsiKeyValue [⟨[0x41], [0x31]⟩, ⟨[0x42], [0x78, 0x3d, 0x79]⟩])) [0x42]
      = none := by
  decide

/-! ### Login negotiation -/

/-- C16 (the code differs): `DataPDUInOrder` is a constant key, but its conversion is
`numberKeyConv`, so for the proposal `DataPDUInOrder=Yes` the conversion fails and
`processLoginData` adds no pair for the key to the response (the same happens for any
proposal that does not convert, such as `InitialR2T=maybe`). -/
theorem processLoginData_constant_key_unanswered :
    (processLoginData { iscsiConnection.init with iniNSG := FullFeaturePhase, iniTrans := true }
        [(ascii "DataPDUInOrder", ascii "Yes")]).bind (fun r => .ok r.1) = .ok [] ∧
    (processLoginData { iscsiConnection.init with iniNSG := FullFeaturePhase, iniTrans := true }
        [(ascii "InitialR2T", ascii "maybe")]).bind (fun r => .ok r.1) = .ok [] ∧
    (processLoginData { iscsiConnection.init with iniNSG := FullFeaturePhase, iniTrans := true }
        [(ascii "DataPDUInOrder", ascii "0")]).bind (fun r => .ok r.1)
      = .ok [⟨ascii "DataPDUInOrder", ascii "1"⟩] := by
  decide

/-- C18 (the code differs): the proposal `HeaderDigest=CRC32C` converts to `DigestCrc32c`,
which the coercion (applied to `DigestAll` only) leaves alone: the value 2 is stored, so
`Value & DigestCrc32c` is non-zero, and `HeaderDigest=CRC32C` is echoed. The proposals
`CRC32C,None` and `None,CRC32C` are coerced to `None`. -/
theorem processLoginData_keeps_crc32c_alone :
    (processLoginData { iscsiConnection.init with iniNSG := FullFeaturePhase, iniTrans := true }
        [(ascii "HeaderDigest", ascii "CRC32C")]).bind
      (fun r => .ok (r.1, r.2.1.sessionParam.get? 1))
      = .ok ([⟨ascii "HeaderDigest", ascii "CRC32C"⟩], some DigestCrc32c) ∧
    DigestCrc32c &&& DigestCrc32c ≠ 0 ∧
    (processLoginData { iscsiConnection.init with iniNSG := FullFeaturePhase, iniTrans := true }
        [(ascii "HeaderDigest", ascii "CRC32C,None")]).bind
      (fun r => .ok (r.1, r.2.1.sessionParam.get? 1))
      = .ok ([⟨ascii "HeaderDigest", ascii "None"⟩], some DigestNone) := by
  decide

/-- C17 (counterexample): the proposal `DefaultTime2Retain=5000` exceeds the maximum 3600;
the response echoes the target default 20, not the clamped value 3600, and the stored
parameter stays 20. -/
theorem processLoginData_out_of_range_not_clamped :
    (processLoginData { iscsiConnection.init with iniNSG := FullFeaturePhase, iniTrans := true }
        [(ascii "DefaultTime2Retain", ascii "5000")]).bind
      (fun r => .ok (r.1, r.2.1.sessionParam.get? 14))
      = .ok ([⟨ascii "DefaultTime2Retain", ascii "20"⟩], some 20) := by
  decide

theorem mapLookup_mem {T E : Type} [DecidableEq T] (store : List (T × E)) (key : T) (entry : E)
    (h : mapLookup store key = some entry) : (key, entry) ∈ store := by
  unfold mapLookup at h
  cases hfind : store.find? (fun item => item.1 = key) with
  | none => rw [hfind] at h; cases h
  | some item =>
    rw [hfind] at h
    have hmem := List.mem_of_find?_eq_some hfind
    have hkey := List.find?_some hfind
    simp only [Option.map_some', Option.some.injEq] at h
    simp only [decide_eq_true_eq] at hkey
    have : item = (key, entry) := by
      rw [← hkey, ← h]
    rw [← this]
    exact hmem

theorem sessionKeys_bounded :
    ∀ item ∈ sessionKeys, item.2.constValue = false →
      (item.1 = ascii "HeaderDigest" ∨ item.1 = ascii "DataDigest"
        ∨ item.1 = ascii "DefaultTime2Retain") ∧ item.2.idx < sessionKeys.length := by
  decide

theorem processLoginData.step_bounded (state : LoginDataState) (key val : List Byte)
    (defSessKey : iscsiSessionKeys) (v : Nat)
    (h1 : key ≠ ascii "MaxRecvDataSegmentLength") (h2 : key ≠ ascii "InitiatorName")
    (h3 : key ≠ ascii "InitiatorAlias") (h4 : key ≠ ascii "TargetName")
    (h5 : key ≠ ascii "SessionType")
    (hkey : mapLookup sessionKeys key = some defSessKey)
    (hbounded : defSessKey.constValue = false)
    (hconv : defSessKey.kind.conv val = (v, true))
    (hidx : defSessKey.idx < state.loginParam.sessionParam.length) :
    processLoginData.step state key val =
      if defSessKey.min ≤
            (if (key = ascii "HeaderDigest" ∨ key = ascii "DataDigest") ∧ v = DigestAll
              then DigestNone else v) ∧
          (if (key = ascii "HeaderDigest" ∨ key = ascii "DataDigest") ∧ v = DigestAll
              then DigestNone else v) ≤ defSessKey.max then
        .ok { state with
          loginParam := { state.loginParam with
            sessionParam := state.loginParam.sessionParam.set defSessKey.idx
              (if (key = ascii "HeaderDigest" ∨ key = ascii "DataDigest") ∧ v = DigestAll
                then DigestNone else v) }
          negotiationKeyValue := state.negotiationKeyValue ++
            [⟨key, defSessKey.kind.inConv
              (if (key = ascii "HeaderDigest" ∨ key = ascii "DataDigest") ∧ v = DigestAll
                then DigestNone else v)⟩] }
      else
        .ok { state with
          negotiationKeyValue := state.negotiationKeyValue ++
            [⟨key, defSessKey.kind.inConv defSessKey.defaultValue⟩]
          kvChanges := state.kvChanges + 1 } := by
  unfold processLoginData.step
  rw [if_neg h1, if_neg h2, if_neg h3, if_neg h4, if_neg h5, hkey]
  simp only [hconv, hbounded, if_true, Bool.false_eq_true, if_false]
  unfold setSessionParam
  rw [if_pos hidx]
  rfl

/-- C17 (amended): for a bounded key (`HeaderDigest`, `DataDigest`, `DefaultTime2Retain`:
the keys of the table that are not constant) and a proposal that converts to `v`, let `u`
be `v`, or `DigestNone` when a digest proposal converts to `DigestAll`. If
`min ≤ u ≤ max`, the loop body of `processLoginData` stores `u` in the session parameter
of the key and adds `key=u` to the response; otherwise it adds `key=<target default>`,
leaves every session parameter as it was and counts one change. -/
theorem processLoginData_bounded_key (state : LoginDataState) (key val : List Byte)
    (defSessKey : iscsiSessionKeys) (v : Nat)
    (hkey : mapLookup sessionKeys key = some defSessKey)
    (hbounded : defSessKey.constValue = false)
    (hconv : defSessKey.kind.conv val = (v, true))
    (hlength : state.loginParam.sessionParam.length = sessionKeys.length) :
    (key = ascii "HeaderDigest" ∨ key = ascii "DataDigest"
      ∨ key = ascii "DefaultTime2Retain") ∧
    processLoginData.step state key val =
      if defSessKey.min ≤
            (if (key = ascii "HeaderDigest" ∨ key = ascii "DataDigest") ∧ v = DigestAll
              then DigestNone else v) ∧
          (if (key = ascii "HeaderDigest" ∨ key = ascii "DataDigest") ∧ v = DigestAll
              then DigestNone else v) ≤ defSessKey.max then
        .ok { state with
          loginParam := { state.loginParam with
            sessionParam := state.loginParam.sessionParam.set defSessKey.idx
              (if (key = ascii "HeaderDigest" ∨ key = ascii "DataDigest") ∧ v = DigestAll
                then DigestNone else v) }
          negotiationKeyValue := state.negotiationKeyValue ++
            [⟨key, defSessKey.kind.inConv
              (if (key = ascii "HeaderDigest" ∨ key = ascii "DataDigest") ∧ v = DigestAll
                then DigestNone else v)⟩] }
      else
        .ok { state with
          negotiationKeyValue := state.negotiationKeyValue ++
            [⟨key, defSessKey.kind.inConv defSessKey.defaultValue⟩]
          kvChanges := state.kvChanges + 1 } := by
  have hfacts := sessionKeys_bounded (key, defSessKey)
    (mapLookup_mem sessionKeys key defSessKey hkey) hbounded
  refine ⟨hfacts.1, ?_⟩
  have hidx : defSessKey.idx < state.loginParam.sessionParam.length := by
    rw [hlength]
    exact hfacts.2
  have hnames : key ≠ ascii "MaxRecvDataSegmentLength" ∧ key ≠ ascii "InitiatorName"
      ∧ key ≠ ascii "InitiatorAlias" ∧ key ≠ ascii "TargetName"
      ∧ key ≠ ascii "SessionType" := by
    rcases hfacts.1 with h | h | h <;> simp only at h <;> rw [h] <;> decide
  exact processLoginData.step_bounded state key val defSessKey v hnames.1 hnames.2.1
    hnames.2.2.1 hnames.2.2.2.1 hnames.2.2.2.2 hkey hbounded hconv hidx

/-- C17 at `DefaultTime2Retain=30` after `iscsiConnection.init`: 30 is stored and echoed. -/
theorem processLoginData_bounded_key_witness :
    processLoginData.step ⟨iscsiConnection.init, [], 0⟩ (ascii "DefaultTime2Retain") (ascii "30")
      = .ok ⟨{ iscsiConnection.init with
                sessionParam := iscsiConnection.init.sessionParam.set 14 30 },
              [⟨ascii "DefaultTime2Retain", ascii "30"⟩], 0⟩ :=
  (processLoginData_bounded_key ⟨iscsiConnection.init, [], 0⟩ (ascii "DefaultTime2Retain")
    (ascii "30") ⟨14, false, 20, 0, 3600, .number⟩ 30 (by decide) rfl (by decide)
    (by decide)).2.trans (by decide)

/-! ### Session binding -/

/-- C20 (the code differs): after a first Normal login (connection 5, ISID 7, TSIH 0,
CmdSN 100) has registered a session under TSIH 1, a second login with the same target
name, ISID and portal group and TSIH 0 (connection 6, CmdSN 1) does not reinstate it:
`LookupISCSISession` looks the session up under the key TSIH = 0 and finds none, so no
connection is closed, the old session stays in the table next to the new one (TSIH 2), and
the new session's `ExpCmdSN` is the connection's 1, not the old session's 100. -/
theorem BindISCSISession_no_reinstatement :
    ((BindISCSISession singleTargetDriver (normalLogin 5 100)).bind fun first =>
      (BindISCSISession first.1 (normalLogin 6 1)).bind fun second =>
        .ok (LookupISCSISession first.1 [0x74] 7 0 1,
             second.1.closed,
             second.1.iSCSITargets.map (fun item =>
               item.2.Sessions.map fun entry =>
                 (entry.1, entry.2.ISID, entry.2.ExpCmdSN, entry.2.Connections)),
             second.2.session.map fun session => (session.TSIH, session.ExpCmdSN)))
      = .ok (none, [], [[(1, 7, 100, [5]), (2, 7, 1, [6])]], some (2, 1)) := by
  rfl

/-! ### PDU headers -/

/-- C25 (the code differs): `Bytes` has no case for `OpReject`, so a Reject response
serialises to the empty slice instead of a 48-byte header; and `logoutResponseBytes`
returns 52 bytes for a Logout response without data segment (the header is followed by four
extra zero bytes). A NOP-In response with a 5-byte data segment has the claimed shape. -/
theorem Bytes_reject_and_logout_malformed :
    (rejectResponse 7 1 1).Bytes = .ok [] ∧
    (logoutResponse 7).Bytes.bind (fun bytes => .ok bytes.length) = .ok 52 ∧
    ({ ISCSICommand.zero with OperationCode := OpNoopIn, RawData := [1, 2, 3, 4, 5] }
        : ISCSICommand).Bytes.bind
      (fun bytes => .ok (bytes.length, bytes.take 8)) = .ok (56, [0x20, 0x80, 0, 0, 0, 0, 0, 5]) := by
  decide

/-- The value of a byte string read from its last byte. -/
theorem uint64FromByte.loop_spec (rev : List Byte) :
    ∀ i out, out < 256 ^ i → i + rev.length ≤ 8 →
      ∃ value, uint64FromByte.loop rev i out = out + 256 ^ i * value ∧
        value < 256 ^ rev.length ∧ value = beValue rev.reverse := by
  induction rev with
  | nil =>
    intro i out _ _
    exact ⟨0, by simp [uint64FromByte.loop], by simp, rfl⟩
  | cons b rest ih =>
    intro i out hout hlen
    simp only [List.length_cons] at hlen
    have hb : b.val < 256 := b.isLt
    have hpow : (256 : Nat) ^ (i + 1) ≤ 256 ^ 8 := Nat.pow_le_pow_right (by decide) (by omega)
    have h8 : (256 : Nat) ^ 8 = 18446744073709551616 := by norm_num
    have hshift : b.val <<< (8 * i) = b.val * 256 ^ i := by
      rw [Nat.shiftLeft_eq, Nat.pow_mul]
    have hterm : b.val * 256 ^ i + out < 256 ^ (i + 1) := by
      rw [pow_succ]
      nlinarith
    have hstep : wrap64 (out + wrap64 (b.val <<< (8 * i))) = out + b.val * 256 ^ i := by
      unfold wrap64
      rw [hshift, Nat.mod_eq_of_lt (by omega), Nat.mod_eq_of_lt (by omega)]
    obtain ⟨value, hvalue, hbound, hbe⟩ := ih (i + 1) (out + b.val * 256 ^ i) (by omega) (by omega)
    refine ⟨b.val + 256 * value, ?_, ?_, ?_⟩
    · rw [uint64FromByte.loop, hstep, hvalue, pow_succ]
      ring
    · rw [List.length_cons, pow_succ]
      omega
    · rw [List.reverse_cons, beValue, List.foldl_append, ← beValue, ← hbe]
      simp only [List.foldl_cons, List.foldl_nil]
      omega

theorem uint64FromByte_eq_beValue (data : List Byte) (h : data.length ≤ 8) :
    uint64FromByte data = beValue data ∧ beValue data < 256 ^ data.length := by
  obtain ⟨value, hvalue, hbound, hbe⟩ :=
    uint64FromByte.loop_spec data.reverse 0 0 (by norm_num) (by simpa using h)
  rw [List.reverse_reverse] at hbe
  rw [List.length_reverse] at hbound
  refine ⟨?_, hbe ▸ hbound⟩
  rw [uint64FromByte, hvalue, hbe]
  simp

theorem headerField_length (data : List Byte) (a b : Nat) (h : b ≤ data.length) :
    (headerField data a b).length = b - a := by
  simp only [headerField, List.length_take, List.length_drop]
  omega

theorem uint64FromByte_headerField (data : List Byte) (a b : Nat) (h : b ≤ data.length)
    (hwidth : b - a ≤ 8) :
    uint64FromByte (headerField data a b) = beValue (headerField data a b) ∧
      beValue (headerField data a b) < 256 ^ (b - a) := by
  have hlen := headerField_length data a b h
  have := uint64FromByte_eq_beValue (headerField data a b) (by omega)
  rw [hlen] at this
  exact this

theorem wrap32_headerField (data : List Byte) (a b : Nat) (h : b ≤ data.length)
    (hwidth : b - a ≤ 4) :
    wrap32 (uint64FromByte (headerField data a b)) = beValue (headerField data a b) := by
  obtain ⟨heq, hlt⟩ := uint64FromByte_headerField data a b h (by omega)
  rw [heq]
  unfold wrap32
  apply Nat.mod_eq_of_lt
  calc beValue (headerField data a b) < 256 ^ (b - a) := hlt
    _ ≤ 256 ^ 4 := Nat.pow_le_pow_right (by decide) hwidth
    _ = 4294967296 := by norm_num

theorem parseHeader.stages_eq (data : List Byte) (command : ISCSICommand) :
    parseHeader.stages data command =
      if headerByte data 1 &&& 0x40 = 0x40 ∧ command.Final = true then
        .error .transitAndContinue
      else
        .ok { command with
          Transit := command.Final
          Continue := decide (headerByte data 1 &&& 0x40 = 0x40)
          CurrentStage := (headerByte data 1 &&& 0xc) >>> 2
          NextStage := headerByte data 1 &&& 0x3 } := by
  unfold parseHeader.stages
  simp only [decide_eq_true_eq]

/-- C24 (counterexample): a 48-byte Login Request header (opcode 03h) whose byte 1 has both
the transit bit 80h and the continue bit 40h set is rejected by `parseHeader`: no field is
extracted. -/
theorem parseHeader_rejects_transit_and_continue :
    (0x03 :: 0xC0 :: List.replicate 46 (0 : Byte)).length = 48 ∧
    parseHeader (0x03 :: 0xC0 :: List.replicate 46 0) = .error .transitAndContinue := by
  decide

/-- C24 (amended): `parseHeader` fails on every input whose length is not 48, and on a
48-byte header whose opcode (byte 0 AND 3Fh) is 00h, 03h, 04h, 06h or 23h and whose byte 1
has both bits 80h and 40h set. On every other 48-byte header it returns a command with
OperationCode = byte 0 AND 3Fh, Immediate = bit 40h of byte 0, Final = bit 80h of byte 1,
AHSLen = 4 x byte 4, DataLen = big-endian bytes 5-7, TaskTag = big-endian bytes 16-19 and,
for opcode 01h, LUN = byte 9, ExpectedDataLen = bytes 20-23, CmdSN = bytes 24-27,
ExpStatSN = bytes 28-31 and CDB = bytes 32-47. -/
theorem parseHeader_fields (data : List Byte) :
    (data.length ≠ 48 → parseHeader data = .error .garbledHeader) ∧
    (data.length = 48 →
      if (headerByte data 0 &&& 0x3F = 0x00 ∨ headerByte data 0 &&& 0x3F = 0x03
            ∨ headerByte data 0 &&& 0x3F = 0x04 ∨ headerByte data 0 &&& 0x3F = 0x06
            ∨ headerByte data 0 &&& 0x3F = 0x23)
          ∧ headerByte data 1 &&& 0x40 = 0x40 ∧ 0x80 &&& headerByte data 1 = 0x80 then
        parseHeader data = .error .transitAndContinue
      else
        ∃ command, parseHeader data = .ok command ∧
          command.OperationCode = headerByte data 0 &&& 0x3F ∧
          command.Immediate = decide (0x40 &&& headerByte data 0 = 0x40) ∧
          command.Final = decide (0x80 &&& headerByte data 1 = 0x80) ∧
          command.AHSLen = headerByte data 4 * 4 ∧
          command.DataLen = beValue (headerField data 5 8) ∧
          command.TaskTag = beValue (headerField data 16 20) ∧
          (headerByte data 0 &&& 0x3F = 0x01 →
            command.LUN = headerByte data 9 ∧
            command.ExpectedDataLen = beValue (headerField data 20 24) ∧
            command.CmdSN = beValue (headerField data 24 28) ∧
            command.ExpStatSN = beValue (headerField data 28 32) ∧
            command.CDB = headerField data 32 48)) := by
  constructor
  · intro h
    unfold parseHeader
    rw [if_pos (show data.length ≠ BasicHeaderSegmentSize from h)]
  · intro h
    have hlen : ¬ data.length ≠ BasicHeaderSegmentSize := not_not.mpr h
    have hDataLen := (uint64FromByte_headerField data 5 8 (by omega) (by omega)).1
    have hTaskTag := wrap32_headerField data 16 20 (by omega) (by omega)
    have hExpected := wrap32_headerField data 20 24 (by omega) (by omega)
    have hCmdSN := wrap32_headerField data 24 28 (by omega) (by omega)
    have hExpStatSN := wrap32_headerField data 28 32 (by omega) (by omega)
    unfold parseHeader
    rw [if_neg hlen]
    simp only [parseHeader.stages_eq, IscsiOpcodeMask, OpSCSICmd, OpSCSITaskReq, OpSCSIResp,
      OpSCSIOut, OpNoopOut, OpLoginReq, OpTextReq, OpLogoutReq, OpLoginResp, hDataLen,
      hTaskTag, hExpected, hCmdSN, hExpStatSN, decide_eq_true_eq]
    generalize headerByte data 0 &&& 0x3F = opcode
    by_cases hboth : headerByte data 1 &&& 0x40 = 0x40 ∧ 0x80 &&& headerByte data 1 = 0x80
    · simp only [hboth, and_self, and_true, if_true, Outcome.bind]
      by_cases h1 : opcode = 1
      · subst h1
        simp
        split_ifs <;> simp
      · by_cases h2 : opcode = 2
        · subst h2; simp
        · by_cases h3 : opcode = 0x21
          · subst h3; simp
          · by_cases h4 : opcode = 5
            · subst h4; simp
            · by_cases h5 : opcode = 0
              · subst h5; simp
              · by_cases h6 : opcode = 3 ∨ opcode = 4 ∨ opcode = 6
                · simp [h1, h2, h3, h4, h5, h6]
                  omega
                · by_cases h7 : opcode = 0x23
                  · subst h7; simp
                  · have h6' := not_or.mp h6
                    have h6'' := not_or.mp h6'.2
                    simp [h1, h2, h3, h4, h5, h6, h7, h6'.1, h6''.1, h6''.2]
    · have hnot : ¬ (headerByte data 1 &&& 0x40 = 0x40 ∧ 0x80 &&& headerByte data 1 = 0x80) :=
        hboth
      simp only [hnot, and_false, if_false, Outcome.bind]
      split_ifs <;> simp_all

/-- C24 at the header of a READ(10) command: opcode 01h, task tag 7, expected data length
512, CmdSN 1 and the 16 CDB bytes. -/
theorem parseHeader_fields_witness :
    scsiReadHeader.length = 48 ∧
    ∃ command, parseHeader scsiReadHeader = .ok command ∧
      command.OperationCode = 0x01 ∧ command.TaskTag = 7 ∧ command.ExpectedDataLen = 512 ∧
      command.CmdSN = 1 ∧
      command.CDB = [0x28, 0, 0, 0, 0, 0, 0, 0, 1, 0, 0, 0, 0, 0, 0, 0] := by
  refine ⟨by decide, ?_⟩
  have h := (parseHeader_fields scsiReadHeader).2 (by decide)
  rw [if_neg (by decide)] at h
  obtain ⟨command, hc, hop, _, _, _, _, htag, hscsi⟩ := h
  obtain ⟨_, hexp, hsn, _, hcdb⟩ := hscsi (by decide)
  exact ⟨command, hc, hop.trans (by decide), htag.trans (by decide), hexp.trans (by decide),
    hsn.trans (by decide), hcdb.trans (by decide)⟩
/-! ### Data-In segmentation -/

theorem DataInSegment.inBounds_of_le (n dataSN offset length : Nat) (final finalInSeq : Bool)
    (h : offset + length ≤ n) (hn : n < 4294967296) :
    DataInSegment.inBounds n ⟨dataSN, offset, (length : Int), final, finalInSeq⟩ = true := by
  have hmod : ((length : Int) % 4294967296).toNat = length := by omega
  simp only [DataInSegment.inBounds, hmod, wrap32, decide_eq_true_eq]
  rw [Nat.mod_eq_of_lt (by omega)]
  omega

theorem transferHandler.sendRemainingData_in_range (n count : Nat) (hn : 0 < n)
    (hbound : n + 65536 ≤ 4294967296) (hcount : count = (n + 65535) / 65536) :
    ∀ m j rounds, j + m = count → 0 < m → m ≤ rounds →
      transferHandler.sendRemainingData 65536 4 n rounds (j * 65536) (j % 4) j
        = some (.ok ((List.range' j m).map (expectedSegment n count))) := by
  intro m
  induction m with
  | zero => intro j rounds _ h; omega
  | succ m ih =>
    intro j rounds hj _ hrounds
    obtain ⟨rounds, rfl⟩ : ∃ r, rounds = r + 1 := ⟨rounds - 1, by omega⟩
    rw [transferHandler.sendRemainingData]
    have hwrap : wrap32 (j * 65536 + 65536) = (j + 1) * 65536 := by
      unfold wrap32
      rw [Nat.mod_eq_of_lt (by omega)]
      ring
    rw [hwrap]
    by_cases hm : m = 0
    · subst hm
      have hlast : ¬ (j + 1) * 65536 < n := by omega
      have hlen : (n : Int) - ((j * 65536 : Nat) : Int) = ((n - j * 65536 : Nat) : Int) := by
        omega
      rw [if_neg hlast]
      simp only [hlen]
      rw [if_pos (DataInSegment.inBounds_of_le n _ _ _ _ _ (by omega) (by omega))]
      simp only [List.range', List.map_cons, List.map_nil, expectedSegment, Option.some.injEq,
        Outcome.ok.injEq, List.cons.injEq, and_true]
      have h1 : j + 1 = count := by omega
      have h2 : min 65536 (n - j * 65536) = n - j * 65536 := by omega
      simp only [h1, h2, decide_True, or_true]
    · have hmore : (j + 1) * 65536 < n := by omega
      rw [if_pos hmore]
      have hcounted : wrap32 (j % 4 + 1) = j % 4 + 1 := by
        unfold wrap32
        exact Nat.mod_eq_of_lt (by omega)
      have hsn : wrap32 (j + 1) = j + 1 := by
        unfold wrap32
        exact Nat.mod_eq_of_lt (by omega)
      have hnext : (if j % 4 + 1 < 4 then j % 4 + 1 else 0) = (j + 1) % 4 := by
        split <;> omega
      simp only [hcounted, hsn, hnext]
      rw [if_pos (DataInSegment.inBounds_of_le n _ _ 65536 _ _ (by omega) (by omega))]
      rw [ih (j + 1) rounds (by omega) (by omega) (by omega)]
      simp only [Option.map_some', Outcome.bind, List.range', List.map_cons, expectedSegment,
        Option.some.injEq, Outcome.ok.injEq, List.cons.injEq, and_true]
      have h1 : ¬ j + 1 = count := by omega
      have h2 : min 65536 (n - j * 65536) = 65536 := by omega
      simp only [h1, h2, decide_False, or_false, DataInSegment.mk.injEq, true_and, Nat.cast_ofNat]
      by_cases h3 : j % 4 = 3
      · have : ¬ j % 4 + 1 < 4 := by omega
        simp [h3, this]
      · have : j % 4 + 1 < 4 := by omega
        simp [h3, this]

/-- Data-In segmentation for a response of `0 < n ≤ 2^32 - 65536` bytes: with enough rounds
`transferHandler` writes `ceil(n / 65536)` PDUs, PDU `i` with `DataSN = i`,
`BufferOffset = i * 65536`, `DataLen = min(65536, n - i * 65536)`, `Final` on the last and
`FinalInSeq` on every fourth and on the last. -/
theorem transferHandler.segments_in_range (n rounds : Nat) (hn : 0 < n)
    (hbound : n + 65536 ≤ 4294967296) (hrounds : (n + 65535) / 65536 ≤ rounds) :
    transferHandler.segments n rounds
      = some (.ok ((List.range ((n + 65535) / 65536)).map
          (expectedSegment n ((n + 65535) / 65536)))) := by
  have h := transferHandler.sendRemainingData_in_range n ((n + 65535) / 65536) hn hbound rfl
    ((n + 65535) / 65536) 0 rounds (by omega) (by omega) hrounds
  rw [List.range_eq_range']
  exact h

theorem transferHandler.sendRemainingData_wraps :
    ∀ m j rounds, j + m = 65536 → 0 < m → m ≤ rounds →
      transferHandler.sendRemainingData 65536 4 4294967295 rounds (j * 65536) (j % 4) j
        = some .crash := by
  intro m
  induction m with
  | zero => intro j rounds _ h; omega
  | succ m ih =>
    intro j rounds hj _ hrounds
    obtain ⟨rounds, rfl⟩ : ∃ r, rounds = r + 1 := ⟨rounds - 1, by omega⟩
    rw [transferHandler.sendRemainingData]
    by_cases hm : m = 0
    · subst hm
      obtain rfl : j = 65535 := by omega
      have hwrap : wrap32 (65535 * 65536 + 65536) = 0 := by decide
      rw [hwrap, if_pos (by decide)]
      simp only []
      rw [if_neg (by decide)]
    · have hwrap : wrap32 (j * 65536 + 65536) = (j + 1) * 65536 := by
        unfold wrap32
        rw [Nat.mod_eq_of_lt (by omega)]
        ring
      have hcounted : wrap32 (j % 4 + 1) = j % 4 + 1 := by
        unfold wrap32
        exact Nat.mod_eq_of_lt (by omega)
      have hsn : wrap32 (j + 1) = j + 1 := by
        unfold wrap32
        exact Nat.mod_eq_of_lt (by omega)
      have hnext : (if j % 4 + 1 < 4 then j % 4 + 1 else 0) = (j + 1) % 4 := by
        split <;> omega
      rw [hwrap, if_pos (by omega)]
      simp only [hcounted, hsn, hnext]
      rw [if_pos (DataInSegment.inBounds_of_le 4294967295 _ _ 65536 _ _ (by omega) (by omega))]
      rw [ih (j + 1) rounds (by omega) (by omega) (by omega)]
      rfl

/-- C27 (the code differs): for a Data-In response of `n = 2^32 - 1` bytes, which needs
`ceil(n / 65536) = 65536` PDUs, the transmit loop does not write a final PDU: after 65535
PDUs, at `offset = 65535 * 65536`, the sum `offset + segmentLen` wraps to 0 in `uint32`,
so the test `int(offset + segmentLen) < transferLen` succeeds, the PDU is marked not final
with `DataLen = 65536`, and writing it panics on the slice
`RawData[4294901760 : 0]`. -/
theorem transferHandler_wraps_near_4GiB (extra : Nat) :
    transferHandler.segments 4294967295 (65536 + extra) = some .crash ∧
    (4294967295 + 65535) / 65536 = 65536 ∧
    wrap32 (65535 * 65536 + MaxRecvDataSegmentLength) = 0 :=
  ⟨transferHandler.sendRemainingData_wraps 65536 0 (65536 + extra) (by omega) (by omega)
    (by omega), by decide, by decide⟩

/-! ### The write-back reference counts -/

set_option maxRecDepth 100000 in
/-- C33 (the code differs): setting the reference count of the cluster at 1536 on
`fourClusterReferenceCounts` first asks the caller to read the block at 1024
(`ErrNeedReadCluster`); when the caller passes that block back as `newCluster`, the call
succeeds and reports 1024 as dropped cluster, although the refcount table still holds 1024
as the address of the block, which now carries the new reference count in the cache. -/
theorem setClusterRefcount_drops_live_block :
    (fourClusterReferenceCounts.setClusterRefcount 1536 1 none).1 = .needReadCluster 1024 ∧
    ∃ block, fourClusterReferenceCounts.rawFile.readRefCountBlock 1024 = .ok block ∧
      ((fourClusterReferenceCounts.setClusterRefcount 1536 1 none).2.setClusterRefcount 1536 1
        (some ⟨1024, vectorCacheFromArray block⟩)).1 = .done (some 1024) ∧
      ((fourClusterReferenceCounts.setClusterRefcount 1536 1 none).2.setClusterRefcount 1536 1
        (some ⟨1024, vectorCacheFromArray block⟩)).2.table.data = [1024] ∧
      (((fourClusterReferenceCounts.setClusterRefcount 1536 1 none).2.setClusterRefcount 1536 1
        (some ⟨1024, vectorCacheFromArray block⟩)).2.referenceBlockCache.store.map
          fun item => (item.1, item.2.data.data.take 5)) = [(0, [1, 1, 1, 1, 0])] :=
  ⟨rfl, _, rfl, rfl, rfl, rfl⟩

/-! ### The write-back pointer table -/

theorem held_value_unique {T P : Type} {held : List (Nat × T × VectorCache P)}
    (hn : (held.map fun item => item.2.1).Nodup) {p q : Nat} {k : T} {v w : VectorCache P}
    (h1 : (p, k, v) ∈ held) (h2 : (q, k, w) ∈ held) : v = w := by
  have := List.inj_on_of_nodup_map hn h1 h2 rfl
  simp only [Prod.mk.injEq] at this
  exact this.2.2

theorem LruCacheMap.Holds.get_of_mem {T P : Type} [DecidableEq T] {cacheMap : LruCacheMap T P}
    {held : List (Nat × T × VectorCache P)} {created : Nat} (h : cacheMap.Holds held created)
    (zero key : T) {p : Nat} {v : VectorCache P} (hm : (p, key, v) ∈ held) :
    ∃ after, cacheMap.get zero key = (.ok (some v), after)
      ∧ after.Holds (heldTouch held created key v) (created + 1) := by
  rcases h.get zero key with ⟨hk, _⟩ | ⟨a, b, q, w, hab, h1, h2, _⟩
  · exact absurd (List.mem_map.mpr ⟨(p, key, v), hm, rfl⟩) hk
  · have hq : (q, key, w) ∈ held := by
      rw [hab]
      exact List.mem_append_right _ (List.mem_cons_self _ _)
    have hw : v = w := held_value_unique h.nodup hm hq
    subst hw
    exact ⟨(cacheMap.get zero key).2, Prod.ext h1 rfl, h2⟩

theorem LruCacheMap.Holds.containsKey_of_mem {T P : Type} [DecidableEq T]
    {cacheMap : LruCacheMap T P} {held : List (Nat × T × VectorCache P)} {created : Nat}
    (h : cacheMap.Holds held created) {key : T} {p : Nat} {v : VectorCache P}
    (hm : (p, key, v) ∈ held) : cacheMap.containsKey key = true := by
  rcases h.lookup key with ⟨hk, _⟩ | ⟨a, b, q, w, _, hl⟩
  · exact absurd (List.mem_map.mpr ⟨(p, key, v), hm, rfl⟩) hk
  · simp only [LruCacheMap.containsKey, hl, Option.isSome_some]

theorem LruCacheMap.Holds.writeThrough {T P : Type} [DecidableEq T] {cacheMap : LruCacheMap T P}
    {held : List (Nat × T × VectorCache P)} {created : Nat} (h : cacheMap.Holds held created)
    (key : T) (value : VectorCache P) :
    (cacheMap.writeThrough key value).Holds
      (held.map fun item => if item.2.1 = key then (item.1, item.2.1, value) else item)
      created := by
  have hkeys : ∀ item : Nat × T × VectorCache P,
      (if item.2.1 = key then (item.1, item.2.1, value) else item).2.1 = item.2.1 := by
    intro item
    split <;> rfl
  have hcells : ∀ item : Nat × T × VectorCache P,
      (if item.2.1 = key then (item.1, item.2.1, value) else item).1 = item.1 := by
    intro item
    split <;> rfl
  refine ⟨?_, ?_, ?_⟩
  · have e : ((held.map fun item => if item.2.1 = key then (item.1, item.2.1, value) else item).map
        fun item => (item.1, item.2.1)) = held.map fun item => (item.1, item.2.1) := by
      rw [List.map_map]
      apply List.map_congr_left
      intro item _
      simp only [Function.comp, hkeys, hcells]
    rw [e]
    exact h.queue
  · simp only [LruCacheMap.writeThrough]
    rw [h.store, List.map_map, List.map_map]
    apply List.map_congr_left
    intro item _
    simp only [Function.comp]
    split <;> rfl
  · have e : ((held.map fun item => if item.2.1 = key then (item.1, item.2.1, value) else item).map
        fun item => item.2.1) = held.map fun item => item.2.1 := by
      rw [List.map_map]
      apply List.map_congr_left
      intro item _
      simp only [Function.comp, hkeys]
    rw [e]
    exact h.nodup

theorem VectorCache.get_lt {P : Type} {cache : VectorCache P} {index : Nat} {value : P}
    (h : cache.get index = .ok value) : index < cache.data.length := by
  unfold VectorCache.get at h
  cases hg : cache.data.get? index with
  | none => rw [hg] at h; cases h
  | some v => exact (List.get?_eq_some.mp hg).1

theorem VectorCache.get_set {P : Type} (cache : VectorCache P) (index : Nat) (value : P)
    (h : index < cache.data.length) :
    ∃ changed, cache.set index value = .ok changed ∧ changed.get index = .ok value
      ∧ ∀ other, other ≠ index → changed.get other = cache.get other := by
  refine ⟨{ data := cache.data.set index value, dirty := true }, ?_, ?_, ?_⟩
  · unfold VectorCache.set
    rw [if_pos h]
  · unfold VectorCache.get
    simp only [List.get?_eq_getElem?, List.getElem?_set_self h]
  · intro other ho
    unfold VectorCache.get
    simp only [List.get?_eq_getElem?, List.getElem?_set_ne (Ne.symm ho)]

theorem pointerWriteBackCache.read_cached (s : pointerWriteBackCache)
    {held : List (Nat × Nat × VectorCache Nat)} {created : Nat}
    (hh : s.cache.Holds held created) {va i j l2 p : Nat} {v : VectorCache Nat}
    (hi : l1TableIndex s.header va = .ok i) (hj : l2TableIndex s.header va = .ok j)
    (hl : s.l1Table.get i = .ok l2) (h0 : l2 ≠ 0) (hm : (p, l2, v) ∈ held) :
    (s.readClusterAddress va).1 = v.get j := by
  obtain ⟨after, hg, _⟩ := hh.get_of_mem 0 l2 hm
  have hc := hh.containsKey_of_mem hm
  have hfill : s.fill l2 = (.ok (), s) := by
    unfold pointerWriteBackCache.fill
    simp only [hc, Bool.not_true, Bool.false_eq_true, if_false]
  unfold pointerWriteBackCache.readClusterAddress
  simp only [hi, hl, if_neg h0, hfill, hg, hj]

theorem pointerWriteBackCache.read_unmapped (s : pointerWriteBackCache) {va i : Nat}
    (hi : l1TableIndex s.header va = .ok i) (hl : s.l1Table.get i = .ok 0) :
    (s.readClusterAddress va).1 = .error .needPointerCluster := by
  unfold pointerWriteBackCache.readClusterAddress
  simp only [hi, hl, if_true]

theorem heldTouch_mem {T P : Type} [DecidableEq T] (held : List (Nat × T × VectorCache P))
    (created : Nat) (key : T) (value : VectorCache P) (x : Nat × T × VectorCache P) :
    x ∈ heldTouch held created key value ↔ (x ∈ held ∧ x.2.1 ≠ key) ∨ x = (created, key, value) := by
  simp [heldTouch, List.mem_filter]

theorem QcowRawFile.over_content (rawFile : QcowRawFile) (f : File) :
    (rawFile.over f).file.content = f := rfl

theorem QcowRawFile.writePointerTable_eq (rawFile : QcowRawFile) (offset : Nat)
    (table : List Nat) (flags : Nat) (hro : rawFile.readOnly = false)
    (hw : rawFile.file.writable = true) (hoff : offset < 9223372036854775808) :
    rawFile.writePointerTable offset table flags
      = (.ok (), rawFile.file.content.write offset (pointerTableBytes table flags)) := by
  unfold QcowRawFile.writePointerTable OsFile.seekWrite
  simp only [hro, Bool.false_eq_true, if_false, hw, if_true]
  rw [if_neg (by omega)]

theorem pointerWriteBackCache.writeEvicted_eq (rawFile : QcowRawFile) (k : Nat)
    (v : VectorCache Nat) (evicted : List Nat) (f : File)
    (hw : rawFile.readOnly = false ∧ rawFile.file.writable = true)
    (hk : k < 9223372036854775808) :
    pointerWriteBackCache.writeEvicted rawFile k v (evicted, f)
      = (.ok (), (if k ∈ evicted then evicted else evicted ++ [k]),
          f.write k (pointerTableBytes v.getValues ClusterUsedFlag)) := by
  unfold pointerWriteBackCache.writeEvicted
  rw [if_neg (by rw [hw.1]; exact Bool.false_ne_true)]
  show (((rawFile.over f).writePointerTable k v.getValues ClusterUsedFlag).1, _,
    ((rawFile.over f).writePointerTable k v.getValues ClusterUsedFlag).2) = _
  rw [QcowRawFile.writePointerTable_eq (rawFile.over f) k v.getValues ClusterUsedFlag
    hw.1 hw.2 hk, QcowRawFile.over_content]

/-- What `insert` does to a cache in a consistent state, for any callback: without an
eviction, or when the evicted vector is clean or the callback succeeds, `key -> value` is
the most recently used entry afterwards; when the callback fails, `insert` fails. -/
theorem LruCacheMap.Holds.insertWith {T P σ : Type} [DecidableEq T] {cacheMap : LruCacheMap T P}
    {held : List (Nat × T × VectorCache P)} {created : Nat} (h : cacheMap.Holds held created)
    (hc : 0 < cacheMap.capacity) (key : T) (value : VectorCache P)
    (cb : T → VectorCache P → σ → Outcome Unit × σ) (st : σ) :
    (∃ after, cacheMap.insert key value cb st = (.ok (), after, st)
        ∧ after.Holds (heldTouch held created key value) (created + 1)
        ∧ after.capacity = cacheMap.capacity)
      ∨ ∃ p k v rest, held = (p, k, v) :: rest
          ∧ ((v.dirty = false ∧ ∃ after, cacheMap.insert key value cb st = (.ok (), after, st)
                ∧ after.Holds (heldTouch rest created key value) (created + 1)
                ∧ after.capacity = cacheMap.capacity)
            ∨ (v.dirty = true ∧ ∃ st', cb k v st = (.ok (), st')
                ∧ ∃ after, cacheMap.insert key value cb st = (.ok (), after, st')
                ∧ after.Holds (heldTouch rest created key value) (created + 1)
                ∧ after.capacity = cacheMap.capacity)
            ∨ (v.dirty = true ∧ (cb k v st).1 ≠ .ok ()
                ∧ (cacheMap.insert key value cb st).1 ≠ .ok ())) := by
  by_cases hfull : held.length = cacheMap.capacity
  · cases held with
    | nil => simp at hfull; omega
    | cons x rest =>
      obtain ⟨p, k, v⟩ := x
      obtain ⟨q, hq, hl, hh⟩ := h.evict
      obtain ⟨s1, s2, s3⟩ := hh.set key value
      have hlen : cacheMap.store.length = cacheMap.capacity := by rw [h.length]; exact hfull
      refine Or.inr ⟨p, k, v, rest, rfl, ?_⟩
      cases hd : v.dirty with
      | false =>
        refine Or.inl ⟨rfl, _, ?_, s2, s3⟩
        simp only [LruCacheMap.insert, hlen, if_true, hq, hl, hd, Bool.false_eq_true, if_false]
        exact Prod.ext s1.symm.symm rfl
      | true =>
        rcases hcb : cb k v st with ⟨r, st'⟩
        cases r with
        | ok u =>
          refine Or.inr (Or.inl ⟨rfl, st', rfl, _, ?_, s2, s3⟩)
          simp only [LruCacheMap.insert, hlen, if_true, hq, hl, hd, hcb]
          exact Prod.ext s1 rfl
        | error e =>
          refine Or.inr (Or.inr ⟨rfl, fun e' => Outcome.noConfusion e', ?_⟩)
          simp only [LruCacheMap.insert, hlen, if_true, hq, hl, hd, hcb]
          exact fun e' => Outcome.noConfusion e'
        | crash =>
          refine Or.inr (Or.inr ⟨rfl, fun e' => Outcome.noConfusion e', ?_⟩)
          simp only [LruCacheMap.insert, hlen, if_true, hq, hl, hd, hcb]
          exact fun e' => Outcome.noConfusion e'
  · obtain ⟨s1, s2, s3⟩ := h.set key value
    have hlen : cacheMap.store.length ≠ cacheMap.capacity := by rw [h.length]; exact hfull
    refine Or.inl ⟨_, ?_, s2, s3⟩
    simp only [LruCacheMap.insert, hlen, if_false]
    exact Prod.ext s1 rfl

/-- The key of a cached table is held. -/
theorem LruCacheMap.Holds.mem_of_containsKey {T P : Type} [DecidableEq T]
    {cacheMap : LruCacheMap T P} {held : List (Nat × T × VectorCache P)} {created : Nat}
    (h : cacheMap.Holds held created) (key : T) :
    (cacheMap.containsKey key = true ∧ ∃ p v, (p, key, v) ∈ held)
      ∨ (cacheMap.containsKey key = false ∧ key ∉ held.map (fun item => item.2.1)) := by
  rcases h.lookup key with ⟨h1, h2⟩ | ⟨a, b, p, v, hab, h2⟩
  · refine Or.inr ⟨?_, h1⟩
    unfold LruCacheMap.containsKey
    rw [h2]
    rfl
  · refine Or.inl ⟨?_, p, v, ?_⟩
    · unfold LruCacheMap.containsKey
      rw [h2]
      rfl
    · rw [hab]
      exact List.mem_append_right _ (List.mem_cons_self _ _)

/-! ### The write-back pointer table: reading after an update -/

theorem l1TableIndex_total {header : ImageHeader} {va i : Nat}
    (hi : l1TableIndex header va = .ok i) (va2 : Nat) :
    l1TableIndex header va2 = .ok (va2 / header.clusterSize / header.l2Size)
      ∧ l2TableIndex header va2 = .ok (va2 / header.clusterSize % header.l2Size) := by
  unfold l1TableIndex at hi
  unfold l1TableIndex l2TableIndex
  by_cases h1 : header.clusterSize = 0
  · rw [if_pos h1] at hi
    exact Outcome.noConfusion hi
  · rw [if_neg h1] at hi
    by_cases h2 : header.l2Size = 0
    · rw [if_pos h2] at hi
      exact Outcome.noConfusion hi
    · constructor <;> simp only [if_neg h1, if_neg h2]

/-- Reading an address whose L2 table is not in the cache, over a writable raw file: the L2
table is read from the file, and the entry of the address in it is returned. -/
theorem pointerWriteBackCache.read_uncached (s : pointerWriteBackCache)
    {held : List (Nat × Nat × VectorCache Nat)} {created : Nat}
    (hh : s.cache.Holds held created) (hcap : 0 < s.cache.capacity)
    (hw : s.rawFile.readOnly = false ∧ s.rawFile.file.writable = true)
    (hkeys : ∀ x ∈ held, x.2.1 < 9223372036854775808)
    {va i l3 : Nat} (hi : l1TableIndex s.header va = .ok i)
    (hl : s.l1Table.get i = .ok l3) (h0 : l3 ≠ 0)
    (hnot : l3 ∉ held.map fun item => item.2.1) :
    (s.readClusterAddress va).1
      = (readL2Cluster s.rawFile l3).bind fun data =>
          (l2TableIndex s.header va).bind fun index => (vectorCacheFromArray data).get index := by
  have hcon : s.cache.containsKey l3 = false := by
    rcases hh.mem_of_containsKey l3 with ⟨_, p, v, hm⟩ | ⟨hc, _⟩
    · exact absurd (List.mem_map.mpr ⟨(p, l3, v), hm, rfl⟩) hnot
    · exact hc
  obtain ⟨_, hj⟩ := l1TableIndex_total hi va
  unfold pointerWriteBackCache.readClusterAddress pointerWriteBackCache.fill
  simp only [hi, hl, if_neg h0, hcon, Bool.not_false, if_true]
  cases hrd : readL2Cluster s.rawFile l3 with
  | error e => rfl
  | crash => rfl
  | ok data =>
    simp only [Outcome.ok_bind]
    have hread : ∀ (after : LruCacheMap Nat Nat) (st : List Nat × File)
        (held2 : List (Nat × Nat × VectorCache Nat)),
        s.cache.insert l3 (vectorCacheFromArray data)
          (pointerWriteBackCache.writeEvicted s.rawFile) (s.evicted, s.rawFile.file.content)
          = (.ok (), after, st) →
        after.Holds (heldTouch held2 created l3 (vectorCacheFromArray data)) (created + 1) →
        (match s.cache.insert l3 (vectorCacheFromArray data)
            (pointerWriteBackCache.writeEvicted s.rawFile) (s.evicted, s.rawFile.file.content) with
          | ins =>
            (match ((ins.1, ({ s with
                cache := ins.2.1
                evicted := ins.2.2.1
                rawFile := { s.rawFile with
                  file := { s.rawFile.file with content := ins.2.2.2 } } } :
                  pointerWriteBackCache)) : Outcome Unit × pointerWriteBackCache) with
            | (.ok _, writeBackCache) =>
              match writeBackCache.cache.get 0 l3 with
              | (.ok (some l2Cluster), cache) =>
                match l2TableIndex writeBackCache.header va with
                | .ok index => (l2Cluster.get index, { writeBackCache with cache := cache })
                | _ => (.crash, { writeBackCache with cache := cache })
              | (_, cache) => (.crash, { writeBackCache with cache := cache })
            | (.error e, writeBackCache) => (.error e, writeBackCache)
            | (.crash, writeBackCache) => (.crash, writeBackCache))).1
          = (l2TableIndex s.header va).bind fun index =>
              (vectorCacheFromArray data).get index := by
      intro after st held2 e hH
      obtain ⟨c2, hg, _⟩ := hH.get_of_mem 0 l3 ((heldTouch_mem _ _ _ _ _).mpr (Or.inr rfl))
      simp only [e, hg, hj, Outcome.ok_bind]
    rcases hh.insertWith hcap l3 (vectorCacheFromArray data)
        (pointerWriteBackCache.writeEvicted s.rawFile) (s.evicted, s.rawFile.file.content)
      with ⟨after, e, hH, _⟩ | ⟨p, k, v, rest, hheld, hcase⟩
    · exact hread after _ held e hH
    · rcases hcase with ⟨_, after, e, hH, _⟩ | ⟨_, st', _, after, e, hH, _⟩ | ⟨_, hfail, _⟩
      · exact hread after _ rest e hH
      · exact hread after _ rest e hH
      · exfalso
        apply hfail
        rw [pointerWriteBackCache.writeEvicted_eq s.rawFile k v s.evicted _ hw
          (hkeys (p, k, v) (by rw [hheld]; exact List.mem_cons_self _ _))]

/-- The update of the entry of `va` by a copy of its L2 table, with the keys of the cache
afterwards. -/
theorem pointerWriteBackCache.update_copies_keys (s : pointerWriteBackCache)
    {held : List (Nat × Nat × VectorCache Nat)} {created : Nat}
    (hh : s.cache.Holds held created) {va c n i j l2 p : Nat} {vec : VectorCache Nat}
    (hi : l1TableIndex s.header va = .ok i) (hj : l2TableIndex s.header va = .ok j)
    (hl : s.l1Table.get i = .ok l2) (hm : (p, l2, vec) ∈ held) (hidx : j < vec.data.length)
    (hclean : (!vec.dirty && !decide (l2 ∈ s.evicted)) = true) :
    ∃ held2 created2 l1Table cache changed,
      s.updateClusterAddress va c (.ok n)
        = (.needFreeClusters l2 [(l2, 0), (n, 1)],
            { s with l1Table := l1Table, cache := cache })
      ∧ cache.Holds held2 created2 ∧ cache.capacity = s.cache.capacity
      ∧ l1Table.get i = .ok n ∧ (∀ other, other ≠ i → l1Table.get other = s.l1Table.get other)
      ∧ (created + 1, n, changed) ∈ held2
      ∧ changed.get j = .ok c ∧ (∀ other, other ≠ j → changed.get other = vec.get other)
      ∧ (∀ x ∈ held, x.2.1 ≠ l2 → x.2.1 ≠ n → x ∈ held2)
      ∧ ∀ x ∈ held2, x.2.1 = n ∨ x.2.1 ∈ held.map fun item => item.2.1 := by
  rcases hh.get 0 l2 with ⟨hk, _⟩ | ⟨a, b, q, w, hab, h1, hH1, hc1⟩
  · exact absurd (List.mem_map.mpr ⟨(p, l2, vec), hm, rfl⟩) hk
  have hq : (q, l2, w) ∈ held := by
    rw [hab]
    exact List.mem_append_right _ (List.mem_cons_self _ _)
  have hw : vec = w := held_value_unique hh.nodup hm hq
  subst hw
  have hg : s.cache.get 0 l2 = (.ok (some vec), (s.cache.get 0 l2).2) := Prod.ext h1 rfl
  obtain ⟨l1Table, hset, hget, hother⟩ := VectorCache.get_set s.l1Table i n (VectorCache.get_lt hl)
  obtain ⟨changed, hcset, hcget, hcother⟩ := VectorCache.get_set vec j c hidx
  obtain ⟨hr1, hH2, hc2⟩ := hH1.remove l2
  obtain ⟨hs1, hH3, hc3⟩ := hH2.set n changed
  have hr : (s.cache.get 0 l2).2.remove l2 = (.ok (), ((s.cache.get 0 l2).2.remove l2).2) :=
    Prod.ext hr1 rfl
  have hs : ((s.cache.get 0 l2).2.remove l2).2.set n changed
      = (.ok (), (((s.cache.get 0 l2).2.remove l2).2.set n changed).2) := Prod.ext hs1 rfl
  refine ⟨_, _, l1Table, (((s.cache.get 0 l2).2.remove l2).2.set n changed).2, changed, ?_, hH3,
    by rw [hc3, hc2, hc1], hget, hother, ?_, hcget, hcother, ?_, ?_⟩
  · unfold pointerWriteBackCache.updateClusterAddress
    simp only [hi, hl]
    rw [hg]
    simp only [hclean, if_true, hset, hj, hcset]
    rw [hr]
    simp only []
    rw [hs]
  · rw [heldTouch_mem]
    exact Or.inr rfl
  · intro x hx h1 h2
    rw [heldTouch_mem]
    refine Or.inl ⟨?_, h2⟩
    rw [List.mem_filter]
    refine ⟨?_, by simpa using h1⟩
    rw [heldTouch_mem]
    exact Or.inl ⟨hx, h1⟩
  · intro x hx
    rcases (heldTouch_mem _ _ _ _ _).mp hx with ⟨hx1, _⟩ | rfl
    · right
      rcases (heldTouch_mem _ _ _ _ _).mp (List.mem_filter.mp hx1).1 with ⟨hx2, _⟩ | rfl
      · exact List.mem_map.mpr ⟨x, hx2, rfl⟩
      · exact List.mem_map.mpr ⟨(p, l2, vec), hm, rfl⟩
    · exact Or.inl rfl

/-- The update of the entry of `va` in its cached L2 table, with the keys of the cache
afterwards. -/
theorem pointerWriteBackCache.update_in_place_keys (s : pointerWriteBackCache)
    {held : List (Nat × Nat × VectorCache Nat)} {created : Nat}
    (hh : s.cache.Holds held created) {va c i j l2 p : Nat} {vec : VectorCache Nat}
    (obtainNewCluster : Outcome Nat)
    (hi : l1TableIndex s.header va = .ok i) (hj : l2TableIndex s.header va = .ok j)
    (hl : s.l1Table.get i = .ok l2) (hm : (p, l2, vec) ∈ held) (hidx : j < vec.data.length)
    (hdirty : (!vec.dirty && !decide (l2 ∈ s.evicted)) = false) :
    ∃ held2 created2 cache changed,
      s.updateClusterAddress va c obtainNewCluster = (.done, { s with cache := cache })
      ∧ cache.Holds held2 created2 ∧ cache.capacity = s.cache.capacity
      ∧ (created, l2, changed) ∈ held2
      ∧ changed.get j = .ok c ∧ (∀ other, other ≠ j → changed.get other = vec.get other)
      ∧ (∀ x ∈ held, x.2.1 ≠ l2 → x ∈ held2)
      ∧ ∀ x ∈ held2, x.2.1 ∈ held.map fun item => item.2.1 := by
  rcases hh.get 0 l2 with ⟨hk, _⟩ | ⟨a, b, q, w, hab, h1, hH1, hc1⟩
  · exact absurd (List.mem_map.mpr ⟨(p, l2, vec), hm, rfl⟩) hk
  have hq : (q, l2, w) ∈ held := by
    rw [hab]
    exact List.mem_append_right _ (List.mem_cons_self _ _)
  have hw : vec = w := held_value_unique hh.nodup hm hq
  subst hw
  have hg : s.cache.get 0 l2 = (.ok (some vec), (s.cache.get 0 l2).2) := Prod.ext h1 rfl
  obtain ⟨changed, hcset, hcget, hcother⟩ := VectorCache.get_set vec j c hidx
  have hH2 := hH1.writeThrough l2 changed
  refine ⟨_, _, (s.cache.get 0 l2).2.writeThrough l2 changed, changed, ?_, hH2, hc1, ?_, hcget,
    hcother, ?_, ?_⟩
  · unfold pointerWriteBackCache.updateClusterAddress
    simp only [hi, hl]
    rw [hg]
    simp only [hdirty, Bool.false_eq_true, if_false, hj, hcset]
  · rw [List.mem_map]
    refine ⟨(created, l2, vec), (heldTouch_mem _ _ _ _ _).mpr (Or.inr rfl), ?_⟩
    simp
  · intro x hx h1
    rw [List.mem_map]
    refine ⟨x, (heldTouch_mem _ _ _ _ _).mpr (Or.inl ⟨hx, h1⟩), ?_⟩
    rw [if_neg h1]
  · intro x hx
    obtain ⟨y, hy, rfl⟩ := List.mem_map.mp hx
    have hkey : (if y.2.1 = l2 then (y.1, y.2.1, changed) else y).2.1 = y.2.1 := by
      split <;> rfl
    rw [hkey]
    rcases (heldTouch_mem _ _ _ _ _).mp hy with ⟨hy1, _⟩ | rfl
    · exact List.mem_map.mpr ⟨y, hy1, rfl⟩
    · exact List.mem_map.mpr ⟨(p, l2, vec), hm, rfl⟩

theorem newCacheMap_holds (T P : Type) (capacity : Nat) :
    (newCacheMap T P capacity).Holds [] 0 :=
  ⟨newLinkedList_rep T, rfl, List.nodup_nil⟩

/-- Reading after an update of the entry of `va`: the table `t` is `s` with the entry of `va`
in the cached L2 table `changed`, which is at the address `k2` of the L1 entry of `va`.
Then `va` reads as `c`, and every address in another cluster of the virtual disk reads as
before. -/
theorem pointerWriteBackCache.read_after_update (s t : pointerWriteBackCache)
    {held held2 : List (Nat × Nat × VectorCache Nat)} {created created2 : Nat}
    (hh : s.cache.Holds held created) (hh2 : t.cache.Holds held2 created2)
    (hcap : 0 < s.cache.capacity) (hcap2 : t.cache.capacity = s.cache.capacity)
    (hw : s.rawFile.readOnly = false ∧ s.rawFile.file.writable = true)
    (hkeys : ∀ x ∈ held, x.2.1 < 9223372036854775808)
    (hhead : t.header = s.header) (hraw : t.rawFile = s.rawFile)
    {va c i j l2 k2 p q : Nat} {vec changed : VectorCache Nat}
    (hi : l1TableIndex s.header va = .ok i) (hj : l2TableIndex s.header va = .ok j)
    (hl : s.l1Table.get i = .ok l2) (h0 : l2 ≠ 0) (hm : (p, l2, vec) ∈ held)
    (halias : ∀ i2, s.l1Table.get i2 = .ok l2 → i2 = i)
    (hl2 : t.l1Table.get i = .ok k2) (hk0 : k2 ≠ 0) (hk63 : k2 < 9223372036854775808)
    (hknew : ∀ i2, i2 ≠ i → s.l1Table.get i2 ≠ .ok k2)
    (hother : ∀ i2, i2 ≠ i → t.l1Table.get i2 = s.l1Table.get i2)
    (hnew : (q, k2, changed) ∈ held2) (hcget : changed.get j = .ok c)
    (hcother : ∀ other, other ≠ j → changed.get other = vec.get other)
    (hkeep : ∀ x ∈ held, x.2.1 ≠ l2 → x.2.1 ≠ k2 → x ∈ held2)
    (hsub : ∀ x ∈ held2, x.2.1 = k2 ∨ x.2.1 ∈ held.map fun item => item.2.1) :
    (t.readClusterAddress va).1 = .ok c
      ∧ ∀ va2, ¬ (l1TableIndex s.header va2 = .ok i ∧ l2TableIndex s.header va2 = .ok j) →
          (t.readClusterAddress va2).1 = (s.readClusterAddress va2).1 := by
  have hit : l1TableIndex t.header va = .ok i := by rw [hhead]; exact hi
  have hjt : l2TableIndex t.header va = .ok j := by rw [hhead]; exact hj
  refine ⟨?_, ?_⟩
  · rw [pointerWriteBackCache.read_cached t hh2 hit hjt hl2 hk0 hnew, hcget]
  · intro va2 hne
    obtain ⟨hi2, hj2⟩ := l1TableIndex_total hi va2
    generalize va2 / s.header.clusterSize / s.header.l2Size = i2 at hi2
    generalize va2 / s.header.clusterSize % s.header.l2Size = j2 at hj2
    have hi2t : l1TableIndex t.header va2 = .ok i2 := by rw [hhead]; exact hi2
    have hj2t : l2TableIndex t.header va2 = .ok j2 := by rw [hhead]; exact hj2
    by_cases hii : i2 = i
    · -- the same L2 table, another entry
      subst hii
      have hjj : j2 ≠ j := fun e => hne ⟨hi2, by rw [hj2, e]⟩
      rw [pointerWriteBackCache.read_cached t hh2 hi2t hj2t hl2 hk0 hnew, hcother j2 hjj,
        pointerWriteBackCache.read_cached s hh hi2 hj2 hl h0 hm]
    · have hlt := hother i2 hii
      cases hget : s.l1Table.get i2 with
      | error e =>
        unfold VectorCache.get at hget
        split at hget <;> exact Outcome.noConfusion hget
      | crash =>
        rw [hget] at hlt
        unfold pointerWriteBackCache.readClusterAddress
        simp only [hi2, hi2t, hget, hlt]
      | ok l3 =>
        rw [hget] at hlt
        by_cases hz : l3 = 0
        · subst hz
          rw [pointerWriteBackCache.read_unmapped t hi2t hlt,
            pointerWriteBackCache.read_unmapped s hi2 hget]
        · have h32 : l3 ≠ l2 := fun e => hii (halias i2 (by rw [hget, e]))
          have h3k : l3 ≠ k2 := fun e => hknew i2 hii (by rw [hget, e])
          by_cases hk : l3 ∈ held.map fun item => item.2.1
          · obtain ⟨⟨q3, k3, w⟩, hw3, e3⟩ := List.mem_map.mp hk
            simp only [] at e3
            subst e3
            rw [pointerWriteBackCache.read_cached t hh2 hi2t hj2t hlt hz
                (hkeep _ hw3 h32 h3k),
              pointerWriteBackCache.read_cached s hh hi2 hj2 hget hz hw3]
          · have hk2 : l3 ∉ held2.map fun item => item.2.1 := by
              intro hmem
              obtain ⟨x, hx, ex⟩ := List.mem_map.mp hmem
              rcases hsub x hx with h1 | h1
              · exact h3k (by rw [← ex, h1])
              · exact hk (by rw [← ex]; exact h1)
            rw [pointerWriteBackCache.read_uncached t hh2 (by rw [hcap2]; exact hcap)
                (by rw [hraw]; exact hw)
                (fun x hx => by
                  rcases hsub x hx with h1 | h1
                  · rw [h1]; exact hk63
                  · obtain ⟨y, hy, ey⟩ := List.mem_map.mp h1
                    rw [← ey]
                    exact hkeys y hy)
                hi2t hlt hz hk2,
              pointerWriteBackCache.read_uncached s hh hcap hw hkeys hi2 hget hz hk, hraw, hhead]

/-- C32 (the claim as stated fails): on `cachedPointerTable`, whose cached L2 table is clean,
let the callback return the address 0.  `updateClusterAddress` returns
`ErrNeedFreeClusters` and points the L1 entry at 0, and `readClusterAddress` of the same
address then returns `ErrNeedPointerCluster`, not the cluster that was entered: the method
takes whatever address the callback returns. -/
theorem updateClusterAddress_trusts_obtainNewCluster :
    (cachedPointerTable.updateClusterAddress 196608 262144 (.ok 0)).1
        = .needFreeClusters 196608 [(196608, 0), (0, 1)]
      ∧ ((cachedPointerTable.updateClusterAddress 196608 262144 (.ok 0)).2.readClusterAddress
          196608).1 = .error .needPointerCluster := by
  obtain ⟨held2, created2, l1Table, cache, changed, hu, _, _, hget, _⟩ :=
    @pointerWriteBackCache.update_copies_keys cachedPointerTable _ _
      (LruCacheMap.Holds.set (newCacheMap_holds Nat Nat 100) 196608
        (vectorCacheFromArray (List.replicate 8192 0))).2.1
      196608 262144 0 0 3 196608 0 (vectorCacheFromArray (List.replicate 8192 0)) rfl rfl rfl
      ((heldTouch_mem _ _ _ _ _).mpr (Or.inr rfl))
      (show 3 < (List.replicate 8192 0).length by rw [List.length_replicate]; decide)
      (by decide)
  rw [hu]
  exact ⟨rfl, pointerWriteBackCache.read_unmapped _ (i := 0)
    (show l1TableIndex createdHeader10MiB 196608 = .ok 0 by decide) hget⟩

/-- C32, amended.  Write-back pointer table over a writable raw file, with a cache in a
consistent state of capacity above zero whose keys are below `2 ^ 63`.  Let the L1 entry of
`va` be `l2 ≠ 0`, the L1 entry of no other index, cached with the vector `vec`, and let
`obtainNewCluster` return an address `n ≠ 0` below `2 ^ 63` that is not an L1 entry.  Then `updateClusterAddress(va, c, ...)` returns
`ErrNeedFreeClusters{l2, [(l2, 0), (n, 1)]}` exactly when `vec` is clean and `l2` is not in
the evicted-before-L1-sync set, and then the L1 entry of `va` is `n`; otherwise it returns
`nil` and the L1 entry stays `l2`.  In both cases `readClusterAddress(va)` afterwards returns
`c`, the raw file and every other L1 entry are untouched, and `readClusterAddress` returns
for every virtual address in another cluster of the virtual disk what it returned before,
whether its L2 table is in the cache or has to be read from the file. -/
theorem updateClusterAddress_then_readClusterAddress (s : pointerWriteBackCache)
    (held : List (Nat × Nat × VectorCache Nat)) (created va c n i j l2 p : Nat)
    (vec : VectorCache Nat)
    (hh : s.cache.Holds held created) (hcap : 0 < s.cache.capacity)
    (hw : s.rawFile.readOnly = false ∧ s.rawFile.file.writable = true)
    (hkeys : ∀ x ∈ held, x.2.1 < 9223372036854775808)
    (hi : l1TableIndex s.header va = .ok i) (hj : l2TableIndex s.header va = .ok j)
    (hl : s.l1Table.get i = .ok l2) (h0 : l2 ≠ 0)
    (halias : ∀ i2, s.l1Table.get i2 = .ok l2 → i2 = i)
    (hm : (p, l2, vec) ∈ held) (hidx : j < vec.data.length)
    (hn0 : n ≠ 0) (hn63 : n < 9223372036854775808)
    (hnew : ∀ i2, s.l1Table.get i2 ≠ .ok n) :
    (s.updateClusterAddress va c (.ok n)).1
        = (if (!vec.dirty && !decide (l2 ∈ s.evicted)) = true then
            .needFreeClusters l2 [(l2, 0), (n, 1)]
          else .done)
      ∧ (s.updateClusterAddress va c (.ok n)).2.l1Table.get i
        = .ok (if (!vec.dirty && !decide (l2 ∈ s.evicted)) = true then n else l2)
      ∧ ((s.updateClusterAddress va c (.ok n)).2.readClusterAddress va).1 = .ok c
      ∧ (s.updateClusterAddress va c (.ok n)).2.rawFile = s.rawFile
      ∧ (∀ i2, i2 ≠ i →
          (s.updateClusterAddress va c (.ok n)).2.l1Table.get i2 = s.l1Table.get i2)
      ∧ ∀ va2, ¬ (l1TableIndex s.header va2 = .ok i ∧ l2TableIndex s.header va2 = .ok j) →
          ((s.updateClusterAddress va c (.ok n)).2.readClusterAddress va2).1
            = (s.readClusterAddress va2).1 := by
  by_cases hclean : (!vec.dirty && !decide (l2 ∈ s.evicted)) = true
  · obtain ⟨held2, created2, l1Table, cache, changed, hu, hH, hc, hget, hother, hin, hcget,
      hcother, hkeep, hsub⟩ := s.update_copies_keys hh (c := c) (n := n) hi hj hl hm hidx hclean
    rw [hu, if_pos hclean, if_pos hclean]
    obtain ⟨hr1, hr2⟩ := pointerWriteBackCache.read_after_update s
      (pointerWriteBackCache.mk l1Table s.header s.rawFile cache s.evicted) hh hH hcap hc hw
      hkeys rfl rfl hi hj hl h0 hm halias hget hn0 hn63 (fun i2 _ => hnew i2) hother hin hcget
      hcother hkeep hsub
    exact ⟨rfl, hget, hr1, rfl, hother, hr2⟩
  · have hdirty : (!vec.dirty && !decide (l2 ∈ s.evicted)) = false := by
      simpa using hclean
    obtain ⟨held2, created2, cache, changed, hu, hH, hc, hin, hcget, hcother, hkeep, hsub⟩ :=
      s.update_in_place_keys hh (c := c) (.ok n) hi hj hl hm hidx hdirty
    rw [hu, if_neg hclean, if_neg hclean]
    obtain ⟨hr1, hr2⟩ := pointerWriteBackCache.read_after_update s
      (pointerWriteBackCache.mk s.l1Table s.header s.rawFile cache s.evicted) hh hH hcap hc hw
      hkeys rfl rfl hi hj hl h0 hm halias hl h0
      (hkeys _ hm) (fun i2 hii e => hii (halias i2 e)) (fun _ _ => rfl) hin hcget
      hcother (fun x hx h1 _ => hkeep x hx h1) (fun x hx => Or.inr (hsub x hx))
    exact ⟨rfl, hl, hr1, rfl, fun _ _ => rfl, hr2⟩

/-- C32 on `twoTablePointerTable`.  Mapping the virtual address 196608 to the cluster 262144,
with 327680 as the new L2 address, asks for the reference counts of the old and the new L2
table to be set, the address is then read back as 262144, and the address 536870912, whose
L2 table is not in the cache, reads as before.  With 196608 in the evicted-before-L1-sync
set the cached L2 table is changed in place, `nil` is returned, and the address is read back
as 262144. -/
theorem updateClusterAddress_then_readClusterAddress_witness :
    (twoTablePointerTable.updateClusterAddress 196608 262144 (.ok 327680)).1
        = .needFreeClusters 196608 [(196608, 0), (327680, 1)]
      ∧ ((twoTablePointerTable.updateClusterAddress 196608 262144 (.ok 327680)).2.readClusterAddress
          196608).1 = .ok 262144
      ∧ ((twoTablePointerTable.updateClusterAddress 196608 262144 (.ok 327680)).2.readClusterAddress
          536870912).1 = (twoTablePointerTable.readClusterAddress 536870912).1
      ∧ (({ twoTablePointerTable with evicted := [196608] } :
          pointerWriteBackCache).updateClusterAddress 196608 262144 (.ok 327680)).1 = .done
      ∧ ((({ twoTablePointerTable with evicted := [196608] } :
          pointerWriteBackCache).updateClusterAddress 196608 262144
            (.ok 327680)).2.readClusterAddress 196608).1 = .ok 262144 :=
  have hget : ∀ (a i2 : Nat), (vectorCacheFromArray [196608, 458752]).get i2 = .ok a →
      (a = 196608 ∧ i2 = 0) ∨ (a = 458752 ∧ i2 = 1) := by
    intro a i2 h
    match i2, h with
    | 0, h => exact Or.inl ⟨(Outcome.ok.inj h).symm, rfl⟩
    | 1, h => exact Or.inr ⟨(Outcome.ok.inj h).symm, rfl⟩
    | _ + 2, h => exact Outcome.noConfusion h
  have halias : ∀ i2, (vectorCacheFromArray [196608, 458752]).get i2 = .ok 196608 → i2 = 0 := by
    intro i2 h
    rcases hget _ _ h with ⟨_, e⟩ | ⟨e, _⟩
    · exact e
    · exact absurd e (by decide)
  have hnew : ∀ i2, (vectorCacheFromArray [196608, 458752]).get i2 ≠ .ok 327680 := by
    intro i2 h
    rcases hget _ _ h with ⟨e, _⟩ | ⟨e, _⟩ <;> exact absurd e (by decide)
  have hkeys : ∀ x ∈ heldTouch [] 0 196608 (vectorCacheFromArray (List.replicate 8192 0)),
      x.2.1 < 9223372036854775808 := by
    intro x hx
    rcases (heldTouch_mem _ _ _ _ _).mp hx with ⟨h1, _⟩ | rfl
    · exact absurd h1 (List.not_mem_nil x)
    · decide
  have h1 := updateClusterAddress_then_readClusterAddress twoTablePointerTable
    (heldTouch [] 0 196608 (vectorCacheFromArray (List.replicate 8192 0))) 1
    196608 262144 327680 0 3 196608 0 (vectorCacheFromArray (List.replicate 8192 0))
    (LruCacheMap.Holds.set (newCacheMap_holds Nat Nat 100) 196608
      (vectorCacheFromArray (List.replicate 8192 0))).2.1
    (by decide) ⟨rfl, rfl⟩ hkeys rfl rfl rfl (by decide) halias
    ((heldTouch_mem _ _ _ _ _).mpr (Or.inr rfl))
    (show 3 < (List.replicate 8192 0).length by rw [List.length_replicate]; decide)
    (by decide) (by decide) hnew
  have h2 := updateClusterAddress_then_readClusterAddress
    ({ twoTablePointerTable with evicted := [196608] } : pointerWriteBackCache)
    (heldTouch [] 0 196608 (vectorCacheFromArray (List.replicate 8192 0))) 1
    196608 262144 327680 0 3 196608 0 (vectorCacheFromArray (List.replicate 8192 0))
    (LruCacheMap.Holds.set (newCacheMap_holds Nat Nat 100) 196608
      (vectorCacheFromArray (List.replicate 8192 0))).2.1
    (by decide) ⟨rfl, rfl⟩ hkeys rfl rfl rfl (by decide) halias
    ((heldTouch_mem _ _ _ _ _).mpr (Or.inr rfl))
    (show 3 < (List.replicate 8192 0).length by rw [List.length_replicate]; decide)
    (by decide) (by decide) hnew
  ⟨h1.1.trans (if_pos (by decide)), h1.2.2.1,
    h1.2.2.2.2.2 536870912 (fun h => absurd (Outcome.ok.inj h.1) (by decide)),
    h2.1.trans (if_neg (by decide)), h2.2.2.1⟩

/-! ### Opening an image -/

set_option maxRecDepth 10000 in
/-- C11 (the code differs): `flaggedImageFile` has the dirty and corrupt incompatible bits
and the lazy-refcounts compatible bit set, yet opening it read-only passes the read-only
check with no rebuild required: `imageFromFile` never consults the dirty and corrupt flags
(which `validate` raises on a copy of the header), and the `lazyRefcounts` flag it consults
is never set from the compatible features when a header is read. -/
theorem imageFromFile_ignores_dirty_corrupt_lazy :
    ∃ header rawFile,
      imageFromFile.opening ⟨flaggedImageFile, false⟩ true (.ok ()) = .ok (header, rawFile, false)
      ∧ header.incompatibleFeatures = 3 ∧ header.compatibleFeatures = 1
      ∧ header.imageRefCountDirty = false ∧ header.imageCorrupt = false
      ∧ header.lazyRefcounts = false :=
  ⟨_, _, rfl, rfl, rfl, rfl, rfl, rfl⟩

/-! ### Rebuilding the reference counts -/

set_option maxRecDepth 100000 in
/-- C12 (the code differs): `sparseImageFile` opens read-write with a rebuild required, and
`rebuildReferenceCounts` succeeds on it; the data cluster at 153600 (cluster 300) is reachable
through the first L1 entry and the first entry of the L2 table at 1536, yet the count stored
for it in the rebuilt file is 0, while the L2 cluster has count 1.
`allocateReferenceCountBlocks` allocates as many blocks as the refcount table has clusters
(one), so only the counts of the first 256 clusters are written. -/
theorem rebuildReferenceCounts_leaves_reachable_cluster_uncounted :
    (imageFromFile.opening ⟨sparseImageFile, true⟩ false (.ok ())).bind
        (fun opened => .ok (opened.1, opened.2.2)) = .ok (smallClusterHeader, true)
      ∧ qcowRawFileFromFile ⟨sparseImageFile, true⟩ 512 false = .ok sparseImageRawFile
      ∧ (rebuildReferenceCounts sparseImageRawFile smallClusterHeader).1 = .ok ()
      ∧ (sparseImageRawFile.over
          (rebuildReferenceCounts sparseImageRawFile smallClusterHeader).2).readPointerTable
          smallClusterHeader.l1TableOffset 1 L1TableOffsetMask = .ok [1536]
      ∧ (sparseImageRawFile.over
          (rebuildReferenceCounts sparseImageRawFile smallClusterHeader).2).readPointerTable
          1536 1 L2TableOffsetMask = .ok [153600]
      ∧ ((storedReferenceCounts sparseImageRawFile smallClusterHeader
          (rebuildReferenceCounts sparseImageRawFile smallClusterHeader).2).bind
          fun referenceCounts => referenceCounts.getClusterRefcount 1536) = .ok 1
      ∧ ((storedReferenceCounts sparseImageRawFile smallClusterHeader
          (rebuildReferenceCounts sparseImageRawFile smallClusterHeader).2).bind
          fun referenceCounts => referenceCounts.getClusterRefcount 153600) = .ok 0 := by
  refine ⟨?_, ?_, ?_, ?_, ?_, ?_, ?_⟩
  · decide
  · rfl
  · rfl
  · decide
  · decide
  · decide
  · decide

/-! ### Clamping to the virtual size -/

/-- The method `limitRangeFile` is the clamp of the claim: `min n (V - a)` for `a ≤ V` and 0
for `a > V`, when `a + n` does not overflow 64 bits. -/
theorem ImageFile.limitRangeFile_eq (imageFile : ImageFile) (address count : Nat)
    (hsum : address + count < 18446744073709551616) :
    imageFile.limitRangeFile address count =
      if address ≤ imageFile.header.virtualDiskSizeBytes then
        min count (imageFile.header.virtualDiskSizeBytes - address)
      else 0 := by
  have ha : address < 18446744073709551616 := by omega
  have hsub : sub64 18446744073709551615 address = 18446744073709551615 - address := by
    unfold sub64
    rw [if_pos (by omega)]
  have hcheck : checkAddUint64Boundaries address count = .ok () := by
    unfold checkAddUint64Boundaries
    rw [hsub, if_neg (by omega)]
  unfold ImageFile.limitRangeFile
  rw [hcheck]
  simp only
  by_cases hle : address ≤ imageFile.header.virtualDiskSizeBytes
  · rw [if_neg (by omega), if_pos hle]
    unfold sub64
    rw [if_pos hle]
    by_cases hlt : count < imageFile.header.virtualDiskSizeBytes - address
    · rw [if_pos hlt, Nat.min_eq_left (by omega)]
    · rw [if_neg hlt, Nat.min_eq_right (by omega)]
  · rw [if_pos (by omega), if_neg hle]

set_option maxRecDepth 100000 in
/-- C4 (the code differs): the child image has a virtual size of 1024 bytes and
`limitRangeFile(0, 1024)` is 1024, but over a backing image of 512 bytes `ReadAt(0, 1024)`
returns 512 bytes: the second cluster is not allocated in the child, the backing image
clamps the read to its own virtual size and returns nothing, and `ReadAt` appends what it was
given. -/
theorem ReadAt_short_over_smaller_backing_image :
    (longChildImage.bind fun opened => some (opened.bind fun child =>
        .ok (child.header.virtualDiskSizeBytes, child.limitRangeFile 0 1024)))
      = some (.ok (1024, 1024))
    ∧ (shortBackingImage.bind fun opened => some (opened.bind fun backing =>
        .ok (backing.header.virtualDiskSizeBytes, backing.readOnly)))
      = some (.ok (512, true))
    ∧ longChildImage.readLength 0 1024 = some (.ok 512)
    ∧ longChildImage.readLength 0 512 = some (.ok 512) := by
  refine ⟨?_, ?_, ?_, ?_⟩ <;> decide

/-! ### The consistent state of an image: reads after writes -/

set_option maxRecDepth 4000

/-! ### Words of a file -/

theorem wrap64_of_lt {n : Nat} (h : n < 18446744073709551616) : wrap64 n = n :=
  Nat.mod_eq_of_lt h

theorem File.word_congr (f g : File) (p : Nat) (h : ∀ i, i < 8 → g.get (p + i) = f.get (p + i)) :
    g.word p = f.word p := by
  unfold File.word
  rw [File.bytes_eq_of_get g f p p 8 h]

theorem File.word_write_same (f : File) (p v : Nat) (hv : v < 18446744073709551616) :
    (f.write p (uint64ToByte v)).word p = v := by
  unfold File.word
  have := File.bytes_write_same f p (uint64ToByte v)
  rw [uint64ToByte_length] at this
  rw [this, beValue_uint64ToByte, wrap64_of_lt hv]

theorem File.word_write_of_disjoint (f : File) (p : Nat) (bs : List Byte) (q : Nat)
    (h : q + 8 ≤ p ∨ p + bs.length ≤ q) : (f.write p bs).word q = f.word q := by
  unfold File.word
  rw [File.bytes_write_of_disjoint f p bs q 8 h]

theorem File.Differ.differ_refl (touched : Nat → Prop) (f : File) : File.Differ touched f f :=
  ⟨le_refl _, fun _ _ => rfl⟩

theorem File.Differ.differ_trans {t1 t2 t : Nat → Prop} {f g k : File} (h1 : File.Differ t1 f g)
    (h2 : File.Differ t2 g k) (ht1 : ∀ p, t1 p → t p) (ht2 : ∀ p, t2 p → t p) :
    File.Differ t f k :=
  ⟨le_trans h1.1 h2.1, fun p hp => by
    rw [h2.2 p (fun h => hp (ht2 p h)), h1.2 p (fun h => hp (ht1 p h))]⟩

theorem File.Differ.mono {t1 t : Nat → Prop} {f g : File} (h1 : File.Differ t1 f g)
    (ht : ∀ p, t1 p → t p) : File.Differ t f g :=
  ⟨h1.1, fun p hp => h1.2 p (fun h => hp (ht p h))⟩

theorem File.Differ.write (f : File) (p : Nat) (bs : List Byte) :
    File.Differ (fun x => p ≤ x ∧ x < p + bs.length) f (f.write p bs) :=
  ⟨File.size_le_write f p bs, fun x hx => by rw [File.get_write, if_neg hx]⟩

theorem File.Differ.word {t : Nat → Prop} {f g : File} (h : File.Differ t f g) (p : Nat)
    (hp : ∀ i, i < 8 → ¬ t (p + i)) : g.word p = f.word p :=
  File.word_congr f g p fun i hi => h.2 (p + i) (hp i hi)

/-! ### Reads and writes of the raw file -/

theorem QcowRawFile.readUint64At_eq (rawFile : QcowRawFile) (offset : Nat)
    (hsize : offset + 8 ≤ rawFile.file.content.size) (hoff : offset < 9223372036854775808) :
    rawFile.readUint64At offset = .ok (rawFile.file.content.word offset) := by
  unfold QcowRawFile.readUint64At OsFile.ReadAt
  rw [if_neg (by omega), if_neg (by omega), if_pos hsize]
  rfl

theorem QcowRawFile.writeUint64At_eq (rawFile : QcowRawFile) (value offset : Nat)
    (hro : rawFile.readOnly = false) (hw : rawFile.file.writable = true)
    (hoff : offset < 9223372036854775808) :
    rawFile.writeUint64At value offset
      = (.ok (), rawFile.file.content.write offset (uint64ToByte value)) := by
  unfold QcowRawFile.writeUint64At OsFile.WriteAt
  rw [hro]
  simp only [Bool.false_eq_true, if_false]
  rw [if_neg (by omega), uint64ToByte_length, if_neg (by omega), if_pos hw]

theorem QcowRawFile.over_readOnly (rawFile : QcowRawFile) (f : File) :
    (rawFile.over f).readOnly = rawFile.readOnly := rfl

theorem QcowRawFile.over_writable (rawFile : QcowRawFile) (f : File) :
    (rawFile.over f).file.writable = rawFile.file.writable := rfl

/-! ### The layout of an image -/

theorem ImageHeader.Layout.clusterSize_ge {h : ImageHeader} {entries : Nat}
    (hl : h.Layout entries) : 512 ≤ h.clusterSize := by
  rw [hl.clusterSize_eq]
  calc 512 = 2 ^ 9 := by norm_num
    _ ≤ 2 ^ h.clusterBits := Nat.pow_le_pow_right (by norm_num) hl.bits_ge

theorem ImageHeader.Layout.clusterSize_le {h : ImageHeader} {entries : Nat}
    (hl : h.Layout entries) : h.clusterSize ≤ 1073741824 := by
  rw [hl.clusterSize_eq]
  calc 2 ^ h.clusterBits ≤ 2 ^ 30 := Nat.pow_le_pow_right (by norm_num) hl.bits_le
    _ = 1073741824 := by norm_num

theorem ImageHeader.Layout.eight_dvd {h : ImageHeader} {entries : Nat}
    (hl : h.Layout entries) : h.clusterSize = 8 * h.l2Size := by
  rw [hl.l2Size_eq, hl.clusterSize_eq]
  have : (2 : Nat) ^ h.clusterBits = 2 ^ 3 * 2 ^ (h.clusterBits - 3) := by
    rw [← Nat.pow_add]
    congr 1
    have := hl.bits_ge
    omega
  rw [this]
  norm_num

theorem ImageHeader.Layout.l2Size_pos {h : ImageHeader} {entries : Nat}
    (hl : h.Layout entries) : 0 < h.l2Size := by
  have := hl.eight_dvd
  have := hl.clusterSize_ge
  omega

theorem ImageHeader.Layout.l1TableIndex_eq {h : ImageHeader} {entries : Nat}
    (hl : h.Layout entries) (a : Nat) :
    l1TableIndex h a = .ok (a / h.clusterSize / h.l2Size) := by
  have := hl.clusterSize_ge
  have := hl.l2Size_pos
  rw [l1TableIndex, if_neg (by omega), if_neg (by omega)]

theorem ImageHeader.Layout.l2TableIndex_eq {h : ImageHeader} {entries : Nat}
    (hl : h.Layout entries) (a : Nat) :
    l2TableIndex h a = .ok (a / h.clusterSize % h.l2Size) := by
  have := hl.clusterSize_ge
  have := hl.l2Size_pos
  rw [l2TableIndex, if_neg (by omega), if_neg (by omega)]

theorem ImageHeader.Layout.index_lt {h : ImageHeader} {entries : Nat}
    (hl : h.Layout entries) {a : Nat} (ha : a < h.virtualDiskSizeBytes) :
    a / h.clusterSize / h.l2Size < h.numL2Clusters := by
  have hcs := hl.clusterSize_ge
  have hl2 := hl.l2Size_pos
  have hcov := hl.covered
  rw [Nat.div_div_eq_div_mul, Nat.div_lt_iff_lt_mul (Nat.mul_pos (by omega) hl2)]
  calc a < h.virtualDiskSizeBytes := ha
    _ ≤ h.numL2Clusters * h.l2Size * h.clusterSize := hcov
    _ = h.numL2Clusters * (h.clusterSize * h.l2Size) := by ring

/-! ### The pointer table without a cache -/

theorem ImageHeader.tablesEnd_l1 (h : ImageHeader) (entries : Nat) :
    h.l1TableOffset + 8 * h.numL2Clusters ≤ h.tablesEnd entries :=
  le_max_left _ _

theorem ImageHeader.tablesEnd_rt (h : ImageHeader) (entries : Nat) :
    h.refCountTableOffset + 8 * entries ≤ h.tablesEnd entries :=
  le_max_right _ _

theorem ClusterRoles.roles_size_lt {h : ImageHeader} {entries : Nat} {f : File}
    {ρ : Nat → ClusterRole} {L M : Nat → Nat} {avail : List Nat}
    (hc : ClusterRoles h entries f ρ L M avail) (hl : h.Layout entries) :
    f.size ≤ 36028797018963968 :=
  le_trans hc.size (le_trans hl.bound (by norm_num))

theorem ClusterRoles.l2_inFile {h : ImageHeader} {entries : Nat} {f : File}
    {ρ : Nat → ClusterRole} {L M : Nat → Nat} {avail : List Nat}
    (hc : ClusterRoles h entries f ρ L M avail) {i : Nat} (hi : i < h.numL2Clusters)
    (h0 : L i ≠ 0) :
    h.tablesEnd entries ≤ L i * h.clusterSize ∧ (L i + 1) * h.clusterSize ≤ f.size :=
  hc.inFile (L i) (by rw [hc.l2 i hi h0]; exact fun e => ClusterRole.noConfusion e)

theorem ClusterRoles.data_inFile {h : ImageHeader} {entries : Nat} {f : File}
    {ρ : Nat → ClusterRole} {L M : Nat → Nat} {avail : List Nat}
    (hc : ClusterRoles h entries f ρ L M avail) {k : Nat}
    (hk : k < h.numL2Clusters * h.l2Size) (h0 : M k ≠ 0) :
    h.tablesEnd entries ≤ M k * h.clusterSize ∧ (M k + 1) * h.clusterSize ≤ f.size :=
  hc.inFile (M k) (by rw [(hc.data k hk h0).1]; exact fun e => ClusterRole.noConfusion e)

theorem ImageHeader.Layout.cluster_lt {h : ImageHeader} {entries : Nat}
    (hl : h.Layout entries) {a : Nat} (ha : a < h.virtualDiskSizeBytes) :
    a / h.clusterSize < h.numL2Clusters * h.l2Size := by
  have hcs := hl.clusterSize_ge
  rw [Nat.div_lt_iff_lt_mul (by omega)]
  exact lt_of_lt_of_le ha hl.covered

theorem pointerTableNoCache.Represents.readClusterAddress_noCache {table : pointerTableNoCache}
    {h : ImageHeader} {entries : Nat} {f : File} {ρ : Nat → ClusterRole} {L M : Nat → Nat}
    {avail : List Nat} (hl : h.Layout entries) (hr : table.Represents h f L M)
    (hc : ClusterRoles h entries f ρ L M avail) {va : Nat}
    (hva : va < h.virtualDiskSizeBytes) :
    pointerTableNoCache.readClusterAddress { table with rawFile := table.rawFile.over f } va
      = if L (va / h.clusterSize / h.l2Size) = 0 then .error .needPointerCluster
        else .ok (M (va / h.clusterSize) * h.clusterSize) := by
  have hcs := hl.clusterSize_ge
  have hl2 := hl.l2Size_pos
  have h8 := hl.eight_dvd
  have hi := hl.index_lt hva
  have hsz := hc.roles_size_lt hl
  have ht1 := h.tablesEnd_l1 entries
  have htab := hc.tables
  have hmul : 8 * (va / h.clusterSize / h.l2Size) + 8 ≤ 8 * h.numL2Clusters := by omega
  have hoff : l2ClusterAddressOffsetInFile h va
      = .ok (h.l1TableOffset + 8 * (va / h.clusterSize / h.l2Size)) := by
    unfold l2ClusterAddressOffsetInFile
    rw [hl.l1TableIndex_eq]
    simp only [Outcome.bind]
    rw [wrap64_of_lt (show 8 * (va / h.clusterSize / h.l2Size) < 18446744073709551616 by omega),
      wrap64_of_lt (by omega)]
  have hget : l1NoCache.getL2ClusterAddress
      { table with rawFile := table.rawFile.over f } va
      = .ok (L (va / h.clusterSize / h.l2Size) * h.clusterSize) := by
    unfold l1NoCache.getL2ClusterAddress
    simp only [hr.header, hoff, Outcome.bind]
    rw [QcowRawFile.readUint64At_eq _ _ (by rw [QcowRawFile.over_content]; omega) (by omega),
      QcowRawFile.over_content, hr.l1 _ hi]
  unfold pointerTableNoCache.readClusterAddress
  rw [hget]
  simp only [Outcome.bind, hr.header]
  by_cases h0 : L (va / h.clusterSize / h.l2Size) = 0
  · rw [if_pos (by rw [h0, Nat.zero_mul]), if_pos h0]
  · have hin := hc.l2_inFile hi h0
    have hj : va / h.clusterSize % h.l2Size < h.l2Size := Nat.mod_lt _ hl2
    rw [if_neg (by
      intro e
      rcases Nat.mul_eq_zero.mp e with e | e
      · exact h0 e
      · omega), if_neg h0, hl.l2TableIndex_eq]
    simp only []
    have hb : L (va / h.clusterSize / h.l2Size) * h.clusterSize
        + 8 * (va / h.clusterSize % h.l2Size) + 8 ≤ f.size := by
      have : (L (va / h.clusterSize / h.l2Size) + 1) * h.clusterSize
          = L (va / h.clusterSize / h.l2Size) * h.clusterSize + h.clusterSize := by ring
      omega
    rw [wrap64_of_lt (show 8 * (va / h.clusterSize % h.l2Size) < 18446744073709551616 by omega),
      wrap64_of_lt (by omega),
      QcowRawFile.readUint64At_eq _ _ (by rw [QcowRawFile.over_content]; omega) (by omega),
      QcowRawFile.over_content, hr.l2 _ hi h0 _ hj]
    rw [Nat.mul_comm (va / h.clusterSize / h.l2Size), Nat.div_add_mod]

/-! ### Roles of clusters -/

theorem ClusterRoles.of_file {h : ImageHeader} {entries : Nat} {f f' : File}
    {ρ : Nat → ClusterRole} {L M : Nat → Nat} {avail : List Nat}
    (hc : ClusterRoles h entries f ρ L M avail) (hle : f.size ≤ f'.size)
    (hsize : f'.size ≤ entries * (h.clusterSize / 2) * h.clusterSize) :
    ClusterRoles h entries f' ρ L M avail :=
  { inFile := fun n hn => ⟨(hc.inFile n hn).1, le_trans (hc.inFile n hn).2 hle⟩
    l2 := hc.l2
    data := hc.data
    avail := hc.avail
    nodup := hc.nodup
    tables := le_trans hc.tables hle
    size := hsize }

/-- A pending cluster is referred to by nothing, so it can take any role. -/
theorem ClusterRoles.roles_assign {h : ImageHeader} {entries : Nat} {f : File}
    {ρ : Nat → ClusterRole} {L M : Nat → Nat} {avail : List Nat}
    (hc : ClusterRoles h entries f ρ L M avail) {n : Nat} (hn : ρ n = .pending)
    (r : ClusterRole) :
    ClusterRoles h entries f (Function.update ρ n r) L M avail := by
  have hin := hc.inFile n (by rw [hn]; exact fun e => ClusterRole.noConfusion e)
  refine
    { inFile := ?_, l2 := ?_, data := ?_, avail := ?_, nodup := hc.nodup, tables := hc.tables
      size := hc.size }
  · intro m hm
    by_cases e : m = n
    · subst e
      exact hin
    · rw [Function.update_noteq e] at hm
      exact hc.inFile m hm
  · intro i hi h0
    have := hc.l2 i hi h0
    have e : L i ≠ n := by
      intro e
      rw [e, hn] at this
      exact ClusterRole.noConfusion this
    rw [Function.update_noteq e]
    exact this
  · intro k hk h0
    have := hc.data k hk h0
    have e : M k ≠ n := by
      intro e
      rw [e, hn] at this
      exact ClusterRole.noConfusion this.1
    rw [Function.update_noteq e]
    exact this
  · intro a ha
    have := hc.avail a ha
    have e : a / h.clusterSize ≠ n := by
      intro e
      rw [e, hn] at this
      exact ClusterRole.noConfusion this.2
    rw [Function.update_noteq e]
    exact this

/-- A cluster with the role of the L2 table of an L1 entry that has none becomes its table. -/
theorem ClusterRoles.setL2 {h : ImageHeader} {entries : Nat} {f : File}
    {ρ : Nat → ClusterRole} {L M : Nat → Nat} {avail : List Nat}
    (hc : ClusterRoles h entries f ρ L M avail) {i n : Nat} (hn : ρ n = .l2Table i) :
    ClusterRoles h entries f ρ (Function.update L i n) M avail := by
  refine
    { inFile := hc.inFile, l2 := ?_, data := ?_, avail := hc.avail, nodup := hc.nodup
      tables := hc.tables, size := hc.size }
  · intro i' hi' h0
    by_cases e : i' = i
    · subst e
      rw [Function.update_same]
      exact hn
    · rw [Function.update_noteq e] at h0 ⊢
      exact hc.l2 i' hi' h0
  · intro k hk h0
    refine ⟨(hc.data k hk h0).1, ?_⟩
    by_cases e : k / h.l2Size = i
    · rw [e, Function.update_same]
      intro e0
      have hin := hc.inFile n (by rw [hn]; exact fun e => ClusterRole.noConfusion e)
      rw [e0] at hn
      have := hc.inFile 0 (by rw [hn]; exact fun e => ClusterRole.noConfusion e)
      have hd := (hc.data k hk h0).2
      rw [e] at hd
      -- cluster 0 holds no table: the L1 entry of `k` is not zero, so the tables end after 0
      have ht := h.tablesEnd_l1 entries
      have hi : i < h.numL2Clusters := by
        rw [← e]
        by_cases hl2 : h.l2Size = 0
        · rw [hl2] at hk
          omega
        · exact Nat.div_lt_of_lt_mul (by rw [Nat.mul_comm]; exact hk)
      omega
    · rw [Function.update_noteq e]
      exact (hc.data k hk h0).2

/-- A cluster with the role of the data of a cluster of the virtual disk becomes its data
cluster, when the L2 table for it exists. -/
theorem ClusterRoles.setData {h : ImageHeader} {entries : Nat} {f : File}
    {ρ : Nat → ClusterRole} {L M : Nat → Nat} {avail : List Nat}
    (hc : ClusterRoles h entries f ρ L M avail) {k c : Nat} (hn : ρ c = .data k)
    (hL : L (k / h.l2Size) ≠ 0) :
    ClusterRoles h entries f ρ L (Function.update M k c) avail := by
  refine
    { inFile := hc.inFile, l2 := hc.l2, data := ?_, avail := hc.avail, nodup := hc.nodup
      tables := hc.tables, size := hc.size }
  intro k' hk' h0
  by_cases e : k' = k
  · subst e
    rw [Function.update_same]
    exact ⟨hn, hL⟩
  · rw [Function.update_noteq e] at h0 ⊢
    exact hc.data k' hk' h0

/-- The zone of a byte of a cluster that has a role is the cluster with that role. -/
theorem ClusterRoles.zone_cluster {h : ImageHeader} {entries : Nat} {f : File}
    {ρ : Nat → ClusterRole} {L M : Nat → Nat} {avail : List Nat}
    (hc : ClusterRoles h entries f ρ L M avail) (hl : h.Layout entries) {n : Nat}
    (hn : ρ n ≠ .free) {j : Nat} (hj : j < h.clusterSize) :
    h.zone entries ρ (n * h.clusterSize + j) = .cluster (ρ n) := by
  have hin := (hc.inFile n hn).1
  have ht1 := h.tablesEnd_l1 entries
  have ht2 := h.tablesEnd_rt entries
  have hcs := hl.clusterSize_ge
  unfold ImageHeader.zone
  rw [if_neg (by omega), if_neg (by omega), if_neg (by omega)]
  congr 2
  rw [Nat.mul_comm, Nat.mul_add_div (by omega), Nat.div_eq_of_lt hj, Nat.add_zero]

theorem ImageHeader.zone_l1 (h : ImageHeader) (entries : Nat) (ρ : Nat → ClusterRole) {p : Nat}
    (hp : h.l1TableOffset ≤ p ∧ p < h.l1TableOffset + 8 * h.numL2Clusters) :
    h.zone entries ρ p = .l1Table := by
  unfold ImageHeader.zone
  rw [if_pos hp]

theorem ImageHeader.Layout.zone_rt {h : ImageHeader} {entries : Nat} (hl : h.Layout entries)
    (ρ : Nat → ClusterRole) {p : Nat}
    (hp : h.refCountTableOffset ≤ p ∧ p < h.refCountTableOffset + 8 * entries) :
    h.zone entries ρ p = .refcountTable := by
  have := hl.disjoint
  unfold ImageHeader.zone
  rw [if_neg (by omega), if_pos hp]

theorem File.word_zero (f : File) (p : Nat) (h : ∀ i, i < 8 → f.get (p + i) = 0) :
    f.word p = 0 := by
  unfold File.word File.bytes
  have : (List.range 8).map (fun i => f.get (p + i)) = (List.range 8).map fun _ => (0 : Byte) :=
    List.map_congr_left fun i hi => h i (List.mem_range.mp hi)
  rw [this]
  rfl

/-! ### The pointer table without a cache: new entries -/

theorem pointerTableNoCache.Represents.addNewPointerCluster_noCache {table : pointerTableNoCache}
    {h : ImageHeader} {entries : Nat} {f : File} {ρ : Nat → ClusterRole} {L M : Nat → Nat}
    {avail : List Nat} (hl : h.Layout entries) (hr : table.Represents h f L M)
    (hc : ClusterRoles h entries f ρ L M avail) {va n : Nat}
    (hva : va < h.virtualDiskSizeBytes) (h0 : L (va / h.clusterSize / h.l2Size) = 0)
    (hn : ρ n = .pending) (hz : ∀ j, j < h.clusterSize → f.get (n * h.clusterSize + j) = 0) :
    ∃ f', pointerTableNoCache.addNewPointerCluster
        { table with rawFile := table.rawFile.over f } va (n * h.clusterSize) = (.ok (), f')
      ∧ table.Represents h f' (Function.update L (va / h.clusterSize / h.l2Size) n) M
      ∧ f'.size = f.size
      ∧ File.Differ (h.pointerZone entries ρ) f f' := by
  have hcs := hl.clusterSize_ge
  have hl2 := hl.l2Size_pos
  have h8 := hl.eight_dvd
  have hi := hl.index_lt hva
  have hsz := hc.roles_size_lt hl
  have ht1 := h.tablesEnd_l1 entries
  have htab := hc.tables
  have hin := hc.inFile n (by rw [hn]; exact fun e => ClusterRole.noConfusion e)
  have hn1 : (n + 1) * h.clusterSize = n * h.clusterSize + h.clusterSize := by ring
  have hoff : l2ClusterAddressOffsetInFile h va
      = .ok (h.l1TableOffset + 8 * (va / h.clusterSize / h.l2Size)) := by
    unfold l2ClusterAddressOffsetInFile
    rw [hl.l1TableIndex_eq]
    simp only [Outcome.bind]
    rw [wrap64_of_lt (show 8 * (va / h.clusterSize / h.l2Size) < 18446744073709551616 by omega),
      wrap64_of_lt (by omega)]
  refine ⟨f.write (h.l1TableOffset + 8 * (va / h.clusterSize / h.l2Size))
    (uint64ToByte (n * h.clusterSize)), ?_, ?_, ?_, ?_⟩
  · unfold pointerTableNoCache.addNewPointerCluster
    simp only [hr.header, hoff]
    rw [QcowRawFile.writeUint64At_eq (table.rawFile.over f) _ _ hr.writable.1 hr.writable.2 (by omega)]
    rfl
  · refine ⟨hr.header, hr.writable, ?_, ?_⟩
    · intro i' hi'
      by_cases e : i' = va / h.clusterSize / h.l2Size
      · subst e
        rw [Function.update_same, File.word_write_same _ _ _ (by omega)]
      · rw [Function.update_noteq e,
          File.word_write_of_disjoint _ _ _ _ (by rw [uint64ToByte_length]; omega)]
        exact hr.l1 i' hi'
    · intro i' hi' hL j hj
      have hdis : ∀ m, h.tablesEnd entries ≤ m * h.clusterSize →
          (f.write (h.l1TableOffset + 8 * (va / h.clusterSize / h.l2Size))
            (uint64ToByte (n * h.clusterSize))).word (m * h.clusterSize + 8 * j)
          = f.word (m * h.clusterSize + 8 * j) := fun m hm =>
        File.word_write_of_disjoint _ _ _ _ (by rw [uint64ToByte_length]; omega)
      by_cases e : i' = va / h.clusterSize / h.l2Size
      · subst e
        rw [Function.update_same, hdis n hin.1]
        have hM : M (va / h.clusterSize / h.l2Size * h.l2Size + j) = 0 := by
          by_contra hne
          have hk : va / h.clusterSize / h.l2Size * h.l2Size + j
              < h.numL2Clusters * h.l2Size := by
            calc va / h.clusterSize / h.l2Size * h.l2Size + j
                < (va / h.clusterSize / h.l2Size + 1) * h.l2Size := by
                  rw [Nat.add_mul, Nat.one_mul]; omega
              _ ≤ h.numL2Clusters * h.l2Size := Nat.mul_le_mul_right _ hi'
          have := (hc.data _ hk hne).2
          rw [Nat.mul_comm, Nat.mul_add_div hl2, Nat.div_eq_of_lt hj, Nat.add_zero] at this
          exact this h0
        rw [hM, Nat.zero_mul]
        exact File.word_zero _ _ fun i hi8 => by
          rw [Nat.add_assoc]
          exact hz _ (by omega)
      · rw [Function.update_noteq e] at hL ⊢
        rw [hdis _ (hc.l2_inFile hi' hL).1]
        exact hr.l2 i' hi' hL j hj
  · rw [File.size_write, uint64ToByte_length, if_neg (by omega)]
    exact max_eq_left (by omega)
  · refine (File.Differ.write f _ _).mono ?_
    intro p hp
    rw [uint64ToByte_length] at hp
    exact Or.inl (h.zone_l1 entries ρ (by omega))

theorem pointerTableNoCache.Represents.updateClusterAddress_noCache {table : pointerTableNoCache}
    {h : ImageHeader} {entries : Nat} {f : File} {ρ : Nat → ClusterRole} {L M : Nat → Nat}
    {avail : List Nat} (hl : h.Layout entries) (hr : table.Represents h f L M)
    (hc : ClusterRoles h entries f ρ L M avail) {va c : Nat}
    (hva : va < h.virtualDiskSizeBytes) (h0 : L (va / h.clusterSize / h.l2Size) ≠ 0)
    (hn : ρ c = .pending) :
    ∃ f', pointerTableNoCache.updateClusterAddress
        { table with rawFile := table.rawFile.over f } va (c * h.clusterSize) = (.ok (), f')
      ∧ table.Represents h f' L (Function.update M (va / h.clusterSize) c)
      ∧ f'.size = f.size
      ∧ File.Differ (h.pointerZone entries ρ) f f' := by
  have hcs := hl.clusterSize_ge
  have hl2 := hl.l2Size_pos
  have h8 := hl.eight_dvd
  have hi := hl.index_lt hva
  have hsz := hc.roles_size_lt hl
  have ht1 := h.tablesEnd_l1 entries
  have htab := hc.tables
  have hin := hc.inFile c (by rw [hn]; exact fun e => ClusterRole.noConfusion e)
  have hLin := hc.l2_inFile hi h0
  have hj : va / h.clusterSize % h.l2Size < h.l2Size := Nat.mod_lt _ hl2
  have hn1 : ∀ m, (m + 1) * h.clusterSize = m * h.clusterSize + h.clusterSize := fun m => by
    ring
  have hLn := hn1 (L (va / h.clusterSize / h.l2Size))
  have hcn := hn1 c
  have hoff : l2ClusterAddressOffsetInFile h va
      = .ok (h.l1TableOffset + 8 * (va / h.clusterSize / h.l2Size)) := by
    unfold l2ClusterAddressOffsetInFile
    rw [hl.l1TableIndex_eq]
    simp only [Outcome.bind]
    rw [wrap64_of_lt (show 8 * (va / h.clusterSize / h.l2Size) < 18446744073709551616 by omega),
      wrap64_of_lt (by omega)]
  have hget : l1NoCache.getL2ClusterAddress
      { header := h, rawFile := table.rawFile.over f } va
      = .ok (L (va / h.clusterSize / h.l2Size) * h.clusterSize) := by
    unfold l1NoCache.getL2ClusterAddress
    simp only [hoff, Outcome.bind]
    rw [QcowRawFile.readUint64At_eq _ _ (by rw [QcowRawFile.over_content]; omega) (by omega),
      QcowRawFile.over_content, hr.l1 _ hi]
  have hslot : ∀ p, L (va / h.clusterSize / h.l2Size) * h.clusterSize
        + 8 * (va / h.clusterSize % h.l2Size) ≤ p
      ∧ p < L (va / h.clusterSize / h.l2Size) * h.clusterSize
        + 8 * (va / h.clusterSize % h.l2Size) + 8 →
      h.zone entries ρ p = .cluster (.l2Table (va / h.clusterSize / h.l2Size)) := by
    intro p hp
    have := hc.zone_cluster hl (n := L (va / h.clusterSize / h.l2Size))
      (by rw [hc.l2 _ hi h0]; exact fun e => ClusterRole.noConfusion e)
      (j := p - L (va / h.clusterSize / h.l2Size) * h.clusterSize) (by omega)
    rw [hc.l2 _ hi h0] at this
    rw [← this]
    congr 1
    omega
  refine ⟨f.write (L (va / h.clusterSize / h.l2Size) * h.clusterSize
      + 8 * (va / h.clusterSize % h.l2Size)) (uint64ToByte (c * h.clusterSize)), ?_, ?_, ?_, ?_⟩
  · unfold pointerTableNoCache.updateClusterAddress
    simp only [hr.header, hget, hl.l2TableIndex_eq]
    rw [wrap64_of_lt (show 8 * (va / h.clusterSize % h.l2Size) < 18446744073709551616 by omega),
      wrap64_of_lt (by omega),
      QcowRawFile.writeUint64At_eq (table.rawFile.over f) _ _ hr.writable.1 hr.writable.2 (by omega)]
    rfl
  · refine ⟨hr.header, hr.writable, ?_, ?_⟩
    · intro i' hi'
      rw [File.word_write_of_disjoint _ _ _ _ (by rw [uint64ToByte_length]; omega)]
      exact hr.l1 i' hi'
    · intro i' hi' hL j hj'
      by_cases e : i' = va / h.clusterSize / h.l2Size
      · subst e
        by_cases ej : j = va / h.clusterSize % h.l2Size
        · subst ej
          rw [File.word_write_same _ _ _ (by omega), Nat.mul_comm (va / h.clusterSize / h.l2Size),
            Nat.div_add_mod, Function.update_same]
        · rw [File.word_write_of_disjoint _ _ _ _ (by rw [uint64ToByte_length]; omega),
            Function.update_noteq]
          · exact hr.l2 _ hi' hL j hj'
          · intro e
            apply ej
            have := congrArg (· % h.l2Size) e
            simp only [Nat.mul_add_mod_of_lt hj', Nat.mul_comm _ h.l2Size] at this
            rw [Nat.mul_comm, Nat.mul_add_mod_of_lt hj'] at this
            exact this
      · have hne : L i' ≠ L (va / h.clusterSize / h.l2Size) := by
          intro eL
          have h1 := hc.l2 i' hi' hL
          have h2 := hc.l2 _ hi h0
          rw [eL, h2] at h1
          exact e (ClusterRole.l2Table.inj h1).symm
        have hin' := hc.l2_inFile hi' hL
        have hLn' := hn1 (L i')
        have hdis : L i' * h.clusterSize + h.clusterSize
              ≤ L (va / h.clusterSize / h.l2Size) * h.clusterSize
            ∨ L (va / h.clusterSize / h.l2Size) * h.clusterSize + h.clusterSize
              ≤ L i' * h.clusterSize := by
          rcases Nat.lt_or_gt_of_ne hne with hlt | hgt
          · left
            calc L i' * h.clusterSize + h.clusterSize = (L i' + 1) * h.clusterSize := by ring
              _ ≤ _ := Nat.mul_le_mul_right _ hlt
          · right
            calc L (va / h.clusterSize / h.l2Size) * h.clusterSize + h.clusterSize
                = (L (va / h.clusterSize / h.l2Size) + 1) * h.clusterSize := by ring
              _ ≤ _ := Nat.mul_le_mul_right _ hgt
        rw [File.word_write_of_disjoint _ _ _ _ (by rw [uint64ToByte_length]; omega),
          Function.update_noteq]
        · exact hr.l2 i' hi' hL j hj'
        · intro ek
          apply e
          have := congrArg (· / h.l2Size) ek
          simp only at this
          rw [Nat.mul_comm, Nat.mul_add_div hl2, Nat.div_eq_of_lt hj', Nat.add_zero] at this
          exact this
  · rw [File.size_write, uint64ToByte_length, if_neg (by omega)]
    exact max_eq_left (by omega)
  · refine (File.Differ.write f _ _).mono ?_
    intro p hp
    rw [uint64ToByte_length] at hp
    exact Or.inr ⟨_, hslot p hp⟩

/-! ### The reference counts without a cache -/

theorem QcowRawFile.writeUint16At_eq (rawFile : QcowRawFile) (value offset : Nat)
    (hro : rawFile.readOnly = false) (hw : rawFile.file.writable = true)
    (hoff : offset < 9223372036854775808) :
    rawFile.writeUint16At value offset
      = (.ok (), rawFile.file.content.write offset (uint16ToByte value)) := by
  unfold QcowRawFile.writeUint16At OsFile.WriteAt
  rw [hro]
  simp only [Bool.false_eq_true, if_false]
  rw [if_neg (by omega), if_neg (by simp [uint16ToByte]), if_pos hw]

theorem uint16ToByte_length (v : Nat) : (uint16ToByte v).length = 2 := rfl

theorem flatMap_uint16ToByte_length (table : List Nat) :
    (table.flatMap uint16ToByte).length = 2 * table.length := by
  induction table with
  | nil => rfl
  | cons x rest ih =>
    rw [List.flatMap_cons, List.length_append, ih, uint16ToByte_length, List.length_cons]
    omega

theorem QcowRawFile.writeRefcountBlock_eq (rawFile : QcowRawFile) (offset : Nat)
    (table : List Nat) (hro : rawFile.readOnly = false) (hw : rawFile.file.writable = true)
    (hoff : offset < 9223372036854775808) :
    rawFile.writeRefcountBlock offset table
      = (.ok (), rawFile.file.content.write offset (table.flatMap uint16ToByte)) := by
  unfold QcowRawFile.writeRefcountBlock OsFile.seekWrite
  rw [hro]
  simp only [Bool.false_eq_true, if_false]
  rw [if_neg (by omega), if_pos hw]

theorem QcowRawFile.over_over (rawFile : QcowRawFile) (f g : File) :
    (rawFile.over f).over g = rawFile.over g := rfl

/-- A write inside a cluster that has a role changes bytes of the zone of that role only and
leaves the size of the file. -/
theorem ClusterRoles.write_cluster {h : ImageHeader} {entries : Nat} {f : File}
    {ρ : Nat → ClusterRole} {L M : Nat → Nat} {avail : List Nat}
    (hc : ClusterRoles h entries f ρ L M avail) (hl : h.Layout entries) {n : Nat}
    (hn : ρ n ≠ .free) (k : Nat) (bs : List Byte) (hk : k + bs.length ≤ h.clusterSize) :
    (f.write (n * h.clusterSize + k) bs).size = f.size
      ∧ File.Differ (fun p => h.zone entries ρ p = .cluster (ρ n)) f
          (f.write (n * h.clusterSize + k) bs) := by
  have hin := hc.inFile n hn
  have hn1 : (n + 1) * h.clusterSize = n * h.clusterSize + h.clusterSize := by ring
  constructor
  · rw [File.size_write]
    split
    · rfl
    · exact max_eq_left (by omega)
  · refine (File.Differ.write f _ _).mono ?_
    intro p hp
    have := hc.zone_cluster hl hn (j := p - n * h.clusterSize) (by omega)
    rw [← this]
    congr 1
    omega

theorem ImageHeader.Layout.half_pos {h : ImageHeader} {entries : Nat} (hl : h.Layout entries) :
    0 < h.clusterSize / 2 ∧ 2 * (h.clusterSize / 2) = h.clusterSize := by
  have h8 := hl.eight_dvd
  have := hl.l2Size_pos
  omega

theorem ReferenceCountNoCache.Confined.setClusterRefcount_noCache {rc : ReferenceCountNoCache}
    {h : ImageHeader} {entries : Nat} {f : File} {ρ : Nat → ClusterRole} {L M : Nat → Nat}
    {avail : List Nat} (hl : h.Layout entries) (hk : rc.Confined h entries f ρ)
    (hc : ClusterRoles h entries f ρ L M avail) {address : Nat} (refcount : Nat)
    (haddr : address + h.clusterSize ≤ f.size) (cluster : Option newCluster)
    (hnew : ∀ x ∈ cluster, h.clusterSize ∣ x.clusterAddress
      ∧ ρ (x.clusterAddress / h.clusterSize) = .reserved
      ∧ x.referenceCountBlock.data.length = h.clusterSize / 2) :
    ∃ r f', ReferenceCountNoCache.setClusterRefcount
        { rc with rawFile := rc.rawFile.over f } address refcount cluster = (r, f')
      ∧ rc.Confined h entries f' ρ ∧ f'.size = f.size
      ∧ File.Differ (h.countZone entries ρ) f f'
      ∧ (r = .needNewCluster ∨ r = .done none) := by
  have hcs := hl.clusterSize_ge
  have hhalf := hl.half_pos
  have hsz := hc.roles_size_lt hl
  have ht2 := h.tablesEnd_rt entries
  have htab := hc.tables
  have hsize := hc.size
  -- the index into the table is below the number of entries
  have ht : address / h.clusterSize / (h.clusterSize / 2) < entries := by
    rw [Nat.div_div_eq_div_mul, Nat.div_lt_iff_lt_mul (Nat.mul_pos (by omega) hhalf.1)]
    calc address < f.size := by omega
      _ ≤ entries * (h.clusterSize / 2) * h.clusterSize := hsize
      _ = entries * (h.clusterSize * (h.clusterSize / 2)) := by ring
  have hb : address / h.clusterSize % (h.clusterSize / 2) < h.clusterSize / 2 :=
    Nat.mod_lt _ hhalf.1
  have hidx : getRefcountIndex address h.clusterSize (h.clusterSize / 2)
      = .ok (address / h.clusterSize / (h.clusterSize / 2),
        address / h.clusterSize % (h.clusterSize / 2)) := by
    rw [getRefcountIndex, if_neg (by omega), if_neg (by omega)]
  have hread : (rc.rawFile.over f).readUint64At
      (h.refCountTableOffset + 8 * (address / h.clusterSize / (h.clusterSize / 2)))
      = .ok (f.word (h.refCountTableOffset
          + 8 * (address / h.clusterSize / (h.clusterSize / 2)))) :=
    QcowRawFile.readUint64At_eq _ _ (by rw [QcowRawFile.over_content]; omega) (by omega)
  have hentry := hk.blocks _ ht
  -- a write inside a reserved cluster keeps the invariant
  have hkeep : ∀ (g : File) (b k : Nat) (bs : List Byte), rc.Confined h entries g ρ →
      ClusterRoles h entries g ρ L M avail → g.size = f.size →
      h.clusterSize ∣ b → ρ (b / h.clusterSize) = .reserved → k + bs.length ≤ h.clusterSize →
      rc.Confined h entries (g.write (b + k) bs) ρ
        ∧ ClusterRoles h entries (g.write (b + k) bs) ρ L M avail
        ∧ (g.write (b + k) bs).size = f.size
        ∧ File.Differ (h.countZone entries ρ) g (g.write (b + k) bs) := by
    intro g b k bs hkg hcg hgs hdvd hres hkb
    obtain ⟨q, rfl⟩ := hdvd
    rw [Nat.mul_div_cancel_left _ (by omega : 0 < h.clusterSize)] at hres
    have hne : ρ q ≠ .free := by rw [hres]; exact fun e => ClusterRole.noConfusion e
    have hw := hcg.write_cluster hl hne k bs hkb
    rw [Nat.mul_comm q] at hw
    have hin := hcg.inFile q hne
    refine ⟨{ hkg with blocks := ?_ }, hcg.of_file (by rw [hw.1]) (by rw [hw.1]; exact hcg.size),
      by rw [hw.1, hgs], hw.2.mono fun p hp => Or.inr (by rw [hp, hres])⟩
    intro t htt
    rw [File.word_write_of_disjoint _ _ _ _ (by
      have := Nat.mul_comm q h.clusterSize
      omega)]
    exact hkg.blocks t htt
  unfold ReferenceCountNoCache.setClusterRefcount
  simp only [hk.clusterSize, hk.perBlock, hidx, hk.offset]
  rw [wrap64_of_lt (show 8 * (address / h.clusterSize / (h.clusterSize / 2))
      < 18446744073709551616 by omega), wrap64_of_lt (by omega), hread]
  simp only [QcowRawFile.over_content, QcowRawFile.over_over]
  rcases cluster with _ | x
  · simp only []
    by_cases hz : f.word (h.refCountTableOffset
        + 8 * (address / h.clusterSize / (h.clusterSize / 2))) = 0
    · rw [if_pos hz]
      exact ⟨_, _, rfl, hk, rfl, File.Differ.differ_refl _ _, Or.inl rfl⟩
    · rw [if_neg hz]
      simp only []
      rcases hentry with e | ⟨hdvd, hres⟩
      · exact absurd e hz
      · have hin := hc.inFile _ (by rw [hres]; exact fun e => ClusterRole.noConfusion e)
        have hmul := Nat.div_mul_cancel hdvd
        have hn1 : (f.word (h.refCountTableOffset
            + 8 * (address / h.clusterSize / (h.clusterSize / 2))) / h.clusterSize + 1)
            * h.clusterSize = f.word (h.refCountTableOffset
            + 8 * (address / h.clusterSize / (h.clusterSize / 2))) + h.clusterSize := by
          rw [Nat.add_mul, hmul, Nat.one_mul]
        rw [wrap64_of_lt (show address / h.clusterSize % (h.clusterSize / 2) * 2
            < 18446744073709551616 by omega), wrap64_of_lt (by omega),
          QcowRawFile.writeUint16At_eq (rc.rawFile.over f) _ _ hk.writable.1 hk.writable.2
            (by omega)]
        obtain ⟨k1, _, k3, k4⟩ := hkeep f _ (address / h.clusterSize % (h.clusterSize / 2) * 2)
          (uint16ToByte refcount) hk hc rfl hdvd hres (by rw [uint16ToByte_length]; omega)
        exact ⟨_, _, rfl, k1, k3, k4, Or.inr rfl⟩
  · obtain ⟨hdvd, hres, hlen⟩ := hnew x rfl
    have hin := hc.inFile _ (by rw [hres]; exact fun e => ClusterRole.noConfusion e)
    have hmul := Nat.div_mul_cancel hdvd
    have hn1 : (x.clusterAddress / h.clusterSize + 1) * h.clusterSize
        = x.clusterAddress + h.clusterSize := by
      rw [Nat.add_mul, hmul, Nat.one_mul]
    simp only []
    rw [QcowRawFile.writeRefcountBlock_eq (rc.rawFile.over f) _ _ hk.writable.1 hk.writable.2
      (by omega)]
    simp only [QcowRawFile.over_content, QcowRawFile.over_over]
    -- the block
    obtain ⟨a1, a2, a3, a4⟩ := hkeep f x.clusterAddress 0
      (x.referenceCountBlock.getValues.flatMap uint16ToByte) hk hc rfl hdvd hres (by
        rw [flatMap_uint16ToByte_length]
        show 0 + 2 * x.referenceCountBlock.data.length ≤ _
        omega)
    rw [Nat.add_zero] at a1 a2 a3 a4
    -- the entry of the table
    rw [QcowRawFile.writeUint64At_eq (rc.rawFile.over (f.write x.clusterAddress
      (x.referenceCountBlock.getValues.flatMap uint16ToByte))) _ _ hk.writable.1 hk.writable.2
      (by omega)]
    simp only [QcowRawFile.over_content]
    have b1 : rc.Confined h entries
        ((f.write x.clusterAddress (x.referenceCountBlock.getValues.flatMap uint16ToByte)).write
          (h.refCountTableOffset + 8 * (address / h.clusterSize / (h.clusterSize / 2)))
          (uint64ToByte x.clusterAddress)) ρ := by
      refine { a1 with blocks := ?_ }
      intro t htt
      by_cases e : t = address / h.clusterSize / (h.clusterSize / 2)
      · subst e
        rw [File.word_write_same _ _ _ (by omega)]
        exact Or.inr ⟨hdvd, hres⟩
      · rw [File.word_write_of_disjoint _ _ _ _ (by rw [uint64ToByte_length]; omega)]
        exact a1.blocks t htt
    have b3 : ((f.write x.clusterAddress
          (x.referenceCountBlock.getValues.flatMap uint16ToByte)).write
          (h.refCountTableOffset + 8 * (address / h.clusterSize / (h.clusterSize / 2)))
          (uint64ToByte x.clusterAddress)).size = f.size := by
      rw [File.size_write, uint64ToByte_length, if_neg (by omega), a3]
      exact max_eq_left (by omega)
    have b4 : File.Differ (h.countZone entries ρ)
        (f.write x.clusterAddress (x.referenceCountBlock.getValues.flatMap uint16ToByte))
        ((f.write x.clusterAddress
          (x.referenceCountBlock.getValues.flatMap uint16ToByte)).write
          (h.refCountTableOffset + 8 * (address / h.clusterSize / (h.clusterSize / 2)))
          (uint64ToByte x.clusterAddress)) := by
      refine (File.Differ.write _ _ _).mono ?_
      intro p hp
      rw [uint64ToByte_length] at hp
      exact Or.inl (hl.zone_rt ρ (by omega))
    have b2 := a2.of_file (le_of_eq (a3.trans b3.symm)) (by rw [b3]; exact hc.size)
    -- the count
    rw [wrap64_of_lt (show address / h.clusterSize % (h.clusterSize / 2) * 2
        < 18446744073709551616 by omega), wrap64_of_lt (by omega),
      QcowRawFile.writeUint16At_eq (rc.rawFile.over ((f.write x.clusterAddress
          (x.referenceCountBlock.getValues.flatMap uint16ToByte)).write
          (h.refCountTableOffset + 8 * (address / h.clusterSize / (h.clusterSize / 2)))
          (uint64ToByte x.clusterAddress))) _ _ hk.writable.1 hk.writable.2
        (by omega)]
    simp only [QcowRawFile.over_content]
    obtain ⟨c1, _, c3, c4⟩ := hkeep _ x.clusterAddress
      (address / h.clusterSize % (h.clusterSize / 2) * 2) (uint16ToByte refcount) b1 b2 b3 hdvd
      hres (by rw [uint16ToByte_length]; omega)
    exact ⟨_, _, rfl, c1, c3,
      (a4.differ_trans b4 (fun _ hp => hp) (fun _ hp => hp)).differ_trans c4 (fun _ hp => hp) (fun _ hp => hp),
      Or.inr rfl⟩

/-! ### Invariants and writes elsewhere -/

theorem ClusterRoles.l2_word {h : ImageHeader} {entries : Nat} {f f' : File}
    {ρ : Nat → ClusterRole} {L M : Nat → Nat} {avail : List Nat}
    (hc : ClusterRoles h entries f ρ L M avail) (hl : h.Layout entries) {t : Nat → Prop}
    (hd : File.Differ t f f') (ht : ∀ p, t p → ¬ h.pointerZone entries ρ p) {i : Nat}
    (hi : i < h.numL2Clusters) (h0 : L i ≠ 0) {j : Nat} (hj : j < h.l2Size) :
    f'.word (L i * h.clusterSize + 8 * j) = f.word (L i * h.clusterSize + 8 * j) := by
  have h8 := hl.eight_dvd
  refine hd.word _ fun k hk htp => ht _ htp (Or.inr ⟨i, ?_⟩)
  have := hc.zone_cluster hl (n := L i)
    (by rw [hc.l2 i hi h0]; exact fun e => ClusterRole.noConfusion e) (j := 8 * j + k) (by omega)
  rw [hc.l2 i hi h0, ← Nat.add_assoc] at this
  exact this

theorem ClusterRoles.l1_word {h : ImageHeader} {entries : Nat} {f f' : File}
    {ρ : Nat → ClusterRole} {t : Nat → Prop}
    (hd : File.Differ t f f') (ht : ∀ p, t p → ¬ h.pointerZone entries ρ p) {i : Nat}
    (hi : i < h.numL2Clusters) :
    f'.word (h.l1TableOffset + 8 * i) = f.word (h.l1TableOffset + 8 * i) :=
  hd.word _ fun k hk htp => ht _ htp (Or.inl (h.zone_l1 entries ρ (by omega)))

theorem l2TableOnDisk.table_of_differ {h : ImageHeader} {entries : Nat} {f f' : File}
    {ρ : Nat → ClusterRole} {L M : Nat → Nat} {avail : List Nat}
    (hc : ClusterRoles h entries f ρ L M avail) (hl : h.Layout entries) {t : Nat → Prop}
    (hd : File.Differ t f f') (ht : ∀ p, t p → ¬ h.pointerZone entries ρ p) {i : Nat}
    (hi : i < h.numL2Clusters) (h0 : L i ≠ 0) (ho : l2TableOnDisk h f L M i) :
    l2TableOnDisk h f' L M i := by
  intro j hj
  rw [hc.l2_word hl hd ht hi h0 hj]
  exact ho j hj

theorem pointerTableCache.Represents.pointers_of_differ {pt : pointerTableCache} {h : ImageHeader}
    {entries : Nat} {f f' : File} {ρ : Nat → ClusterRole} {L M : Nat → Nat} {avail : List Nat}
    (hr : pt.Represents h f L M) (hc : ClusterRoles h entries f ρ L M avail)
    (hl : h.Layout entries) {t : Nat → Prop} (hd : File.Differ t f f')
    (ht : ∀ p, t p → ¬ h.pointerZone entries ρ p) : pt.Represents h f' L M := by
  cases pt with
  | noCache table =>
    refine ⟨hr.header, hr.writable, ?_, ?_⟩
    · intro i hi
      rw [ClusterRoles.l1_word hd ht hi]
      exact hr.l1 i hi
    · intro i hi h0 j hj
      rw [hc.l2_word hl hd ht hi h0 hj]
      exact hr.l2 i hi h0 j hj
  | writeBack table =>
    obtain ⟨held, created, hh, hx, hn⟩ := hr.cache
    refine ⟨hr.header, hr.writable, hr.clusterSize, hr.l1Length, hr.l1, hr.capacity, held,
      created, hh, ⟨?_, ?_⟩⟩
    · intro x hxm
      obtain ⟨i, hi, h0, hkey, hlen, hval, hdisk⟩ := hx x hxm
      exact ⟨i, hi, h0, hkey, hlen, hval, fun hcl =>
        l2TableOnDisk.table_of_differ hc hl hd ht hi h0 (hdisk hcl)⟩
    · intro i hi h0 hnm
      exact l2TableOnDisk.table_of_differ hc hl hd ht hi h0 (hn i hi h0 hnm)

theorem reservedOrNone.of_roles {h : ImageHeader} {ρ ρ' : Nat → ClusterRole} {b : Nat}
    (hr : reservedOrNone h ρ b) (hρ : ∀ n, ρ n = .reserved → ρ' n = .reserved) :
    reservedOrNone h ρ' b := by
  rcases hr with e | ⟨hd, hres⟩
  · exact Or.inl e
  · exact Or.inr ⟨hd, hρ _ hres⟩

theorem ReferenceCountTable.Confined.counts_of_differ {rcs : ReferenceCountTable} {h : ImageHeader}
    {entries : Nat} {f f' : File} {ρ ρ' : Nat → ClusterRole}
    (hk : rcs.Confined h entries f ρ) (hl : h.Layout entries) {t : Nat → Prop}
    (hd : File.Differ t f f') (ht : ∀ p, t p → h.zone entries ρ p ≠ .refcountTable)
    (hρ : ∀ n, ρ n = .reserved → ρ' n = .reserved) : rcs.Confined h entries f' ρ' := by
  cases rcs with
  | noCache rc =>
    refine ⟨hk.offset, hk.clusterSize, hk.perBlock, hk.writable, hk.limit, ?_⟩
    intro i hi
    have : f'.word (h.refCountTableOffset + 8 * i) = f.word (h.refCountTableOffset + 8 * i) :=
      hd.word _ fun k hk8 htp => ht _ htp (hl.zone_rt ρ (by omega))
    rw [this]
    exact (hk.blocks i hi).of_roles hρ
  | writeBack rc =>
    exact ⟨hk.clusterSize, hk.perBlock, hk.writable, hk.limit,
      fun b hb => (hk.blocks b hb).of_roles hρ, hk.capacity, hk.cache⟩

/-- The zone of a byte does not depend on the role of a cluster it is not in. -/
theorem ImageHeader.zone_update (h : ImageHeader) (entries : Nat) (ρ : Nat → ClusterRole)
    (n : Nat) (r : ClusterRole) (p : Nat) (hp : p / h.clusterSize ≠ n) :
    h.zone entries (Function.update ρ n r) p = h.zone entries ρ p := by
  unfold ImageHeader.zone
  rw [Function.update_noteq hp]

/-- The zone of a byte of a cluster that is free or has a role, by cases. -/
theorem ImageHeader.zone_cases (h : ImageHeader) (entries : Nat) (ρ : Nat → ClusterRole)
    (p : Nat) :
    h.zone entries ρ p = .l1Table ∨ h.zone entries ρ p = .refcountTable
      ∨ h.zone entries ρ p = .other
      ∨ (h.tablesEnd entries ≤ p ∧ h.zone entries ρ p = .cluster (ρ (p / h.clusterSize))) := by
  unfold ImageHeader.zone
  split
  · exact Or.inl rfl
  · split
    · exact Or.inr (Or.inl rfl)
    · split
      · exact Or.inr (Or.inr (Or.inl rfl))
      · exact Or.inr (Or.inr (Or.inr ⟨by omega, rfl⟩))

/-! ### Steps that keep the data -/

theorem ImageFile.Keeps.keeps_refl (entries : Nat) (s : ImageFile) (ρ : Nat → ClusterRole) :
    ImageFile.Keeps entries s ρ s ρ :=
  ⟨rfl, rfl, le_refl _, fun _ _ _ => rfl, fun _ _ => rfl⟩

/-- The zone of a byte is the same for roles that agree on its cluster. -/
theorem ImageHeader.zone_congr (h : ImageHeader) (entries : Nat) {ρ ρ' : Nat → ClusterRole}
    {p : Nat} (e : ρ' (p / h.clusterSize) = ρ (p / h.clusterSize)) :
    h.zone entries ρ' p = h.zone entries ρ p := by
  unfold ImageHeader.zone
  rw [e]

/-- A byte in the zone of a cluster with a role lies in that cluster. -/
theorem ImageHeader.zone_cluster_iff (h : ImageHeader) (entries : Nat) (ρ : Nat → ClusterRole)
    (p : Nat) (r : ClusterRole) (hz : h.zone entries ρ p = .cluster r) :
    ρ (p / h.clusterSize) = r := by
  unfold ImageHeader.zone at hz
  split at hz
  · exact Zone.noConfusion hz
  · split at hz
    · exact Zone.noConfusion hz
    · split at hz
      · exact Zone.noConfusion hz
      · exact Zone.cluster.inj hz

theorem ImageFile.Keeps.zone {entries : Nat} {s s' : ImageFile} {ρ ρ' : Nat → ClusterRole}
    (hk : ImageFile.Keeps entries s ρ s' ρ') {p : Nat} {r : ClusterRole}
    (hz : s.header.zone entries ρ p = .cluster r) (hf : r ≠ .free) (ha : r ≠ .available) :
    s'.header.zone entries ρ' p = .cluster r := by
  have hr := s.header.zone_cluster_iff entries ρ p r hz
  rw [hk.header, ← hz]
  exact s.header.zone_congr entries (hk.roles _ (by rw [hr]; exact hf) (by rw [hr]; exact ha))

theorem ImageFile.Keeps.keeps_trans {entries : Nat} {s s' s'' : ImageFile}
    {ρ ρ' ρ'' : Nat → ClusterRole} (h1 : ImageFile.Keeps entries s ρ s' ρ')
    (h2 : ImageFile.Keeps entries s' ρ' s'' ρ'') : ImageFile.Keeps entries s ρ s'' ρ'' := by
  refine ⟨h2.header.trans h1.header, h2.readOnly.trans h1.readOnly,
    le_trans h1.size h2.size, ?_, ?_⟩
  · intro n hf ha
    have e := h1.roles n hf ha
    rw [h2.roles n (by rw [e]; exact hf) (by rw [e]; exact ha), e]
  · intro p hp
    rw [← h1.kept p hp]
    apply h2.kept
    rcases hp with hp | ⟨k, hp⟩
    · exact Or.inl (h1.zone hp (fun e => ClusterRole.noConfusion e)
        (fun e => ClusterRole.noConfusion e))
    · exact Or.inr ⟨k, h1.zone hp (fun e => ClusterRole.noConfusion e)
        (fun e => ClusterRole.noConfusion e)⟩

/-- A cluster that no table refers to takes a new role. -/
theorem ClusterRoles.roles_update {h : ImageHeader} {entries : Nat} {f f' : File}
    {ρ : Nat → ClusterRole} {L M : Nat → Nat} {avail avail' : List Nat}
    (hc : ClusterRoles h entries f ρ L M avail) {n : Nat} {r : ClusterRole}
    (hl2 : ∀ i, ρ n ≠ .l2Table i) (hdata : ∀ k, ρ n ≠ .data k)
    (hsub : ∀ a ∈ avail', a ∈ avail ∧ a / h.clusterSize ≠ n) (hnd : avail'.Nodup)
    (hin : r ≠ .free → h.tablesEnd entries ≤ n * h.clusterSize ∧ (n + 1) * h.clusterSize ≤ f'.size)
    (hle : f.size ≤ f'.size) (hsize : f'.size ≤ entries * (h.clusterSize / 2) * h.clusterSize) :
    ClusterRoles h entries f' (Function.update ρ n r) L M avail' := by
  refine
    { inFile := ?_, l2 := ?_, data := ?_, avail := ?_, nodup := hnd
      tables := le_trans hc.tables hle, size := hsize }
  · intro m hm
    by_cases e : m = n
    · subst e
      rw [Function.update_same] at hm
      exact hin hm
    · rw [Function.update_noteq e] at hm
      exact ⟨(hc.inFile m hm).1, le_trans (hc.inFile m hm).2 hle⟩
  · intro i hi h0
    have := hc.l2 i hi h0
    have e : L i ≠ n := fun e => hl2 i (e ▸ this)
    rw [Function.update_noteq e]
    exact this
  · intro k hk h0
    have := hc.data k hk h0
    have e : M k ≠ n := fun e => hdata k (e ▸ this.1)
    rw [Function.update_noteq e]
    exact this
  · intro a ha
    obtain ⟨hm, hne⟩ := hsub a ha
    rw [Function.update_noteq hne]
    exact hc.avail a hm

/-! ### Allocating a cluster -/

theorem and_not_mask (x b : Nat) (hx : x < 2 ^ 64) (hb : b ≤ 64) :
    x &&& ((2 ^ 64 - 1) ^^^ (2 ^ b - 1)) = x / 2 ^ b * 2 ^ b := by
  apply Nat.eq_of_testBit_eq
  intro i
  rw [Nat.testBit_and, Nat.testBit_xor, Nat.testBit_two_pow_sub_one, Nat.testBit_two_pow_sub_one,
    Nat.mul_comm, Nat.testBit_mul_pow_two, ← Nat.shiftRight_eq_div_pow, Nat.testBit_shiftRight]
  by_cases h2 : i < b
  · rw [decide_eq_true h2, decide_eq_true (show i < 64 by omega),
      decide_eq_false (show ¬ i ≥ b by omega)]
    simp
  · rw [decide_eq_false h2, decide_eq_true (show i ≥ b by omega),
      show b + (i - b) = i by omega]
    by_cases h1 : i < 64
    · rw [decide_eq_true h1]
      simp
    · rw [decide_eq_false h1,
        Nat.testBit_lt_two_pow (lt_of_lt_of_le hx (Nat.pow_le_pow_right (by decide) (by omega)))]
      simp

theorem File.get_truncate (f : File) (m p : Nat) (hm : f.size ≤ m) :
    (f.truncate m).get p = f.get p := by
  unfold File.truncate File.get
  by_cases h1 : p < m
  · simp [h1]
  · simp [h1, show ¬ p < f.size by omega]

theorem File.get_of_size_le (f : File) (p : Nat) (h : f.size ≤ p) : f.get p = 0 := by
  unfold File.get
  rw [if_neg (by omega)]

/-- The zone of a byte of a cluster behind the tables. -/
theorem ImageHeader.zone_of_ge (h : ImageHeader) (entries : Nat)
    (ρ : Nat → ClusterRole) {n : Nat} (hn : h.tablesEnd entries ≤ n * h.clusterSize) {j : Nat}
    (hj : j < h.clusterSize) : h.zone entries ρ (n * h.clusterSize + j) = .cluster (ρ n) := by
  have ht1 := h.tablesEnd_l1 entries
  have ht2 := h.tablesEnd_rt entries
  unfold ImageHeader.zone
  rw [if_neg (by omega), if_neg (by omega), if_neg (by omega)]
  congr 2
  rw [Nat.mul_comm, Nat.mul_add_div (by omega), Nat.div_eq_of_lt hj, Nat.add_zero]

/-- The cluster that `allocateClusterAtFileEnd` appends: the first cluster boundary at or
behind the end of the file. -/
theorem QcowRawFile.allocateClusterAtFileEnd_eq (rawFile : QcowRawFile) (maxValid bits : Nat)
    (hro : rawFile.readOnly = false) (hw : rawFile.file.writable = true)
    (hbits : bits ≤ 30) (hcs : rawFile.clusterSize = 2 ^ bits)
    (hmask : rawFile.clusterMask = rawFile.clusterSize - 1)
    (hsize : rawFile.file.content.size ≤ 36028797018963968) :
    rawFile.allocateClusterAtFileEnd maxValid
      = if (rawFile.file.content.size + rawFile.clusterSize - 1) / rawFile.clusterSize
            * rawFile.clusterSize > maxValid then
          (.error .wrongNewClusterAddress, rawFile.file.content)
        else
          (.ok ((rawFile.file.content.size + rawFile.clusterSize - 1) / rawFile.clusterSize
              * rawFile.clusterSize),
            rawFile.file.content.truncate
              ((rawFile.file.content.size + rawFile.clusterSize - 1) / rawFile.clusterSize
                * rawFile.clusterSize + rawFile.clusterSize)) := by
  have hpos : 0 < 2 ^ bits := Nat.two_pow_pos bits
  have hle : 2 ^ bits ≤ 1073741824 :=
    le_trans (Nat.pow_le_pow_right (by decide) hbits) (by norm_num)
  have hdiv : (rawFile.file.content.size + 2 ^ bits - 1) / 2 ^ bits * 2 ^ bits
      ≤ rawFile.file.content.size + 2 ^ bits - 1 := Nat.div_mul_le_self _ _
  unfold QcowRawFile.allocateClusterAtFileEnd
  simp only [hro, Bool.false_eq_true, if_false, hmask]
  rw [hcs]
  have h1 : wrap64 (rawFile.file.content.size + 2 ^ bits) = rawFile.file.content.size + 2 ^ bits :=
    wrap64_of_lt (by omega)
  have h2 : sub64 (rawFile.file.content.size + 2 ^ bits) 1
      = rawFile.file.content.size + 2 ^ bits - 1 := by
    unfold sub64
    rw [if_pos (by omega)]
  rw [h1, h2, show (18446744073709551615 : Nat) = 2 ^ 64 - 1 by norm_num,
    and_not_mask _ bits (by norm_num; omega) (by omega)]
  split
  · rfl
  · rw [wrap64_of_lt (by omega)]
    unfold OsFile.Truncate
    rw [if_neg (by omega)]
    simp only [hw, if_true]

theorem QcowRawFile.zeroCluster_eq (rawFile : QcowRawFile) (address : Nat)
    (hw : rawFile.file.writable = true) (hoff : address < 9223372036854775808) :
    rawFile.zeroCluster address
      = (.ok (), rawFile.file.content.write address (List.replicate rawFile.clusterSize 0)) := by
  unfold QcowRawFile.zeroCluster OsFile.seekWrite
  rw [if_neg (by omega)]
  simp only [hw, if_true]

theorem ReferenceCountTable.Confined.limit {rcs : ReferenceCountTable} {h : ImageHeader}
    {entries : Nat} {f : File} {ρ : Nat → ClusterRole} (hk : rcs.Confined h entries f ρ) :
    rcs.maxValidClusterOffset + h.clusterSize ≤ entries * (h.clusterSize / 2) * h.clusterSize := by
  cases rcs with
  | noCache rc => exact ReferenceCountNoCache.Confined.limit hk
  | writeBack rc => exact ReferenceCountWriteBack.Confined.limit hk

theorem ReferenceCountTable.Confined.perBlock {rcs : ReferenceCountTable} {h : ImageHeader}
    {entries : Nat} {f : File} {ρ : Nat → ClusterRole} (hk : rcs.Confined h entries f ρ) :
    rcs.referenceCountsPerBlock = h.clusterSize / 2 := by
  cases rcs with
  | noCache rc => exact ReferenceCountNoCache.Confined.perBlock hk
  | writeBack rc => exact ReferenceCountWriteBack.Confined.perBlock hk

theorem ImageFile.Sound.sound_size_lt {s : ImageFile} {entries : Nat} {L M : Nat → Nat}
    {ρ : Nat → ClusterRole} (hs : s.Sound entries L M ρ) :
    s.file.size ≤ 36028797018963968 := hs.roles.roles_size_lt hs.layout

/-- The image after a write that leaves the pointer tables and the refcount table alone and
fits the roles `ρ'`. -/
theorem ImageFile.Sound.sound_of_differ {s : ImageFile} {entries : Nat} {L M : Nat → Nat}
    {ρ ρ' : Nat → ClusterRole} (hs : s.Sound entries L M ρ) {s' : ImageFile}
    (hraw : s'.rawFile = s.rawFile.over s'.file) (hh : s'.header = s.header)
    (hp : s'.pointerTable = s.pointerTable) (hr : s'.referenceCounts = s.referenceCounts)
    {t : Nat → Prop} (hd : File.Differ t s.file s'.file)
    (ht : ∀ p, t p → ¬ s.header.pointerZone entries ρ p
      ∧ s.header.zone entries ρ p ≠ .refcountTable)
    (hρ : ∀ n, ρ n = .reserved → ρ' n = .reserved)
    (hc : ClusterRoles s.header entries s'.file ρ' L M s'.availClusters) :
    s'.Sound entries L M ρ' := by
  refine
    { layout := hh ▸ hs.layout, writable := ?_, clusterSize := ?_, clusterMask := ?_
      roles := hh ▸ hc, pointers := ?_, counts := ?_ }
  · rw [hraw]; exact hs.writable
  · rw [hraw, hh]; exact hs.clusterSize
  · rw [hraw, hh]; exact hs.clusterMask
  · rw [hp, hh]
    exact hs.pointers.pointers_of_differ hs.roles hs.layout hd fun p hp => (ht p hp).1
  · rw [hr, hh]
    exact hs.counts.counts_of_differ hs.layout hd (fun p hp => (ht p hp).2) hρ

theorem ImageFile.Sound.getNewCluster {s : ImageFile} {entries : Nat} {L M : Nat → Nat}
    {ρ : Nat → ClusterRole} (hs : s.Sound entries L M ρ) :
    ∃ r s', s.getNewCluster none = (r, s')
      ∧ ((∃ e, r = .error e) ∧ s'.Sound entries L M ρ ∧ ImageFile.Keeps entries s ρ s' ρ
        ∨ ∃ n, r = .ok (n * s.header.clusterSize)
            ∧ s'.Sound entries L M (Function.update ρ n .pending)
            ∧ ImageFile.Keeps entries s ρ s' (Function.update ρ n .pending)
            ∧ (ρ n = .free ∨ ρ n = .available)
            ∧ (∀ j, j < s.header.clusterSize →
                s'.file.get (n * s.header.clusterSize + j) = 0)
            ∧ File.Differ (fun p => s.header.zone entries ρ p = .cluster .free
                ∨ s.header.zone entries ρ p = .cluster .available) s.file s'.file) := by
  have hl := hs.layout
  have hcs := hl.clusterSize_ge
  have hcl := hl.clusterSize_le
  have hsz := hs.sound_size_lt
  have hfile : s.file = s.rawFile.file.content := rfl
  unfold ImageFile.getNewCluster
  cases hlast : s.availClusters.getLast? with
  | some a =>
    obtain ⟨ys, hys⟩ := List.getLast?_eq_some_iff.mp hlast
    have hmem : a ∈ s.availClusters := by rw [hys]; simp
    have hnd := hs.roles.nodup
    rw [hys] at hnd
    have hnot : a ∉ ys := fun hin =>
      (List.nodup_append.mp hnd).2.2 hin (List.mem_singleton_self a)
    obtain ⟨hdvd, hrole⟩ := hs.roles.avail a hmem
    have hin := hs.roles.inFile (a / s.header.clusterSize)
      (by rw [hrole]; exact fun e => ClusterRole.noConfusion e)
    have ha : a / s.header.clusterSize * s.header.clusterSize = a := Nat.div_mul_cancel hdvd
    rw [Nat.add_mul, ha, Nat.one_mul] at hin
    simp only []
    rw [show ({ s with availClusters := s.availClusters.dropLast } : ImageFile).rawFile
      = s.rawFile from rfl,
      QcowRawFile.zeroCluster_eq _ _ hs.writable.2 (by rw [hfile] at hsz hin; omega)]
    simp only []
    rw [hs.clusterSize, ← hfile]
    have hd : File.Differ (fun p => a ≤ p ∧ p < a + s.header.clusterSize) s.file
        (s.file.write a (List.replicate s.header.clusterSize 0)) := by
      have := File.Differ.write s.file a (List.replicate s.header.clusterSize 0)
      rw [List.length_replicate] at this
      exact this
    have hzone : ∀ p, a ≤ p ∧ p < a + s.header.clusterSize →
        s.header.zone entries ρ p = .cluster .available := by
      intro p hp
      have := hs.roles.zone_cluster hl (n := a / s.header.clusterSize)
        (by rw [hrole]; exact fun e => ClusterRole.noConfusion e) (j := p - a) (by omega)
      rw [ha, hrole, show a + (p - a) = p by omega] at this
      exact this
    have hsize : (s.file.write a (List.replicate s.header.clusterSize 0)).size = s.file.size := by
      rw [File.size_write, List.length_replicate, if_neg (by omega)]
      exact max_eq_left hin.2
    refine ⟨_, _, rfl, Or.inr ⟨a / s.header.clusterSize, by rw [ha], ?_, ?_, Or.inr hrole, ?_,
      hd.mono fun p hp => Or.inr (hzone p hp)⟩⟩
    · refine hs.sound_of_differ rfl rfl rfl rfl hd ?_ ?_ ?_
      · intro p hp
        have hz := hzone p hp
        refine ⟨?_, by rw [hz]; exact fun e => Zone.noConfusion e⟩
        rintro (h1 | ⟨i, h1⟩) <;> rw [hz] at h1
        · exact Zone.noConfusion h1
        · exact ClusterRole.noConfusion (Zone.cluster.inj h1)
      · intro m hm
        rw [Function.update_noteq]
        · exact hm
        · rintro rfl
          rw [hrole] at hm
          exact ClusterRole.noConfusion hm
      · refine hs.roles.roles_update (fun i => by rw [hrole]; exact fun e => ClusterRole.noConfusion e)
          (fun k => by rw [hrole]; exact fun e => ClusterRole.noConfusion e) ?_ ?_ ?_ ?_ ?_
        · intro a' ha'
          change a' ∈ s.availClusters.dropLast at ha'
          rw [hys, List.dropLast_concat] at ha'
          have hm' : a' ∈ s.availClusters := by rw [hys]; exact List.mem_append_left _ ha'
          refine ⟨hm', fun e => hnot ?_⟩
          have hd' := (hs.roles.avail a' hm').1
          have : a' = a := by
            rw [← Nat.div_mul_cancel hd', e, ha]
          rw [← this]
          exact ha'
        · show s.availClusters.dropLast.Nodup
          rw [hys, List.dropLast_concat]
          exact (List.nodup_append.mp hnd).1
        · intro _
          rw [Nat.add_mul, ha, Nat.one_mul]
          exact ⟨hin.1, by
            show a + s.header.clusterSize
              ≤ (s.file.write a (List.replicate s.header.clusterSize 0)).size
            rw [hsize]; exact hin.2⟩
        · exact hd.1
        · show (s.file.write a (List.replicate s.header.clusterSize 0)).size ≤ _
          rw [hsize]
          exact hs.roles.size
    · refine ⟨rfl, rfl, hd.1, ?_, ?_⟩
      · intro m hf hav
        rw [Function.update_noteq]
        rintro rfl
        exact hav hrole
      · intro p hp
        refine hd.2 p fun hin' => ?_
        have hz := hzone p hin'
        rcases hp with hp | ⟨k, hp⟩ <;> rw [hz] at hp <;>
          exact ClusterRole.noConfusion (Zone.cluster.inj hp)
    · intro j hj
      show (s.file.write a (List.replicate s.header.clusterSize 0)).get _ = 0
      rw [ha, File.get_write, List.length_replicate, if_pos (by omega)]
      rw [List.getD_eq_getElem?_getD, List.getElem?_replicate]
      simp [hj]
  | none =>
    simp only []
    rw [QcowRawFile.allocateClusterAtFileEnd_eq s.rawFile _ s.header.clusterBits
      hs.writable.1 hs.writable.2 hl.bits_le (by rw [hs.clusterSize, hl.clusterSize_eq])
      (by rw [hs.clusterMask, hs.clusterSize]) (by rw [← hfile]; exact hsz)]
    rw [hs.clusterSize, ← hfile]
    generalize hn : (s.file.size + s.header.clusterSize - 1) / s.header.clusterSize = n
    have hge : s.file.size ≤ n * s.header.clusterSize
        ∧ n * s.header.clusterSize < s.file.size + s.header.clusterSize := by
      have h1 := Nat.div_add_mod (s.file.size + s.header.clusterSize - 1) s.header.clusterSize
      have h2 := Nat.mod_lt (s.file.size + s.header.clusterSize - 1)
        (show s.header.clusterSize > 0 by omega)
      rw [hn, Nat.mul_comm] at h1
      omega
    by_cases hmax : n * s.header.clusterSize > s.referenceCounts.maxValidClusterOffset
    · rw [if_pos hmax]
      refine ⟨_, _, rfl, Or.inl ⟨⟨_, rfl⟩, ?_, ?_⟩⟩
      · exact hs
      · exact ImageFile.Keeps.keeps_refl entries s ρ
    · rw [if_neg hmax]
      have hlim := hs.counts.limit
      have hfree : ρ n = .free := by
        by_contra hne
        have := (hs.roles.inFile n hne).2
        rw [Nat.add_mul, Nat.one_mul] at this
        omega
      have hd : File.Differ (fun _ => False) s.file
          (s.file.truncate (n * s.header.clusterSize + s.header.clusterSize)) :=
        ⟨by show s.file.size ≤ n * s.header.clusterSize + s.header.clusterSize; omega,
          fun p _ => File.get_truncate _ _ _ (by omega)⟩
      refine ⟨_, _, rfl, Or.inr ⟨n, rfl, ?_, ?_, Or.inl hfree, ?_, hd.mono fun p hp => hp.elim⟩⟩
      · refine hs.sound_of_differ rfl rfl rfl rfl hd (fun p hp => hp.elim) ?_ ?_
        · intro m hm
          rw [Function.update_noteq]
          · exact hm
          · rintro rfl
            rw [hfree] at hm
            exact ClusterRole.noConfusion hm
        · refine hs.roles.roles_update (fun i => by rw [hfree]; exact fun e => ClusterRole.noConfusion e)
            (fun k => by rw [hfree]; exact fun e => ClusterRole.noConfusion e) ?_ ?_ ?_ ?_ ?_
          · intro a' ha'
            change a' ∈ s.availClusters at ha'
            refine ⟨ha', fun e => ?_⟩
            have := (hs.roles.avail a' ha').2
            rw [e, hfree] at this
            exact ClusterRole.noConfusion this
          · exact hs.roles.nodup
          · intro _
            have := hs.roles.tables
            rw [Nat.add_mul, Nat.one_mul]
            exact ⟨by omega, le_refl _⟩
          · exact hd.1
          · show n * s.header.clusterSize + s.header.clusterSize ≤ _
            omega
      · refine ⟨rfl, rfl, hd.1, ?_, ?_⟩
        · intro m hf hav
          rw [Function.update_noteq]
          rintro rfl
          exact hf hfree
        · intro p _
          exact hd.2 p (fun hF => hF)
      · intro j hj
        show (s.file.truncate _).get _ = 0
        rw [File.get_truncate _ _ _ (by omega)]
        exact File.get_of_size_le _ _ (by omega)

/-! ### The LRU cache with any callback -/

theorem mem_heldTouch {T P : Type} [DecidableEq T] {held : List (Nat × T × VectorCache P)}
    {created : Nat} {key : T} {value : VectorCache P} {x : Nat × T × VectorCache P}
    (hx : x ∈ heldTouch held created key value) :
    (x ∈ held ∧ x.2.1 ≠ key) ∨ x = (created, key, value) := by
  unfold heldTouch at hx
  rcases List.mem_append.mp hx with h1 | h1
  · rw [List.mem_filter] at h1
    exact Or.inl ⟨h1.1, by simpa using h1.2⟩
  · exact Or.inr (List.mem_singleton.mp h1)

theorem heldTouch_keys {T P : Type} [DecidableEq T] (held : List (Nat × T × VectorCache P))
    (created : Nat) (key : T) (value : VectorCache P) (k : T) :
    k ∈ (heldTouch held created key value).map (fun x => x.2.1)
      ↔ k = key ∨ k ∈ held.map (fun x => x.2.1) := by
  unfold heldTouch
  simp only [List.map_append, List.mem_append, List.mem_map, List.mem_filter, List.mem_singleton]
  constructor
  · rintro (⟨x, ⟨hx, _⟩, rfl⟩ | ⟨x, rfl, rfl⟩)
    · exact Or.inr ⟨x, hx, rfl⟩
    · exact Or.inl rfl
  · rintro (rfl | ⟨x, hx, rfl⟩)
    · exact Or.inr ⟨_, rfl, rfl⟩
    · by_cases e : x.2.1 = key
      · exact Or.inr ⟨_, rfl, e.symm⟩
      · exact Or.inl ⟨x, ⟨hx, by simpa using e⟩, rfl⟩

/-! ### The write-back reference counts write to reserved clusters only -/

theorem VectorCache.set_ok {P : Type} (cache : VectorCache P) (index : Nat) (value : P)
    (h : index < cache.data.length) :
    cache.set index value = .ok { data := cache.data.set index value, dirty := true } := by
  unfold VectorCache.set
  rw [if_pos h]

theorem VectorCache.set_of_ok {P : Type} {cache after : VectorCache P} {index : Nat} {value : P}
    (h : cache.set index value = .ok after) :
    index < cache.data.length ∧ after = { data := cache.data.set index value, dirty := true } := by
  unfold VectorCache.set at h
  by_cases hi : index < cache.data.length
  · rw [if_pos hi] at h
    exact ⟨hi, (Outcome.ok.inj h).symm⟩
  · rw [if_neg hi] at h
    exact Outcome.noConfusion h

theorem VectorCache.get_of_ok {P : Type} {cache : VectorCache P} {index : Nat} {value : P}
    (h : cache.get index = .ok value) : cache.data.get? index = some value := by
  unfold VectorCache.get at h
  cases hg : cache.data.get? index with
  | none => rw [hg] at h; exact Outcome.noConfusion h
  | some v => rw [hg] at h; rw [Outcome.ok.inj h]

theorem ReferenceCountWriteBack.Confined.setCached {rc : ReferenceCountWriteBack}
    {h : ImageHeader} {entries : Nat} {ρ : Nat → ClusterRole}
    (hk : rc.Confined h entries ρ) (tableIndex blockIndex blockAddrDisk refcount : Nat)
    (cluster : Option newCluster)
    (hnew : ∀ x ∈ cluster, reservedOrNone h ρ x.clusterAddress ∧ x.clusterAddress ≠ 0)
    (hb : blockIndex < h.clusterSize / 2) :
    ∃ r rc', rc.setCached tableIndex blockIndex blockAddrDisk refcount cluster = (r, rc')
      ∧ rc'.rawFile = rc.rawFile
      ∧ (r = .panicked
        ∨ (rc'.Confined h entries ρ ∧ (r = .needNewCluster ∨ ∃ d, r = .done d))) := by
  obtain ⟨held, created, hh, hq⟩ := hk.cache
  unfold ReferenceCountWriteBack.setCached
  rcases hh.get 0 tableIndex with ⟨hnk, hget⟩ | ⟨a, b, p, v, hab, h1, h2, h3⟩
  · rw [hget]
    exact ⟨_, _, rfl, rfl, Or.inl rfl⟩
  · rcases hg : rc.referenceBlockCache.get 0 tableIndex with ⟨r1, c1⟩
    rw [hg] at h1 h2 h3
    simp only at h1 h2 h3
    subst h1
    simp only []
    have hmem : (created, tableIndex, v) ∈ heldTouch held created tableIndex v := by
      unfold heldTouch
      exact List.mem_append_right _ (List.mem_singleton_self _)
    obtain ⟨c2, hget2, hh2⟩ := h2.get_of_mem 0 tableIndex hmem
    have hvmem : (p, tableIndex, v) ∈ held := by
      rw [hab]
      exact List.mem_append_right _ (List.mem_cons_self _ _)
    have hvlen : v.data.length = h.clusterSize / 2 := (hq _ hvmem).1
    have hfinal : ∀ T : VectorCache Nat, (∀ b ∈ T.data, reservedOrNone h ρ b) →
        (∀ x ∈ held, ∃ b, T.data.get? x.2.1 = some b ∧ b ≠ 0) →
        ({ rc with
            table := T
            referenceBlockCache := c2.writeThrough tableIndex
              { data := v.data.set blockIndex refcount, dirty := true } } :
          ReferenceCountWriteBack).Confined h entries ρ := by
      intro T hT hheld
      refine
        { clusterSize := hk.clusterSize, perBlock := hk.perBlock, writable := hk.writable
          limit := hk.limit, blocks := hT, capacity := ?_, cache := ⟨_, _, hh2.writeThrough _ _, ?_⟩ }
      · show 0 < c2.capacity
        have e2 : c2.capacity = c1.capacity := by
          rcases h2.get 0 tableIndex with ⟨_, e⟩ | ⟨_, _, _, _, _, _, _, e⟩
          · rw [hget2] at e
            exact absurd (congrArg Prod.fst e) (by simp)
          · rw [hget2] at e
            exact e
        rw [e2, h3]
        exact hk.capacity
      · intro x hx
        obtain ⟨y, hy, rfl⟩ := List.mem_map.mp hx
        have hyheld : (y ∈ held ∧ y.2.1 ≠ tableIndex) ∨ y.2 = (tableIndex, v) := by
          rcases mem_heldTouch hy with ⟨h1, h1'⟩ | rfl
          · rcases mem_heldTouch h1 with h0 | rfl
            · exact Or.inl h0
            · exact Or.inr rfl
          · exact Or.inr rfl
        rcases hyheld with ⟨h0, hne⟩ | e
        · rw [if_neg hne]
          exact ⟨(hq y h0).1, hheld y h0⟩
        · have ek : y.2.1 = tableIndex := by rw [e]
          rw [if_pos ek]
          refine ⟨?_, ?_⟩
          · show (v.data.set blockIndex refcount).length = _
            rw [List.length_set]
            exact hvlen
          · show ∃ b, T.data.get? y.2.1 = some b ∧ b ≠ 0
            rw [ek]
            exact hheld _ hvmem
    have hvset := VectorCache.set_ok v blockIndex refcount (by rw [hvlen]; exact hb)
    by_cases hcond : (!v.dirty && !decide (tableIndex ∈ rc.evicted)) = true
    · rw [if_pos hcond]
      cases cluster with
      | none =>
        simp only []
        refine ⟨_, _, rfl, rfl, Or.inr ⟨?_, Or.inl rfl⟩⟩
        exact
          { clusterSize := hk.clusterSize, perBlock := hk.perBlock, writable := hk.writable
            limit := hk.limit, blocks := hk.blocks, capacity := by
              show 0 < c1.capacity
              rw [h3]; exact hk.capacity
            cache := ⟨_, _, h2, fun x hx => by
              rcases mem_heldTouch hx with ⟨h0, _⟩ | rfl
              · exact hq x h0
              · exact hq (p, tableIndex, v) hvmem⟩ }
      | some x =>
        obtain ⟨hres, hx0⟩ := hnew x rfl
        simp only []
        cases hset : rc.table.set tableIndex x.clusterAddress with
        | ok table =>
          obtain ⟨hlt, rfl⟩ := VectorCache.set_of_ok hset
          simp only [hget2, hvset]
          refine ⟨_, _, rfl, rfl, Or.inr ⟨hfinal _ ?_ ?_, Or.inr ⟨_, rfl⟩⟩⟩
          · intro b hb'
            rcases List.mem_or_eq_of_mem_set hb' with h0 | rfl
            · exact hk.blocks b h0
            · exact hres
          · intro y hy
            show ∃ b, (rc.table.data.set tableIndex x.clusterAddress).get? y.2.1 = some b ∧ b ≠ 0
            rw [List.get?_eq_getElem?, List.getElem?_set]
            by_cases e : tableIndex = y.2.1
            · rw [if_pos e, if_pos hlt]
              exact ⟨_, rfl, hx0⟩
            · rw [if_neg e, ← List.get?_eq_getElem?]
              exact (hq y hy).2
        | error e => exact ⟨_, _, rfl, rfl, Or.inl rfl⟩
        | crash => exact ⟨_, _, rfl, rfl, Or.inl rfl⟩
    · rw [if_neg hcond]
      simp only [hget2, hvset]
      exact ⟨_, _, rfl, rfl, Or.inr ⟨hfinal _ hk.blocks fun y hy => (hq y hy).2, Or.inr ⟨_, rfl⟩⟩⟩

theorem getRefcountIndex_eq {h : ImageHeader} {entries : Nat} (hl : h.Layout entries)
    (address : Nat) :
    getRefcountIndex address h.clusterSize (h.clusterSize / 2)
      = .ok (address / h.clusterSize / (h.clusterSize / 2),
        address / h.clusterSize % (h.clusterSize / 2)) := by
  have hcs := hl.clusterSize_ge
  have hhalf := hl.half_pos
  rw [getRefcountIndex, if_neg (by omega), if_neg (by omega)]

/-- A reserved cluster is not at offset zero. -/
theorem ClusterRoles.reserved_pos {h : ImageHeader} {entries : Nat} {f : File}
    {ρ : Nat → ClusterRole} {L M : Nat → Nat} {avail : List Nat}
    (hc : ClusterRoles h entries f ρ L M avail) (hl : h.Layout entries) {b : Nat}
    (hd : h.clusterSize ∣ b) (hr : ρ (b / h.clusterSize) = .reserved) :
    b ≠ 0 ∧ b + h.clusterSize ≤ f.size := by
  have hcs := hl.clusterSize_ge
  have hin := hc.inFile _ (by rw [hr]; exact fun e => ClusterRole.noConfusion e)
  rw [Nat.add_mul, Nat.one_mul, Nat.div_mul_cancel hd] at hin
  have ht2 := h.tablesEnd_rt entries
  have hsize := hc.size
  refine ⟨?_, hin.2⟩
  rintro rfl
  have he : entries = 0 := by omega
  rw [he] at hsize
  simp at hsize
  omega

/-- A write of a whole refcount block into a reserved cluster. -/
theorem ClusterRoles.write_reserved {h : ImageHeader} {entries : Nat} {f : File}
    {ρ : Nat → ClusterRole} {L M : Nat → Nat} {avail : List Nat}
    (hc : ClusterRoles h entries f ρ L M avail) (hl : h.Layout entries) {b : Nat}
    (hd : h.clusterSize ∣ b) (hr : ρ (b / h.clusterSize) = .reserved) (bs : List Byte)
    (hlen : bs.length ≤ h.clusterSize) :
    (f.write b bs).size = f.size ∧ File.Differ (h.countZone entries ρ) f (f.write b bs)
      ∧ ClusterRoles h entries (f.write b bs) ρ L M avail := by
  have hne : ρ (b / h.clusterSize) ≠ .free := by rw [hr]; exact fun e => ClusterRole.noConfusion e
  have hw := hc.write_cluster hl hne 0 bs (by omega)
  rw [Nat.add_zero, Nat.div_mul_cancel hd] at hw
  exact ⟨hw.1, hw.2.mono fun p hp => Or.inr (by rw [hp, hr]),
    hc.of_file (by rw [hw.1]) (by rw [hw.1]; exact hc.size)⟩

theorem ReferenceCountWriteBack.writeEvicted_counts_eq (rawFile : QcowRawFile) (table : VectorCache Nat)
    (k : Nat) (v : VectorCache Nat) (evicted : List Nat) (f : File)
    {h : ImageHeader} {entries : Nat} {ρ : Nat → ClusterRole} {L M : Nat → Nat}
    {avail : List Nat} (hl : h.Layout entries) (hc : ClusterRoles h entries f ρ L M avail)
    (hw : rawFile.readOnly = false ∧ rawFile.file.writable = true) {b : Nat}
    (hget : table.data.get? k = some b) (hb0 : b ≠ 0) (hres : reservedOrNone h ρ b)
    (hlen : v.data.length = h.clusterSize / 2) :
    ∃ ev' f', ReferenceCountWriteBack.writeEvicted rawFile table k v (evicted, f)
        = (.ok (), ev', f')
      ∧ f'.size = f.size ∧ File.Differ (h.countZone entries ρ) f f'
      ∧ ClusterRoles h entries f' ρ L M avail := by
  rcases hres with e | ⟨hd, hr⟩
  · exact absurd e hb0
  · have hpos := hc.reserved_pos hl hd hr
    have hsz := hc.roles_size_lt hl
    have hhalf := hl.half_pos
    unfold ReferenceCountWriteBack.writeEvicted VectorCache.get
    simp only [hget]
    have e := QcowRawFile.writeRefcountBlock_eq (rawFile.over f) b v.getValues hw.1 hw.2
      (by omega)
    unfold QcowRawFile.over at e
    rw [e]
    simp only []
    obtain ⟨w1, w2, w3⟩ := hc.write_reserved hl hd hr (v.getValues.flatMap uint16ToByte) (by
      rw [flatMap_uint16ToByte_length]
      show 2 * v.data.length ≤ _
      omega)
    exact ⟨_, _, rfl, w1, w2, w3⟩

theorem ReferenceCountWriteBack.Confined.setClusterRefcount_writeBack {rc : ReferenceCountWriteBack}
    {h : ImageHeader} {entries : Nat} {f : File} {ρ : Nat → ClusterRole} {L M : Nat → Nat}
    {avail : List Nat} (hl : h.Layout entries) (hk : rc.Confined h entries ρ)
    (hc : ClusterRoles h entries f ρ L M avail) (address refcount : Nat)
    (cluster : Option newCluster)
    (hnew : ∀ x ∈ cluster, h.clusterSize ∣ x.clusterAddress
      ∧ ρ (x.clusterAddress / h.clusterSize) = .reserved
      ∧ x.referenceCountBlock.data.length = h.clusterSize / 2) :
    ∃ r rc', (rc.over f).setClusterRefcount address refcount cluster = (r, rc')
      ∧ ((∃ e, r = .failed e) ∨ r = .panicked
        ∨ (rc'.Confined h entries ρ ∧ rc'.rawFile.file.content.size = f.size
          ∧ File.Differ (h.countZone entries ρ) f rc'.rawFile.file.content
          ∧ (r = .needNewCluster ∨ (∃ d, r = .done d)
            ∨ ∃ b, r = .needReadCluster b ∧ h.clusterSize ∣ b
                ∧ ρ (b / h.clusterSize) = .reserved))) := by
  have hhalf := hl.half_pos
  have hb : address / h.clusterSize % (h.clusterSize / 2) < h.clusterSize / 2 :=
    Nat.mod_lt _ hhalf.1
  obtain ⟨held, created, hh, hq⟩ := hk.cache
  have hk0 : (rc.over f).Confined h entries ρ :=
    { clusterSize := hk.clusterSize, perBlock := hk.perBlock, writable := hk.writable
      limit := hk.limit, blocks := hk.blocks, capacity := hk.capacity, cache := hk.cache }
  unfold ReferenceCountWriteBack.setClusterRefcount
  rw [show (rc.over f).clusterSize = h.clusterSize from hk.clusterSize,
    show (rc.over f).numberOfReferenceCountsInCluster = h.clusterSize / 2 from hk.perBlock,
    getRefcountIndex_eq hl]
  simp only []
  generalize address / h.clusterSize / (h.clusterSize / 2) = tableIndex
  generalize address / h.clusterSize % (h.clusterSize / 2) = blockIndex at hb
  cases hget : (rc.over f).table.get tableIndex with
  | error e => exact ⟨_, _, rfl, Or.inr (Or.inl rfl)⟩
  | crash => exact ⟨_, _, rfl, Or.inr (Or.inl rfl)⟩
  | ok blockAddrDisk =>
    have hget' : rc.table.data.get? tableIndex = some blockAddrDisk := VectorCache.get_of_ok hget
    have hblock := hk.blocks blockAddrDisk (List.get?_mem hget')
    simp only []
    -- the result of `setCached` on consistent reference counts over the file `g`
    have hcached : ∀ (rc1 : ReferenceCountWriteBack) (g : File), rc1.Confined h entries ρ →
        rc1.rawFile.file.content = g → g.size = f.size →
        File.Differ (h.countZone entries ρ) f g →
        (∀ x ∈ cluster, reservedOrNone h ρ x.clusterAddress ∧ x.clusterAddress ≠ 0) →
        ∃ r rc', rc1.setCached tableIndex blockIndex blockAddrDisk refcount cluster = (r, rc')
          ∧ ((∃ e, r = .failed e) ∨ r = .panicked
            ∨ (rc'.Confined h entries ρ ∧ rc'.rawFile.file.content.size = f.size
              ∧ File.Differ (h.countZone entries ρ) f rc'.rawFile.file.content
              ∧ (r = .needNewCluster ∨ (∃ d, r = .done d)
                ∨ ∃ b, r = .needReadCluster b ∧ h.clusterSize ∣ b
                    ∧ ρ (b / h.clusterSize) = .reserved))) := by
      intro rc1 g hk1 hg hgs hgd hn
      obtain ⟨r, rc', e1, e2, e3⟩ := hk1.setCached tableIndex blockIndex blockAddrDisk refcount
        cluster hn hb
      refine ⟨r, rc', e1, ?_⟩
      rcases e3 with e3 | ⟨e3, e4⟩
      · exact Or.inr (Or.inl e3)
      · refine Or.inr (Or.inr ⟨e3, by rw [e2, hg, hgs], by rw [e2, hg]; exact hgd, ?_⟩)
        rcases e4 with e4 | e4
        · exact Or.inl e4
        · exact Or.inr (Or.inl e4)
    have hnew' : ∀ x ∈ cluster, reservedOrNone h ρ x.clusterAddress ∧ x.clusterAddress ≠ 0 :=
      fun x hx => ⟨Or.inr ⟨(hnew x hx).1, (hnew x hx).2.1⟩,
        (hc.reserved_pos hl (hnew x hx).1 (hnew x hx).2.1).1⟩
    by_cases hcon : (rc.over f).referenceBlockCache.containsKey tableIndex = true
    · rw [hcon]
      simp only [Bool.not_true, Bool.false_eq_true, if_false]
      exact hcached _ f hk0 rfl rfl (File.Differ.differ_refl _ _) hnew'
    · rw [Bool.not_eq_true] at hcon
      rw [hcon]
      simp only [Bool.not_false, if_true]
      cases cluster with
      | none =>
        simp only []
        by_cases hz : blockAddrDisk = 0
        · rw [if_pos hz]
          exact ⟨_, _, rfl, Or.inr (Or.inr ⟨hk0, rfl, File.Differ.differ_refl _ _, Or.inl rfl⟩)⟩
        · rw [if_neg hz]
          rcases hblock with e | ⟨hd, hr⟩
          · exact absurd e hz
          · exact ⟨_, _, rfl, Or.inr (Or.inr ⟨hk0, rfl, File.Differ.differ_refl _ _,
              Or.inr (Or.inr ⟨_, rfl, hd, hr⟩)⟩)⟩
      | some x =>
        simp only []
        cases hset : (rc.over f).table.set tableIndex x.clusterAddress with
        | error e => exact ⟨_, _, rfl, Or.inr (Or.inl rfl)⟩
        | crash => exact ⟨_, _, rfl, Or.inr (Or.inl rfl)⟩
        | ok table =>
          obtain ⟨hlt, rfl⟩ := VectorCache.set_of_ok hset
          simp only []
          have hnk : tableIndex ∉ held.map (fun item => item.2.1) := by
            rcases hh.lookup tableIndex with ⟨h1, _⟩ | ⟨_, _, _, _, _, h1⟩
            · exact h1
            · have : (rc.over f).referenceBlockCache.containsKey tableIndex = true := by
                show (mapLookup rc.referenceBlockCache.store tableIndex).isSome = true
                rw [h1]
                rfl
              rw [hcon] at this
              exact Bool.noConfusion this
          have hx := hnew x rfl
          have hxpos := hc.reserved_pos hl hx.1 hx.2.1
          -- the reference counts after the insertion
          have hafter : ∀ (after : LruCacheMap Nat Nat) (ev : List Nat) (g : File)
              (held' : List (Nat × Nat × VectorCache Nat)),
              after.Holds (heldTouch held' created tableIndex x.referenceCountBlock)
                (created + 1) →
              after.capacity = rc.referenceBlockCache.capacity → (∀ y ∈ held', y ∈ held) →
              ({ rawFile := { file := { content := g, writable := (rc.over f).rawFile.file.writable }
                              clusterSize := (rc.over f).rawFile.clusterSize
                              clusterMask := (rc.over f).rawFile.clusterMask
                              readOnly := (rc.over f).rawFile.readOnly }
                 table := { data := (rc.over f).table.data.set tableIndex x.clusterAddress
                            dirty := true }
                 offset := (rc.over f).offset
                 referenceBlockCache := after
                 numberOfReferenceCountsInCluster := h.clusterSize / 2
                 clusterSize := h.clusterSize
                 maxValidClusterOffset := (rc.over f).maxValidClusterOffset
                 evicted := ev } : ReferenceCountWriteBack).Confined h entries ρ := by
            intro after ev g held' hha hcap hsub
            refine
              { clusterSize := rfl, perBlock := rfl, writable := hk.writable, limit := hk.limit
                blocks := ?_, capacity := by rw [hcap]; exact hk.capacity
                cache := ⟨_, _, hha, ?_⟩ }
            · intro b hb'
              rcases List.mem_or_eq_of_mem_set hb' with h0 | rfl
              · exact hk.blocks b h0
              · exact Or.inr ⟨hx.1, hx.2.1⟩
            · intro y hy
              show _ ∧ ∃ b, (rc.table.data.set tableIndex x.clusterAddress).get? y.2.1 = some b
                ∧ b ≠ 0
              rw [List.get?_eq_getElem?, List.getElem?_set]
              rcases mem_heldTouch hy with ⟨h0, hne⟩ | rfl
              · rw [if_neg (Ne.symm hne), ← List.get?_eq_getElem?]
                exact hq y (hsub y h0)
              · rw [if_pos rfl, if_pos (show tableIndex < rc.table.data.length from hlt)]
                exact ⟨hx.2.2, _, rfl, hxpos.1⟩
          have hh0 : (rc.over f).referenceBlockCache.Holds held created := hh
          rcases hh0.insertWith hk0.capacity tableIndex x.referenceCountBlock
            (ReferenceCountWriteBack.writeEvicted (rc.over f).rawFile
              { data := (rc.over f).table.data.set tableIndex x.clusterAddress, dirty := true })
            ((rc.over f).evicted, (rc.over f).rawFile.file.content) with
            ⟨after, hins, hha, hcap⟩ | ⟨p, k, v, rest, hheld, hcase⟩
          · rw [hins]
            simp only []
            exact hcached _ f (hafter _ _ _ held hha hcap fun y hy => hy) rfl rfl
              (File.Differ.differ_refl _ _) hnew'
          · have hsub : ∀ y ∈ rest, y ∈ held := fun y hy => by
              rw [hheld]; exact List.mem_cons_of_mem _ hy
            rcases hcase with ⟨_, after, hins, hha, hcap⟩ | ⟨_, st', hcb, after, hins, hha, hcap⟩
              | ⟨_, _, hfail⟩
            · rw [hins]
              simp only []
              exact hcached _ f (hafter _ _ _ rest hha hcap hsub) rfl rfl
                (File.Differ.differ_refl _ _) hnew'
            · rw [hins]
              have hkm : (p, k, v) ∈ held := by rw [hheld]; exact List.mem_cons_self _ _
              obtain ⟨hvlen, b, hb1, hb0⟩ := hq _ hkm
              have hkne : tableIndex ≠ k := fun e => hnk (by
                rw [e]; exact List.mem_map.mpr ⟨_, hkm, rfl⟩)
              obtain ⟨ev', f', hw, w1, w2, w3⟩ := ReferenceCountWriteBack.writeEvicted_counts_eq
                (rc.over f).rawFile
                { data := (rc.over f).table.data.set tableIndex x.clusterAddress, dirty := true }
                k v (rc.over f).evicted f hl hc hk.writable (b := b)
                (by
                  show (rc.table.data.set tableIndex x.clusterAddress).get? k = some b
                  rw [List.get?_eq_getElem?, List.getElem?_set, if_neg hkne,
                    ← List.get?_eq_getElem?]
                  exact hb1)
                hb0 (hk.blocks b (List.get?_mem hb1)) hvlen
              have e2 : st' = (ev', f') := by
                have := hcb.symm.trans hw
                simp only [Prod.mk.injEq, true_and] at this
                exact this
              rw [e2]
              simp only []
              exact hcached _ f' (hafter _ _ _ rest hha hcap hsub) rfl w1 w2 hnew'
            · generalize (rc.over f).referenceBlockCache.insert tableIndex x.referenceCountBlock
                (ReferenceCountWriteBack.writeEvicted (rc.over f).rawFile
                  { data := (rc.over f).table.data.set tableIndex x.clusterAddress, dirty := true })
                ((rc.over f).evicted, (rc.over f).rawFile.file.content) = ins at hfail ⊢
              obtain ⟨r1, c1, ev1, f1⟩ := ins
              cases r1 with
              | ok u => exact absurd rfl hfail
              | error e => exact ⟨_, _, rfl, Or.inl ⟨_, rfl⟩⟩
              | crash => exact ⟨_, _, rfl, Or.inr (Or.inl rfl)⟩

/-- Setting a reference count through the interface: unless it fails, the reference counts
still write to reserved clusters only, and the file changed in the refcount table and in
reserved clusters only. -/
theorem ReferenceCountTable.Confined.setClusterRefcount_counts {rcs : ReferenceCountTable}
    {h : ImageHeader} {entries : Nat} {f : File} {ρ : Nat → ClusterRole} {L M : Nat → Nat}
    {avail : List Nat} (hl : h.Layout entries) (hk : rcs.Confined h entries f ρ)
    (hc : ClusterRoles h entries f ρ L M avail) {address : Nat} (refcount : Nat)
    (haddr : address + h.clusterSize ≤ f.size) (cluster : Option newCluster)
    (hnew : ∀ x ∈ cluster, h.clusterSize ∣ x.clusterAddress
      ∧ ρ (x.clusterAddress / h.clusterSize) = .reserved
      ∧ x.referenceCountBlock.data.length = h.clusterSize / 2) :
    ∃ r rcs' f', rcs.setClusterRefcount f address refcount cluster = (r, rcs', f')
      ∧ ((∃ e, r = .failed e) ∨ r = .panicked
        ∨ (rcs'.Confined h entries f' ρ ∧ f'.size = f.size
          ∧ File.Differ (h.countZone entries ρ) f f'
          ∧ (r = .needNewCluster ∨ (∃ d, r = .done d)
            ∨ ∃ b, r = .needReadCluster b ∧ h.clusterSize ∣ b
                ∧ ρ (b / h.clusterSize) = .reserved))) := by
  cases rcs with
  | noCache rc =>
    obtain ⟨r, f', e, h1, h2, h3, h4⟩ :=
      ReferenceCountNoCache.Confined.setClusterRefcount_noCache hl hk hc refcount haddr cluster hnew
    refine ⟨r, .noCache rc, f', ?_, Or.inr (Or.inr ⟨h1, h2, h3, ?_⟩)⟩
    · unfold ReferenceCountTable.setClusterRefcount
      simp only [e]
    · rcases h4 with h4 | h4
      · exact Or.inl h4
      · exact Or.inr (Or.inl ⟨_, h4⟩)
  | writeBack rc =>
    obtain ⟨r, rc', e, h1⟩ :=
      ReferenceCountWriteBack.Confined.setClusterRefcount_writeBack hl hk hc address refcount cluster hnew
    refine ⟨r, .writeBack rc', rc'.rawFile.file.content, ?_, h1⟩
    unfold ReferenceCountTable.setClusterRefcount
    simp only [e]

/-! ### Setting a reference count in the image -/

theorem readRefcountLoop_length (file : File) :
    ∀ (count pos : Nat) (block : List Nat), readRefcountLoop file pos count = .ok block →
      block.length = count := by
  intro count
  induction count with
  | zero =>
    intro pos block hb
    unfold readRefcountLoop at hb
    rw [← Outcome.ok.inj hb]
    rfl
  | succ n ih =>
    intro pos block hb
    unfold readRefcountLoop at hb
    cases h1 : binaryRead16 file pos with
    | ok r =>
      rw [h1] at hb
      simp only [Outcome.bind] at hb
      cases h2 : readRefcountLoop file r.2 n with
      | ok rest =>
        rw [h2] at hb
        simp only [Outcome.bind] at hb
        rw [← Outcome.ok.inj hb, List.length_cons, ih _ _ h2]
      | error e => rw [h2] at hb; exact Outcome.noConfusion hb
      | crash => rw [h2] at hb; exact Outcome.noConfusion hb
    | error e => rw [h1] at hb; exact Outcome.noConfusion hb
    | crash => rw [h1] at hb; exact Outcome.noConfusion hb

theorem QcowRawFile.readRefCountBlock_length {rawFile : QcowRawFile} {offset : Nat}
    {block : List Nat} (h : rawFile.readRefCountBlock offset = .ok block) :
    block.length = rawFile.clusterSize / 2 := by
  unfold QcowRawFile.readRefCountBlock at h
  cases h1 : seekStart offset with
  | ok pos =>
    rw [h1] at h
    exact readRefcountLoop_length _ _ _ _ h
  | error e => rw [h1] at h; exact Outcome.noConfusion h
  | crash => rw [h1] at h; exact Outcome.noConfusion h

/-- A pending cluster takes a role. -/
theorem ImageFile.Sound.sound_assign {s : ImageFile} {entries : Nat} {L M : Nat → Nat}
    {ρ : Nat → ClusterRole} (hs : s.Sound entries L M ρ) {n : Nat} (hn : ρ n = .pending)
    (r : ClusterRole) : s.Sound entries L M (Function.update ρ n r) :=
  { layout := hs.layout, writable := hs.writable, clusterSize := hs.clusterSize
    clusterMask := hs.clusterMask, roles := hs.roles.roles_assign hn r, pointers := hs.pointers
    counts := hs.counts.counts_of_differ hs.layout (File.Differ.differ_refl (fun _ => False) _)
      (fun _ hp => hp.elim) fun m hm => by
        rw [Function.update_noteq]
        · exact hm
        · rintro rfl
          rw [hn] at hm
          exact ClusterRole.noConfusion hm }

theorem ImageFile.Keeps.keeps_update {entries : Nat} {s s' : ImageFile} {ρ ρ' : Nat → ClusterRole}
    (hk : ImageFile.Keeps entries s ρ s' ρ') {n : Nat} (hn : ρ n = .free ∨ ρ n = .available)
    (r : ClusterRole) : ImageFile.Keeps entries s ρ s' (Function.update ρ' n r) :=
  { header := hk.header, readOnly := hk.readOnly, size := hk.size
    roles := fun m hf ha => by
      rw [Function.update_noteq]
      · exact hk.roles m hf ha
      · rintro rfl
        rcases hn with hn | hn
        · exact hf hn
        · exact ha hn
    kept := hk.kept }

/-- The zones the reference counts write to hold no pointer table, no data and no pending
cluster. -/
theorem ImageHeader.countZone_disjoint {h : ImageHeader} {entries : Nat} {ρ : Nat → ClusterRole}
    {p : Nat} (hp : h.countZone entries ρ p) :
    ¬ h.pointerZone entries ρ p ∧ h.zone entries ρ p ≠ .cluster .pending
      ∧ ∀ k, h.zone entries ρ p ≠ .cluster (.data k) := by
  rcases hp with hp | hp <;> rw [ImageHeader.pointerZone, hp] <;>
    refine ⟨?_, fun e => ?_, fun k e => ?_⟩
  · rintro (e | ⟨i, e⟩) <;> exact Zone.noConfusion e
  · exact Zone.noConfusion e
  · exact Zone.noConfusion e
  · rintro (e | ⟨i, e⟩)
    · exact Zone.noConfusion e
    · exact ClusterRole.noConfusion (Zone.cluster.inj e)
  · exact ClusterRole.noConfusion (Zone.cluster.inj e)
  · exact ClusterRole.noConfusion (Zone.cluster.inj e)

/-- The image after its reference counts wrote to the file. -/
theorem ImageFile.Sound.of_counts {s : ImageFile} {entries : Nat} {L M : Nat → Nat}
    {ρ : Nat → ClusterRole} (hs : s.Sound entries L M ρ) {rcs : ReferenceCountTable} {f : File}
    (hk : rcs.Confined s.header entries f ρ) (hsize : f.size = s.file.size)
    (hd : File.Differ (s.header.countZone entries ρ) s.file f) :
    (({ s with referenceCounts := rcs } : ImageFile).over f).Sound entries L M ρ
      ∧ ImageFile.Keeps entries s ρ (({ s with referenceCounts := rcs } : ImageFile).over f) ρ :=
  ⟨{ layout := hs.layout, writable := hs.writable, clusterSize := hs.clusterSize
     clusterMask := hs.clusterMask
     roles := hs.roles.of_file (le_of_eq hsize.symm) (by
       show f.size ≤ _
       rw [hsize]; exact hs.roles.size)
     pointers := hs.pointers.pointers_of_differ hs.roles hs.layout hd fun p hp =>
       (ImageHeader.countZone_disjoint hp).1
     counts := hk },
   { header := rfl, readOnly := rfl, size := le_of_eq hsize.symm, roles := fun _ _ _ => rfl
     kept := fun p hp => hd.2 p fun hz => by
       have := ImageHeader.countZone_disjoint hz
       rcases hp with hp | ⟨k, hp⟩
       · exact this.2.1 hp
       · exact this.2.2 k hp }⟩

theorem ImageFile.Sound.setClusterRefcount_loop {entries : Nat} {L M : Nat → Nat}
    (address refcount : Nat) :
    ∀ (fuel : Nat) (s : ImageFile) (cluster : Option newCluster) (added : List Nat)
      (ρ : Nat → ClusterRole),
      s.Sound entries L M ρ → address + s.header.clusterSize ≤ s.file.size →
      (∀ x ∈ cluster, s.header.clusterSize ∣ x.clusterAddress
        ∧ ρ (x.clusterAddress / s.header.clusterSize) = .reserved
        ∧ x.referenceCountBlock.data.length = s.header.clusterSize / 2) →
      (∀ a ∈ added, a + s.header.clusterSize ≤ s.file.size) →
      ∀ r s', ImageFile.setClusterRefcount.loop address refcount fuel s cluster added
          = some (.ok r, s') →
        ∃ ρ', s'.Sound entries L M ρ' ∧ ImageFile.Keeps entries s ρ s' ρ'
          ∧ ∀ a ∈ r.1, a + s.header.clusterSize ≤ s'.file.size := by
  intro fuel
  induction fuel with
  | zero =>
    intro s cluster added ρ _ _ _ _ r s' hr
    unfold ImageFile.setClusterRefcount.loop at hr
    exact Option.noConfusion hr
  | succ fuel ih =>
    intro s cluster added ρ hs haddr hnew hadded r s' hr
    have hcs := hs.layout.clusterSize_ge
    obtain ⟨r0, rcs', f', e, hcase⟩ := hs.counts.setClusterRefcount_counts hs.layout hs.roles refcount
      haddr cluster hnew
    unfold ImageFile.setClusterRefcount.loop at hr
    simp only [e] at hr
    rcases hcase with ⟨e0, rfl⟩ | rfl | ⟨hk, hsize, hd, hres⟩
    · simp only [] at hr
      exact Outcome.noConfusion (Prod.mk.inj (Option.some.inj hr)).1
    · simp only [] at hr
      exact Outcome.noConfusion (Prod.mk.inj (Option.some.inj hr)).1
    · obtain ⟨hs1, hk1⟩ := hs.of_counts hk hsize hd
      rcases hres with rfl | ⟨d, rfl⟩ | ⟨b, rfl, hbd, hbr⟩
      · -- a new cluster is needed
        simp only [] at hr
        obtain ⟨r2, s2, e2, hcase2⟩ := hs1.getNewCluster
        rw [e2] at hr
        rcases hcase2 with ⟨⟨e', rfl⟩, _⟩ | ⟨n, rfl, hs2, hk2, hfree, hzero, hdiff2⟩
        · simp only [] at hr
          exact Outcome.noConfusion (Prod.mk.inj (Option.some.inj hr)).1
        · simp only [] at hr
          have hpend : Function.update ρ n ClusterRole.pending n = .pending :=
            Function.update_same _ _ _
          have hs3 := hs2.sound_assign hpend .reserved
          rw [Function.update_idem] at hs3
          have hk3 : ImageFile.Keeps entries s ρ s2 (Function.update ρ n .reserved) := by
            have := (hk1.keeps_trans hk2).keeps_update hfree .reserved
            rw [Function.update_idem] at this
            exact this
          have hh2 : s2.header = s.header := hk3.header
          have hin := hs3.roles.inFile n (by
            rw [Function.update_same]; exact fun e => ClusterRole.noConfusion e)
          rw [Nat.add_mul, Nat.one_mul, hh2] at hin
          obtain ⟨ρ', h1, h2, h3⟩ := ih s2 _ (added ++ [n * s.header.clusterSize])
            (Function.update ρ n .reserved) hs3
            (by rw [hh2]; exact le_trans haddr hk3.size)
            (by
              intro x hx
              rw [Option.mem_def] at hx
              rw [← Option.some.inj hx, hh2]
              refine ⟨Dvd.intro_left _ rfl, ?_, ?_⟩
              · show Function.update ρ n ClusterRole.reserved
                  (n * s.header.clusterSize / s.header.clusterSize) = _
                rw [Nat.mul_div_cancel _ (by omega), Function.update_same]
              · show (List.replicate _ _).length = _
                rw [List.length_replicate, hs2.counts.perBlock, hh2])
            (by
              intro a ha
              rw [hh2]
              rcases List.mem_append.mp ha with ha | ha
              · exact le_trans (hadded a ha) hk3.size
              · rw [List.mem_singleton.mp ha]
                exact hin.2)
            r s' hr
          exact ⟨ρ', h1, hk3.keeps_trans h2, by rw [hh2] at h3; exact h3⟩
      · -- the count is set
        have hdone : ∀ dropped : List Nat, some (Outcome.ok (added, dropped),
            ({ s with referenceCounts := rcs' } : ImageFile).over f') = some (.ok r, s') →
            ∃ ρ', s'.Sound entries L M ρ' ∧ ImageFile.Keeps entries s ρ s' ρ'
              ∧ ∀ a ∈ r.1, a + s.header.clusterSize ≤ s'.file.size := by
          intro dropped hr
          obtain ⟨h1, h2⟩ := Prod.mk.inj (Option.some.inj hr)
          subst h2
          have h3 := Outcome.ok.inj h1
          subst h3
          exact ⟨ρ, hs1, hk1, fun a ha => le_trans (hadded a ha) hk1.size⟩
        cases d with
        | none => exact hdone _ hr
        | some dropped => exact hdone _ hr
      · -- the block is read from the file
        simp only [] at hr
        cases hread : (({ s with referenceCounts := rcs' } : ImageFile).over f').rawFile.readRefCountBlock
            b with
        | ok block =>
          rw [hread] at hr
          simp only [] at hr
          have hlen := QcowRawFile.readRefCountBlock_length hread
          rw [hs1.clusterSize] at hlen
          obtain ⟨ρ', h1, h2, h3⟩ := ih _ _ added ρ hs1 (le_trans haddr hk1.size)
            (by
              intro x hx
              rw [Option.mem_def] at hx
              rw [← Option.some.inj hx]
              exact ⟨hbd, hbr, hlen⟩)
            (fun a ha => le_trans (hadded a ha) hk1.size) r s' hr
          exact ⟨ρ', h1, hk1.keeps_trans h2, h3⟩
        | error e =>
          rw [hread] at hr
          exact Outcome.noConfusion (Prod.mk.inj (Option.some.inj hr)).1
        | crash =>
          rw [hread] at hr
          exact Outcome.noConfusion (Prod.mk.inj (Option.some.inj hr)).1

theorem ImageFile.Sound.setClusterRefcount_added {entries : Nat} {L M : Nat → Nat}
    (step : ImageFile → Nat → Option (Outcome (List Nat) × ImageFile))
    (hstep : ∀ (s : ImageFile) (a : Nat) (ρ : Nat → ClusterRole), s.Sound entries L M ρ →
      a + s.header.clusterSize ≤ s.file.size → ∀ r s', step s a = some (.ok r, s') →
      ∃ ρ', s'.Sound entries L M ρ' ∧ ImageFile.Keeps entries s ρ s' ρ') :
    ∀ (added : List Nat) (s : ImageFile) (ρ : Nat → ClusterRole), s.Sound entries L M ρ →
      (∀ a ∈ added, a + s.header.clusterSize ≤ s.file.size) →
      ∀ u s', ImageFile.setClusterRefcount.added step added s = some (.ok u, s') →
      ∃ ρ', s'.Sound entries L M ρ' ∧ ImageFile.Keeps entries s ρ s' ρ' := by
  intro added
  induction added with
  | nil =>
    intro s ρ hs _ u s' hr
    unfold ImageFile.setClusterRefcount.added at hr
    obtain ⟨_, rfl⟩ := Prod.mk.inj (Option.some.inj hr)
    exact ⟨ρ, hs, ImageFile.Keeps.keeps_refl _ _ _⟩
  | cons a rest ih =>
    intro s ρ hs hin u s' hr
    unfold ImageFile.setClusterRefcount.added at hr
    cases h1 : step s a with
    | none => rw [h1] at hr; exact Option.noConfusion hr
    | some res =>
      obtain ⟨r1, s1⟩ := res
      rw [h1] at hr
      cases r1 with
      | ok v =>
        simp only [] at hr
        obtain ⟨ρ1, hs1, hk1⟩ := hstep s a ρ hs (hin a (List.mem_cons_self _ _)) v s1 h1
        obtain ⟨ρ', hs', hk'⟩ := ih s1 ρ1 hs1 (fun b hb => by
          rw [hk1.header]
          exact le_trans (hin b (List.mem_cons_of_mem _ hb)) hk1.size) u s' hr
        exact ⟨ρ', hs', hk1.keeps_trans hk'⟩
      | error e => exact Outcome.noConfusion (Prod.mk.inj (Option.some.inj hr)).1
      | crash => exact Outcome.noConfusion (Prod.mk.inj (Option.some.inj hr)).1

/-- Setting a reference count keeps the image consistent and leaves the data clusters and
the pending clusters as they are. -/
theorem ImageFile.Sound.setClusterRefcount_sound {entries : Nat} {L M : Nat → Nat} :
    ∀ (fuel : Nat) (s : ImageFile) (address refcount : Nat) (ρ : Nat → ClusterRole),
      s.Sound entries L M ρ → address + s.header.clusterSize ≤ s.file.size →
      ∀ r s', ImageFile.setClusterRefcount fuel s address refcount = some (.ok r, s') →
      ∃ ρ', s'.Sound entries L M ρ' ∧ ImageFile.Keeps entries s ρ s' ρ' := by
  intro fuel
  induction fuel with
  | zero =>
    intro s address refcount ρ _ _ r s' hr
    unfold ImageFile.setClusterRefcount at hr
    exact Option.noConfusion hr
  | succ fuel ih =>
    intro s address refcount ρ hs haddr r s' hr
    unfold ImageFile.setClusterRefcount at hr
    cases h1 : ImageFile.setClusterRefcount.loop address refcount (fuel + 1) s none [] with
    | none => rw [h1] at hr; exact Option.noConfusion hr
    | some res =>
      obtain ⟨r1, s1⟩ := res
      rw [h1] at hr
      cases r1 with
      | ok v =>
        obtain ⟨added, unref⟩ := v
        simp only [] at hr
        obtain ⟨ρ1, hs1, hk1, hin1⟩ := ImageFile.Sound.setClusterRefcount_loop address refcount
          (fuel + 1) s none [] ρ hs haddr (fun x hx => Option.noConfusion hx)
          (fun a ha => absurd ha (List.not_mem_nil a)) _ s1 h1
        cases h2 : ImageFile.setClusterRefcount.added
            (fun image added => ImageFile.setClusterRefcount fuel image added 1) added s1 with
        | none => rw [h2] at hr; exact Option.noConfusion hr
        | some res2 =>
          obtain ⟨r2, s2⟩ := res2
          rw [h2] at hr
          cases r2 with
          | ok u =>
            simp only [] at hr
            obtain ⟨_, rfl⟩ := Prod.mk.inj (Option.some.inj hr)
            obtain ⟨ρ2, hs2, hk2⟩ := ImageFile.Sound.setClusterRefcount_added
              (fun image added => ImageFile.setClusterRefcount fuel image added 1)
              (fun s a ρ hs ha r s' hr => ih s a 1 ρ hs ha r s' hr) added s1 ρ1 hs1
              (fun a ha => by rw [hk1.header]; exact hin1 a ha) u s2 h2
            exact ⟨ρ2, hs2, hk1.keeps_trans hk2⟩
          | error e => exact Outcome.noConfusion (Prod.mk.inj (Option.some.inj hr)).1
          | crash => exact Outcome.noConfusion (Prod.mk.inj (Option.some.inj hr)).1
      | error e => exact Outcome.noConfusion (Prod.mk.inj (Option.some.inj hr)).1
      | crash => exact Outcome.noConfusion (Prod.mk.inj (Option.some.inj hr)).1

/-! ### Reading and writing a table of pointers -/

theorem File.word_lt (f : File) (p : Nat) : f.word p < 18446744073709551616 := by
  have h1 := beValue_uint64ToByte (f.word p)
  unfold File.word at h1 ⊢
  rw [uint64ToByte_bytes] at h1
  rw [h1]
  exact Nat.mod_lt _ (by decide)

theorem readPointerLoop_eq (file : File) (mask : Nat) :
    ∀ (count pos : Nat), pos + 8 * count ≤ file.size →
      readPointerLoop file mask pos count
        = .ok ((List.range count).map fun j => file.word (pos + 8 * j) &&& mask) := by
  intro count
  induction count with
  | zero =>
    intro pos _
    rfl
  | succ n ih =>
    intro pos hp
    unfold readPointerLoop
    rw [binaryRead64_bind _ _ _ (by omega)]
    simp only []
    rw [ih (pos + 8) (by omega)]
    simp only [Outcome.bind]
    rw [List.range_succ_eq_map, List.map_cons, List.map_map]
    refine congrArg Outcome.ok (congrArg₂ List.cons ?_ ?_)
    · simp only [File.word, Nat.mul_zero, Nat.add_zero]
    · apply List.map_congr_left
      intro j _
      simp only [Function.comp]
      rw [show pos + 8 * (j + 1) = pos + 8 + 8 * j by omega]

theorem readL2Cluster_loop_eq :
    ∀ l : List Nat, (∀ e ∈ l, e &&& CompressedFlag = 0) →
      readL2Cluster.loop l = .ok (l.map fun e => e &&& L2TableOffsetMask) := by
  intro l
  induction l with
  | nil => intro _; rfl
  | cons e rest ih =>
    intro hl
    unfold readL2Cluster.loop
    rw [if_neg (by rw [hl e (List.mem_cons_self _ _)]; exact fun h => h rfl),
      ih fun e' he' => hl e' (List.mem_cons_of_mem _ he')]
    rfl

/-- Reading an L2 table that is in the file gives the addresses of its data clusters. -/
theorem readL2Cluster_eq {h : ImageHeader} {entries : Nat} (hl : h.Layout entries)
    (rawFile : QcowRawFile) {f : File} {L M : Nat → Nat} {i : Nat}
    (hcs : rawFile.clusterSize = h.clusterSize) (hd : l2TableOnDisk h f L M i)
    (hin : L i * h.clusterSize + h.clusterSize ≤ f.size)
    (hlt : L i * h.clusterSize < 9223372036854775808) :
    readL2Cluster (rawFile.over f) (L i * h.clusterSize)
      = .ok ((List.range h.l2Size).map fun j => M (i * h.l2Size + j) * h.clusterSize) := by
  have h8 := hl.eight_dvd
  unfold readL2Cluster QcowRawFile.readPointerCluster QcowRawFile.readPointerTable seekStart
  rw [if_pos hlt]
  simp only [Outcome.bind, if_true, QcowRawFile.over_content]
  rw [show (rawFile.over f).clusterSize = h.clusterSize from hcs,
    show h.clusterSize / 8 = h.l2Size by omega, readPointerLoop_eq _ _ _ _ (by omega)]
  simp only []
  rw [readL2Cluster_loop_eq, List.map_map]
  · refine congrArg Outcome.ok ?_
    apply List.map_congr_left
    intro j hj
    simp only [Function.comp]
    rw [show (18446744073709551615 : Nat) = 2 ^ 64 - 1 by norm_num,
      Nat.and_pow_two_sub_one_eq_mod, Nat.mod_eq_of_lt (by
        have := f.word_lt (L i * h.clusterSize + 8 * j)
        norm_num
        exact this)]
    exact (hd j (List.mem_range.mp hj)).2
  · intro e he
    obtain ⟨j, hj, rfl⟩ := List.mem_map.mp he
    rw [show (18446744073709551615 : Nat) = 2 ^ 64 - 1 by norm_num,
      Nat.and_pow_two_sub_one_eq_mod, Nat.mod_eq_of_lt (by
        have := f.word_lt (L i * h.clusterSize + 8 * j)
        norm_num
        exact this)]
    exact (hd j (List.mem_range.mp hj)).1

theorem pointerTableBytes_length (table : List Nat) (flags : Nat) :
    (pointerTableBytes table flags).length = 8 * table.length := by
  unfold pointerTableBytes
  induction table with
  | nil => rfl
  | cons e rest ih =>
    rw [List.flatMap_cons, List.length_append, ih, List.length_cons]
    split <;> rw [uint64ToByte_length] <;> omega

theorem pointerTableBytes_getD (flags : Nat) :
    ∀ (table : List Nat) (j i : Nat), j < table.length → i < 8 →
      (pointerTableBytes table flags).getD (8 * j + i) 0
        = (uint64ToByte (if table.getD j 0 = 0 then 0 else table.getD j 0 ||| flags)).getD i 0 := by
  intro table
  induction table with
  | nil => intro j i hj; exact absurd hj (Nat.not_lt_zero _)
  | cons e rest ih =>
    intro j i hj hi
    unfold pointerTableBytes at ih ⊢
    rw [List.flatMap_cons, List.getD_eq_getElem?_getD, List.getD_eq_getElem?_getD]
    cases j with
    | zero =>
      rw [List.getElem?_append_left (by split <;> rw [uint64ToByte_length] <;> omega)]
      simp only [List.getD_cons_zero, Nat.mul_zero, Nat.zero_add]
      split <;> rename_i he
      · rw [he]
      · rfl
    | succ j =>
      rw [List.getElem?_append_right (by split <;> rw [uint64ToByte_length] <;> omega)]
      have hlen : (if e = 0 then uint64ToByte e else uint64ToByte (e ||| flags)).length = 8 := by
        split <;> rfl
      rw [hlen, show 8 * (j + 1) + i - 8 = 8 * j + i by omega, List.getD_cons_succ,
        ← List.getD_eq_getElem?_getD, ih j i (by simpa using hj) hi, List.getD_eq_getElem?_getD]

/-- The word at entry `j` of a table of pointers that was written to the file. -/
theorem File.word_write_table (f : File) (p : Nat) (table : List Nat) (flags j : Nat)
    (hj : j < table.length)
    (hv : (if table.getD j 0 = 0 then 0 else table.getD j 0 ||| flags) < 18446744073709551616) :
    (f.write p (pointerTableBytes table flags)).word (p + 8 * j)
      = if table.getD j 0 = 0 then 0 else table.getD j 0 ||| flags := by
  have hlen := pointerTableBytes_length table flags
  have e : (f.write p (pointerTableBytes table flags)).bytes (p + 8 * j) 8
      = uint64ToByte (if table.getD j 0 = 0 then 0 else table.getD j 0 ||| flags) := by
    apply List.ext_getElem
    · rw [File.bytes_length, uint64ToByte_length]
    · intro i h1 h2
      rw [File.bytes_length] at h1
      unfold File.bytes
      rw [List.getElem_map, List.getElem_range, File.get_write, if_pos (by omega),
        show p + 8 * j + i - p = 8 * j + i by omega, pointerTableBytes_getD flags table j i hj h1,
        List.getD_eq_getElem?_getD, List.getElem?_eq_getElem h2]
      rfl
  unfold File.word
  rw [e, beValue_uint64ToByte, wrap64_of_lt hv]

/-! ### L2 tables in the file and in the cache -/

theorem testBit_of_dvd (v : Nat) (hv : v < 2 ^ 56) (h512 : 512 ∣ v) (i : Nat)
    (hi : v.testBit i = true) : 9 ≤ i ∧ i < 56 := by
  constructor
  · by_contra hlt
    obtain ⟨m, rfl⟩ := h512
    rw [show (512 : Nat) = 2 ^ 9 by norm_num, Nat.testBit_mul_pow_two,
      decide_eq_false (show ¬ i ≥ 9 by omega)] at hi
    simp at hi
  · by_contra hge
    rw [Nat.testBit_lt_two_pow
      (lt_of_lt_of_le hv (Nat.pow_le_pow_right (by decide) (not_lt.mp hge)))] at hi
    exact Bool.noConfusion hi

/-- An entry of an L2 table with or without the flag of a used cluster: it is not
compressed, and the mask gives the cluster address. -/
theorem entry_mask (v : Nat) (hv : v < 2 ^ 56) (h512 : 512 ∣ v) :
    (v ||| ClusterUsedFlag) &&& CompressedFlag = 0
      ∧ (v ||| ClusterUsedFlag) &&& L2TableOffsetMask = v
      ∧ v &&& CompressedFlag = 0 ∧ v &&& L2TableOffsetMask = v := by
  have hm : L2TableOffsetMask = (2 ^ 56 - 1) ^^^ (2 ^ 9 - 1) := by decide
  have h1 : ClusterUsedFlag = 2 ^ 63 := by decide
  have h2 : CompressedFlag = 2 ^ 62 := by decide
  have hbit := testBit_of_dvd v hv h512
  rw [hm, h1, h2]
  refine ⟨?_, ?_, ?_, ?_⟩
  all_goals
    apply Nat.eq_of_testBit_eq
    intro i
    have := hbit i
    simp only [Nat.testBit_and, Nat.testBit_or, Nat.testBit_xor, Nat.testBit_two_pow_sub_one,
        Nat.testBit_two_pow, Nat.zero_testBit]
    cases hvi : v.testBit i
    · by_cases e1 : 63 = i <;> by_cases e2 : 62 = i <;> by_cases e3 : i < 56 <;>
        by_cases e4 : i < 9 <;> simp [e1, e2, e3, e4] <;> omega
    · have := this hvi
      simp [this.2, show ¬ i < 9 by omega, show ¬ 62 = i by omega, show ¬ 63 = i by omega]

theorem l2TableOnDisk.table_congr {h : ImageHeader} {f : File} {L M L' M' : Nat → Nat} {i : Nat}
    (ho : l2TableOnDisk h f L M i) (hL : L' i = L i)
    (hM : ∀ j, j < h.l2Size → M' (i * h.l2Size + j) = M (i * h.l2Size + j)) :
    l2TableOnDisk h f L' M' i := by
  intro j hj
  rw [hL, hM j hj]
  exact ho j hj

theorem l2TableOnDisk.of_differ_cluster {h : ImageHeader} {f f' : File} {L M : Nat → Nat}
    {i : Nat} (ho : l2TableOnDisk h f L M i) (h8 : h.clusterSize = 8 * h.l2Size)
    {t : Nat → Prop} (hd : File.Differ t f f')
    (ht : ∀ p, t p → ¬ (L i * h.clusterSize ≤ p ∧ p < L i * h.clusterSize + h.clusterSize)) :
    l2TableOnDisk h f' L M i := by
  intro j hj
  rw [hd.word _ fun k hk htp => ht _ htp (by omega)]
  exact ho j hj

/-- The L2 table of an L1 entry after its vector was written to its cluster. -/
theorem l2TableOnDisk.of_write {h : ImageHeader} {entries : Nat} (hl : h.Layout entries)
    (f : File) {L M : Nat → Nat} {i : Nat} (v : List Nat) (hlen : v.length = h.l2Size)
    (hv : ∀ j, j < h.l2Size → v.getD j 0 = M (i * h.l2Size + j) * h.clusterSize)
    (hM : ∀ j, j < h.l2Size → M (i * h.l2Size + j) * h.clusterSize < 2 ^ 56) :
    l2TableOnDisk h (f.write (L i * h.clusterSize) (pointerTableBytes v ClusterUsedFlag)) L M
      i := by
  intro j hj
  have h512 : 512 ∣ M (i * h.l2Size + j) * h.clusterSize := by
    rw [hl.clusterSize_eq]
    exact Dvd.dvd.mul_left (by
      rw [show (512 : Nat) = 2 ^ 9 by norm_num]
      exact Nat.pow_dvd_pow 2 hl.bits_ge) _
  have hm := entry_mask _ (hM j hj) h512
  have hu : ClusterUsedFlag = 2 ^ 63 := by decide
  have hlt : (if v.getD j 0 = 0 then 0 else v.getD j 0 ||| ClusterUsedFlag)
      < 18446744073709551616 := by
    split
    · decide
    · rw [hv j hj, hu]
      have := hM j hj
      have h64 : M (i * h.l2Size + j) * h.clusterSize < 2 ^ 64 :=
        lt_of_lt_of_le this (Nat.pow_le_pow_right (by decide) (by decide))
      have := Nat.or_lt_two_pow h64 (show 2 ^ 63 < 2 ^ 64 by norm_num)
      norm_num at this ⊢
      exact this
  rw [File.word_write_table f _ v _ j (by rw [hlen]; exact hj) hlt]
  split
  · rename_i hz
    rw [← hv j hj, hz]
    exact ⟨Nat.zero_and _, Nat.zero_and _⟩
  · rw [hv j hj]
    exact ⟨hm.1, hm.2.1⟩

/-- Different L1 entries have different L2 tables. -/
theorem ClusterRoles.l2_injective {h : ImageHeader} {entries : Nat} {f : File}
    {ρ : Nat → ClusterRole} {L M : Nat → Nat} {avail : List Nat}
    (hc : ClusterRoles h entries f ρ L M avail) {i i' : Nat} (hi : i < h.numL2Clusters)
    (hi' : i' < h.numL2Clusters) (h0 : L i ≠ 0) (e : L i' = L i) : i' = i := by
  have h1 := hc.l2 i hi h0
  have h2 := hc.l2 i' hi' (by rw [e]; exact h0)
  rw [e, h1] at h2
  exact (ClusterRole.l2Table.inj h2).symm

/-- The cached L2 tables after the table of the L1 entry `i` was replaced: by the same table
with another vector, or by a table in another cluster. -/
theorem l2TablesHeld.replace {h : ImageHeader} {f : File} {L M L' M' : Nat → Nat}
    {held held2 : List (Nat × Nat × VectorCache Nat)} (hh : l2TablesHeld h f L M held)
    (hcs : 0 < h.clusterSize) (hl2 : 0 < h.l2Size) {i : Nat} (hi : i < h.numL2Clusters)
    (hL : ∀ i', i' ≠ i → L' i' = L i') (hL0 : L' i ≠ 0)
    (hM : ∀ k, k / h.l2Size ≠ i → M' k = M k)
    (hinj : ∀ i', i' < h.numL2Clusters → i' ≠ i → L i' ≠ 0 → L i' ≠ L i ∧ L i' ≠ L' i)
    (ha : ∀ x ∈ held2, (x ∈ held ∧ x.2.1 ≠ L i * h.clusterSize)
      ∨ (x.2.1 = L' i * h.clusterSize ∧ x.2.2.data.length = h.l2Size
        ∧ (∀ j, j < h.l2Size → x.2.2.data.getD j 0 = M' (i * h.l2Size + j) * h.clusterSize)
        ∧ (x.2.2.dirty = false → l2TableOnDisk h f L' M' i)))
    (hb : L' i * h.clusterSize ∈ held2.map (fun x => x.2.1))
    (hc : ∀ x ∈ held, x.2.1 ≠ L i * h.clusterSize → x.2.1 ∈ held2.map (fun x => x.2.1)) :
    l2TablesHeld h f L' M' held2 := by
  have hdiv : ∀ i' j, j < h.l2Size → (i' * h.l2Size + j) / h.l2Size = i' := by
    intro i' j hj
    rw [Nat.mul_comm, Nat.mul_add_div hl2, Nat.div_eq_of_lt hj, Nat.add_zero]
  refine ⟨?_, ?_⟩
  · intro x hx
    rcases ha x hx with ⟨hxh, hne⟩ | ⟨h1, h2, h3, h4⟩
    · obtain ⟨ix, g1, g2, g3, g4, g5, g6⟩ := hh.1 x hxh
      have hix : ix ≠ i := fun e => hne (by rw [g3, e])
      refine ⟨ix, g1, by rw [hL ix hix]; exact g2, by rw [hL ix hix]; exact g3, g4, ?_, ?_⟩
      · intro j hj
        rw [hM _ (by rw [hdiv ix j hj]; exact hix)]
        exact g5 j hj
      · intro hd
        exact (g6 hd).table_congr (hL ix hix) fun j hj => hM _ (by rw [hdiv ix j hj]; exact hix)
    · exact ⟨i, hi, hL0, h1, h2, h3, h4⟩
  · intro i' hi' h0 hnot
    by_cases e : i' = i
    · subst e
      exact absurd hb hnot
    · rw [hL i' e] at h0 hnot
      have hnk : L i' * h.clusterSize ∉ held.map (fun x => x.2.1) := by
        intro hin
        obtain ⟨x, hx, hxk⟩ := List.mem_map.mp hin
        refine hnot (hxk ▸ hc x hx ?_)
        rw [hxk]
        intro e2
        exact (hinj i' hi' e h0).1 (Nat.eq_of_mul_eq_mul_right hcs e2)
      exact (hh.2 i' hi' h0 hnk).table_congr (hL i' e) fun j hj =>
        hM _ (by rw [hdiv i' j hj]; exact e)

/-- The cached L2 tables after the least recently used one was evicted: a dirty table was
written to its cluster. -/
theorem l2TablesHeld.held_evict {h : ImageHeader} {entries : Nat} {f : File}
    {ρ : Nat → ClusterRole} {L M : Nat → Nat} {avail : List Nat}
    {rest : List (Nat × Nat × VectorCache Nat)} {p k : Nat} {v : VectorCache Nat}
    (hh : l2TablesHeld h f L M ((p, k, v) :: rest)) (hl : h.Layout entries)
    (hc : ClusterRoles h entries f ρ L M avail)
    (hn : (((p, k, v) :: rest).map fun x => x.2.1).Nodup) :
    l2TablesHeld h
        (if v.dirty then f.write k (pointerTableBytes v.getValues ClusterUsedFlag) else f) L M rest
      ∧ (if v.dirty then f.write k (pointerTableBytes v.getValues ClusterUsedFlag) else f).size
          = f.size
      ∧ File.Differ (h.pointerZone entries ρ) f
          (if v.dirty then f.write k (pointerTableBytes v.getValues ClusterUsedFlag) else f)
      ∧ k < 9223372036854775808 := by
  have hcs := hl.clusterSize_ge
  have h8 := hl.eight_dvd
  have hsz := hc.roles_size_lt hl
  obtain ⟨ik, g1, g2, g3, g4, g5, g6⟩ := hh.1 (p, k, v) (List.mem_cons_self _ _)
  simp only at g3 g4 g5 g6
  have hin := hc.l2_inFile g1 g2
  rw [Nat.add_mul, Nat.one_mul, ← g3] at hin
  have hkn : k ∉ rest.map (fun x => x.2.1) := by
    simp only [List.map_cons, List.nodup_cons] at hn
    exact hn.1
  have hsub : ∀ x ∈ rest, x ∈ (p, k, v) :: rest := fun x hx => List.mem_cons_of_mem _ hx
  have hklt : k < 9223372036854775808 := by omega
  cases hd : v.dirty with
  | false =>
    simp only [Bool.false_eq_true, if_false]
    refine ⟨⟨fun x hx => hh.1 x (hsub x hx), ?_⟩, trivial, File.Differ.differ_refl _ _, hklt⟩
    intro i' hi' h0 hnot
    by_cases e : L i' * h.clusterSize = k
    · have : i' = ik := hc.l2_injective g1 hi' g2
        (Nat.eq_of_mul_eq_mul_right (by omega : 0 < h.clusterSize) (e.trans g3))
      rw [this]
      exact g6 hd
    · exact hh.2 i' hi' h0 (by
        simp only [List.map_cons, List.mem_cons, not_or]
        exact ⟨e, hnot⟩)
  | true =>
    simp only [if_true]
    have hlen : (pointerTableBytes v.getValues ClusterUsedFlag).length = h.clusterSize := by
      rw [pointerTableBytes_length]
      show 8 * v.data.length = _
      rw [g4, h8]
    have hrole := hc.l2 ik g1 g2
    have hw := hc.write_cluster hl (n := L ik)
      (by rw [hrole]; exact fun e => ClusterRole.noConfusion e) 0
      (pointerTableBytes v.getValues ClusterUsedFlag) (by rw [hlen]; omega)
    rw [Nat.add_zero, ← g3] at hw
    have hdiff : File.Differ (fun q => k ≤ q ∧ q < k + h.clusterSize) f
        (f.write k (pointerTableBytes v.getValues ClusterUsedFlag)) := by
      have := File.Differ.write f k (pointerTableBytes v.getValues ClusterUsedFlag)
      rw [hlen] at this
      exact this
    -- the tables of the other L1 entries are in other clusters
    have hframe : ∀ i', i' < h.numL2Clusters → L i' ≠ 0 → i' ≠ ik → l2TableOnDisk h f L M i' →
        l2TableOnDisk h (f.write k (pointerTableBytes v.getValues ClusterUsedFlag)) L M i' := by
      intro i' hi' h0 hne ho
      refine ho.of_differ_cluster h8 hdiff fun q hq => ?_
      have hne2 : L i' ≠ L ik := fun e => hne (hc.l2_injective g1 hi' g2 e)
      rw [g3] at hq
      rcases Nat.lt_or_gt_of_ne hne2 with hlt | hgt
      · have : (L i' + 1) * h.clusterSize ≤ L ik * h.clusterSize :=
          Nat.mul_le_mul_right _ hlt
        rw [Nat.add_mul, Nat.one_mul] at this
        omega
      · have : (L ik + 1) * h.clusterSize ≤ L i' * h.clusterSize :=
          Nat.mul_le_mul_right _ hgt
        rw [Nat.add_mul, Nat.one_mul] at this
        omega
    refine ⟨⟨?_, ?_⟩, hw.1, hw.2.mono fun q hq => Or.inr ⟨ik, by rw [hq, hrole]⟩, hklt⟩
    · intro x hx
      obtain ⟨ix, x1, x2, x3, x4, x5, x6⟩ := hh.1 x (hsub x hx)
      have hix : ix ≠ ik := by
        rintro rfl
        exact hkn (List.mem_map.mpr ⟨x, hx, x3.trans g3.symm⟩)
      exact ⟨ix, x1, x2, x3, x4, x5, fun hcl => hframe ix x1 x2 hix (x6 hcl)⟩
    · intro i' hi' h0 hnot
      by_cases e : L i' * h.clusterSize = k
      · have : i' = ik := hc.l2_injective g1 hi' g2
          (Nat.eq_of_mul_eq_mul_right (by omega : 0 < h.clusterSize) (e.trans g3))
        rw [this, g3]
        refine l2TableOnDisk.of_write hl f v.getValues g4 g5 fun j hj => ?_
        by_cases hz : M (ik * h.l2Size + j) = 0
        · rw [hz, Nat.zero_mul]
          exact Nat.two_pow_pos 56
        · have hk : ik * h.l2Size + j < h.numL2Clusters * h.l2Size := by
            calc ik * h.l2Size + j < ik * h.l2Size + h.l2Size := by omega
              _ = (ik + 1) * h.l2Size := by rw [Nat.add_mul, Nat.one_mul]
              _ ≤ h.numL2Clusters * h.l2Size := Nat.mul_le_mul_right _ g1
          have := (hc.data_inFile hk hz).2
          rw [Nat.add_mul, Nat.one_mul] at this
          have h56 : (36028797018963968 : Nat) < 2 ^ 56 := by norm_num
          omega
      · have hne : i' ≠ ik := fun e2 => e (by rw [e2, g3])
        exact hframe i' hi' h0 hne (hh.2 i' hi' h0 (by
          simp only [List.map_cons, List.mem_cons, not_or]
          exact ⟨e, hnot⟩))

/-! ### The write-back pointer table represents the tables -/

theorem pointerWriteBackCache.writeEvictedNew_eq (rawFile : QcowRawFile) (k : Nat)
    (v : VectorCache Nat) (evicted : List Nat) (f : File)
    (hw : rawFile.readOnly = false ∧ rawFile.file.writable = true)
    (hk : k < 9223372036854775808) :
    pointerWriteBackCache.writeEvictedNew rawFile k v (evicted, f)
      = (.ok (), (if k ∈ evicted then evicted else evicted ++ [k]),
          f.write k (pointerTableBytes v.getValues ClusterUsedFlag)) := by
  unfold pointerWriteBackCache.writeEvictedNew
  simp only [QcowRawFile.writePointerTable_eq (rawFile.over f) k v.getValues ClusterUsedFlag
    hw.1 hw.2 hk, QcowRawFile.over_content]

/-- An insertion into the cache of L2 tables: the evicted table, if any, is in the file
afterwards. -/
theorem l2TablesHeld.held_insert {cache : LruCacheMap Nat Nat}
    {held : List (Nat × Nat × VectorCache Nat)} {created : Nat}
    (hh : cache.Holds held created) (hcap : 0 < cache.capacity)
    {h : ImageHeader} {entries : Nat} {f : File} {ρ : Nat → ClusterRole} {L M : Nat → Nat}
    {avail : List Nat} (hl : h.Layout entries) (hc : ClusterRoles h entries f ρ L M avail)
    (ht : l2TablesHeld h f L M held)
    (cb : Nat → VectorCache Nat → List Nat × File → Outcome Unit × List Nat × File)
    (hcb : ∀ k v ev g, k < 9223372036854775808 → cb k v (ev, g)
      = (.ok (), (if k ∈ ev then ev else ev ++ [k]),
          g.write k (pointerTableBytes v.getValues ClusterUsedFlag)))
    (key : Nat) (value : VectorCache Nat) (evicted : List Nat) :
    ∃ after ev' f' held', cache.insert key value cb (evicted, f) = (.ok (), after, ev', f')
      ∧ after.Holds (heldTouch held' created key value) (created + 1)
      ∧ after.capacity = cache.capacity
      ∧ (∀ x ∈ held', x ∈ held) ∧ l2TablesHeld h f' L M held' ∧ f'.size = f.size
      ∧ File.Differ (h.pointerZone entries ρ) f f' := by
  rcases hh.insertWith hcap key value cb (evicted, f) with
    ⟨after, hins, hha, hca⟩ | ⟨p, k, v, rest, hheld, hcase⟩
  · exact ⟨after, evicted, f, held, hins, hha, hca, fun x hx => hx, ht, rfl,
      File.Differ.differ_refl _ _⟩
  · have hsub : ∀ x ∈ rest, x ∈ held := fun x hx => by
      rw [hheld]; exact List.mem_cons_of_mem _ hx
    have hev := (hheld ▸ ht : l2TablesHeld h f L M ((p, k, v) :: rest)).held_evict hl hc
      (hheld ▸ hh.nodup)
    rcases hcase with ⟨hd, after, hins, hha, hca⟩ | ⟨hd, st', hst, after, hins, hha, hca⟩
      | ⟨_, hfail, _⟩
    · rw [hd] at hev
      simp only [Bool.false_eq_true, if_false] at hev
      exact ⟨after, evicted, f, rest, hins, hha, hca, hsub, hev.1, rfl, File.Differ.differ_refl _ _⟩
    · rw [hd] at hev
      simp only [if_true] at hev
      rw [hcb k v evicted f hev.2.2.2] at hst
      have hst' := (Prod.mk.inj hst).2
      subst hst'
      exact ⟨after, _, _, rest, hins, hha, hca, hsub, hev.1, hev.2.1, hev.2.2.1⟩
    · have hklt : k < 9223372036854775808 := by
        have := hev.2.2.2
        exact this
      rw [hcb k v evicted f hklt] at hfail
      exact absurd rfl hfail

/-- The cached L2 tables after the table of the L1 entry `i` became the most recently used
one, with the vector `v`. -/
theorem l2TablesHeld.touchWith {h : ImageHeader} {entries : Nat} {f g : File}
    {ρ : Nat → ClusterRole} {L M : Nat → Nat} {avail : List Nat}
    {held : List (Nat × Nat × VectorCache Nat)} (ht : l2TablesHeld h f L M held)
    (hl : h.Layout entries) (hc : ClusterRoles h entries g ρ L M avail) {i : Nat}
    (hi : i < h.numL2Clusters) (h0 : L i ≠ 0) (v : VectorCache Nat)
    (hlen : v.data.length = h.l2Size)
    (hdata : ∀ j, j < h.l2Size → v.data.getD j 0 = M (i * h.l2Size + j) * h.clusterSize)
    (hclean : v.dirty = false → l2TableOnDisk h f L M i) (created : Nat) :
    l2TablesHeld h f L M (heldTouch held created (L i * h.clusterSize) v) := by
  have hcs := hl.clusterSize_ge
  refine ht.replace (by omega) hl.l2Size_pos hi (fun _ _ => rfl) h0 (fun _ _ => rfl)
    (fun i' hi' hne h0' => ?_) (fun x hx => ?_) ?_ (fun x hx hne => ?_)
  · have : L i' ≠ L i := fun e => hne (hc.l2_injective hi hi' h0 e)
    exact ⟨this, this⟩
  · rcases mem_heldTouch hx with h1 | rfl
    · exact Or.inl h1
    · exact Or.inr ⟨rfl, hlen, hdata, hclean⟩
  · rw [heldTouch_keys]
    exact Or.inl rfl
  · rw [heldTouch_keys]
    exact Or.inr (List.mem_map.mpr ⟨x, hx, rfl⟩)

theorem VectorCache.get_eq {P : Type} (cache : VectorCache P) (index : Nat) (zero : P)
    (h : index < cache.data.length) : cache.get index = .ok (cache.data.getD index zero) := by
  unfold VectorCache.get
  rw [List.get?_eq_getElem?, List.getElem?_eq_getElem h, List.getD_eq_getElem?_getD,
    List.getElem?_eq_getElem h]
  rfl

/-- The L2 table of an L1 entry is brought into the cache. -/
theorem pointerWriteBackCache.Represents.fill {table : pointerWriteBackCache}
    {h : ImageHeader} {entries : Nat} {f : File} {ρ : Nat → ClusterRole} {L M : Nat → Nat}
    {avail : List Nat} (hl : h.Layout entries) (hr : table.Represents h f L M)
    (hc : ClusterRoles h entries f ρ L M avail) {i : Nat} (hi : i < h.numL2Clusters)
    (h0 : L i ≠ 0) :
    ∃ table', (table.over f).fill (L i * h.clusterSize) = (.ok (), table')
      ∧ table'.Represents h table'.rawFile.file.content L M
      ∧ table'.rawFile.file.content.size = f.size
      ∧ File.Differ (h.pointerZone entries ρ) f table'.rawFile.file.content
      ∧ table'.cache.containsKey (L i * h.clusterSize) = true := by
  obtain ⟨held, created, hh, ht⟩ := hr.cache
  have hr0 : (table.over f).Represents h f L M :=
    { header := hr.header, writable := hr.writable, clusterSize := hr.clusterSize
      l1Length := hr.l1Length, l1 := hr.l1, capacity := hr.capacity, cache := hr.cache }
  have hin := hc.l2_inFile hi h0
  rw [Nat.add_mul, Nat.one_mul] at hin
  have hsz := hc.roles_size_lt hl
  unfold pointerWriteBackCache.fill
  rcases hh.mem_of_containsKey (L i * h.clusterSize) with ⟨hcon, _⟩ | ⟨hcon, hnk⟩
  · rw [show (table.over f).cache.containsKey (L i * h.clusterSize) = true from hcon]
    simp only [Bool.not_true, Bool.false_eq_true, if_false]
    exact ⟨_, rfl, hr0, rfl, File.Differ.differ_refl _ _, hcon⟩
  · rw [show (table.over f).cache.containsKey (L i * h.clusterSize) = false from hcon]
    simp only [Bool.not_false, if_true]
    have hdisk := ht.2 i hi h0 hnk
    rw [show (table.over f).rawFile = table.rawFile.over f from rfl,
      readL2Cluster_eq hl table.rawFile hr.clusterSize hdisk hin.2 (by omega)]
    simp only []
    obtain ⟨after, ev', f', held', hins, hha, hca, hsub, ht', hsize, hdiff⟩ :=
      @l2TablesHeld.held_insert (table.over f).cache _ _ hh hr.capacity _ _ _ _ _ _ _ hl hc ht
        (pointerWriteBackCache.writeEvicted (table.rawFile.over f))
        (fun k v ev g hk => pointerWriteBackCache.writeEvicted_eq _ k v ev g hr.writable hk)
        (L i * h.clusterSize)
        (vectorCacheFromArray ((List.range h.l2Size).map fun j =>
          M (i * h.l2Size + j) * h.clusterSize))
        (table.over f).evicted
    rw [show (table.rawFile.over f).file.content = f from rfl, hins]
    simp only []
    have hnk' : L i * h.clusterSize ∉ held'.map (fun x => x.2.1) := fun hin' => by
      obtain ⟨x, hx, hxk⟩ := List.mem_map.mp hin'
      exact hnk (List.mem_map.mpr ⟨x, hsub x hx, hxk⟩)
    have hnew := ht'.touchWith hl hc hi h0
      (vectorCacheFromArray ((List.range h.l2Size).map fun j =>
        M (i * h.l2Size + j) * h.clusterSize))
      (by show (List.map _ _).length = _; rw [List.length_map, List.length_range])
      (fun j hj => by
        show (List.map _ _).getD j 0 = _
        rw [List.getD_eq_getElem?_getD, List.getElem?_map, List.getElem?_range hj]
        rfl)
      (fun _ => ht'.2 i hi h0 hnk') created
    refine ⟨_, rfl,
      { header := hr.header, writable := hr.writable, clusterSize := hr.clusterSize
        l1Length := hr.l1Length, l1 := hr.l1, capacity := by rw [hca]; exact hr.capacity
        cache := ⟨_, _, hha, hnew⟩ }, hsize, hdiff, ?_⟩
    exact hha.containsKey_of_mem (p := created)
      (List.mem_append_right _ (List.mem_singleton_self _))

theorem pointerWriteBackCache.Represents.l1_get {table : pointerWriteBackCache}
    {h : ImageHeader} {f : File} {L M : Nat → Nat} (hr : table.Represents h f L M) {i : Nat}
    (hi : i < h.numL2Clusters) : table.l1Table.get i = .ok (L i * h.clusterSize) := by
  rw [VectorCache.get_eq _ _ 0 (by rw [hr.l1Length]; exact hi), hr.l1 i hi]

/-- The entry of a cluster of the virtual disk in the cached L2 table of its L1 entry. -/
theorem l2TablesHeld.entry {h : ImageHeader} {entries : Nat} {f g : File}
    {ρ : Nat → ClusterRole} {L M : Nat → Nat} {avail : List Nat}
    {held : List (Nat × Nat × VectorCache Nat)} (ht : l2TablesHeld h f L M held)
    (hl : h.Layout entries) (hc : ClusterRoles h entries g ρ L M avail) {i : Nat}
    (hi : i < h.numL2Clusters) (h0 : L i ≠ 0) {p : Nat} {v : VectorCache Nat}
    (hm : (p, L i * h.clusterSize, v) ∈ held) :
    v.data.length = h.l2Size
      ∧ (∀ j, j < h.l2Size → v.data.getD j 0 = M (i * h.l2Size + j) * h.clusterSize)
      ∧ (v.dirty = false → l2TableOnDisk h f L M i) := by
  have hcs := hl.clusterSize_ge
  obtain ⟨ix, x1, x2, x3, x4, x5, x6⟩ := ht.1 _ hm
  simp only at x3 x4 x5 x6
  have : ix = i := hc.l2_injective hi x1 h0
    (Nat.eq_of_mul_eq_mul_right (by omega : 0 < h.clusterSize) x3.symm)
  subst this
  exact ⟨x4, x5, x6⟩

/-- Reading the address of a cluster through the write-back pointer table. -/
theorem pointerWriteBackCache.Represents.readClusterAddress_writeBack {table : pointerWriteBackCache}
    {h : ImageHeader} {entries : Nat} {f : File} {ρ : Nat → ClusterRole} {L M : Nat → Nat}
    {avail : List Nat} (hl : h.Layout entries) (hr : table.Represents h f L M)
    (hc : ClusterRoles h entries f ρ L M avail) {va : Nat}
    (hva : va < h.virtualDiskSizeBytes) :
    ∃ table', (table.over f).readClusterAddress va
        = ((if L (va / h.clusterSize / h.l2Size) = 0 then .error .needPointerCluster
            else .ok (M (va / h.clusterSize) * h.clusterSize)), table')
      ∧ table'.Represents h table'.rawFile.file.content L M
      ∧ table'.rawFile.file.content.size = f.size
      ∧ File.Differ (h.pointerZone entries ρ) f table'.rawFile.file.content
      ∧ (L (va / h.clusterSize / h.l2Size) ≠ 0 →
          table'.cache.containsKey (L (va / h.clusterSize / h.l2Size) * h.clusterSize)
            = true) := by
  have hcs := hl.clusterSize_ge
  have hi := hl.index_lt hva
  have hr0 : (table.over f).Represents h f L M :=
    { header := hr.header, writable := hr.writable, clusterSize := hr.clusterSize
      l1Length := hr.l1Length, l1 := hr.l1, capacity := hr.capacity, cache := hr.cache }
  unfold pointerWriteBackCache.readClusterAddress
  rw [show (table.over f).header = h from hr.header, hl.l1TableIndex_eq]
  simp only []
  rw [show (table.over f).l1Table = table.l1Table from rfl, hr.l1_get hi]
  simp only []
  by_cases h0 : L (va / h.clusterSize / h.l2Size) = 0
  · rw [if_pos h0, if_pos (by rw [h0, Nat.zero_mul])]
    exact ⟨_, rfl, hr0, rfl, File.Differ.differ_refl _ _, fun hne => absurd h0 hne⟩
  · rw [if_neg h0, if_neg (by
      intro e
      rcases Nat.mul_eq_zero.mp e with e | e
      · exact h0 e
      · omega)]
    obtain ⟨t1, hfill, hr1, hsize, hdiff, hcon⟩ := hr.fill hl hc hi h0
    rw [hfill]
    simp only []
    obtain ⟨held, created, hh, ht⟩ := hr1.cache
    rcases hh.mem_of_containsKey (L (va / h.clusterSize / h.l2Size) * h.clusterSize) with
      ⟨_, p, v, hm⟩ | ⟨hno, _⟩
    · obtain ⟨c2, hget, hh2⟩ := hh.get_of_mem 0 _ hm
      obtain ⟨e1, e2, e3⟩ := ht.entry hl hc hi h0 hm
      rw [hget]
      simp only []
      rw [hr1.header, hl.l2TableIndex_eq]
      simp only []
      have hidx : va / h.clusterSize % h.l2Size < h.l2Size := Nat.mod_lt _ hl.l2Size_pos
      rw [VectorCache.get_eq v _ 0 (by rw [e1]; exact hidx), e2 _ hidx,
        show va / h.clusterSize / h.l2Size * h.l2Size + va / h.clusterSize % h.l2Size
          = va / h.clusterSize by rw [Nat.mul_comm]; exact Nat.div_add_mod _ _]
      refine ⟨_, rfl,
        { header := rfl, writable := hr1.writable, clusterSize := hr1.clusterSize
          l1Length := hr1.l1Length, l1 := hr1.l1, capacity := ?_
          cache := ⟨_, _, hh2, ht.touchWith hl hc hi h0 v e1 e2 e3 created⟩ },
        hsize, hdiff, fun _ => ?_⟩
      · show 0 < c2.capacity
        rcases hh.get 0 (L (va / h.clusterSize / h.l2Size) * h.clusterSize) with
          ⟨_, e⟩ | ⟨_, _, _, _, _, _, _, e⟩
        · rw [hget] at e
          exact absurd (congrArg Prod.fst e) (by simp)
        · rw [hget] at e
          rw [e]
          exact hr1.capacity
      · exact hh2.containsKey_of_mem (p := created)
          (List.mem_append_right _ (List.mem_singleton_self _))
    · rw [hcon] at hno
      exact Bool.noConfusion hno

/-- A cluster of the virtual disk whose L1 entry has no L2 table has no data cluster. -/
theorem ClusterRoles.data_none {h : ImageHeader} {entries : Nat} {f : File}
    {ρ : Nat → ClusterRole} {L M : Nat → Nat} {avail : List Nat}
    (hc : ClusterRoles h entries f ρ L M avail) {k : Nat}
    (hk : k < h.numL2Clusters * h.l2Size) (h0 : L (k / h.l2Size) = 0) : M k = 0 := by
  by_contra hne
  exact (hc.data k hk hne).2 h0

/-- A cluster with a role is not the header cluster. -/
theorem ClusterRoles.pos_of_role {h : ImageHeader} {entries : Nat} {f : File}
    {ρ : Nat → ClusterRole} {L M : Nat → Nat} {avail : List Nat}
    (hc : ClusterRoles h entries f ρ L M avail) (hl : h.Layout entries) {n : Nat}
    (hn : ρ n ≠ .free) : n ≠ 0 := by
  have hcs := hl.clusterSize_ge
  have hin := hc.inFile n hn
  have ht2 := h.tablesEnd_rt entries
  have hsize := hc.size
  rintro rfl
  rw [Nat.zero_mul] at hin
  have he : entries = 0 := by omega
  rw [he] at hsize
  simp at hsize
  rw [Nat.zero_add, Nat.one_mul] at hin
  omega

theorem l2_index_lt {h : ImageHeader} {i j : Nat} (hi : i < h.numL2Clusters)
    (hj : j < h.l2Size) : i * h.l2Size + j < h.numL2Clusters * h.l2Size := by
  calc i * h.l2Size + j < i * h.l2Size + h.l2Size := by omega
    _ = (i + 1) * h.l2Size := by rw [Nat.add_mul, Nat.one_mul]
    _ ≤ h.numL2Clusters * h.l2Size := Nat.mul_le_mul_right _ hi

theorem l2_index_div {h : ImageHeader} (i : Nat) {j : Nat} (hj : j < h.l2Size) :
    (i * h.l2Size + j) / h.l2Size = i := by
  rw [Nat.mul_comm, Nat.mul_add_div (by omega), Nat.div_eq_of_lt hj, Nat.add_zero]

/-- A new L2 table is entered in the write-back pointer table. -/
theorem pointerWriteBackCache.Represents.addNewPointerCluster_writeBack {table : pointerWriteBackCache}
    {h : ImageHeader} {entries : Nat} {f : File} {ρ : Nat → ClusterRole} {L M : Nat → Nat}
    {avail : List Nat} (hl : h.Layout entries) (hr : table.Represents h f L M)
    (hc : ClusterRoles h entries f ρ L M avail) {va n : Nat}
    (hva : va < h.virtualDiskSizeBytes) (h0 : L (va / h.clusterSize / h.l2Size) = 0)
    (hn : ρ n = .pending) :
    ∃ table', (table.over f).addNewPointerCluster va (n * h.clusterSize) = (.ok (), table')
      ∧ table'.Represents h table'.rawFile.file.content
          (Function.update L (va / h.clusterSize / h.l2Size) n) M
      ∧ table'.rawFile.file.content.size = f.size
      ∧ File.Differ (h.pointerZone entries ρ) f table'.rawFile.file.content
      ∧ table'.cache.containsKey (n * h.clusterSize) = true := by
  have hcs := hl.clusterSize_ge
  have hi := hl.index_lt hva
  have hn0 : n ≠ 0 := hc.pos_of_role hl (by rw [hn]; exact fun e => ClusterRole.noConfusion e)
  obtain ⟨held, created, hh, ht⟩ := hr.cache
  unfold pointerWriteBackCache.addNewPointerCluster
  rw [show (table.over f).header = h from hr.header, hl.l1TableIndex_eq]
  simp only []
  rw [show (table.over f).l1Table = table.l1Table from rfl,
    VectorCache.set_ok _ _ _ (by rw [hr.l1Length]; exact hi)]
  simp only []
  rw [VectorCache.get_eq _ _ 0 (by
    show _ < (table.l1Table.data.set _ _).length
    rw [List.length_set, hr.l1Length]; exact hi)]
  simp only []
  rw [show (List.set table.l1Table.data (va / h.clusterSize / h.l2Size)
      (n * h.clusterSize)).getD (va / h.clusterSize / h.l2Size) 0 = n * h.clusterSize by
    rw [List.getD_eq_getElem?_getD, List.getElem?_set, if_pos rfl,
      if_pos (by rw [hr.l1Length]; exact hi)]
    rfl]
  obtain ⟨after, ev', f', held', hins, hha, hca, hsub, ht', hsize, hdiff⟩ :=
    @l2TablesHeld.held_insert (table.over f).cache _ _ hh hr.capacity _ _ _ _ _ _ _ hl hc ht
      (pointerWriteBackCache.writeEvictedNew (table.rawFile.over f))
      (fun k v ev g hk => pointerWriteBackCache.writeEvictedNew_eq _ k v ev g hr.writable hk)
      (n * h.clusterSize) (newVectorCache h.l2Size 0) (table.over f).evicted
  rw [show (table.over f).rawFile = table.rawFile.over f from rfl,
    show (table.rawFile.over f).file.content = f from rfl, hins]
  simp only []
  have hnew : l2TablesHeld h f' (Function.update L (va / h.clusterSize / h.l2Size) n) M
      (heldTouch held' created (n * h.clusterSize) (newVectorCache h.l2Size 0)) := by
    refine ht'.replace (by omega) hl.l2Size_pos hi
      (fun i' hne => Function.update_noteq hne _ _)
      (by rw [Function.update_same]; exact hn0) (fun _ _ => rfl)
      (fun i' hi' hne h0' => ?_) (fun x hx => ?_) ?_ (fun x hx hne => ?_)
    · rw [h0, Function.update_same]
      refine ⟨h0', fun e => ?_⟩
      have := hc.l2 i' hi' h0'
      rw [e, hn] at this
      exact ClusterRole.noConfusion this
    · rcases mem_heldTouch hx with ⟨h1, _⟩ | rfl
      · refine Or.inl ⟨h1, ?_⟩
        obtain ⟨ix, _, x2, x3, _⟩ := ht'.1 x h1
        rw [x3, h0, Nat.zero_mul]
        exact Nat.mul_ne_zero x2 (by omega)
      · refine Or.inr ⟨by rw [Function.update_same], ?_, ?_, ?_⟩
        · show (List.replicate _ _).length = _
          rw [List.length_replicate]
        · intro j hj
          show (List.replicate _ _).getD j 0 = _
          rw [hc.data_none (l2_index_lt hi hj) (by rw [l2_index_div _ hj]; exact h0),
            Nat.zero_mul, List.getD_eq_getElem?_getD, List.getElem?_replicate]
          simp [hj]
        · intro hd
          exact Bool.noConfusion hd
    · rw [heldTouch_keys, Function.update_same]
      exact Or.inl rfl
    · rw [heldTouch_keys]
      exact Or.inr (List.mem_map.mpr ⟨x, hx, rfl⟩)
  refine ⟨_, rfl,
    { header := rfl, writable := hr.writable, clusterSize := hr.clusterSize
      l1Length := ?_, l1 := ?_, capacity := by rw [hca]; exact hr.capacity
      cache := ⟨_, _, hha, hnew⟩ }, hsize, hdiff, ?_⟩
  · show (table.l1Table.data.set _ _).length = _
    rw [List.length_set]
    exact hr.l1Length
  · intro i' hi'
    show (table.l1Table.data.set _ _).getD i' 0 = _
    rw [List.getD_eq_getElem?_getD, List.getElem?_set]
    by_cases e : va / h.clusterSize / h.l2Size = i'
    · rw [if_pos e, if_pos (by rw [hr.l1Length]; exact hi), ← e, Function.update_same]
      rfl
    · rw [if_neg e, Function.update_noteq (Ne.symm e), ← List.getD_eq_getElem?_getD]
      exact hr.l1 i' hi'
  · exact hha.containsKey_of_mem (p := created)
      (List.mem_append_right _ (List.mem_singleton_self _))

/-! ### The pointer table of the image -/

/-- Reading the address of a cluster of the virtual disk through the pointer table: the
address of its data cluster, or the request for an L2 table. -/
theorem pointerTableCache.Represents.readClusterAddress_pointers {pt : pointerTableCache}
    {h : ImageHeader} {entries : Nat} {f : File} {ρ : Nat → ClusterRole} {L M : Nat → Nat}
    {avail : List Nat} (hl : h.Layout entries) (hr : pt.Represents h f L M)
    (hc : ClusterRoles h entries f ρ L M avail) {va : Nat}
    (hva : va < h.virtualDiskSizeBytes) :
    ∃ pt' f', pt.readClusterAddress f va
        = ((if L (va / h.clusterSize / h.l2Size) = 0 then .error .needPointerCluster
            else .ok (M (va / h.clusterSize) * h.clusterSize)), pt', f')
      ∧ pt'.Represents h f' L M ∧ f'.size = f.size
      ∧ File.Differ (h.pointerZone entries ρ) f f'
      ∧ (L (va / h.clusterSize / h.l2Size) ≠ 0 →
          pt'.Loaded (L (va / h.clusterSize / h.l2Size) * h.clusterSize)) := by
  cases pt with
  | noCache table =>
    refine ⟨.noCache table, f, ?_, hr, rfl, File.Differ.differ_refl _ _, fun _ => trivial⟩
    unfold pointerTableCache.readClusterAddress
    simp only []
    rw [pointerTableNoCache.Represents.readClusterAddress_noCache hl hr hc hva]
  | writeBack table =>
    obtain ⟨t', e, h1, h2, h3, h4⟩ :=
      pointerWriteBackCache.Represents.readClusterAddress_writeBack hl hr hc hva
    refine ⟨.writeBack t', t'.rawFile.file.content, ?_, h1, h2, h3, h4⟩
    unfold pointerTableCache.readClusterAddress
    simp only [e]

/-- A new L2 table, in a pending cluster of zeros, is entered in the pointer table. -/
theorem pointerTableCache.Represents.addNewPointerCluster_pointers {pt : pointerTableCache}
    {h : ImageHeader} {entries : Nat} {f : File} {ρ : Nat → ClusterRole} {L M : Nat → Nat}
    {avail : List Nat} (hl : h.Layout entries) (hr : pt.Represents h f L M)
    (hc : ClusterRoles h entries f ρ L M avail) {va n : Nat}
    (hva : va < h.virtualDiskSizeBytes) (h0 : L (va / h.clusterSize / h.l2Size) = 0)
    (hn : ρ n = .pending) (hz : ∀ j, j < h.clusterSize → f.get (n * h.clusterSize + j) = 0) :
    ∃ pt' f', pt.addNewPointerCluster f va (n * h.clusterSize) = (.ok (), pt', f')
      ∧ pt'.Represents h f' (Function.update L (va / h.clusterSize / h.l2Size) n) M
      ∧ f'.size = f.size ∧ File.Differ (h.pointerZone entries ρ) f f'
      ∧ pt'.Loaded (n * h.clusterSize) := by
  cases pt with
  | noCache table =>
    obtain ⟨f', e, h1, h2, h3⟩ :=
      pointerTableNoCache.Represents.addNewPointerCluster_noCache hl hr hc hva h0 hn hz
    refine ⟨.noCache table, f', ?_, h1, h2, h3, trivial⟩
    unfold pointerTableCache.addNewPointerCluster
    simp only [e]
  | writeBack table =>
    obtain ⟨t', e, h1, h2, h3, h4⟩ :=
      pointerWriteBackCache.Represents.addNewPointerCluster_writeBack hl hr hc hva h0 hn
    refine ⟨.writeBack t', t'.rawFile.file.content, ?_, h1, h2, h3, h4⟩
    unfold pointerTableCache.addNewPointerCluster
    simp only [e]

/-- The zones the pointer table writes to hold no refcount table, no data and no pending
cluster. -/
theorem ImageHeader.pointerZone_disjoint {h : ImageHeader} {entries : Nat}
    {ρ : Nat → ClusterRole} {p : Nat} (hp : h.pointerZone entries ρ p) :
    h.zone entries ρ p ≠ .refcountTable ∧ h.zone entries ρ p ≠ .cluster .pending
      ∧ ∀ k, h.zone entries ρ p ≠ .cluster (.data k) := by
  rcases hp with hp | ⟨i, hp⟩ <;> rw [hp] <;> refine ⟨fun e => ?_, fun e => ?_, fun k e => ?_⟩
  · exact Zone.noConfusion e
  · exact Zone.noConfusion e
  · exact Zone.noConfusion e
  · exact Zone.noConfusion e
  · exact ClusterRole.noConfusion (Zone.cluster.inj e)
  · exact ClusterRole.noConfusion (Zone.cluster.inj e)

/-- The image after its pointer table wrote to the file, with the tables `L'` and `M'` and
the roles `ρ'` it then has. -/
theorem ImageFile.Sound.sound_of_pointers {s : ImageFile} {entries : Nat} {L M L' M' : Nat → Nat}
    {ρ ρ' : Nat → ClusterRole} (hs : s.Sound entries L M ρ) {pt : pointerTableCache} {f : File}
    (hr : pt.Represents s.header f L' M') (hsize : f.size = s.file.size)
    (hd : File.Differ (s.header.pointerZone entries ρ) s.file f)
    (hc : ClusterRoles s.header entries s.file ρ' L' M' s.availClusters)
    (hρ : ∀ n, ρ n = .reserved → ρ' n = .reserved) :
    (({ s with pointerTable := pt } : ImageFile).over f).Sound entries L' M' ρ' :=
  { layout := hs.layout, writable := hs.writable, clusterSize := hs.clusterSize
    clusterMask := hs.clusterMask
    roles := hc.of_file (le_of_eq hsize.symm) (by
      show f.size ≤ _
      rw [hsize]; exact hs.roles.size)
    pointers := hr
    counts := hs.counts.counts_of_differ hs.layout hd
      (fun p hp => (ImageHeader.pointerZone_disjoint hp).1) hρ }

theorem ImageFile.Keeps.keeps_of_pointers {s : ImageFile} {entries : Nat} {ρ : Nat → ClusterRole}
    (pt : pointerTableCache) {f : File} (hsize : f.size = s.file.size)
    (hd : File.Differ (s.header.pointerZone entries ρ) s.file f) :
    ImageFile.Keeps entries s ρ (({ s with pointerTable := pt } : ImageFile).over f) ρ :=
  { header := rfl, readOnly := rfl, size := le_of_eq hsize.symm, roles := fun _ _ _ => rfl
    kept := fun p hp => hd.2 p fun hz => by
      have := ImageHeader.pointerZone_disjoint hz
      rcases hp with hp | ⟨k, hp⟩
      · exact this.2.1 hp
      · exact this.2.2 k hp }

/-! ### Entering a data cluster in the write-back pointer table -/

theorem LruCacheMap.Holds.get_capacity {T P : Type} [DecidableEq T] {cacheMap : LruCacheMap T P}
    {held : List (Nat × T × VectorCache P)} {created : Nat} (h : cacheMap.Holds held created)
    (zero key : T) : (cacheMap.get zero key).2.capacity = cacheMap.capacity := by
  rcases h.get zero key with ⟨_, e⟩ | ⟨_, _, _, _, _, _, _, e⟩
  · rw [e]
  · exact e

/-- The vector of an L2 table after the entry of a cluster was set. -/
theorem l2_vector_set {h : ImageHeader} {M : Nat → Nat} {i idx : Nat} (v : List Nat) (c : Nat)
    (hlen : v.length = h.l2Size) (hidx : idx < h.l2Size)
    (hdata : ∀ j, j < h.l2Size → v.getD j 0 = M (i * h.l2Size + j) * h.clusterSize) :
    (v.set idx (c * h.clusterSize)).length = h.l2Size
      ∧ ∀ j, j < h.l2Size → (v.set idx (c * h.clusterSize)).getD j 0
          = Function.update M (i * h.l2Size + idx) c (i * h.l2Size + j) * h.clusterSize := by
  refine ⟨by rw [List.length_set]; exact hlen, fun j hj => ?_⟩
  rw [List.getD_eq_getElem?_getD, List.getElem?_set]
  by_cases e : idx = j
  · subst e
    rw [if_pos rfl, if_pos (by rw [hlen]; exact hidx), Function.update_same]
    rfl
  · rw [if_neg e, Function.update_noteq (by omega), ← List.getD_eq_getElem?_getD]
    exact hdata j hj

/-- The write-back pointer table enters the data cluster `c` for the cluster of `va`: in
place when the cached L2 table is dirty or was evicted before, else in a copy of the L2
table in the new cluster `n'` that the callback returns. -/
theorem pointerWriteBackCache.Represents.updateClusterAddressWith {α : Type}
    {table : pointerWriteBackCache} {h : ImageHeader} {entries : Nat} {f f1 g : File}
    {ρ : Nat → ClusterRole} {L M : Nat → Nat} {avail : List Nat} (hl : h.Layout entries)
    (hr : table.Represents h f L M)
    (hframe : ∀ held, l2TablesHeld h f L M held → l2TablesHeld h f1 L M held)
    (hc : ClusterRoles h entries g ρ L M avail) {va : Nat} (hva : va < h.virtualDiskSizeBytes)
    (h0 : L (va / h.clusterSize / h.l2Size) ≠ 0)
    (hload : table.cache.containsKey (L (va / h.clusterSize / h.l2Size) * h.clusterSize) = true)
    (c : Nat) (cb : α → Outcome Nat × α) (caller : α) {n' : Nat}
    (hcb : ∀ a, (cb caller).1 = .ok a → a = n' * h.clusterSize ∧ n' ≠ 0
      ∧ ∀ i', i' < h.numL2Clusters → L i' ≠ 0 → L i' ≠ n') :
    (∃ table', table.updateClusterAddressWith va (c * h.clusterSize) cb caller
          = (.done, table', caller)
        ∧ table'.Represents h f L (Function.update M (va / h.clusterSize) c))
      ∨ (∃ table', table.updateClusterAddressWith va (c * h.clusterSize) cb caller
          = (.needFreeClusters (L (va / h.clusterSize / h.l2Size) * h.clusterSize)
              [(L (va / h.clusterSize / h.l2Size) * h.clusterSize, 0), (n' * h.clusterSize, 1)],
            table', (cb caller).2)
        ∧ (cb caller).1 = .ok (n' * h.clusterSize)
        ∧ table'.Represents h f1 (Function.update L (va / h.clusterSize / h.l2Size) n')
            (Function.update M (va / h.clusterSize) c))
      ∨ (∃ e, (table.updateClusterAddressWith va (c * h.clusterSize) cb caller).1 = .failed e)
      ∨ (table.updateClusterAddressWith va (c * h.clusterSize) cb caller).1 = .panicked := by
  have hcs := hl.clusterSize_ge
  have hi := hl.index_lt hva
  have hidx : va / h.clusterSize % h.l2Size < h.l2Size := Nat.mod_lt _ hl.l2Size_pos
  have hk : va / h.clusterSize / h.l2Size * h.l2Size + va / h.clusterSize % h.l2Size
      = va / h.clusterSize := by rw [Nat.mul_comm]; exact Nat.div_add_mod _ _
  obtain ⟨held, created, hh, ht⟩ := hr.cache
  rcases hh.mem_of_containsKey (L (va / h.clusterSize / h.l2Size) * h.clusterSize) with
    ⟨_, p, v, hm⟩ | ⟨hno, _⟩
  swap
  · rw [hload] at hno
    exact Bool.noConfusion hno
  obtain ⟨c1, hget, hhc1⟩ := hh.get_of_mem 0 _ hm
  obtain ⟨e1, e2, e3⟩ := ht.entry hl hc hi h0 hm
  obtain ⟨s1, s2⟩ := l2_vector_set (i := va / h.clusterSize / h.l2Size) v.data c e1 hidx e2
  rw [hk] at s2
  have hset := VectorCache.set_ok v (va / h.clusterSize % h.l2Size) (c * h.clusterSize)
    (by rw [e1]; exact hidx)
  have hcap1 : c1.capacity = table.cache.capacity := by
    have := hh.get_capacity 0 (L (va / h.clusterSize / h.l2Size) * h.clusterSize)
    rw [hget] at this
    exact this
  unfold pointerWriteBackCache.updateClusterAddressWith
    pointerWriteBackCache.updateClusterAddress
  rw [hr.header, hl.l1TableIndex_eq]
  simp only []
  rw [hr.l1_get hi]
  simp only [hget]
  by_cases hcond : (!v.dirty && !decide
      (L (va / h.clusterSize / h.l2Size) * h.clusterSize ∈ table.evicted)) = true
  · -- the L2 table is copied
    rw [if_pos hcond]
    simp only [hcond, if_true]
    cases hres : (cb caller).1 with
    | error e => exact Or.inr (Or.inr (Or.inl ⟨e, rfl⟩))
    | crash => exact Or.inr (Or.inr (Or.inr rfl))
    | ok a =>
      obtain ⟨ha, hn0, hfresh⟩ := hcb a hres
      subst ha
      obtain ⟨r1, hh2, hcap2⟩ := hhc1.remove (L (va / h.clusterSize / h.l2Size) * h.clusterSize)
      rcases hrm : c1.remove (L (va / h.clusterSize / h.l2Size) * h.clusterSize) with ⟨rr, c2⟩
      rw [hrm] at r1 hh2 hcap2
      simp only at r1 hh2 hcap2
      subst r1
      obtain ⟨r3, hh3, hcap3⟩ := hh2.set (n' * h.clusterSize)
        { data := v.data.set (va / h.clusterSize % h.l2Size) (c * h.clusterSize), dirty := true }
      rcases hst : c2.set (n' * h.clusterSize)
        { data := v.data.set (va / h.clusterSize % h.l2Size) (c * h.clusterSize), dirty := true }
        with ⟨rr3, c3⟩
      rw [hst] at r3 hh3 hcap3
      simp only at r3 hh3 hcap3
      subst r3
      simp only [VectorCache.set_ok table.l1Table (va / h.clusterSize / h.l2Size)
        (n' * h.clusterSize) (by rw [hr.l1Length]; exact hi), hl.l2TableIndex_eq, hset, hst]
      refine Or.inr (Or.inl ⟨_, rfl, trivial,
        { header := rfl, writable := hr.writable, clusterSize := hr.clusterSize
          l1Length := ?_, l1 := ?_
          capacity := by
            show 0 < c3.capacity
            rw [hcap3, hcap2, hcap1]; exact hr.capacity
          cache := ⟨_, _, hh3, ?_⟩ }⟩)
      · show (table.l1Table.data.set _ _).length = _
        rw [List.length_set]
        exact hr.l1Length
      · intro i' hi'
        show (table.l1Table.data.set _ _).getD i' 0 = _
        rw [List.getD_eq_getElem?_getD, List.getElem?_set]
        by_cases e : va / h.clusterSize / h.l2Size = i'
        · rw [if_pos e, if_pos (by rw [hr.l1Length]; exact hi), ← e, Function.update_same]
          rfl
        · rw [if_neg e, Function.update_noteq (Ne.symm e), ← List.getD_eq_getElem?_getD]
          exact hr.l1 i' hi'
      · -- the cached tables, over the file `f1`
        have hMk : ∀ k', k' / h.l2Size ≠ va / h.clusterSize / h.l2Size →
            Function.update M (va / h.clusterSize) c k' = M k' := fun k' hk' =>
          Function.update_noteq (fun e => hk' (by rw [e])) _ _
        refine (hframe held ht).replace (by omega) hl.l2Size_pos hi
          (fun i' hne => Function.update_noteq hne _ _)
          (by rw [Function.update_same]; exact hn0) hMk
          (fun i' hi' hne h0' => ?_) (fun x hx => ?_) ?_ (fun x hx hne => ?_)
        · rw [Function.update_same]
          exact ⟨fun e => hne (hc.l2_injective hi hi' h0 e), hfresh i' hi' h0'⟩
        · rcases mem_heldTouch hx with ⟨h1, _⟩ | rfl
          · rw [List.mem_filter] at h1
            have hne : x.2.1 ≠ L (va / h.clusterSize / h.l2Size) * h.clusterSize := by
              simpa using h1.2
            rcases mem_heldTouch h1.1 with ⟨h2, _⟩ | rfl
            · exact Or.inl ⟨h2, hne⟩
            · exact absurd rfl hne
          · refine Or.inr ⟨by rw [Function.update_same], s1, ?_, fun hd => Bool.noConfusion hd⟩
            intro j hj
            rw [s2 j hj]
        · rw [heldTouch_keys, Function.update_same]
          exact Or.inl rfl
        · rw [heldTouch_keys]
          refine Or.inr (List.mem_map.mpr ⟨x, List.mem_filter.mpr ⟨?_, by simpa using hne⟩, rfl⟩)
          unfold heldTouch
          exact List.mem_append_left _ (List.mem_filter.mpr ⟨hx, by simpa using hne⟩)
  · -- the entry is set in place
    rw [if_neg hcond]
    simp only [hcond, Bool.false_eq_true, if_false, hl.l2TableIndex_eq, hset]
    refine Or.inl ⟨_, rfl,
      { header := rfl, writable := hr.writable, clusterSize := hr.clusterSize
        l1Length := hr.l1Length, l1 := hr.l1
        capacity := by
          show 0 < c1.capacity
          rw [hcap1]; exact hr.capacity
        cache := ⟨_, _, hhc1.writeThrough _ _, ?_⟩ }⟩
    have hMk : ∀ k', k' / h.l2Size ≠ va / h.clusterSize / h.l2Size →
        Function.update M (va / h.clusterSize) c k' = M k' := fun k' hk' =>
      Function.update_noteq (fun e => hk' (by rw [e])) _ _
    refine ht.replace (by omega) hl.l2Size_pos hi (fun _ _ => rfl) h0 hMk
      (fun i' hi' hne h0' => ?_) (fun x hx => ?_) ?_ (fun x hx hne => ?_)
    · have : L i' ≠ L (va / h.clusterSize / h.l2Size) :=
        fun e => hne (hc.l2_injective hi hi' h0 e)
      exact ⟨this, this⟩
    · obtain ⟨y, hy, rfl⟩ := List.mem_map.mp hx
      by_cases e : y.2.1 = L (va / h.clusterSize / h.l2Size) * h.clusterSize
      · rw [if_pos e]
        exact Or.inr ⟨e, s1, s2, fun hd => Bool.noConfusion hd⟩
      · rw [if_neg e]
        rcases mem_heldTouch hy with ⟨h1, _⟩ | rfl
        · exact Or.inl ⟨h1, e⟩
        · exact absurd rfl e
    · rw [List.map_map]
      refine List.mem_map.mpr ⟨(created, _, v),
        List.mem_append_right _ (List.mem_singleton_self _), ?_⟩
      simp
    · rw [List.map_map]
      refine List.mem_map.mpr ⟨x, ?_, ?_⟩
      · unfold heldTouch
        exact List.mem_append_left _ (List.mem_filter.mpr ⟨hx, by simpa using hne⟩)
      · simp only [Function.comp]
        rw [if_neg hne]

theorem l2TablesHeld.held_of_differ {h : ImageHeader} {entries : Nat} {f f' : File}
    {ρ : Nat → ClusterRole} {L M : Nat → Nat} {avail : List Nat}
    {held : List (Nat × Nat × VectorCache Nat)} (ht : l2TablesHeld h f L M held)
    (hc : ClusterRoles h entries f ρ L M avail) (hl : h.Layout entries) {t : Nat → Prop}
    (hd : File.Differ t f f') (hz : ∀ p, t p → ¬ h.pointerZone entries ρ p) :
    l2TablesHeld h f' L M held := by
  refine ⟨fun x hx => ?_, fun i hi h0 hnm => ?_⟩
  · obtain ⟨i, hi, h0, hkey, hlen, hval, hdisk⟩ := ht.1 x hx
    exact ⟨i, hi, h0, hkey, hlen, hval, fun hcl =>
      l2TableOnDisk.table_of_differ hc hl hd hz hi h0 (hdisk hcl)⟩
  · exact l2TableOnDisk.table_of_differ hc hl hd hz hi h0 (ht.2 i hi h0 hnm)

/-- The invariant reads the raw file, the header, the two tables and the list of available
clusters of the image only. -/
theorem ImageFile.Sound.sound_of_eq {s s' : ImageFile} {entries : Nat} {L M : Nat → Nat}
    {ρ : Nat → ClusterRole} (hs : s.Sound entries L M ρ) (h1 : s'.rawFile = s.rawFile)
    (h2 : s'.header = s.header) (h3 : s'.pointerTable = s.pointerTable)
    (h4 : s'.referenceCounts = s.referenceCounts) (h5 : s'.availClusters = s.availClusters) :
    s'.Sound entries L M ρ := by
  have hf : s'.file = s.file := by unfold ImageFile.file; rw [h1]
  exact
    { layout := h2 ▸ hs.layout
      writable := h1 ▸ hs.writable
      clusterSize := by rw [h1, h2]; exact hs.clusterSize
      clusterMask := by rw [h1, h2]; exact hs.clusterMask
      roles := by rw [h2, hf, h5]; exact hs.roles
      pointers := by rw [h2, hf, h3]; exact hs.pointers
      counts := by rw [h2, hf, h4]; exact hs.counts }

theorem pointerWriteBackCache.Represents.over {table : pointerWriteBackCache} {h : ImageHeader}
    {f : File} {L M : Nat → Nat} (hr : table.Represents h f L M) (g : File) :
    (table.over g).Represents h f L M :=
  { header := hr.header, writable := hr.writable, clusterSize := hr.clusterSize
    l1Length := hr.l1Length, l1 := hr.l1, capacity := hr.capacity, cache := hr.cache }

/-! ### Entering a data cluster in the pointer table of the image -/

theorem ImageFile.Sound.updateClusterAddress_sound {s : ImageFile} {entries : Nat} {L M : Nat → Nat}
    {ρ : Nat → ClusterRole} (hs : s.Sound entries L M ρ) {va c : Nat}
    (hva : va < s.header.virtualDiskSizeBytes)
    (hL : L (va / s.header.clusterSize / s.header.l2Size) ≠ 0)
    (hload : s.pointerTable.Loaded
      (L (va / s.header.clusterSize / s.header.l2Size) * s.header.clusterSize))
    (hc : ρ c = .pending) (rcs : List (Nat × Nat)) :
    ∀ r s', s.updateClusterAddress va (c * s.header.clusterSize) rcs = (.ok r, s') →
      ∃ L' ρ', s'.Sound entries L' (Function.update M (va / s.header.clusterSize) c) ρ'
        ∧ s'.header = s.header ∧ s'.readOnly = s.readOnly ∧ s.file.size ≤ s'.file.size
        ∧ (∀ p, (s.header.zone entries ρ p = .cluster .pending
            ∨ ∃ k, s.header.zone entries ρ p = .cluster (.data k)) →
            s'.file.get p = s.file.get p)
        ∧ ∀ x ∈ r, x ∈ rcs ∨ x.1 + s.header.clusterSize ≤ s'.file.size := by
  intro r s' hres
  have hl := hs.layout
  have hcs := hl.clusterSize_ge
  have hi := hl.index_lt hva
  have hkdiv : va / s.header.clusterSize / s.header.l2Size
      = va / s.header.clusterSize / s.header.l2Size := rfl
  -- the roles once `c` holds the data of the cluster of `va`
  have hroles : ∀ (f : File) (ρ0 : Nat → ClusterRole) (L0 : Nat → Nat) (avail : List Nat),
      ClusterRoles s.header entries f ρ0 L0 M avail → ρ0 c = .pending →
      L0 (va / s.header.clusterSize / s.header.l2Size) ≠ 0 →
      ClusterRoles s.header entries f (Function.update ρ0 c (.data (va / s.header.clusterSize)))
        L0 (Function.update M (va / s.header.clusterSize) c) avail :=
    fun f ρ0 L0 avail h1 h2 h3 =>
      (h1.roles_assign h2 (.data (va / s.header.clusterSize))).setData (Function.update_same _ _ _) h3
  have hres' : ∀ ρ0 : Nat → ClusterRole, ρ0 c = .pending → ∀ n, ρ0 n = .reserved →
      Function.update ρ0 c (.data (va / s.header.clusterSize)) n = .reserved := by
    intro ρ0 h1 n h2
    rw [Function.update_noteq]
    · exact h2
    · rintro rfl
      rw [h1] at h2
      exact ClusterRole.noConfusion h2
  unfold ImageFile.updateClusterAddress at hres
  cases hpt : s.pointerTable with
  | noCache table =>
    have hr : table.Represents s.header s.file L M := by
      have := hs.pointers
      rw [hpt] at this
      exact this
    obtain ⟨f', e, h1, h2, h3⟩ :=
      pointerTableNoCache.Represents.updateClusterAddress_noCache hl hr hs.roles hva hL hc
    rw [hpt] at hres
    simp only [e] at hres
    obtain ⟨hr1, hr2⟩ := Prod.mk.inj hres
    have hr1 := Outcome.ok.inj hr1
    subst hr1 hr2
    have hsound := @ImageFile.Sound.sound_of_pointers _ _ _ _ _ _ _
      (Function.update ρ c (.data (va / s.header.clusterSize))) hs (.noCache table) _ h1 h2 h3
      (hroles _ _ _ _ hs.roles hc hL) (hres' ρ hc)
    refine ⟨L, _, hsound.sound_of_eq rfl rfl ?_ rfl rfl, rfl, rfl, le_of_eq h2.symm, ?_,
      fun x hx => Or.inl hx⟩
    · exact hpt
    · intro p hp
      refine h3.2 p fun hz => ?_
      have := ImageHeader.pointerZone_disjoint hz
      rcases hp with hp | ⟨k, hp⟩
      · exact this.2.1 hp
      · exact this.2.2 k hp
  | writeBack table =>
    have hr : table.Represents s.header s.file L M := by
      have := hs.pointers
      rw [hpt] at this
      exact this
    have hld : table.cache.containsKey
        (L (va / s.header.clusterSize / s.header.l2Size) * s.header.clusterSize) = true := by
      rw [hpt] at hload
      exact hload
    rw [hpt] at hres
    simp only [] at hres
    obtain ⟨r2, s2, e2, hcase2⟩ := hs.getNewCluster
    rcases hcase2 with ⟨⟨e', rfl⟩, _⟩ | ⟨n, rfl, hs2, hk2, hfree, hzero, hdiff2⟩
    · -- no new cluster: only the update in place can succeed
      rcases @pointerWriteBackCache.Represents.updateClusterAddressWith _ _ _ _ _ s.file _ _ _ _ _ hl
          (hr.over s.file) (fun _ h => h) hs.roles _ hva hL hld c
          (fun image : ImageFile => image.getNewCluster none) s 0
          (fun a ha => by
            have ha' : (s.getNewCluster none).1 = .ok a := ha
            rw [e2] at ha'
            exact Outcome.noConfusion ha') with
        ⟨t', hu, hr'⟩ | ⟨t', hu, hok, _⟩ | ⟨e, hu⟩ | hu
      · rw [hu] at hres
        simp only [] at hres
        obtain ⟨hr1, hr2⟩ := Prod.mk.inj hres
        have hr1 := Outcome.ok.inj hr1
        subst hr1 hr2
        have hsound := @ImageFile.Sound.sound_of_pointers _ _ _ _ _ _ _
          (Function.update ρ c (.data (va / s.header.clusterSize))) hs
          (.writeBack (t'.over s.file)) _ (hr'.over s.file) rfl
          (File.Differ.differ_refl _ _) (hroles _ _ _ _ hs.roles hc hL) (hres' ρ hc)
        exact ⟨L, _, hsound.sound_of_eq rfl rfl rfl rfl rfl, rfl, rfl, le_refl _, fun _ _ => rfl,
          fun x hx => Or.inl hx⟩
      · have hok' : (s.getNewCluster none).1 = _ := hok
        rw [e2] at hok'
        exact Outcome.noConfusion hok'
      · rw [hu] at hres
        exact Outcome.noConfusion (Prod.mk.inj hres).1
      · rw [hu] at hres
        exact Outcome.noConfusion (Prod.mk.inj hres).1
    · -- a new cluster `n` for a copy of the L2 table
      have hh2 : s2.header = s.header := hk2.header
      have hpn : Function.update ρ n ClusterRole.pending n = .pending :=
        Function.update_same _ _ _
      have hcn : c ≠ n := by
        rintro rfl
        rcases hfree with h1 | h1 <;> rw [hc] at h1 <;> exact ClusterRole.noConfusion h1
      have hn0 : n ≠ 0 := hs2.roles.pos_of_role hs2.layout
        (by rw [hpn]; exact fun e => ClusterRole.noConfusion e)
      have hin := hs2.roles.inFile n (by rw [hpn]; exact fun e => ClusterRole.noConfusion e)
      rw [Nat.add_mul, Nat.one_mul, hh2] at hin
      rcases @pointerWriteBackCache.Represents.updateClusterAddressWith _ _ _ _ _ s2.file _ _ _ _ _ hl
          (hr.over s.file)
          (fun held ht => ht.held_of_differ hs.roles hl hdiff2 fun p hp hz => by
            rcases hp with hp | hp <;> rcases hz with hz | ⟨i, hz⟩ <;> rw [hp] at hz
            · exact Zone.noConfusion hz
            · exact ClusterRole.noConfusion (Zone.cluster.inj hz)
            · exact Zone.noConfusion hz
            · exact ClusterRole.noConfusion (Zone.cluster.inj hz))
          hs.roles _ hva hL hld c (fun image : ImageFile => image.getNewCluster none) s n
          (fun a ha => by
            have ha' : (s.getNewCluster none).1 = .ok a := ha
            rw [e2] at ha'
            refine ⟨(Outcome.ok.inj ha').symm, hn0, fun i' hi' h0' e => ?_⟩
            have := hs.roles.l2 i' hi' h0'
            rw [e] at this
            rcases hfree with h1 | h1 <;> rw [this] at h1 <;> exact ClusterRole.noConfusion h1)
        with ⟨t', hu, hr'⟩ | ⟨t', hu, hok, hr'⟩ | ⟨e, hu⟩ | hu
      · rw [hu] at hres
        simp only [] at hres
        obtain ⟨hr1, hr2⟩ := Prod.mk.inj hres
        have hr1 := Outcome.ok.inj hr1
        subst hr1 hr2
        have hsound := @ImageFile.Sound.sound_of_pointers _ _ _ _ _ _ _
          (Function.update ρ c (.data (va / s.header.clusterSize))) hs
          (.writeBack (t'.over s.file)) _ (hr'.over s.file) rfl
          (File.Differ.differ_refl _ _) (hroles _ _ _ _ hs.roles hc hL) (hres' ρ hc)
        exact ⟨L, _, hsound.sound_of_eq rfl rfl rfl rfl rfl, rfl, rfl, le_refl _, fun _ _ => rfl,
          fun x hx => Or.inl hx⟩
      · rw [hu] at hres
        simp only [] at hres
        rw [show ((fun image : ImageFile => image.getNewCluster none) s).2 = s2 by
          show (s.getNewCluster none).2 = s2
          rw [e2]] at hres
        obtain ⟨hr1, hr2⟩ := Prod.mk.inj hres
        have hr1 := Outcome.ok.inj hr1
        subst hr1 hr2
        have hpc : Function.update (Function.update ρ n ClusterRole.pending) n
            (ClusterRole.l2Table (va / s.header.clusterSize / s.header.l2Size)) c = .pending := by
          rw [Function.update_noteq hcn, Function.update_noteq hcn, hc]
        have hroles2 := hroles s2.file _ _ s2.availClusters
          ((hh2 ▸ hs2.roles.roles_assign hpn
              (.l2Table (va / s.header.clusterSize / s.header.l2Size))).setL2
            (Function.update_same _ _ _)) hpc
          (by rw [Function.update_same]; exact hn0)
        have hsound := @ImageFile.Sound.sound_of_pointers _ _ _ _ _ _ _ _ hs2 (.writeBack (t'.over s2.file)) _
          (hh2.symm ▸ hr'.over s2.file) rfl (File.Differ.differ_refl _ _) (hh2.symm ▸ hroles2)
          (fun m hm => by
            have hmn : m ≠ n := by
              rintro rfl
              rw [hpn] at hm
              exact ClusterRole.noConfusion hm
            have hmc : m ≠ c := by
              rintro rfl
              rw [Function.update_noteq hcn, hc] at hm
              exact ClusterRole.noConfusion hm
            rw [Function.update_noteq hmc, Function.update_noteq hmn]
            exact hm)
        refine ⟨Function.update L (va / s.header.clusterSize / s.header.l2Size) n,
          Function.update (Function.update (Function.update ρ n ClusterRole.pending) n
            (ClusterRole.l2Table (va / s.header.clusterSize / s.header.l2Size))) c
            (ClusterRole.data (va / s.header.clusterSize)), ?_, hh2, hk2.readOnly, hk2.size,
          hk2.kept, fun x hx => ?_⟩
        · rw [← hh2]
          exact hsound.sound_of_eq rfl rfl rfl rfl rfl
        rcases List.mem_append.mp hx with hx | hx
        · exact Or.inl hx
        · refine Or.inr ?_
          simp only [List.mem_cons, List.mem_singleton, List.not_mem_nil, or_false] at hx
          rcases hx with rfl | rfl
          · have := hs.roles.l2_inFile hi hL
            rw [Nat.add_mul, Nat.one_mul] at this
            exact le_trans this.2 hk2.size
          · exact hin.2
      · rw [hu] at hres
        exact Outcome.noConfusion (Prod.mk.inj hres).1
      · rw [hu] at hres
        exact Outcome.noConfusion (Prod.mk.inj hres).1

/-! ### Reading through the image -/

theorem ImageFile.Sound.clusterOffset_eq {s : ImageFile} {entries : Nat} {L M : Nat → Nat}
    {ρ : Nat → ClusterRole} (hs : s.Sound entries L M ρ) (a : Nat) :
    s.rawFile.clusterOffset a = a % s.header.clusterSize := by
  unfold QcowRawFile.clusterOffset
  rw [hs.clusterMask, hs.layout.clusterSize_eq, Nat.and_pow_two_sub_one_eq_mod]

/-- The image after a look at its pointer table. -/
theorem ImageFile.Sound.readClusterAddress_sound {s : ImageFile} {entries : Nat} {L M : Nat → Nat}
    {ρ : Nat → ClusterRole} (hs : s.Sound entries L M ρ) {va : Nat}
    (hva : va < s.header.virtualDiskSizeBytes) :
    ∃ pt' f', s.pointerTable.readClusterAddress s.file va
        = ((if L (va / s.header.clusterSize / s.header.l2Size) = 0
              then .error .needPointerCluster
            else .ok (M (va / s.header.clusterSize) * s.header.clusterSize)), pt', f')
      ∧ (({ s with pointerTable := pt' } : ImageFile).over f').Sound entries L M ρ
      ∧ ImageFile.Keeps entries s ρ (({ s with pointerTable := pt' } : ImageFile).over f') ρ
      ∧ (L (va / s.header.clusterSize / s.header.l2Size) ≠ 0 →
          pt'.Loaded (L (va / s.header.clusterSize / s.header.l2Size) * s.header.clusterSize)) := by
  obtain ⟨pt', f', e, h1, h2, h3, h4⟩ :=
    pointerTableCache.Represents.readClusterAddress_pointers hs.layout hs.pointers hs.roles hva
  exact ⟨pt', f', e, hs.sound_of_pointers h1 h2 h3 hs.roles (fun _ h => h),
    ImageFile.Keeps.keeps_of_pointers pt' h2 h3, h4⟩

/-- The bytes of the virtual disk stay where they are through steps that keep the data
clusters. -/
theorem ImageFile.Stores.of_keeps {s s' : ImageFile} {entries : Nat} {L M : Nat → Nat}
    {ρ ρ' : Nat → ClusterRole} {disk : Nat → Byte} (hs : s.Sound entries L M ρ)
    (hst : s.Stores M disk) (hk : ImageFile.Keeps entries s ρ s' ρ') : s'.Stores M disk := by
  intro p hp
  rw [hk.header] at hp ⊢
  have h := hst p hp
  refine ⟨fun hM => ?_, h.2⟩
  rw [← h.1 hM]
  apply hk.kept
  right
  refine ⟨p / s.header.clusterSize, ?_⟩
  have hd := hs.roles.data _ (hs.layout.cluster_lt hp) hM
  have hcs := hs.layout.clusterSize_ge
  rw [hs.roles.zone_cluster hs.layout (by rw [hd.1]; exact fun e => ClusterRole.noConfusion e)
    (Nat.mod_lt _ (by omega)), hd.1]

/-- The method `fileOffsetRead` on a consistent image: the place of the byte in its data
cluster, if the cluster has one. -/
theorem ImageFile.Sound.fileOffsetRead {s : ImageFile} {entries : Nat} {L M : Nat → Nat}
    {ρ : Nat → ClusterRole} (hs : s.Sound entries L M ρ) {va : Nat}
    (hva : va < s.header.virtualDiskSizeBytes) :
    ∃ s', s.fileOffsetRead va
        = (.ok (if M (va / s.header.clusterSize) = 0 then (0, false)
            else (M (va / s.header.clusterSize) * s.header.clusterSize
              + va % s.header.clusterSize, true)), s')
      ∧ s'.Sound entries L M ρ ∧ ImageFile.Keeps entries s ρ s' ρ := by
  obtain ⟨pt', f', e, h1, h2, -⟩ := hs.readClusterAddress_sound hva
  refine ⟨_, ?_, h1, h2⟩
  have hcs := hs.layout.clusterSize_ge
  have hk := hs.layout.cluster_lt hva
  unfold ImageFile.fileOffsetRead
  rw [if_neg (not_le.mpr hva)]
  simp only [e]
  by_cases hL : L (va / s.header.clusterSize / s.header.l2Size) = 0
  · rw [if_pos hL, if_pos (hs.roles.data_none hk hL)]
    simp only [if_true]
  · rw [if_neg hL]
    simp only []
    by_cases hM : M (va / s.header.clusterSize) = 0
    · rw [if_pos hM, if_pos (by rw [hM, Nat.zero_mul])]
    · have hin := hs.roles.data_inFile hk hM
      have hsz := hs.sound_size_lt
      have hmod := Nat.mod_lt va (show 0 < s.header.clusterSize by omega)
      rw [Nat.add_mul, Nat.one_mul] at hin
      rw [if_neg hM, if_neg (by
        intro h0
        rcases Nat.mul_eq_zero.mp h0 with h0 | h0
        · exact hM h0
        · omega)]
      rw [h1.clusterOffset_eq, wrap64_of_lt (by
        show _ + va % s.header.clusterSize < _
        omega)]
      rfl

theorem add_div_of_mod_add_lt {a j c : Nat} (h : a % c + j < c) :
    (a + j) / c = a / c ∧ (a + j) % c = a % c + j := by
  have hc : 0 < c := by omega
  have e : a + j = c * (a / c) + (a % c + j) := by
    have := Nat.div_add_mod a c
    omega
  rw [e]
  constructor
  · rw [Nat.mul_add_div hc, Nat.div_eq_of_lt h, Nat.add_zero]
  · rw [Nat.mul_add_mod, Nat.mod_eq_of_lt h]

/-- The bytes of a part of a cluster of the virtual disk, as the image holds them. -/
theorem ImageFile.Stores.bytes {s : ImageFile} {M : Nat → Nat} {disk : Nat → Byte}
    (hst : s.Stores M disk) {a count : Nat}
    (ha : a + count ≤ s.header.virtualDiskSizeBytes)
    (hcount : a % s.header.clusterSize + count ≤ s.header.clusterSize) :
    (M (a / s.header.clusterSize) ≠ 0 →
      s.file.bytes (M (a / s.header.clusterSize) * s.header.clusterSize
        + a % s.header.clusterSize) count = (List.range count).map fun j => disk (a + j))
    ∧ (M (a / s.header.clusterSize) = 0 →
      List.replicate count 0 = (List.range count).map fun j => disk (a + j)) := by
  constructor
  · intro hM
    unfold File.bytes
    apply List.map_congr_left
    intro j hj
    have hj := List.mem_range.mp hj
    obtain ⟨e1, e2⟩ := add_div_of_mod_add_lt (show a % s.header.clusterSize + j
      < s.header.clusterSize by omega)
    have h := (hst (a + j) (by omega)).1
    rw [e1, e2] at h
    rw [← h hM, Nat.add_assoc]
  · intro hM
    apply List.ext_getElem
    · simp
    · intro j h1 h2
      simp only [List.length_replicate] at h1
      obtain ⟨e1, e2⟩ := add_div_of_mod_add_lt (show a % s.header.clusterSize + j
        < s.header.clusterSize by omega)
      have h := (hst (a + j) (by omega)).2
      rw [e1] at h
      simp [h hM]

/-! ### The method `ReadAt` on a consistent image -/

theorem ImageFile.Sound.limitRangeCluster_eq {s : ImageFile} {entries : Nat} {L M : Nat → Nat}
    {ρ : Nat → ClusterRole} (hs : s.Sound entries L M ρ) (a count : Nat) :
    s.rawFile.limitRangeCluster a count
      = min count (s.header.clusterSize - a % s.header.clusterSize) := by
  have hcs := hs.layout.clusterSize_ge
  have hmod := Nat.mod_lt a (show 0 < s.header.clusterSize by omega)
  unfold QcowRawFile.limitRangeCluster
  simp only []
  rw [hs.clusterOffset_eq, hs.clusterSize]
  unfold sub64
  rw [if_pos (le_of_lt hmod)]
  split <;> omega

theorem ImageFile.getNewCluster_pointerTable (s : ImageFile) (d : Option (List Byte)) :
    (s.getNewCluster d).2.pointerTable = s.pointerTable := by
  unfold ImageFile.getNewCluster
  repeat (first | rfl | split | simp only [])

theorem ImageFile.setClusterRefcount.loop_pointerTable (address refcount : Nat) :
    ∀ (fuel : Nat) (s : ImageFile) (cluster : Option newCluster) (added : List Nat)
      (res : Outcome (List Nat × List Nat) × ImageFile),
      ImageFile.setClusterRefcount.loop address refcount fuel s cluster added = some res →
      res.2.pointerTable = s.pointerTable := by
  intro fuel
  induction fuel with
  | zero =>
    intro s cluster added res h
    unfold ImageFile.setClusterRefcount.loop at h
    exact Option.noConfusion h
  | succ fuel ih =>
    intro s cluster added res h
    unfold ImageFile.setClusterRefcount.loop at h
    simp only [] at h
    split at h
    · split at h
      · rename_i newAddress image heq
        rw [ih _ _ _ _ h]
        have := ImageFile.getNewCluster_pointerTable
          (({ s with referenceCounts := (s.referenceCounts.setClusterRefcount s.file address
            refcount cluster).2.1 } : ImageFile).over (s.referenceCounts.setClusterRefcount s.file
            address refcount cluster).2.2) none
        rw [heq] at this
        exact this
      · rename_i e image heq
        rw [← Option.some.inj h]
        have := ImageFile.getNewCluster_pointerTable
          (({ s with referenceCounts := (s.referenceCounts.setClusterRefcount s.file address
            refcount cluster).2.1 } : ImageFile).over (s.referenceCounts.setClusterRefcount s.file
            address refcount cluster).2.2) none
        rw [heq] at this
        exact this
      · rename_i image heq
        rw [← Option.some.inj h]
        have := ImageFile.getNewCluster_pointerTable
          (({ s with referenceCounts := (s.referenceCounts.setClusterRefcount s.file address
            refcount cluster).2.1 } : ImageFile).over (s.referenceCounts.setClusterRefcount s.file
            address refcount cluster).2.2) none
        rw [heq] at this
        exact this
    · split at h
      · rw [ih _ _ _ _ h]
        rfl
      · rw [← Option.some.inj h]
        rfl
      · rw [← Option.some.inj h]
        rfl
    · rw [← Option.some.inj h]
      rfl
    · rw [← Option.some.inj h]
      rfl
    · rw [← Option.some.inj h]
      rfl
    · rw [← Option.some.inj h]
      rfl

theorem ImageFile.setClusterRefcount.added_pointerTable
    (step : ImageFile → Nat → Option (Outcome (List Nat) × ImageFile))
    (hstep : ∀ s a res, step s a = some res → res.2.pointerTable = s.pointerTable) :
    ∀ (added : List Nat) (s : ImageFile) (res : Outcome Unit × ImageFile),
      ImageFile.setClusterRefcount.added step added s = some res →
      res.2.pointerTable = s.pointerTable := by
  intro added
  induction added with
  | nil =>
    intro s res h
    unfold ImageFile.setClusterRefcount.added at h
    rw [← Option.some.inj h]
  | cons a rest ih =>
    intro s res h
    unfold ImageFile.setClusterRefcount.added at h
    split at h
    · exact Option.noConfusion h
    · rename_i v image heq
      rw [ih _ _ h]
      exact hstep _ _ _ heq
    · rename_i e image heq
      rw [← Option.some.inj h]
      exact hstep _ _ _ heq
    · rename_i image heq
      rw [← Option.some.inj h]
      exact hstep _ _ _ heq

theorem ImageFile.setClusterRefcount_pointerTable :
    ∀ (fuel : Nat) (s : ImageFile) (address refcount : Nat)
      (res : Outcome (List Nat) × ImageFile),
      ImageFile.setClusterRefcount fuel s address refcount = some res →
      res.2.pointerTable = s.pointerTable := by
  intro fuel
  induction fuel with
  | zero =>
    intro s address refcount res h
    unfold ImageFile.setClusterRefcount at h
    exact Option.noConfusion h
  | succ fuel ih =>
    intro s address refcount res h
    unfold ImageFile.setClusterRefcount at h
    split at h
    · exact Option.noConfusion h
    · rename_i added unref image heq
      have h1 := ImageFile.setClusterRefcount.loop_pointerTable _ _ _ _ _ _ _ heq
      split at h
      · exact Option.noConfusion h
      · rename_i v image2 heq2
        rw [← Option.some.inj h]
        exact (ImageFile.setClusterRefcount.added_pointerTable _
          (fun s a res hres => ih s a 1 res hres) _ _ _ heq2).trans h1
      · rename_i v image2 heq2
        rw [← Option.some.inj h]
        exact (ImageFile.setClusterRefcount.added_pointerTable _
          (fun s a res hres => ih s a 1 res hres) _ _ _ heq2).trans h1
      · rename_i image2 heq2
        rw [← Option.some.inj h]
        exact (ImageFile.setClusterRefcount.added_pointerTable _
          (fun s a res hres => ih s a 1 res hres) _ _ _ heq2).trans h1
    · rename_i e image heq
      rw [← Option.some.inj h]
      exact ImageFile.setClusterRefcount.loop_pointerTable _ _ _ _ _ _ _ heq
    · rename_i image heq
      rw [← Option.some.inj h]
      exact ImageFile.setClusterRefcount.loop_pointerTable _ _ _ _ _ _ _ heq

/-! ### A new data cluster -/

theorem ImageFile.Keeps.keeps_of_eq (entries : Nat) {s s' : ImageFile} (ρ : Nat → ClusterRole)
    (h1 : s'.rawFile = s.rawFile) (h2 : s'.header = s.header) (h3 : s'.readOnly = s.readOnly) :
    ImageFile.Keeps entries s ρ s' ρ := by
  have hf : s'.file = s.file := by unfold ImageFile.file; rw [h1]
  exact ⟨h2, h3, le_of_eq (by rw [hf]), fun _ _ _ => rfl, fun _ _ => by rw [hf]⟩

/-- The method `appendDataCluster` without initial data: the new cluster is pending and
holds zeros. -/
theorem ImageFile.Sound.appendDataCluster {s : ImageFile} {entries : Nat} {L M : Nat → Nat}
    {ρ : Nat → ClusterRole} (hs : s.Sound entries L M ρ) (fuel : Nat) :
    ∀ r s', ImageFile.appendDataCluster fuel s none = some (.ok r, s') →
      ∃ n ρ', r = n * s.header.clusterSize ∧ s'.Sound entries L M ρ'
        ∧ ImageFile.Keeps entries s ρ s' ρ' ∧ ρ' n = .pending
        ∧ (∀ j, j < s.header.clusterSize → s'.file.get (n * s.header.clusterSize + j) = 0)
        ∧ s'.pointerTable = s.pointerTable := by
  intro r s' hr
  unfold ImageFile.appendDataCluster at hr
  obtain ⟨r2, s2, e2, hcase2⟩ := hs.getNewCluster
  have hpt2 := s.getNewCluster_pointerTable none
  rw [e2] at hr hpt2
  rcases hcase2 with ⟨⟨e', rfl⟩, _⟩ | ⟨n, rfl, hs2, hk2, hfree, hzero, hdiff2⟩
  · exact Outcome.noConfusion (Prod.mk.inj (Option.some.inj hr)).1
  · simp only [] at hr
    have hpn : Function.update ρ n ClusterRole.pending n = .pending :=
      Function.update_same _ _ _
    have hh2 : s2.header = s.header := hk2.header
    have hin := hs2.roles.inFile n (by rw [hpn]; exact fun e => ClusterRole.noConfusion e)
    rw [Nat.add_mul, Nat.one_mul, hh2] at hin
    have hcs := hs.layout.clusterSize_ge
    cases h3 : ImageFile.setClusterRefcount fuel s2 (n * s.header.clusterSize) 1 with
    | none => rw [h3] at hr; exact Option.noConfusion hr
    | some res =>
      obtain ⟨r3, s3⟩ := res
      have hpt3 := ImageFile.setClusterRefcount_pointerTable _ _ _ _ _ h3
      rw [h3] at hr
      cases r3 with
      | ok v =>
        simp only [] at hr
        obtain ⟨hr1, hr2⟩ := Prod.mk.inj (Option.some.inj hr)
        have hr1 := Outcome.ok.inj hr1
        subst hr1 hr2
        obtain ⟨ρ3, hs3, hk3⟩ := ImageFile.Sound.setClusterRefcount_sound fuel s2 _ 1 _ hs2
          (by rw [hh2]; exact hin.2) v s3 h3
        have hρ3 : ρ3 n = .pending := by
          rw [hk3.roles n (by rw [hpn]; exact fun e => ClusterRole.noConfusion e)
            (by rw [hpn]; exact fun e => ClusterRole.noConfusion e), hpn]
        refine ⟨n, ρ3, rfl, hs3.sound_of_eq rfl rfl rfl rfl rfl, ?_, hρ3, ?_, hpt3.trans hpt2⟩
        · have hk4 : ImageFile.Keeps entries s3 ρ3
              ({ s3 with unrefClusters := s3.unrefClusters ++ v }) ρ3 :=
            ImageFile.Keeps.keeps_of_eq entries ρ3 rfl rfl rfl
          exact (hk2.keeps_trans hk3).keeps_trans hk4
        · intro j hj
          rw [← hzero j hj]
          apply hk3.kept
          left
          rw [← hh2] at hj ⊢
          rw [hs2.roles.zone_cluster hs2.layout
            (by rw [hpn]; exact fun e => ClusterRole.noConfusion e) hj, hpn]
      | error e => exact Outcome.noConfusion (Prod.mk.inj (Option.some.inj hr)).1
      | crash => exact Outcome.noConfusion (Prod.mk.inj (Option.some.inj hr)).1

/-- The reference counts that were put off are set: the image stays consistent. -/
theorem ImageFile.Sound.fileOffsetWrite_counts {entries : Nat} {L M : Nat → Nat} (fuel : Nat) :
    ∀ (rcs : List (Nat × Nat)) (s : ImageFile) (ρ : Nat → ClusterRole),
      s.Sound entries L M ρ → (∀ x ∈ rcs, x.1 + s.header.clusterSize ≤ s.file.size) →
      ∀ u s', ImageFile.fileOffsetWrite.counts fuel rcs s = some (.ok u, s') →
      ∃ ρ', s'.Sound entries L M ρ' ∧ ImageFile.Keeps entries s ρ s' ρ' := by
  intro rcs
  induction rcs with
  | nil =>
    intro s ρ hs _ u s' hr
    unfold ImageFile.fileOffsetWrite.counts at hr
    obtain ⟨_, rfl⟩ := Prod.mk.inj (Option.some.inj hr)
    exact ⟨ρ, hs, ImageFile.Keeps.keeps_refl _ _ _⟩
  | cons x rest ih =>
    intro s ρ hs hin u s' hr
    unfold ImageFile.fileOffsetWrite.counts at hr
    cases h1 : ImageFile.setClusterRefcount fuel s x.1 x.2 with
    | none => rw [h1] at hr; exact Option.noConfusion hr
    | some res =>
      obtain ⟨r1, s1⟩ := res
      rw [h1] at hr
      cases r1 with
      | ok v =>
        simp only [] at hr
        obtain ⟨ρ1, hs1, hk1⟩ := ImageFile.Sound.setClusterRefcount_sound fuel s x.1 x.2 ρ hs
          (hin x (List.mem_cons_self _ _)) v s1 h1
        obtain ⟨ρ', hs', hk'⟩ := ih
          ({ s1 with unrefClusters := s1.unrefClusters ++ v }) ρ1
          (hs1.sound_of_eq rfl rfl rfl rfl rfl) (fun b hb => by
            show b.1 + s1.header.clusterSize ≤ s1.file.size
            rw [hk1.header]
            exact le_trans (hin b (List.mem_cons_of_mem _ hb)) hk1.size) u s' hr
        have hk2 : ImageFile.Keeps entries s1 ρ1
            ({ s1 with unrefClusters := s1.unrefClusters ++ v }) ρ1 :=
          ImageFile.Keeps.keeps_of_eq entries ρ1 rfl rfl rfl
        exact ⟨ρ', hs', (hk1.keeps_trans hk2).keeps_trans hk'⟩
      | error e => exact Outcome.noConfusion (Prod.mk.inj (Option.some.inj hr)).1
      | crash => exact Outcome.noConfusion (Prod.mk.inj (Option.some.inj hr)).1

/-! ### The place of a byte for a write -/

/-- The virtual disk is the same once a pending cluster of zeros has become the data cluster
of a cluster of the virtual disk that had none. -/
theorem ImageFile.Stores.extend {s s' : ImageFile} {entries : Nat} {L M : Nat → Nat}
    {ρ : Nat → ClusterRole} {disk : Nat → Byte} (hs : s.Sound entries L M ρ)
    (hst : s.Stores M disk) (hh : s'.header = s.header)
    (hkept : ∀ p, (s.header.zone entries ρ p = .cluster .pending
      ∨ ∃ k, s.header.zone entries ρ p = .cluster (.data k)) → s'.file.get p = s.file.get p)
    {k n : Nat} (hn : ρ n = .pending) (hM : M k = 0)
    (hzero : ∀ j, j < s.header.clusterSize → s.file.get (n * s.header.clusterSize + j) = 0) :
    s'.Stores (Function.update M k n) disk := by
  have hcs := hs.layout.clusterSize_ge
  have hn0 : n ≠ 0 := hs.roles.pos_of_role hs.layout
    (by rw [hn]; exact fun e => ClusterRole.noConfusion e)
  intro p hp
  rw [hh] at hp ⊢
  have h := hst p hp
  have hmod := Nat.mod_lt p (show 0 < s.header.clusterSize by omega)
  by_cases hk : p / s.header.clusterSize = k
  · rw [hk, Function.update_same]
    rw [hk] at h
    refine ⟨fun _ => ?_, fun h0 => absurd h0 hn0⟩
    rw [h.2 hM, hkept _ (Or.inl (by
      rw [hs.roles.zone_cluster hs.layout (by rw [hn]; exact fun e => ClusterRole.noConfusion e)
        hmod, hn]))]
    exact hzero _ hmod
  · rw [Function.update_noteq hk]
    refine ⟨fun hM' => ?_, h.2⟩
    rw [← h.1 hM']
    apply hkept
    right
    refine ⟨p / s.header.clusterSize, ?_⟩
    have hd := hs.roles.data _ (hs.layout.cluster_lt hp) hM'
    rw [hs.roles.zone_cluster hs.layout (by rw [hd.1]; exact fun e => ClusterRole.noConfusion e)
      hmod, hd.1]

/-- A data cluster for a cluster of the virtual disk that has none: the image stays
consistent and holds the same virtual disk. -/
theorem ImageFile.Sound.fileOffsetWrite_allocate {β : Type} {s : ImageFile} {entries : Nat}
    {L M : Nat → Nat} {ρ : Nat → ClusterRole} {disk : Nat → Byte}
    (hs : s.Sound entries L M ρ) (hst : s.Stores M disk) (fuel : Nat) {va : Nat}
    (hva : va < s.header.virtualDiskSizeBytes)
    (hL : L (va / s.header.clusterSize / s.header.l2Size) ≠ 0)
    (hM : M (va / s.header.clusterSize) = 0)
    (hload : s.pointerTable.Loaded
      (L (va / s.header.clusterSize / s.header.l2Size) * s.header.clusterSize))
    (rcs : List (Nat × Nat)) (hrcs : ∀ x ∈ rcs, x.1 + s.header.clusterSize ≤ s.file.size) :
    ∀ r s' b', ImageFile.fileOffsetWrite.allocate fuel s (none : Option (BackingFile β)) va rcs
        = some (.ok r, s', b') →
      b' = none ∧ ∃ n L' ρ', r.1 = n * s.header.clusterSize ∧ n ≠ 0
        ∧ s'.Sound entries L' (Function.update M (va / s.header.clusterSize) n) ρ'
        ∧ s'.Stores (Function.update M (va / s.header.clusterSize) n) disk
        ∧ s'.header = s.header ∧ s'.readOnly = s.readOnly
        ∧ ∀ x ∈ r.2, x.1 + s.header.clusterSize ≤ s'.file.size := by
  intro r s' b' hr
  unfold ImageFile.fileOffsetWrite.allocate at hr
  simp only [] at hr
  cases h1 : ImageFile.appendDataCluster fuel s none with
  | none => rw [h1] at hr; exact Option.noConfusion hr
  | some res =>
    obtain ⟨r1, s1⟩ := res
    rw [h1] at hr
    cases r1 with
    | ok c =>
      simp only [] at hr
      obtain ⟨n, ρ1, rfl, hs1, hk1, hn, hzero, hpt⟩ := hs.appendDataCluster fuel c s1 h1
      have hh1 : s1.header = s.header := hk1.header
      have hst1 := hst.of_keeps hs hk1
      have hn0 : n ≠ 0 := hs1.roles.pos_of_role hs1.layout
        (by rw [hn]; exact fun e => ClusterRole.noConfusion e)
      cases h2 : s1.updateClusterAddress va (n * s.header.clusterSize) rcs with
      | mk r2 s2 =>
        rw [h2] at hr
        cases r2 with
        | ok v =>
          simp only [] at hr
          obtain ⟨hr1, hr2⟩ := Prod.mk.inj (Option.some.inj hr)
          obtain ⟨hr2, hr3⟩ := Prod.mk.inj hr2
          have hr1 := Outcome.ok.inj hr1
          subst hr1 hr2 hr3
          rw [← hh1] at h2 hzero
          obtain ⟨L', ρ', hs2, hh2, hro2, hsz2, hkept2, hv⟩ :=
            hs1.updateClusterAddress_sound (by rw [hh1]; exact hva) (by rw [hh1]; exact hL)
              (by rw [hpt, hh1]; exact hload) hn rcs v s2 h2
          rw [hh1] at hs2 hh2 hv
          refine ⟨rfl, n, L', ρ', rfl, hn0, hs2, ?_, hh2, hro2.trans hk1.readOnly, ?_⟩
          · exact hst1.extend hs1 (hh2.trans hh1.symm) hkept2 hn hM hzero
          · intro x hx
            rcases hv x hx with h | h
            · exact le_trans (hrcs x h) (le_trans hk1.size hsz2)
            · exact h
        | error e => exact Outcome.noConfusion (Prod.mk.inj (Option.some.inj hr)).1
        | crash => exact Outcome.noConfusion (Prod.mk.inj (Option.some.inj hr)).1
    | error e => exact Outcome.noConfusion (Prod.mk.inj (Option.some.inj hr)).1
    | crash => exact Outcome.noConfusion (Prod.mk.inj (Option.some.inj hr)).1

/-- The second half of `fileOffsetWrite`, from the address `c` that the pointer table gave:
a data cluster is allocated if there is none, and the reference counts are set. -/
theorem ImageFile.Sound.fileOffsetWrite_rest {β : Type} {s : ImageFile} {entries : Nat}
    {L M : Nat → Nat} {ρ : Nat → ClusterRole} {disk : Nat → Byte}
    (hs : s.Sound entries L M ρ) (hst : s.Stores M disk) (fuel : Nat) {va : Nat}
    (hva : va < s.header.virtualDiskSizeBytes)
    (hL : L (va / s.header.clusterSize / s.header.l2Size) ≠ 0)
    (hload : s.pointerTable.Loaded
      (L (va / s.header.clusterSize / s.header.l2Size) * s.header.clusterSize))
    (rcs : List (Nat × Nat)) (hrcs : ∀ x ∈ rcs, x.1 + s.header.clusterSize ≤ s.file.size)
    (c : Nat) (hc : c = M (va / s.header.clusterSize) * s.header.clusterSize) :
    ∀ (r : Nat) (s' : ImageFile) (b' : Option (BackingFile β)),
      ((match (if c = 0 then
          ImageFile.fileOffsetWrite.allocate fuel s (none : Option (BackingFile β)) va rcs
        else some (.ok (c, rcs), s, none)) with
      | none => none
      | some (.ok (clusterAddress, referenceCountBeingSet), imageFile, backingFile) =>
        match ImageFile.fileOffsetWrite.counts fuel referenceCountBeingSet imageFile with
        | none => none
        | some (.ok _, imageFile) =>
          some (.ok (wrap64 (clusterAddress + imageFile.rawFile.clusterOffset va)),
            imageFile, backingFile)
        | some (.error e, imageFile) => some (.error e, imageFile, backingFile)
        | some (.crash, imageFile) => some (.crash, imageFile, backingFile)
      | some (.error e, imageFile, backingFile) => some (.error e, imageFile, backingFile)
      | some (.crash, imageFile, backingFile) => some (.crash, imageFile, backingFile)) :
          Option (Outcome Nat × ImageFile × Option (BackingFile β)))
        = some (.ok r, s', b') →
      b' = none ∧ ∃ L' M' ρ', s'.Sound entries L' M' ρ' ∧ s'.Stores M' disk
        ∧ s'.header = s.header ∧ s'.readOnly = s.readOnly
        ∧ M' (va / s.header.clusterSize) ≠ 0
        ∧ r = M' (va / s.header.clusterSize) * s.header.clusterSize
            + va % s.header.clusterSize := by
  intro r s' b' hr
  have hcs := hs.layout.clusterSize_ge
  have key : ∀ res s1 b1,
      (if c = 0 then
          ImageFile.fileOffsetWrite.allocate fuel s (none : Option (BackingFile β)) va rcs
        else some (.ok (c, rcs), s, none)) = some (.ok res, s1, b1) →
      b1 = none ∧ ∃ L' M' ρ', s1.Sound entries L' M' ρ' ∧ s1.Stores M' disk
        ∧ s1.header = s.header ∧ s1.readOnly = s.readOnly
        ∧ M' (va / s.header.clusterSize) ≠ 0
        ∧ res.1 = M' (va / s.header.clusterSize) * s.header.clusterSize
        ∧ ∀ x ∈ res.2, x.1 + s.header.clusterSize ≤ s1.file.size := by
    intro res s1 b1 h
    by_cases h0 : c = 0
    · rw [if_pos h0] at h
      have hM : M (va / s.header.clusterSize) = 0 := by
        rw [h0] at hc
        rcases Nat.mul_eq_zero.mp hc.symm with h | h
        · exact h
        · omega
      obtain ⟨hb, n, L', ρ', e, hn0, h1, h2, h3, h4, h5⟩ :=
        hs.fileOffsetWrite_allocate hst fuel hva hL hM hload rcs hrcs res s1 b1 h
      refine ⟨hb, L', _, ρ', h1, h2, h3, h4, ?_, ?_, h5⟩
      · rw [Function.update_same]
        exact hn0
      · rw [Function.update_same]
        exact e
    · rw [if_neg h0] at h
      obtain ⟨h1, h2⟩ := Prod.mk.inj (Option.some.inj h)
      obtain ⟨h2, h3⟩ := Prod.mk.inj h2
      have h1 := Outcome.ok.inj h1
      subst h1 h2 h3
      refine ⟨rfl, L, M, ρ, hs, hst, rfl, rfl, ?_, hc, hrcs⟩
      intro hM
      rw [hM, Nat.zero_mul] at hc
      exact h0 hc
  cases hall : (if c = 0 then
      ImageFile.fileOffsetWrite.allocate fuel s (none : Option (BackingFile β)) va rcs
    else some (.ok (c, rcs), s, none)) with
  | none => rw [hall] at hr; exact Option.noConfusion hr
  | some res =>
    obtain ⟨r1, s1, b1⟩ := res
    rw [hall] at hr
    cases r1 with
    | ok v =>
      obtain ⟨c1, rcs1⟩ := v
      simp only [] at hr
      obtain ⟨hb, L', M', ρ', h1, h2, h3, h4, h5, h6, h7⟩ := key _ _ _ hall
      cases hcnt : ImageFile.fileOffsetWrite.counts fuel rcs1 s1 with
      | none => rw [hcnt] at hr; exact Option.noConfusion hr
      | some res2 =>
        obtain ⟨r2, s2⟩ := res2
        rw [hcnt] at hr
        cases r2 with
        | ok u =>
          simp only [] at hr
          obtain ⟨hr1, hr2⟩ := Prod.mk.inj (Option.some.inj hr)
          obtain ⟨hr2, hr3⟩ := Prod.mk.inj hr2
          have hr1 := Outcome.ok.inj hr1
          subst hr1 hr2 hr3
          obtain ⟨ρ2, hs2, hk2⟩ := ImageFile.Sound.fileOffsetWrite_counts fuel rcs1 s1 ρ' h1
            (by rw [h3]; exact h7) u s2 hcnt
          refine ⟨hb, L', M', ρ2, hs2, h2.of_keeps h1 hk2, hk2.header.trans h3,
            hk2.readOnly.trans h4, h5, ?_⟩
          have hin := h1.roles.data_inFile (h1.layout.cluster_lt
            (show va < _ by rw [h3]; exact hva)) (by rw [h3]; exact h5)
          have hsz := h1.sound_size_lt
          have hmod := Nat.mod_lt va (show 0 < s.header.clusterSize by omega)
          rw [h3, Nat.add_mul, Nat.one_mul] at hin
          rw [hs2.clusterOffset_eq, hk2.header, h3]
          change c1 = _ at h6
          rw [h6]
          exact wrap64_of_lt (by omega)
        | error e => exact Outcome.noConfusion (Prod.mk.inj (Option.some.inj hr)).1
        | crash => exact Outcome.noConfusion (Prod.mk.inj (Option.some.inj hr)).1
    | error e => exact Outcome.noConfusion (Prod.mk.inj (Option.some.inj hr)).1
    | crash => exact Outcome.noConfusion (Prod.mk.inj (Option.some.inj hr)).1

/-- The method `fileOffsetWrite` on a consistent image without a backing file: when it
succeeds the image is consistent, holds the same virtual disk, and the offset is the place of
the byte in the data cluster of its cluster. -/
theorem ImageFile.Sound.fileOffsetWrite {β : Type} {s : ImageFile} {entries : Nat}
    {L M : Nat → Nat} {ρ : Nat → ClusterRole} {disk : Nat → Byte}
    (hs : s.Sound entries L M ρ) (hst : s.Stores M disk) (fuel va : Nat) :
    ∀ (r : Nat) (s' : ImageFile) (b' : Option (BackingFile β)),
      ImageFile.fileOffsetWrite fuel s (none : Option (BackingFile β)) va
        = some (.ok r, s', b') →
      va < s.header.virtualDiskSizeBytes ∧ b' = none
        ∧ ∃ L' M' ρ', s'.Sound entries L' M' ρ' ∧ s'.Stores M' disk
          ∧ s'.header = s.header ∧ s'.readOnly = s.readOnly
          ∧ M' (va / s.header.clusterSize) ≠ 0
          ∧ r = M' (va / s.header.clusterSize) * s.header.clusterSize
              + va % s.header.clusterSize := by
  intro r s' b' hr
  unfold ImageFile.fileOffsetWrite at hr
  by_cases hva : va ≥ s.header.virtualDiskSizeBytes
  · rw [if_pos hva] at hr
    exact Outcome.noConfusion (Prod.mk.inj (Option.some.inj hr)).1
  · rw [if_neg hva] at hr
    have hva' := not_le.mp hva
    refine ⟨hva', ?_⟩
    obtain ⟨pt1, f1, e, hs1, hk1, hload⟩ := hs.readClusterAddress_sound hva'
    simp only [e] at hr
    have hst1 := hst.of_keeps hs hk1
    by_cases hL : L (va / s.header.clusterSize / s.header.l2Size) = 0
    · rw [if_pos hL] at hr
      simp only [if_true] at hr
      obtain ⟨r2, s2, e2, hcase2⟩ := hs1.getNewCluster
      rw [e2] at hr
      rcases hcase2 with ⟨⟨e', rfl⟩, _⟩ | ⟨n, rfl, hs2, hk2, hfree, hzero, hdiff2⟩
      · exact Outcome.noConfusion (Prod.mk.inj (Option.some.inj hr)).1
      · simp only [] at hr
        have hh2 : s2.header = s.header := hk2.header
        have hpn : Function.update ρ n ClusterRole.pending n = .pending :=
          Function.update_same _ _ _
        have hn0 : n ≠ 0 := hs2.roles.pos_of_role hs2.layout
          (by rw [hpn]; exact fun e => ClusterRole.noConfusion e)
        have hin := hs2.roles.inFile n (by rw [hpn]; exact fun e => ClusterRole.noConfusion e)
        rw [Nat.add_mul, Nat.one_mul, hh2] at hin
        have hM : M (va / s.header.clusterSize) = 0 :=
          hs.roles.data_none (hs.layout.cluster_lt hva') hL
        obtain ⟨pt3, f3, e3, hr3, hsz3, hd3, hload3⟩ :=
          @pointerTableCache.Represents.addNewPointerCluster_pointers _ _ _ _ _ _ _ _ hs2.layout hs2.pointers
            hs2.roles va n (by rw [hh2]; exact hva') (by rw [hh2]; exact hL) hpn
            (by rw [hh2]; exact hzero)
        rw [hh2] at e3 hr3 hload3
        have hhdr : (({ s with pointerTable := pt1 } : ImageFile).over f1).header = s.header :=
          rfl
        rw [hhdr] at hr
        simp only [e3] at hr
        have hs3 : (({ s2 with pointerTable := pt3 } : ImageFile).over f3).Sound entries
            (Function.update L (va / s.header.clusterSize / s.header.l2Size) n) M
            (Function.update (Function.update ρ n ClusterRole.pending) n
              (.l2Table (va / s.header.clusterSize / s.header.l2Size))) :=
          @ImageFile.Sound.sound_of_pointers _ _ _ _ _ _ _ _ hs2 pt3 _ (hh2.symm ▸ hr3) hsz3 hd3
          (hh2.symm ▸ ((hh2 ▸ hs2.roles.roles_assign hpn
            (.l2Table (va / s.header.clusterSize / s.header.l2Size))).setL2
              (Function.update_same _ _ _)))
          (fun m hm => by
            have hmn : m ≠ n := by
              rintro rfl
              rw [hpn] at hm
              exact ClusterRole.noConfusion hm
            rw [Function.update_noteq hmn]
            exact hm)
        have hk3 := ImageFile.Keeps.keeps_of_pointers (s := s2) pt3 hsz3 hd3
        have hst3 := (hst1.of_keeps hs1 hk2).of_keeps hs2 hk3
        generalize hs3def : (({ s2 with pointerTable := pt3 } : ImageFile).over f3) = s3
          at hr hs3 hk3 hst3
        have hh3 : s3.header = s.header := by rw [← hs3def]; exact hh2
        have hro3 : s3.readOnly = s.readOnly := by rw [← hs3def]; exact hk2.readOnly
        have hpt3 : s3.pointerTable = pt3 := by rw [← hs3def]; rfl
        have hsize3 : s2.file.size ≤ s3.file.size := hk3.size
        rw [if_pos trivial] at hr
        have hrest :=
          @ImageFile.Sound.fileOffsetWrite_rest β _ _ _ _ _ _ hs3 hst3 fuel va
            (by rw [hh3]; exact hva')
            (by rw [hh3, Function.update_same]; exact hn0)
            (by rw [hh3, Function.update_same, hpt3]; exact hload3)
            [(n * s.header.clusterSize, 1)]
            (fun x hx => by
              rw [List.mem_singleton.mp hx, hh3]
              exact le_trans hin.2 hsize3)
            0 (by rw [hh3, hM, Nat.zero_mul])
        rw [if_pos rfl] at hrest
        obtain ⟨hb, L', M', ρ', h1, h2, h3, h4, h5, h6⟩ := hrest r s' b' hr
        rw [hh3] at h3 h5 h6
        exact ⟨hb, L', M', ρ', h1, h2, h3, h4.trans hro3, h5, h6⟩
    · rw [if_neg hL] at hr
      simp only [] at hr
      exact hs1.fileOffsetWrite_rest hst1 fuel hva' hL (hload hL) [] 
        (fun x hx => absurd hx (List.not_mem_nil x)) _ rfl r s' b' hr

/-! ### Writing into a data cluster -/

theorem written_append (size : Nat) (disk : Nat → Byte) (a : Nat) (xs ys : List Byte) :
    written size (written size disk a xs) (a + xs.length) ys = written size disk a (xs ++ ys) := by
  funext p
  unfold written
  simp only [List.length_append]
  by_cases h1 : a + xs.length ≤ p ∧ p < a + xs.length + ys.length ∧ p < size
  · rw [if_pos h1, if_pos (by omega)]
    rw [List.getD_append_right _ _ _ _ (by omega)]
    congr 1
    omega
  · rw [if_neg h1]
    by_cases h2 : a ≤ p ∧ p < a + xs.length ∧ p < size
    · rw [if_pos h2, if_pos (by omega)]
      rw [List.getD_append _ _ _ _ (by omega)]
    · rw [if_neg h2, if_neg (by omega)]

theorem written_take (size : Nat) (disk : Nat → Byte) (a n : Nat) (data : List Byte)
    (h : a ≤ size → n = min data.length (size - a)) :
    written size disk a (data.take n) = written size disk a data := by
  funext p
  unfold written
  simp only [List.length_take]
  by_cases h1 : a ≤ p ∧ p < a + data.length ∧ p < size
  · have hn := h (by omega)
    rw [if_pos h1, if_pos (by omega)]
    rw [List.getD_eq_getElem?_getD, List.getD_eq_getElem?_getD, List.getElem?_take_of_lt (by omega)]
  · rw [if_neg h1, if_neg (by omega)]

theorem written_nil (size : Nat) (disk : Nat → Byte) (a : Nat) : written size disk a [] = disk := by
  funext p
  unfold written
  rw [if_neg]
  simp only [List.length_nil, Nat.add_zero]
  omega

/-- The data clusters of two clusters of the virtual disk are two clusters. -/
theorem ClusterRoles.data_injective {h : ImageHeader} {entries : Nat} {f : File}
    {ρ : Nat → ClusterRole} {L M : Nat → Nat} {avail : List Nat}
    (hc : ClusterRoles h entries f ρ L M avail) {k k' : Nat}
    (hk : k < h.numL2Clusters * h.l2Size) (hk' : k' < h.numL2Clusters * h.l2Size)
    (h0 : M k ≠ 0) (e : M k' = M k) : k' = k := by
  have h1 := (hc.data k hk h0).1
  have h2 := (hc.data k' hk' (by rw [e]; exact h0)).1
  rw [e, h1] at h2
  exact (ClusterRole.data.inj h2).symm

/-- A write into the data cluster of a cluster of the virtual disk: the image stays
consistent and holds the virtual disk with these bytes written. -/
theorem ImageFile.Sound.writeData {s : ImageFile} {entries : Nat} {L M : Nat → Nat}
    {ρ : Nat → ClusterRole} {disk : Nat → Byte} (hs : s.Sound entries L M ρ)
    (hst : s.Stores M disk) {va : Nat} (hva : va < s.header.virtualDiskSizeBytes)
    (hM : M (va / s.header.clusterSize) ≠ 0) (bytes : List Byte)
    (hlen : va % s.header.clusterSize + bytes.length ≤ s.header.clusterSize) :
    ∃ f', s.rawFile.WriteAt bytes
        (M (va / s.header.clusterSize) * s.header.clusterSize + va % s.header.clusterSize)
        = (.ok (), f')
      ∧ (s.over f').Sound entries L M ρ
      ∧ (s.over f').Stores M (written s.header.virtualDiskSizeBytes disk va bytes) := by
  have hcs := hs.layout.clusterSize_ge
  have hk := hs.layout.cluster_lt hva
  have hd := hs.roles.data _ hk hM
  have hin := hs.roles.data_inFile hk hM
  have hsz := hs.sound_size_lt
  have hnf : ρ (M (va / s.header.clusterSize)) ≠ .free := by
    rw [hd.1]; exact fun e => ClusterRole.noConfusion e
  obtain ⟨hw1, hw2⟩ := hs.roles.write_cluster hs.layout hnf (va % s.header.clusterSize) bytes hlen
  rw [Nat.add_mul, Nat.one_mul] at hin
  refine ⟨s.file.write (M (va / s.header.clusterSize) * s.header.clusterSize
    + va % s.header.clusterSize) bytes, ?_, ?_, ?_⟩
  · unfold QcowRawFile.WriteAt OsFile.WriteAt
    have hsz' := hsz
    have hin2 := hin.2
    unfold ImageFile.file at hsz' hin2
    rw [hs.writable.1, hs.writable.2]
    simp only [Bool.false_eq_true, if_false, if_true]
    rw [if_neg (by omega)]
    by_cases hb : bytes.length = 0
    · rw [if_pos hb]
      unfold File.write ImageFile.file
      rw [if_pos hb]
    · rw [if_neg hb]
      rfl
  · refine @ImageFile.Sound.sound_of_differ _ _ _ _ _ _ hs (s.over _) rfl rfl rfl rfl _ hw2 ?_
      (fun _ h => h)
      (hs.roles.of_file (le_of_eq hw1.symm) (by
        show (File.write _ _ _).size ≤ _
        rw [hw1]; exact hs.roles.size))
    intro p hp
    rw [hd.1] at hp
    constructor
    · intro hz
      exact (ImageHeader.pointerZone_disjoint hz).2.2 _ hp
    · rw [hp]
      exact fun e => Zone.noConfusion e
  · intro p hp
    change p < s.header.virtualDiskSizeBytes at hp
    show (M (p / s.header.clusterSize) ≠ 0 →
        (s.file.write _ bytes).get (M (p / s.header.clusterSize) * s.header.clusterSize
          + p % s.header.clusterSize) = _)
      ∧ (M (p / s.header.clusterSize) = 0 → _)
    have hmod := Nat.mod_lt p (show 0 < s.header.clusterSize by omega)
    have hmodv := Nat.mod_lt va (show 0 < s.header.clusterSize by omega)
    have hdp := Nat.div_add_mod p s.header.clusterSize
    have hdv := Nat.div_add_mod va s.header.clusterSize
    have h := hst p hp
    unfold written
    by_cases hr : va ≤ p ∧ p < va + bytes.length
    · obtain ⟨e1, e2⟩ := add_div_of_mod_add_lt (a := va) (j := p - va) (c := s.header.clusterSize)
        (by omega)
      rw [show va + (p - va) = p by omega] at e1 e2
      rw [if_pos ⟨hr.1, hr.2, hp⟩, e1, e2]
      refine ⟨fun _ => ?_, fun h0 => absurd h0 hM⟩
      rw [File.get_write, if_pos (by omega)]
      congr 1
      omega
    · rw [if_neg (by omega)]
      refine ⟨fun hMp => ?_, h.2⟩
      rw [File.get_write, if_neg, h.1 hMp]
      intro hq
      by_cases hkk : p / s.header.clusterSize = va / s.header.clusterSize
      · rw [hkk] at hq hdp
        apply hr
        omega
      · have hne : M (p / s.header.clusterSize) ≠ M (va / s.header.clusterSize) :=
          fun e => hkk (hs.roles.data_injective hk (hs.layout.cluster_lt hp) hM e)
        rcases Nat.lt_or_gt_of_ne hne with hlt | hgt
        · have := Nat.mul_le_mul_right s.header.clusterSize (Nat.succ_le_of_lt hlt)
          rw [Nat.succ_mul] at this
          omega
        · have := Nat.mul_le_mul_right s.header.clusterSize (Nat.succ_le_of_lt hgt)
          rw [Nat.succ_mul] at this
          omega

/-! ### The method `WriteAt` on a consistent image -/

theorem take_drop_chunk (data : List Byte) (n c w : Nat) (h : n + c ≤ w) :
    (data.take w).drop n = (data.take (n + c)).drop n ++ (data.take w).drop (n + c) := by
  have e1 : (data.take (n + c)).drop n = ((data.take w).drop n).take c := by
    rw [List.drop_take, List.drop_take, List.take_take]
    congr 1
    omega
  rw [e1, ← List.drop_drop, List.take_append_drop]

/-- The loop of `WriteAt` on a consistent image without a backing file: when it succeeds the
image is consistent and holds the virtual disk with the rest of the data written. -/
theorem ImageFile.Sound.WriteAt_loop {β : Type} {entries : Nat} (fuel address writeCount : Nat)
    (data : List Byte) (h64 : address + writeCount < 18446744073709551616)
    (hlen : writeCount ≤ data.length) :
    ∀ (turns : Nat) (s : ImageFile) (nw : Nat) (L M : Nat → Nat) (ρ : Nat → ClusterRole)
      (disk : Nat → Byte),
      s.Sound entries L M ρ → s.Stores M disk → nw ≤ writeCount →
      ∀ (u : Unit) (s' : ImageFile) (b' : Option (BackingFile β)),
        ImageFile.WriteAt.loop fuel address writeCount data turns s
          (none : Option (BackingFile β)) nw = some (.ok u, s', b') →
        b' = none ∧ ∃ L' M' ρ', s'.Sound entries L' M' ρ'
          ∧ s'.Stores M' (written s.header.virtualDiskSizeBytes disk (address + nw)
              ((data.take writeCount).drop nw))
          ∧ s'.header = s.header ∧ s'.readOnly = s.readOnly := by
  intro turns
  induction turns with
  | zero =>
    intro s nw L M ρ disk _ _ _ u s' b' hr
    unfold ImageFile.WriteAt.loop at hr
    exact Option.noConfusion hr
  | succ turns ih =>
    intro s nw L M ρ disk hs hst hn u s' b' hr
    unfold ImageFile.WriteAt.loop at hr
    by_cases hlt : nw < writeCount
    · rw [if_pos hlt] at hr
      have hca : wrap64 (address + nw) = address + nw := wrap64_of_lt (by omega)
      have hsub : sub64 writeCount nw = writeCount - nw := by
        unfold sub64
        rw [if_pos hn]
      simp only [hca, hsub] at hr
      cases h1 : ImageFile.fileOffsetWrite fuel s (none : Option (BackingFile β))
          (address + nw) with
      | none => rw [h1] at hr; exact Option.noConfusion hr
      | some res =>
        obtain ⟨r1, s1, b1⟩ := res
        rw [h1] at hr
        cases r1 with
        | ok offset =>
          simp only [] at hr
          obtain ⟨hva, rfl, L1, M1, ρ1, hs1, hst1, hh1, hro1, hM1, rfl⟩ :=
            hs.fileOffsetWrite hst fuel (address + nw) offset s1 b1 h1
          have hcount := hs1.limitRangeCluster_eq (address + nw) (writeCount - nw)
          have hcs := hs.layout.clusterSize_ge
          have hmod := Nat.mod_lt (address + nw) (show 0 < s.header.clusterSize by omega)
          generalize s1.rawFile.limitRangeCluster (address + nw) (writeCount - nw) = count
            at hcount hr
          rw [hh1] at hcount
          have hw : wrap64 (nw + count) = nw + count := wrap64_of_lt (by omega)
          rw [hw, if_neg (by omega)] at hr
          have hchunk : ((data.take (nw + count)).drop nw).length = count := by
            rw [List.length_drop, List.length_take]
            omega
          obtain ⟨f2, e2, hs2, hst2⟩ := @ImageFile.Sound.writeData _ _ _ _ _ _ hs1 hst1 (address + nw)
            (by rw [hh1]; exact hva) (by rw [hh1]; exact hM1)
            ((data.take (nw + count)).drop nw) (by rw [hh1, hchunk]; omega)
          rw [hh1] at e2 hst2
          rw [e2] at hr
          simp only [] at hr
          obtain ⟨hb, L', M', ρ', h1', h2', h3', h4'⟩ :=
            ih (s1.over f2) (nw + count) L1 M1 ρ1 _ hs2 hst2 (by omega) u s' b' hr
          refine ⟨hb, L', M', ρ', h1', ?_, h3'.trans hh1, h4'.trans hro1⟩
          have hh2 : (s1.over f2).header = s.header := hh1
          rw [hh2] at h2'
          rw [take_drop_chunk data nw count writeCount (by omega), ← written_append, hchunk,
            Nat.add_assoc]
          exact h2'
        | error e => exact Outcome.noConfusion (Prod.mk.inj (Option.some.inj hr)).1
        | crash => exact Outcome.noConfusion (Prod.mk.inj (Option.some.inj hr)).1
    · rw [if_neg hlt] at hr
      obtain ⟨_, hr2⟩ := Prod.mk.inj (Option.some.inj hr)
      obtain ⟨rfl, rfl⟩ := Prod.mk.inj hr2
      refine ⟨rfl, L, M, ρ, hs, ?_, rfl, rfl⟩
      rw [List.drop_eq_nil_of_le (by rw [List.length_take]; omega), written_nil]
      exact hst

/-- The method `WriteAt` on a consistent image without a backing file: when it succeeds the
image is consistent and holds the virtual disk with the data written, as far as it is below
the virtual size. -/
theorem ImageFile.Consistent.writeAt {β : Type} {s : ImageFile} {disk : Nat → Byte}
    (hc : s.Consistent disk) (fuel a : Nat) (data : List Byte)
    (h64 : a + data.length < 18446744073709551616) :
    ∀ (u : Unit) (s' : ImageFile) (b' : Option (BackingFile β)),
      ImageFile.WriteAt fuel s (none : Option (BackingFile β)) a data = some (.ok u, s', b') →
      b' = none ∧ s'.Consistent (written s.header.virtualDiskSizeBytes disk a data)
        ∧ s'.header = s.header := by
  intro u s' b' hr
  obtain ⟨hro, entries, L, M, ρ, hs, hst⟩ := hc
  unfold ImageFile.WriteAt at hr
  rw [hro] at hr
  simp only [Bool.false_eq_true, if_false] at hr
  have hwc := s.limitRangeFile_eq a data.length h64
  generalize s.limitRangeFile a data.length = writeCount at hwc hr
  have hle : writeCount ≤ data.length := by
    rw [hwc]
    split <;> omega
  obtain ⟨hb, L', M', ρ', h1, h2, h3, h4⟩ :=
    ImageFile.Sound.WriteAt_loop fuel a writeCount data (by omega) hle (writeCount + 1) s 0
      L M ρ disk hs hst (Nat.zero_le _) u s' b' hr
  refine ⟨hb, ⟨h4.trans hro, entries, L', M', ρ', h1, ?_⟩, h3⟩
  rw [Nat.add_zero, List.drop_zero, written_take _ _ _ _ _ (fun hle' => by
    rw [hwc, if_pos hle'])] at h2
  exact h2

/-! ### Reads after writes -/

theorem ImageFile.Consistent.consistent_congr {s : ImageFile} {disk disk' : Nat → Byte}
    (hc : s.Consistent disk) (h : ∀ p, p < s.header.virtualDiskSizeBytes → disk' p = disk p) :
    s.Consistent disk' := by
  obtain ⟨hro, entries, L, M, ρ, hs, hst⟩ := hc
  refine ⟨hro, entries, L, M, ρ, hs, fun p hp => ?_⟩
  rw [h p hp]
  exact hst p hp

theorem lastWritten_cons (size : Nat) (disk : Nat → Byte) (w : Nat × List Byte)
    (rest : List (Nat × List Byte)) (p : Nat) (hp : p < size) :
    (lastWritten (w :: rest) p).getD (disk p)
      = (lastWritten rest p).getD (written size disk w.1 w.2 p) := by
  cases hl : lastWritten rest p with
  | some b =>
    have e : lastWritten (w :: rest) p = some b := by
      simp only [lastWritten, hl]
    rw [e]
    rfl
  | none =>
    have e : lastWritten (w :: rest) p
        = if w.1 ≤ p ∧ p < w.1 + w.2.length then some (w.2.getD (p - w.1) 0) else none := by
      simp only [lastWritten, hl]
    rw [e]
    unfold written
    by_cases h : w.1 ≤ p ∧ p < w.1 + w.2.length
    · rw [if_pos h, if_pos ⟨h.1, h.2, hp⟩]
      rfl
    · rw [if_neg h, if_neg (fun h' => h ⟨h'.1, h'.2.1⟩)]

/-- The writes of a list, all successful, on a consistent image without a backing file: the
image stays consistent, keeps its header, and holds at every position the byte most recently
written to it, or the byte it held before when no write covers the position. -/
theorem ImageFile.Consistent.writeAll (fuel : Nat) :
    ∀ (ws : List (Nat × List Byte)) (s : ImageFile) (disk : Nat → Byte),
      s.Consistent disk → (∀ w ∈ ws, w.1 + w.2.length < 18446744073709551616) →
      ∀ s', ImageFile.writeAll fuel ws s = some s' →
        s'.header = s.header
          ∧ s'.Consistent fun p => (lastWritten ws p).getD (disk p) := by
  intro ws
  induction ws with
  | nil =>
    intro s disk hc _ s' hw
    unfold ImageFile.writeAll at hw
    rw [← Option.some.inj hw]
    exact ⟨rfl, hc⟩
  | cons w rest ih =>
    intro s disk hc hws s' hw
    unfold ImageFile.writeAll at hw
    cases h1 : ImageFile.WriteAt fuel s (none : Option (BackingFile Unit)) w.1 w.2 with
    | none => rw [h1] at hw; exact Option.noConfusion hw
    | some res =>
      obtain ⟨r1, s1, b1⟩ := res
      rw [h1] at hw
      cases r1 with
      | ok u =>
        simp only [] at hw
        obtain ⟨_, hc1, hh1⟩ := hc.writeAt fuel w.1 w.2 (hws w (List.mem_cons_self _ _)) u s1 b1 h1
        obtain ⟨hh2, hc2⟩ := ih s1 _ hc1 (fun x hx => hws x (List.mem_cons_of_mem _ hx)) s' hw
        refine ⟨hh2.trans hh1, hc2.consistent_congr fun p hp => ?_⟩
        rw [hh2, hh1] at hp
        exact lastWritten_cons _ disk w rest p hp
      | error e => exact Option.noConfusion hw
      | crash => exact Option.noConfusion hw

/-- The header `oneTableHeader 2` with a refcount table of two entries fits together. -/
theorem oneTableHeader_layout : (oneTableHeader 2).Layout 2 :=
  ⟨by decide, by decide, by decide, by decide, by decide, Or.inl (by decide), by decide⟩

/-- The clusters of `tinyFile`: cluster 3 holds the reference counts. -/
theorem tinyFile_roles :
    ClusterRoles (oneTableHeader 2) 2 tinyFile
      (fun n => if n = 3 then ClusterRole.reserved else ClusterRole.free)
      (fun _ => 0) (fun _ => 0) [] :=
  { inFile := fun n hn => by
      by_cases h3 : n = 3
      · subst h3
        decide
      · exact absurd (if_neg h3) hn
    l2 := fun _ _ h => absurd rfl h
    data := fun _ _ h => absurd rfl h
    avail := fun a ha => absurd ha (List.not_mem_nil a)
    nodup := List.nodup_nil
    tables := by decide
    size := by decide }

set_option maxRecDepth 100000 in
theorem tinyFile_words :
    tinyFile.word 512 = 0 ∧ tinyFile.word 1024 = 1536 ∧ tinyFile.word 1032 = 0 := by
  decide

theorem tinyFile_blocks (t : Nat) (ht : t < 2) :
    reservedOrNone (oneTableHeader 2)
      (fun n => if n = 3 then ClusterRole.reserved else ClusterRole.free)
      (tinyFile.word ((oneTableHeader 2).refCountTableOffset + 8 * t)) := by
  have hw := tinyFile_words
  match t, ht with
  | 0, _ =>
    show reservedOrNone _ _ (tinyFile.word 1024)
    rw [hw.2.1]
    exact Or.inr (by decide)
  | 1, _ =>
    show reservedOrNone _ _ (tinyFile.word 1032)
    rw [hw.2.2]
    exact Or.inl rfl

/-- The image `tinyImage` is in a consistent state and holds a virtual disk of zeros. -/
theorem tinyImage_consistent : tinyImage.Consistent fun _ => 0 :=
  ⟨rfl, 2, fun _ => 0, fun _ => 0,
    fun n => if n = 3 then ClusterRole.reserved else ClusterRole.free,
    { layout := oneTableHeader_layout
      writable := ⟨rfl, rfl⟩
      clusterSize := rfl
      clusterMask := rfl
      roles := tinyFile_roles
      pointers :=
        { header := rfl
          writable := ⟨rfl, rfl⟩
          l1 := fun i hi => by
            have h0 : i = 0 := Nat.lt_one_iff.mp hi
            subst h0
            exact tinyFile_words.1
          l2 := fun _ _ h => absurd rfl h }
      counts :=
        { offset := rfl
          clusterSize := rfl
          perBlock := rfl
          writable := ⟨rfl, rfl⟩
          limit := by decide
          blocks := tinyFile_blocks } },
    fun _ _ => ⟨fun h => absurd rfl h, fun _ => rfl⟩⟩

set_option maxRecDepth 100000 in
/-- The image `tinyImage` is the image that the factory without caches opens over
`tinyFile`. -/
theorem tinyImage_opened :
    NoCacheImageFactory.OpenImage tinyFile (.ok ()) = some (.ok tinyImage) := by
  rfl

set_option maxRecDepth 1000000 in
/-- The method `createImageFromHeader` succeeds on the header `oneTableHeader 2`. -/
theorem createImageFromHeader_created :
    NoCacheImageFactory.createImageFromHeader 10 (oneTableHeader 2) (.ok ())
      = some (.ok createdImage) := by
  rfl

end Qcow2
